import Mathlib

/-!
# sys_i2c: logical I2C buses multiplexed onto the physical ESP32 I2C controllers

A shallow embedding of `components/sys_i2c/sys_i2c.c` (with the tables of
`main/app_config.c`, `main/bsp_config.c` and the declarations of
`components/include/sys_i2c.h`) and theorems about it.

Conventions of the embedding.

* The ESP-IDF / FreeRTOS functions the component calls (`xSemaphoreTake`,
  `i2c_param_config`, `gpio_config`, `i2c_master_cmd_begin`, ...) are external.
  A source function that calls them is a program `Prog α`: a tree whose nodes are
  the external calls, with their arguments, and whose branches are the possible
  return values. Nothing is assumed about what an external call returns.
* A program runs against an oracle `o : Nat → Int` that gives the return value of
  the `n`-th external call (`Prog.result`, `Prog.trace`), or against a handler over
  a world of its own (`Prog.exec`), which is how a mock device is written. Every run
  against a handler is a run against some oracle (`Prog.exec_eq_oracle`).
* `uint8_t`, `uint32_t` and `size_t` values are naturals; where the source relies on
  8-bit arithmetic (loop counters, the address byte) the reduction is explicit.
  Pin numbers (`gpio_num_t`) and controller ids (`i2c_port_t`) are signed in the SDK
  and are integers here; a table indexed with a negative controller id is read outside
  its bounds.
* Buffer pointers are naturals and the handles returned by external calls are
  integers; `0` is the null pointer. The bytes behind a buffer pointer belong to the
  world of the external functions, since only the executor reads or writes them.
* A theorem about a run is stated for every oracle and for the run that starts at the
  oracle's first answer.
* `assert` aborts the program: a failed assertion is the outcome `Outcome.aborted`,
  with the line of the assertion in `sys_i2c.c`.
-/

namespace SysI2c

/-! ## Constants of the SDK and of the component -/

/-- Return codes `esp_err_t` are C `int`s. -/
abbrev esp_err_t := Int

/-- Pin identifiers `gpio_num_t`: a signed enumeration, `GPIO_NUM_NC` is `-1`. -/
abbrev gpio_num_t := Int

/-- Modelled from the spec: the type `i2c_port_t` is declared by the SDK header
`driver/i2c.h`, which is not part of the repository. The spec describes a controller
id as an index of a physical controller; the SDK declares it as a signed `int`, like
`gpio_num_t`, so a table can hold a negative controller id. -/
abbrev i2c_port_t := Int

/-- Command link handles `i2c_cmd_handle_t` are pointers returned by the SDK; `0` is the
null handle. -/
abbrev i2c_cmd_handle_t := Int

/-- Mutex handles `SemaphoreHandle_t` are pointers returned by the kernel; `0` is the
null handle. -/
abbrev SemaphoreHandle_t := Int

def ESP_OK : esp_err_t := 0
def ESP_FAIL : esp_err_t := -1
def ESP_ERR_INVALID_ARG : esp_err_t := 0x102
def ESP_ERR_INVALID_STATE : esp_err_t := 0x103
def ESP_ERR_TIMEOUT : esp_err_t := 0x107

def pdTRUE : Int := 1
def pdFALSE : Int := 0
def portMAX_DELAY : Nat := 0xffffffff

def GPIO_NUM_NC : gpio_num_t := -1

def I2C_MASTER_WRITE : Nat := 0
def I2C_MASTER_READ : Nat := 1

/-- From `sys_i2c.h`: quick `i2c_addr_num` range check 0 - 127. -/
def SYS_I2C_ADDR_INVALID : Nat := 128
/-- From `sys_i2c.h`: 1.0 MHz hardware limit. -/
def SYS_I2C_CLOCK_MAX : Nat := 1000000

def SYS_I2C_ADDR_NUM_MIN : Nat := 0x00
def SYS_I2C_ADDR_NUM_MAX : Nat := 0x7F

def ESP32_I2C_ACK_CHECK_EN : Nat := 1
def ESP32_I2C_ACK_VAL : Nat := 0
def ESP32_I2C_NACK_VAL : Nat := 1

def I2C_SCLK_SRC_FLAG_FOR_NOMAL : Nat := 0
def I2C_SCLK_SRC_FLAG_AWARE_DFS : Nat := 1
def I2C_SCLK_SRC_FLAG_LIGHT_SLEEP : Nat := 2

/-- The compile-time parameters of a build: the two enumeration counts of
`app_config.h`, the number of controllers of the chip, the two feature switches, the
SDK predicate on pins and the tick rate of the scheduler. -/
structure Platform where
  SYS_I2C_ID_CNT : Nat
  BSP_ID_CNT : Nat
  I2C_NUM_MAX : Nat
  SYS_I2C_PULL_UP_ENABLE : Bool
  SYS_I2C_CLK_FLAGS_ENABLE : Bool
  GPIO_IS_VALID_OUTPUT_GPIO : gpio_num_t → Bool
  configTICK_RATE_HZ : Nat

/-- Modelled from the spec: the macro `pdMS_TO_TICKS` belongs to the FreeRTOS kernel,
which is not part of the repository. The spec gives the deadlines in milliseconds; the
executor takes them in ticks of the scheduler: milliseconds times the tick rate, divided
by 1000, as a 32-bit tick count. -/
def pdMS_TO_TICKS (P : Platform) (ms : Nat) : Nat :=
  (ms * P.configTICK_RATE_HZ / 1000) % 2 ^ 32

/-- Timeout of a normal read or write: 1000 ms. -/
def ESP32_I2C_BUS_TIMEOUT_TICK (P : Platform) : Nat := pdMS_TO_TICKS P 1000
/-- Timeout of a quick probe: 30 ms. -/
def ESP32_I2C_PROBE_TIMEOUT_TICK (P : Platform) : Nat := pdMS_TO_TICKS P 30

/-- The SDK shift `BIT64`. -/
def BIT64 (n : gpio_num_t) : Nat := (2 ^ n.toNat) % 2 ^ 64

/-! ## Data model -/

inductive i2c_mode_t where
  | I2C_MODE_SLAVE
  | I2C_MODE_MASTER
  deriving DecidableEq, Repr

inductive gpio_mode_t where
  | GPIO_MODE_DISABLE
  | GPIO_MODE_INPUT
  | GPIO_MODE_OUTPUT
  | GPIO_MODE_OUTPUT_OD
  | GPIO_MODE_INPUT_OUTPUT_OD
  | GPIO_MODE_INPUT_OUTPUT
  deriving DecidableEq, Repr

inductive gpio_int_type_t where
  | GPIO_INTR_DISABLE
  | GPIO_INTR_POSEDGE
  | GPIO_INTR_NEGEDGE
  | GPIO_INTR_ANYEDGE
  | GPIO_INTR_LOW_LEVEL
  | GPIO_INTR_HIGH_LEVEL
  deriving DecidableEq, Repr

/-- The SDK record `i2c_config_t`, as far as the component fills it. -/
structure i2c_config_t where
  mode : i2c_mode_t
  sda_io_num : gpio_num_t
  scl_io_num : gpio_num_t
  sda_pullup_en : Bool
  scl_pullup_en : Bool
  clk_speed : Nat
  clk_flags : Nat
  deriving DecidableEq, Repr

/-- The SDK record `gpio_config_t`. -/
structure gpio_config_t where
  pin_bit_mask : Nat
  mode : gpio_mode_t
  pull_up_en : Bool
  pull_down_en : Bool
  intr_type : gpio_int_type_t
  deriving DecidableEq, Repr

/-- One entry of `BSP_I2C_config[bsp_id].unit`. -/
structure BspUnit where
  sda_io_num : gpio_num_t
  scl_io_num : gpio_num_t
  deriving DecidableEq, Repr

/-- One board of `BSP_I2C_config`: `struct BSP_I2C_CONFIG`. -/
structure BSP_I2C_CONFIG where
  unit : List BspUnit
  deriving DecidableEq, Repr

/-- One entry of `SYS_I2C_config.port`. -/
structure PortClock where
  clk_speed : Nat
  clk_flags : Nat
  deriving DecidableEq, Repr

/-- The assignment table `struct SYS_I2C_CONFIG`: `unit[sys_i2c_id].port_num` and
`port[port_num]`. -/
structure SYS_I2C_CONFIG where
  unit : List i2c_port_t
  port : List PortClock
  deriving DecidableEq, Repr

/-- The entry `port[port_num]` of the clock table, the index being a signed integer:
there is none below zero and none from the length of the table on. -/
def SYS_I2C_CONFIG.clock? (c : SYS_I2C_CONFIG) (port_num : i2c_port_t) : Option PortClock :=
  if 0 ≤ port_num then c.port[port_num.toNat]? else none

/-- The application record `struct APP_CONFIG`. -/
structure APP_CONFIG where
  bsp_id : Nat
  deriving DecidableEq, Repr

/-- One entry of `SYS_I2C_runtime.unit`. -/
structure RuntimeUnit where
  sda_io_num : gpio_num_t
  scl_io_num : gpio_num_t
  port_num : i2c_port_t
  clk_speed : Nat
  clk_flags : Nat
  deriving DecidableEq, Repr

/-- The RAM table `struct SYS_I2C_RUNTIME`: `unit[sys_i2c_id]` and `port[port_num].lock`.
The arrays are total maps; the code indexes `unit` only below `SYS_I2C_ID_CNT`, and
`port` at the controller ids held in `unit`. -/
structure SYS_I2C_RUNTIME where
  unit : Nat → RuntimeUnit
  lock : i2c_port_t → SemaphoreHandle_t

/-- A global in RAM starts zeroed. -/
def SYS_I2C_RUNTIME.zero : SYS_I2C_RUNTIME :=
  { unit := fun _ => ⟨0, 0, 0, 0, 0⟩, lock := fun _ => 0 }

/-! ## Programs over the external functions -/

/-- An external call with its arguments. -/
inductive Call where
  | xSemaphoreCreateMutex
  | vSemaphoreDelete (lock : SemaphoreHandle_t)
  | xSemaphoreTake (lock : SemaphoreHandle_t) (ticks : Nat)
  | xSemaphoreGive (lock : SemaphoreHandle_t)
  | i2c_param_config (port : i2c_port_t) (cfg : i2c_config_t)
  | i2c_driver_install (port : i2c_port_t) (mode : i2c_mode_t)
      (slv_rx_buf_len slv_tx_buf_len intr_alloc_flags : Nat)
  | gpio_config (cfg : gpio_config_t)
  | i2c_cmd_link_create
  | i2c_cmd_link_delete (cmd : i2c_cmd_handle_t)
  | i2c_master_start (cmd : i2c_cmd_handle_t)
  | i2c_master_stop (cmd : i2c_cmd_handle_t)
  | i2c_master_write_byte (cmd : i2c_cmd_handle_t) (data : Nat) (ack_en : Nat)
  | i2c_master_write (cmd : i2c_cmd_handle_t) (buf : Nat) (len : Nat) (ack_en : Nat)
  | i2c_master_read (cmd : i2c_cmd_handle_t) (buf : Nat) (len : Nat) (ack : Nat)
  | i2c_master_read_byte (cmd : i2c_cmd_handle_t) (buf : Nat) (ack : Nat)
  | i2c_master_cmd_begin (port : i2c_port_t) (cmd : i2c_cmd_handle_t) (ticks : Nat)
  deriving DecidableEq, Repr

/-- The calls that return `void`. -/
def Call.isVoid : Call → Bool
  | .vSemaphoreDelete _ => true
  | .i2c_cmd_link_delete _ => true
  | _ => false

/-- The value a call hands back to the program when the environment answers `r`:
a `void` call hands back nothing, written `0`. -/
def Call.retOf (c : Call) (r : Int) : Int := if c.isVoid then 0 else r

/-- One external call of a run together with its return value. -/
structure Ev where
  call : Call
  ret : Int
  deriving DecidableEq, Repr

/-- A program: it is finished with a value, or it makes an external call and goes on
according to the returned value. -/
inductive Prog (α : Type) where
  | done (a : α)
  | call (c : Call) (k : Int → Prog α)

namespace Prog

/-- Sequencing: run `p`, then `f` on its value. -/
def bind {α β : Type} : Prog α → (α → Prog β) → Prog β
  | done a, f => f a
  | call c k, f => call c (fun r => (k r).bind f)

/-- The value of a program when the `i`-th external call from now returns `o (n + i)`. -/
def result {α : Type} : Prog α → (Nat → Int) → Nat → α
  | done a, _, _ => a
  | call c k, o, n => (k (c.retOf (o n))).result o (n + 1)

/-- The external calls a program makes, in order, with their return values. -/
def trace {α : Type} : Prog α → (Nat → Int) → Nat → List Ev
  | done _, _, _ => []
  | call c k, o, n => ⟨c, c.retOf (o n)⟩ :: (k (c.retOf (o n))).trace o (n + 1)

/-- Run a program against a handler: a mock of the external functions over a world of
its own. The result is the program's value and the world afterwards. -/
def exec {W α : Type} (h : Call → W → Int × W) : Prog α → W → α × W
  | done a, w => (a, w)
  | call c k, w => (k (c.retOf (h c w).1)).exec h (h c w).2

/-- The answers a handler gives along the run of a program, as an oracle. -/
def answers {W α : Type} (h : Call → W → Int × W) : Prog α → W → Nat → Int
  | done _, _, _ => 0
  | call c k, w, n =>
    match n with
    | 0 => (h c w).1
    | n + 1 => (k (c.retOf (h c w).1)).answers h (h c w).2 n

end Prog

/-! ## Pin router: `sys_i2c_attach_pins`, `sys_i2c_detach_pins` -/

/-- The record `i2c_config` that `sys_i2c_attach_pins` (and `sys_i2c_init_all`) builds
for a logical bus. -/
def attach_config (P : Platform) (rt : SYS_I2C_RUNTIME) (sys_i2c_id : Nat) : i2c_config_t :=
  { mode := i2c_mode_t.I2C_MODE_MASTER
    sda_pullup_en := P.SYS_I2C_PULL_UP_ENABLE
    scl_pullup_en := P.SYS_I2C_PULL_UP_ENABLE
    sda_io_num := (rt.unit sys_i2c_id).sda_io_num
    scl_io_num := (rt.unit sys_i2c_id).scl_io_num
    clk_speed := (rt.unit sys_i2c_id).clk_speed
    clk_flags := if P.SYS_I2C_CLK_FLAGS_ENABLE then (rt.unit sys_i2c_id).clk_flags else 0 }

/-- The record `cfg_gpio` of `sys_i2c_detach_pins` with `pin_bit_mask` set for one pin. -/
def detach_config (P : Platform) (pin : gpio_num_t) : gpio_config_t :=
  { pin_bit_mask := BIT64 pin
    mode := gpio_mode_t.GPIO_MODE_INPUT_OUTPUT_OD
    pull_up_en := P.SYS_I2C_PULL_UP_ENABLE
    pull_down_en := false
    intr_type := gpio_int_type_t.GPIO_INTR_DISABLE }

/-- The source function `sys_i2c_attach_pins`. -/
def sys_i2c_attach_pins (P : Platform) (rt : SYS_I2C_RUNTIME) (sys_i2c_id : Nat) : Prog Bool :=
  if ¬ (P.SYS_I2C_ID_CNT > sys_i2c_id) then .done false else
  .call (.i2c_param_config (rt.unit sys_i2c_id).port_num (attach_config P rt sys_i2c_id))
    fun r =>
  if ESP_OK ≠ r then .done false else
  .done true

/-- The source function `sys_i2c_detach_pins`. -/
def sys_i2c_detach_pins (P : Platform) (rt : SYS_I2C_RUNTIME) (sys_i2c_id : Nat) : Prog Bool :=
  if ¬ (P.SYS_I2C_ID_CNT > sys_i2c_id) then .done false else
  .call (.gpio_config (detach_config P (rt.unit sys_i2c_id).scl_io_num)) fun r1 =>
  if ESP_OK ≠ r1 then .done false else
  .call (.gpio_config (detach_config P (rt.unit sys_i2c_id).sda_io_num)) fun r2 =>
  if ESP_OK ≠ r2 then .done false else
  .done true

/-! ## Transaction engine: `sys_i2c_read`, `sys_i2c_write`, `sys_i2c_probe` -/

/-- The address byte `i2c_addr_num << 1 | rw`, passed as a `uint8_t`. -/
def addr_byte (i2c_addr_num rw : Nat) : Nat := ((i2c_addr_num <<< 1) ||| rw) % 256

/-- The block at the label `fail:`, the same text in `sys_i2c_read`, `sys_i2c_write`
and `sys_i2c_probe`, run with the current values of the locals `lock_taken`, `i2c_cmd`
and `port_num`; it ends the function with the value `a`. -/
def fail_exit {α : Type} (P : Platform) (rt : SYS_I2C_RUNTIME) (sys_i2c_id : Nat)
    (lock_taken : Bool) (i2c_cmd : i2c_cmd_handle_t) (port_num : i2c_port_t) (a : α) :
    Prog α :=
  (sys_i2c_detach_pins P rt sys_i2c_id).bind fun _ =>
  (if i2c_cmd ≠ 0 then Prog.call (.i2c_cmd_link_delete i2c_cmd) fun _ => Prog.done ()
    else Prog.done ()).bind fun _ =>
  if lock_taken then .call (.xSemaphoreGive (rt.lock port_num)) fun _ => .done a
  else .done a

/-- The source function `sys_i2c_read`; its value is the returned `bool`. Before
`port_num` is initialised the `fail:` block does not read it (`lock_taken` is false);
`0` stands for the indeterminate value. -/
def sys_i2c_read (P : Platform) (rt : SYS_I2C_RUNTIME)
    (sys_i2c_id i2c_addr_num i2c_reg_num buf_addr buf_size : Nat) : Prog Bool :=
  if ¬ (P.SYS_I2C_ID_CNT > sys_i2c_id) then fail_exit P rt sys_i2c_id false 0 0 false else
  if ¬ (SYS_I2C_ADDR_INVALID > i2c_addr_num) then fail_exit P rt sys_i2c_id false 0 0 false else
  if buf_addr = 0 then fail_exit P rt sys_i2c_id false 0 0 false else
  if buf_size = 0 then fail_exit P rt sys_i2c_id false 0 0 false else
  let port_num := (rt.unit sys_i2c_id).port_num
  .call (.xSemaphoreTake (rt.lock port_num) portMAX_DELAY) fun t =>
  if pdTRUE ≠ t then fail_exit P rt sys_i2c_id false 0 port_num false else
  (sys_i2c_attach_pins P rt sys_i2c_id).bind fun a =>
  if ¬ a then fail_exit P rt sys_i2c_id true 0 port_num false else
  .call .i2c_cmd_link_create fun i2c_cmd =>
  if i2c_cmd = 0 then fail_exit P rt sys_i2c_id true i2c_cmd port_num false else
  .call (.i2c_master_start i2c_cmd) fun r1 =>
  if ESP_OK ≠ r1 then fail_exit P rt sys_i2c_id true i2c_cmd port_num false else
  .call (.i2c_master_write_byte i2c_cmd (addr_byte i2c_addr_num I2C_MASTER_WRITE)
    ESP32_I2C_ACK_CHECK_EN) fun r2 =>
  if ESP_OK ≠ r2 then fail_exit P rt sys_i2c_id true i2c_cmd port_num false else
  .call (.i2c_master_write_byte i2c_cmd i2c_reg_num ESP32_I2C_ACK_CHECK_EN) fun r3 =>
  if ESP_OK ≠ r3 then fail_exit P rt sys_i2c_id true i2c_cmd port_num false else
  .call (.i2c_master_start i2c_cmd) fun r4 =>
  if ESP_OK ≠ r4 then fail_exit P rt sys_i2c_id true i2c_cmd port_num false else
  .call (.i2c_master_write_byte i2c_cmd (addr_byte i2c_addr_num I2C_MASTER_READ)
    ESP32_I2C_ACK_CHECK_EN) fun r5 =>
  if ESP_OK ≠ r5 then fail_exit P rt sys_i2c_id true i2c_cmd port_num false else
  (if buf_size > 1
    then Prog.call (.i2c_master_read i2c_cmd buf_addr (buf_size - 1) ESP32_I2C_ACK_VAL)
      fun r => Prog.done r
    else Prog.done ESP_OK).bind fun r6 =>
  if ESP_OK ≠ r6 then fail_exit P rt sys_i2c_id true i2c_cmd port_num false else
  .call (.i2c_master_read_byte i2c_cmd (buf_addr + buf_size - 1) ESP32_I2C_NACK_VAL)
    fun r7 =>
  if ESP_OK ≠ r7 then fail_exit P rt sys_i2c_id true i2c_cmd port_num false else
  .call (.i2c_master_stop i2c_cmd) fun r8 =>
  if ESP_OK ≠ r8 then fail_exit P rt sys_i2c_id true i2c_cmd port_num false else
  .call (.i2c_master_cmd_begin port_num i2c_cmd (ESP32_I2C_BUS_TIMEOUT_TICK P)) fun x =>
  if ESP_OK ≠ x then fail_exit P rt sys_i2c_id true i2c_cmd port_num false else
  .call (.i2c_cmd_link_delete i2c_cmd) fun _ =>
  (sys_i2c_detach_pins P rt sys_i2c_id).bind fun d =>
  if ¬ d then fail_exit P rt sys_i2c_id true i2c_cmd port_num false else
  .call (.xSemaphoreGive (rt.lock port_num)) fun g =>
  if pdTRUE ≠ g then fail_exit P rt sys_i2c_id true i2c_cmd port_num false else
  .done true

/-- The source function `sys_i2c_write`; its value is the returned `bool`. -/
def sys_i2c_write (P : Platform) (rt : SYS_I2C_RUNTIME)
    (sys_i2c_id i2c_addr_num i2c_reg_num buf_addr buf_size : Nat) : Prog Bool :=
  if ¬ (P.SYS_I2C_ID_CNT > sys_i2c_id) then fail_exit P rt sys_i2c_id false 0 0 false else
  if ¬ (SYS_I2C_ADDR_INVALID > i2c_addr_num) then fail_exit P rt sys_i2c_id false 0 0 false else
  if buf_addr = 0 then fail_exit P rt sys_i2c_id false 0 0 false else
  if buf_size = 0 then fail_exit P rt sys_i2c_id false 0 0 false else
  let port_num := (rt.unit sys_i2c_id).port_num
  .call (.xSemaphoreTake (rt.lock port_num) portMAX_DELAY) fun t =>
  if pdTRUE ≠ t then fail_exit P rt sys_i2c_id false 0 port_num false else
  (sys_i2c_attach_pins P rt sys_i2c_id).bind fun a =>
  if ¬ a then fail_exit P rt sys_i2c_id true 0 port_num false else
  .call .i2c_cmd_link_create fun i2c_cmd =>
  if i2c_cmd = 0 then fail_exit P rt sys_i2c_id true i2c_cmd port_num false else
  .call (.i2c_master_start i2c_cmd) fun r1 =>
  if ESP_OK ≠ r1 then fail_exit P rt sys_i2c_id true i2c_cmd port_num false else
  .call (.i2c_master_write_byte i2c_cmd (addr_byte i2c_addr_num I2C_MASTER_WRITE)
    ESP32_I2C_ACK_CHECK_EN) fun r2 =>
  if ESP_OK ≠ r2 then fail_exit P rt sys_i2c_id true i2c_cmd port_num false else
  .call (.i2c_master_write_byte i2c_cmd i2c_reg_num ESP32_I2C_ACK_CHECK_EN) fun r3 =>
  if ESP_OK ≠ r3 then fail_exit P rt sys_i2c_id true i2c_cmd port_num false else
  .call (.i2c_master_write i2c_cmd buf_addr buf_size ESP32_I2C_ACK_CHECK_EN) fun r4 =>
  if ESP_OK ≠ r4 then fail_exit P rt sys_i2c_id true i2c_cmd port_num false else
  .call (.i2c_master_stop i2c_cmd) fun r5 =>
  if ESP_OK ≠ r5 then fail_exit P rt sys_i2c_id true i2c_cmd port_num false else
  .call (.i2c_master_cmd_begin port_num i2c_cmd (ESP32_I2C_BUS_TIMEOUT_TICK P)) fun x =>
  if ESP_OK ≠ x then fail_exit P rt sys_i2c_id true i2c_cmd port_num false else
  .call (.i2c_cmd_link_delete i2c_cmd) fun _ =>
  (sys_i2c_detach_pins P rt sys_i2c_id).bind fun d =>
  if ¬ d then fail_exit P rt sys_i2c_id true i2c_cmd port_num false else
  .call (.xSemaphoreGive (rt.lock port_num)) fun g =>
  if pdTRUE ≠ g then fail_exit P rt sys_i2c_id true i2c_cmd port_num false else
  .done true

/-- The value of `sys_i2c_probe`: the returned `bool` and the value behind
`found_flag_addr` after the call. -/
structure ProbeResult where
  ret : Bool
  found_flag : Bool
  deriving DecidableEq, Repr

/-- The source function `sys_i2c_probe`. `found_flag_addr` is the pointer (`0` is null)
and `found_flag` the value it points to before the call. -/
def sys_i2c_probe (P : Platform) (rt : SYS_I2C_RUNTIME)
    (sys_i2c_id i2c_addr_num found_flag_addr : Nat) (found_flag : Bool) : Prog ProbeResult :=
  if ¬ (P.SYS_I2C_ID_CNT > sys_i2c_id) then
    fail_exit P rt sys_i2c_id false 0 0 ⟨false, found_flag⟩ else
  if ¬ (SYS_I2C_ADDR_INVALID > i2c_addr_num) then
    fail_exit P rt sys_i2c_id false 0 0 ⟨false, found_flag⟩ else
  if found_flag_addr = 0 then fail_exit P rt sys_i2c_id false 0 0 ⟨false, found_flag⟩ else
  let port_num := (rt.unit sys_i2c_id).port_num
  .call (.xSemaphoreTake (rt.lock port_num) portMAX_DELAY) fun t =>
  if pdTRUE ≠ t then fail_exit P rt sys_i2c_id false 0 port_num ⟨false, found_flag⟩ else
  (sys_i2c_attach_pins P rt sys_i2c_id).bind fun a =>
  if ¬ a then fail_exit P rt sys_i2c_id true 0 port_num ⟨false, found_flag⟩ else
  .call .i2c_cmd_link_create fun i2c_cmd =>
  if i2c_cmd = 0 then fail_exit P rt sys_i2c_id true i2c_cmd port_num ⟨false, found_flag⟩ else
  .call (.i2c_master_start i2c_cmd) fun r1 =>
  if ESP_OK ≠ r1 then fail_exit P rt sys_i2c_id true i2c_cmd port_num ⟨false, found_flag⟩ else
  .call (.i2c_master_write_byte i2c_cmd (addr_byte i2c_addr_num I2C_MASTER_WRITE)
    ESP32_I2C_ACK_CHECK_EN) fun r2 =>
  if ESP_OK ≠ r2 then fail_exit P rt sys_i2c_id true i2c_cmd port_num ⟨false, found_flag⟩ else
  .call (.i2c_master_stop i2c_cmd) fun r3 =>
  if ESP_OK ≠ r3 then fail_exit P rt sys_i2c_id true i2c_cmd port_num ⟨false, found_flag⟩ else
  .call (.i2c_master_cmd_begin port_num i2c_cmd (ESP32_I2C_PROBE_TIMEOUT_TICK P))
    fun esp_err =>
  .call (.i2c_cmd_link_delete i2c_cmd) fun _ =>
  (sys_i2c_detach_pins P rt sys_i2c_id).bind fun d =>
  if ¬ d then fail_exit P rt sys_i2c_id true i2c_cmd port_num ⟨false, found_flag⟩ else
  .call (.xSemaphoreGive (rt.lock port_num)) fun g =>
  if pdTRUE ≠ g then fail_exit P rt sys_i2c_id true i2c_cmd port_num ⟨false, found_flag⟩ else
  if esp_err = ESP_OK then .done ⟨true, true⟩ else
  if esp_err = ESP_FAIL then .done ⟨true, false⟩ else
  fail_exit P rt sys_i2c_id true i2c_cmd port_num ⟨false, found_flag⟩

/-! ## Runtime table builder: `sys_i2c_runtime_init` -/

/-- How a function without external calls ends: it returns, an `assert` fails, it reads
an array outside its bounds, or it does not end within the given number of loop passes. -/
inductive Outcome where
  | returned (b : Bool)
  | aborted (line : Nat)
  | undefined
  | diverged
  deriving DecidableEq, Repr

/-- The assignment `SYS_I2C_runtime.unit[i] = u`. -/
def SYS_I2C_RUNTIME.setUnit (rt : SYS_I2C_RUNTIME) (i : Nat) (u : RuntimeUnit) :
    SYS_I2C_RUNTIME :=
  { rt with unit := fun j => if j = i then u else rt.unit j }

/-- The body of the `for` loop of `sys_i2c_runtime_init` for one `sys_i2c_id`: the table
after the pass, and the outcome if the pass ends the program. The stores into
`SYS_I2C_runtime` happen where the source has them, before the assertions. -/
def runtime_init_body (P : Platform) (BSP_I2C_config : List BSP_I2C_CONFIG)
    (SYS_I2C_config : SYS_I2C_CONFIG) (bsp_id sys_i2c_id : Nat) (rt : SYS_I2C_RUNTIME) :
    Option Outcome × SYS_I2C_RUNTIME :=
  -- 2A
  match (BSP_I2C_config[bsp_id]?).bind (fun b => b.unit[sys_i2c_id]?) with
  | none => (some .undefined, rt)
  | some pins =>
  let scl_io_num := pins.scl_io_num
  let rt1 := rt.setUnit sys_i2c_id { rt.unit sys_i2c_id with scl_io_num := scl_io_num }
  let sda_io_num := pins.sda_io_num
  let rt2 := rt1.setUnit sys_i2c_id { rt1.unit sys_i2c_id with sda_io_num := sda_io_num }
  -- 3A
  match SYS_I2C_config.unit[sys_i2c_id]? with
  | none => (some .undefined, rt2)
  | some port_num =>
  let rt3 := rt2.setUnit sys_i2c_id { rt2.unit sys_i2c_id with port_num := port_num }
  if ¬ (P.I2C_NUM_MAX > port_num) then (some (.aborted 155), rt3) else
  -- 3B
  match SYS_I2C_config.clock? port_num with
  | none => (some .undefined, rt3)
  | some clock =>
  let clk_speed := clock.clk_speed
  let rt4 := rt3.setUnit sys_i2c_id { rt3.unit sys_i2c_id with clk_speed := clk_speed }
  let clk_flags := clock.clk_flags
  let rt5 := rt4.setUnit sys_i2c_id { rt4.unit sys_i2c_id with clk_flags := clk_flags }
  -- 4A
  if ¬ (GPIO_NUM_NC ≠ scl_io_num) then (some (.aborted 162), rt5) else
  if ¬ (GPIO_NUM_NC ≠ sda_io_num) then (some (.aborted 163), rt5) else
  if ¬ (scl_io_num ≠ sda_io_num) then (some (.aborted 164), rt5) else
  if ¬ ( P.GPIO_IS_VALID_OUTPUT_GPIO scl_io_num) then (some (.aborted 165), rt5) else
  if ¬ ( P.GPIO_IS_VALID_OUTPUT_GPIO sda_io_num) then (some (.aborted 166), rt5) else
  -- 5A
  if ¬ (clk_speed ≠ 0 ∧ SYS_I2C_CLOCK_MAX ≥ clk_speed) then (some (.aborted 169), rt5) else
  -- 5B
  if P.SYS_I2C_CLK_FLAGS_ENABLE ∧
      ¬ ((I2C_SCLK_SRC_FLAG_FOR_NOMAL ||| I2C_SCLK_SRC_FLAG_AWARE_DFS |||
          I2C_SCLK_SRC_FLAG_LIGHT_SLEEP) ≥ clk_flags) then (some (.aborted 172), rt5) else
  (none, rt5)

/-- The `for` loop of `sys_i2c_runtime_init`, from the counter value `sys_i2c_id` on.
The counter is a `uint8_t`: `++sys_i2c_id` is an increment modulo 256. `fuel` bounds the
number of times the loop condition is evaluated. -/
def runtime_init_loop (P : Platform) (BSP_I2C_config : List BSP_I2C_CONFIG)
    (SYS_I2C_config : SYS_I2C_CONFIG) (bsp_id : Nat) :
    Nat → Nat → SYS_I2C_RUNTIME → Outcome × SYS_I2C_RUNTIME
  | 0, _, rt => (.diverged, rt)
  | fuel + 1, sys_i2c_id, rt =>
    if ¬ (P.SYS_I2C_ID_CNT > sys_i2c_id) then (.returned true, rt) else
    match runtime_init_body P BSP_I2C_config SYS_I2C_config bsp_id sys_i2c_id rt with
    | (some out, rt') => (out, rt')
    | (none, rt') =>
      runtime_init_loop P BSP_I2C_config SYS_I2C_config bsp_id fuel ((sys_i2c_id + 1) % 256) rt'

/-- The source function `sys_i2c_runtime_init`: the outcome and `SYS_I2C_runtime`
afterwards. The loop condition is evaluated at most 257 times: the counter has 256
values and a pass depends on nothing else, so a run that evaluates it once more never
ends. -/
def sys_i2c_runtime_init (P : Platform) (APP_config : APP_CONFIG)
    (BSP_I2C_config : List BSP_I2C_CONFIG) (SYS_I2C_config : SYS_I2C_CONFIG)
    (rt : SYS_I2C_RUNTIME) : Outcome × SYS_I2C_RUNTIME :=
  if P.SYS_I2C_ID_CNT = 0 then (.returned false, rt) else
  let bsp_id := APP_config.bsp_id
  if ¬ (P.BSP_ID_CNT > bsp_id) then (.aborted 145, rt) else
  runtime_init_loop P BSP_I2C_config SYS_I2C_config bsp_id 257 0 rt

/-- The declared sizes of the tables: `BSP_I2C_config[BSP_ID_CNT]`, `unit[SYS_I2C_ID_CNT]`
and `port[I2C_NUM_MAX]`. -/
def TablesSized (P : Platform) (BSP_I2C_config : List BSP_I2C_CONFIG)
    (SYS_I2C_config : SYS_I2C_CONFIG) : Prop :=
  BSP_I2C_config.length = P.BSP_ID_CNT ∧
  (∀ b ∈ BSP_I2C_config, b.unit.length = P.SYS_I2C_ID_CNT) ∧
  SYS_I2C_config.unit.length = P.SYS_I2C_ID_CNT ∧
  SYS_I2C_config.port.length = P.I2C_NUM_MAX

instance (P : Platform) (b : List BSP_I2C_CONFIG) (s : SYS_I2C_CONFIG) :
    Decidable (TablesSized P b s) := by
  unfold TablesSized; infer_instance

/-! ## The tables of the repository -/

/-- The build of the repository on an ESP32: one logical bus, three boards, two
controllers, pull-ups and clock flags enabled, 100 Hz tick. The pin predicate is the one
of the ESP32: pins 0 to 33 except 20, 24 and 28 to 31. -/
def esp32 : Platform :=
  { SYS_I2C_ID_CNT := 1
    BSP_ID_CNT := 3
    I2C_NUM_MAX := 2
    SYS_I2C_PULL_UP_ENABLE := true
    SYS_I2C_CLK_FLAGS_ENABLE := true
    GPIO_IS_VALID_OUTPUT_GPIO := fun n =>
      decide (0 ≤ n ∧ n < 34 ∧ n ≠ 20 ∧ n ≠ 24 ∧ n ≠ 28 ∧ n ≠ 29 ∧ n ≠ 30 ∧ n ≠ 31)
    configTICK_RATE_HZ := 100 }

/-- The record `APP_config` of `app_main.c`: the board `BSP_0000_KCONFIG`. -/
def APP_config : APP_CONFIG := ⟨1⟩

/-- The table `SYS_I2C_config` of `app_config.c`. -/
def SYS_I2C_config : SYS_I2C_CONFIG :=
  { unit := [0], port := [⟨400000, 0⟩, ⟨100000, 0⟩] }

/-- The table `BSP_I2C_config` of `bsp_config.c`; the Kconfig pins of the second board
are given the values of the first. -/
def BSP_I2C_config : List BSP_I2C_CONFIG :=
  [⟨[⟨4, 3⟩]⟩, ⟨[⟨4, 3⟩]⟩, ⟨[⟨4, 3⟩]⟩]

/-- The runtime table that `sys_i2c_runtime_init` builds from the tables of the
repository, with the lock handle `1` for controller 0: one logical bus (id 0) on
controller 0, clock 400000, pins (4, 3). -/
def runtime0 : SYS_I2C_RUNTIME :=
  { unit := fun i => if i = 0 then ⟨4, 3, 0, 400000, 0⟩ else ⟨0, 0, 0, 0, 0⟩
    lock := fun p => if p = 0 then 1 else 0 }

/-- The oracle that answers the external calls with the values of a list, then `0`. -/
def script (l : List Int) : Nat → Int := fun n => l.getD n 0

/-- A mock of the external functions with one device on the bus. The world is the
device address of the command composed last: the upper seven bits of the first byte
written into the link since it was created. The executor acknowledges only when that
address is `device`. Every other call succeeds and a created handle is `1`. -/
def mock_device (device : Nat) (c : Call) (addressed : Option Nat) : Int × Option Nat :=
  match c with
  | .xSemaphoreCreateMutex => (1, addressed)
  | .xSemaphoreTake _ _ => (pdTRUE, addressed)
  | .xSemaphoreGive _ => (pdTRUE, addressed)
  | .i2c_cmd_link_create => (1, none)
  | .i2c_master_write_byte _ data _ =>
    (ESP_OK, if addressed = none then some (data / 2) else addressed)
  | .i2c_master_cmd_begin _ _ _ =>
    (if addressed = some device then ESP_OK else ESP_FAIL, addressed)
  | _ => (ESP_OK, addressed)

/-! ## Vocabulary for traces -/

/-- The kinds of external calls: the two lock operations, the pin-routing primitives of
attach (`i2c_param_config`) and of detach (`gpio_config`), the calls that create or
compose a command link, the executor (`i2c_master_cmd_begin`), and the rest. -/
inductive Kind where
  | take
  | give
  | attach
  | detach
  | compose
  | exec
  | delete
  | other
  deriving DecidableEq, Repr

def Call.kind : Call → Kind
  | .xSemaphoreCreateMutex => .other
  | .vSemaphoreDelete _ => .other
  | .xSemaphoreTake _ _ => .take
  | .xSemaphoreGive _ => .give
  | .i2c_param_config _ _ => .attach
  | .i2c_driver_install _ _ _ _ _ => .other
  | .gpio_config _ => .detach
  | .i2c_cmd_link_create => .compose
  | .i2c_cmd_link_delete _ => .delete
  | .i2c_master_start _ => .compose
  | .i2c_master_stop _ => .compose
  | .i2c_master_write_byte _ _ _ => .compose
  | .i2c_master_write _ _ _ _ => .compose
  | .i2c_master_read _ _ _ _ => .compose
  | .i2c_master_read_byte _ _ _ => .compose
  | .i2c_master_cmd_begin _ _ _ => .exec

/-- Whether every pin-routing call of a trace is made while the mutex `lock` is held by
the caller: it is held from a `xSemaphoreTake` on it that returned `pdTRUE` until a
`xSemaphoreGive` on it that returned `pdTRUE`. `held` is the state before the trace. -/
def routing_under_lock (lock : SemaphoreHandle_t) : Bool → List Ev → Bool
  | _, [] => true
  | held, e :: es =>
    match e.call with
    | .xSemaphoreTake l _ =>
      routing_under_lock lock (if l = lock ∧ e.ret = pdTRUE then true else held) es
    | .xSemaphoreGive l =>
      routing_under_lock lock (if l = lock ∧ e.ret = pdTRUE then false else held) es
    | .i2c_param_config _ _ => held && routing_under_lock lock held es
    | .gpio_config _ => held && routing_under_lock lock held es
    | _ => routing_under_lock lock held es

/-- The end of a run that took the lock of the controller of bus `sys_i2c_id` and then
cleaned up: after the successful `xSemaphoreTake` and whatever followed (`mid`) come a
run of `sys_i2c_detach_pins` for that bus, which reaches the pins, then at most deletions
of the command link, then the `xSemaphoreGive` on the same lock as the last call. -/
def CleanedUp (P : Platform) (rt : SYS_I2C_RUNTIME) (sys_i2c_id : Nat) (o : Nat → Int)
    (tr : List Ev) : Prop :=
  ∃ (mid dels : List Ev) (m : Nat) (g : Int),
    tr = ⟨.xSemaphoreTake (rt.lock (rt.unit sys_i2c_id).port_num) portMAX_DELAY, pdTRUE⟩ ::
        (mid ++ (sys_i2c_detach_pins P rt sys_i2c_id).trace o m ++ dels ++
          [⟨.xSemaphoreGive (rt.lock (rt.unit sys_i2c_id).port_num), g⟩]) ∧
    ((sys_i2c_detach_pins P rt sys_i2c_id).trace o m).head? =
      some ⟨.gpio_config (detach_config P (rt.unit sys_i2c_id).scl_io_num), o m⟩ ∧
    ∀ e ∈ dels, e.call.kind = .delete

/-- The calls of a `sys_i2c_read` in which every step succeeds, the command link being
`c`. -/
def read_success_trace (P : Platform) (rt : SYS_I2C_RUNTIME)
    (sys_i2c_id i2c_addr_num i2c_reg_num buf_addr buf_size : Nat) (c : i2c_cmd_handle_t) :
    List Ev :=
  [⟨.xSemaphoreTake (rt.lock (rt.unit sys_i2c_id).port_num) portMAX_DELAY, pdTRUE⟩,
   ⟨.i2c_param_config (rt.unit sys_i2c_id).port_num (attach_config P rt sys_i2c_id), ESP_OK⟩,
   ⟨.i2c_cmd_link_create, c⟩,
   ⟨.i2c_master_start c, ESP_OK⟩,
   ⟨.i2c_master_write_byte c (addr_byte i2c_addr_num I2C_MASTER_WRITE) ESP32_I2C_ACK_CHECK_EN,
     ESP_OK⟩,
   ⟨.i2c_master_write_byte c i2c_reg_num ESP32_I2C_ACK_CHECK_EN, ESP_OK⟩,
   ⟨.i2c_master_start c, ESP_OK⟩,
   ⟨.i2c_master_write_byte c (addr_byte i2c_addr_num I2C_MASTER_READ) ESP32_I2C_ACK_CHECK_EN,
     ESP_OK⟩] ++
  (if buf_size > 1
    then [⟨.i2c_master_read c buf_addr (buf_size - 1) ESP32_I2C_ACK_VAL, ESP_OK⟩] else []) ++
  [⟨.i2c_master_read_byte c (buf_addr + buf_size - 1) ESP32_I2C_NACK_VAL, ESP_OK⟩,
   ⟨.i2c_master_stop c, ESP_OK⟩,
   ⟨.i2c_master_cmd_begin (rt.unit sys_i2c_id).port_num c (ESP32_I2C_BUS_TIMEOUT_TICK P), ESP_OK⟩,
   ⟨.i2c_cmd_link_delete c, 0⟩,
   ⟨.gpio_config (detach_config P (rt.unit sys_i2c_id).scl_io_num), ESP_OK⟩,
   ⟨.gpio_config (detach_config P (rt.unit sys_i2c_id).sda_io_num), ESP_OK⟩,
   ⟨.xSemaphoreGive (rt.lock (rt.unit sys_i2c_id).port_num), pdTRUE⟩]

/-- The calls of a `sys_i2c_write` in which every step succeeds, the command link being
`c`. -/
def write_success_trace (P : Platform) (rt : SYS_I2C_RUNTIME)
    (sys_i2c_id i2c_addr_num i2c_reg_num buf_addr buf_size : Nat) (c : i2c_cmd_handle_t) :
    List Ev :=
  [⟨.xSemaphoreTake (rt.lock (rt.unit sys_i2c_id).port_num) portMAX_DELAY, pdTRUE⟩,
   ⟨.i2c_param_config (rt.unit sys_i2c_id).port_num (attach_config P rt sys_i2c_id), ESP_OK⟩,
   ⟨.i2c_cmd_link_create, c⟩,
   ⟨.i2c_master_start c, ESP_OK⟩,
   ⟨.i2c_master_write_byte c (addr_byte i2c_addr_num I2C_MASTER_WRITE) ESP32_I2C_ACK_CHECK_EN,
     ESP_OK⟩,
   ⟨.i2c_master_write_byte c i2c_reg_num ESP32_I2C_ACK_CHECK_EN, ESP_OK⟩,
   ⟨.i2c_master_write c buf_addr buf_size ESP32_I2C_ACK_CHECK_EN, ESP_OK⟩,
   ⟨.i2c_master_stop c, ESP_OK⟩,
   ⟨.i2c_master_cmd_begin (rt.unit sys_i2c_id).port_num c (ESP32_I2C_BUS_TIMEOUT_TICK P), ESP_OK⟩,
   ⟨.i2c_cmd_link_delete c, 0⟩,
   ⟨.gpio_config (detach_config P (rt.unit sys_i2c_id).scl_io_num), ESP_OK⟩,
   ⟨.gpio_config (detach_config P (rt.unit sys_i2c_id).sda_io_num), ESP_OK⟩,
   ⟨.xSemaphoreGive (rt.lock (rt.unit sys_i2c_id).port_num), pdTRUE⟩]

/-- The calls of the `fail:` block when it runs from the `n`-th external call on. -/
def fail_trace (P : Platform) (rt : SYS_I2C_RUNTIME) (sys_i2c_id : Nat)
    (lock_taken : Bool) (i2c_cmd : i2c_cmd_handle_t) (port_num : i2c_port_t)
    (o : Nat → Int) (n : Nat) : List Ev :=
  (fail_exit P rt sys_i2c_id lock_taken i2c_cmd port_num ()).trace o n

/-- The calls of a `sys_i2c_probe` in which every step succeeds, the command link being
`c` and the executor returning `x`. -/
def probe_success_trace (P : Platform) (rt : SYS_I2C_RUNTIME)
    (sys_i2c_id i2c_addr_num : Nat) (c : i2c_cmd_handle_t) (x : esp_err_t) : List Ev :=
  [⟨.xSemaphoreTake (rt.lock (rt.unit sys_i2c_id).port_num) portMAX_DELAY, pdTRUE⟩,
   ⟨.i2c_param_config (rt.unit sys_i2c_id).port_num (attach_config P rt sys_i2c_id), ESP_OK⟩,
   ⟨.i2c_cmd_link_create, c⟩,
   ⟨.i2c_master_start c, ESP_OK⟩,
   ⟨.i2c_master_write_byte c (addr_byte i2c_addr_num I2C_MASTER_WRITE) ESP32_I2C_ACK_CHECK_EN,
     ESP_OK⟩,
   ⟨.i2c_master_stop c, ESP_OK⟩,
   ⟨.i2c_master_cmd_begin (rt.unit sys_i2c_id).port_num c (ESP32_I2C_PROBE_TIMEOUT_TICK P), x⟩,
   ⟨.i2c_cmd_link_delete c, 0⟩,
   ⟨.gpio_config (detach_config P (rt.unit sys_i2c_id).scl_io_num), ESP_OK⟩,
   ⟨.gpio_config (detach_config P (rt.unit sys_i2c_id).sda_io_num), ESP_OK⟩,
   ⟨.xSemaphoreGive (rt.lock (rt.unit sys_i2c_id).port_num), pdTRUE⟩]

/-- A run that left the successful sequence `S` at its `j`-th call: the calls before it
returned what they return in `S`, the `j`-th call returned another value `r` (a null
handle if it is the creation of the command link), and the `fail:` block ran with
`lock_taken` true unless the failed call is the first one, the `xSemaphoreTake`, and with
`i2c_cmd` the handle `c` once the link is created (`j > 2`). `execChecked` tells whether
the operation jumps to `fail:` when the executor fails. -/
def StoppedAt (P : Platform) (rt : SYS_I2C_RUNTIME) (sys_i2c_id : Nat) (o : Nat → Int)
    (execChecked : Bool) (S : List Ev) (c : i2c_cmd_handle_t) (tr : List Ev) : Prop :=
  ∃ (j : Nat) (e : Ev) (r : Int) (m : Nat),
    S[j]? = some e ∧ r ≠ e.ret ∧ e.call.isVoid = false ∧
    (e.call = .i2c_cmd_link_create → r = 0) ∧
    (e.call.kind = .exec → execChecked = true) ∧
    tr = S.take j ++ ⟨e.call, r⟩ ::
      fail_trace P rt sys_i2c_id (decide (0 < j)) (if j ≤ 2 then 0 else c)
        (rt.unit sys_i2c_id).port_num o m

/-- The runs of `sys_i2c_read` and of `sys_i2c_write` on accepted arguments: every step
succeeds, or the run leaves the successful sequence at some call. -/
def RwCases (P : Platform) (rt : SYS_I2C_RUNTIME) (sys_i2c_id : Nat) (o : Nat → Int)
    (S : i2c_cmd_handle_t → List Ev) (res : Bool) (tr : List Ev) : Prop :=
  (∃ c, c ≠ 0 ∧ res = true ∧ tr = S c) ∨
  (∃ c, c ≠ 0 ∧ res = false ∧ StoppedAt P rt sys_i2c_id o true (S c) c tr)

/-- The runs of `sys_i2c_probe` on accepted arguments: every step succeeds and the
executor returns `ESP_OK`, or `ESP_FAIL`, or another value, after which the `fail:`
block runs; or the run leaves the successful sequence at some call. -/
def ProbeCases (P : Platform) (rt : SYS_I2C_RUNTIME) (sys_i2c_id i2c_addr_num : Nat)
    (found_flag : Bool) (o : Nat → Int) (res : ProbeResult) (tr : List Ev) : Prop :=
  (∃ c, c ≠ 0 ∧ res = ⟨true, true⟩ ∧
    tr = probe_success_trace P rt sys_i2c_id i2c_addr_num c ESP_OK) ∨
  (∃ c, c ≠ 0 ∧ res = ⟨true, false⟩ ∧
    tr = probe_success_trace P rt sys_i2c_id i2c_addr_num c ESP_FAIL) ∨
  (∃ c x m, c ≠ 0 ∧ x ≠ ESP_OK ∧ x ≠ ESP_FAIL ∧ res = ⟨false, found_flag⟩ ∧
    tr = probe_success_trace P rt sys_i2c_id i2c_addr_num c x ++
      fail_trace P rt sys_i2c_id true c (rt.unit sys_i2c_id).port_num o m) ∨
  (∃ c x, c ≠ 0 ∧ res = ⟨false, found_flag⟩ ∧
    StoppedAt P rt sys_i2c_id o false (probe_success_trace P rt sys_i2c_id i2c_addr_num c x)
      c tr)

/-- What a call of a successful sequence returns: the lock calls `pdTRUE`, the routing
calls `ESP_OK`. -/
def SuccessRet (a : Ev) : Prop :=
  (a.call.kind = .take ∨ a.call.kind = .give → a.ret = pdTRUE) ∧
  (a.call.kind = .attach ∨ a.call.kind = .detach → a.ret = ESP_OK) ∧
  a.call.kind ≠ .other

/-- In the sequence `S` no call before a lock acquisition, an attach, a composition step
or the executor is the executor. -/
def ExecLast (S : List Ev) : Prop :=
  ∀ (j : Nat) (e : Ev), S[j]? = some e →
    (e.call.kind = .take ∨ e.call.kind = .attach ∨ e.call.kind = .compose ∨
      e.call.kind = .exec) →
    ∀ a ∈ S.take j, a.call.kind ≠ .exec

/-! ## Vocabulary for the runtime table builder -/

/-- The two pins of a logical bus are connected, distinct and valid output pins. -/
def PinsOk (P : Platform) (sda_io_num scl_io_num : gpio_num_t) : Prop :=
  GPIO_NUM_NC ≠ scl_io_num ∧ GPIO_NUM_NC ≠ sda_io_num ∧ scl_io_num ≠ sda_io_num ∧
   P.GPIO_IS_VALID_OUTPUT_GPIO scl_io_num = true ∧
   P.GPIO_IS_VALID_OUTPUT_GPIO sda_io_num = true

/-- The clock flags pass the check of the build: no check when the flags are disabled. -/
def FlagsOk (P : Platform) (clk_flags : Nat) : Prop :=
  P.SYS_I2C_CLK_FLAGS_ENABLE = true →
    (I2C_SCLK_SRC_FLAG_FOR_NOMAL ||| I2C_SCLK_SRC_FLAG_AWARE_DFS |||
      I2C_SCLK_SRC_FLAG_LIGHT_SLEEP) ≥ clk_flags

/-- The entry `u` is what the two tables give for the logical bus `i`: the pins of the
board table, the controller of the assignment table and the clock of that controller. -/
def Merged (BSP_I2C_config : List BSP_I2C_CONFIG) (SYS_I2C_config : SYS_I2C_CONFIG)
    (bsp_id i : Nat) (u : RuntimeUnit) : Prop :=
  ∃ (pins : BspUnit) (clock : PortClock),
    (BSP_I2C_config[bsp_id]?).bind (fun b => b.unit[i]?) = some pins ∧
    SYS_I2C_config.unit[i]? = some u.port_num ∧
    SYS_I2C_config.clock? u.port_num = some clock ∧
    u = ⟨pins.sda_io_num, pins.scl_io_num, u.port_num, clock.clk_speed, clock.clk_flags⟩

/-- The checks of one pass of the loop, on the entry written by the pass. -/
def Checked (P : Platform) (u : RuntimeUnit) : Prop :=
  u.port_num < P.I2C_NUM_MAX ∧ PinsOk P u.sda_io_num u.scl_io_num ∧
  (u.clk_speed ≠ 0 ∧ u.clk_speed ≤ SYS_I2C_CLOCK_MAX) ∧ FlagsOk P u.clk_flags

/-- The entry `u` of the logical bus `i` after the pass of the loop that aborted on the
assertion of line `line`, `old` being the entry before the pass: the stores that precede
the assertion have been made. On line 155 the pins and the controller id are those of the
tables, the controller id is not below `I2C_NUM_MAX`, and the clock is the old one; on a
later line all five stores have been made and the entry is the merged entry of the
tables. -/
def StoredBefore (P : Platform) (BSP_I2C_config : List BSP_I2C_CONFIG)
    (SYS_I2C_config : SYS_I2C_CONFIG) (bsp_id i line : Nat) (old u : RuntimeUnit) : Prop :=
  ∃ (pins : BspUnit) (port : i2c_port_t),
    (BSP_I2C_config[bsp_id]?).bind (fun b => b.unit[i]?) = some pins ∧
    SYS_I2C_config.unit[i]? = some port ∧
    ((line = 155 ∧ ¬ port < P.I2C_NUM_MAX ∧
        u = ⟨pins.sda_io_num, pins.scl_io_num, port, old.clk_speed, old.clk_flags⟩) ∨
      (line ≠ 155 ∧ Merged BSP_I2C_config SYS_I2C_config bsp_id i u))

/-- The allowed bit range of the clock flags, in the words of the specification: the
32-bit value has no bit set other than `I2C_SCLK_SRC_FLAG_AWARE_DFS` (bit 0) and
`I2C_SCLK_SRC_FLAG_LIGHT_SLEEP` (bit 1), that is `clk_flags & ~3 == 0`. -/
def flags_in_bit_range (clk_flags : Nat) : Prop :=
  clk_flags &&&
    (0xFFFFFFFF ^^^ (I2C_SCLK_SRC_FLAG_AWARE_DFS ||| I2C_SCLK_SRC_FLAG_LIGHT_SLEEP)) = 0

/-- A build like the one of the repository with a second logical bus, to try
configurations in which two logical buses share or do not share a controller. -/
def two_buses : Platform := { esp32 with SYS_I2C_ID_CNT := 2 }

/-- The calls of a trace that create or compose a command link, in order. -/
def composed (tr : List Ev) : List Ev := tr.filter (fun a => a.call.kind = .compose)

/-- The command of a read of `n` bytes from the register `i2c_reg_num` of the device
`i2c_addr_num` into the buffer at `buf_addr`, composed on the link `c`, in the words of
the specification: START; address byte with write direction, ack-checked; register-address
byte, ack-checked; repeated START; address byte with read direction, ack-checked; if
`n > 1`, a read of `n - 1` bytes into `buffer[0..n-2]` with acknowledge; a read of one
byte into `buffer[n-1]` with no-acknowledge; STOP. -/
def read_commands (c : i2c_cmd_handle_t) (i2c_addr_num i2c_reg_num buf_addr n : Nat) :
    List Call :=
  [.i2c_master_start c,
   .i2c_master_write_byte c (addr_byte i2c_addr_num I2C_MASTER_WRITE) ESP32_I2C_ACK_CHECK_EN,
   .i2c_master_write_byte c i2c_reg_num ESP32_I2C_ACK_CHECK_EN,
   .i2c_master_start c,
   .i2c_master_write_byte c (addr_byte i2c_addr_num I2C_MASTER_READ) ESP32_I2C_ACK_CHECK_EN] ++
  (if n > 1 then [.i2c_master_read c buf_addr (n - 1) ESP32_I2C_ACK_VAL] else []) ++
  [.i2c_master_read_byte c (buf_addr + (n - 1)) ESP32_I2C_NACK_VAL,
   .i2c_master_stop c]

/-- The command of a write of the `n` bytes of the buffer at `buf_addr` to the register
`i2c_reg_num` of the device `i2c_addr_num`, in the words of the specification: START;
address byte with write direction, ack-checked; register-address byte, ack-checked; the
`n` payload bytes `buffer[0..n-1]`, ack-checked; STOP. -/
def write_commands (c : i2c_cmd_handle_t) (i2c_addr_num i2c_reg_num buf_addr n : Nat) :
    List Call :=
  [.i2c_master_start c,
   .i2c_master_write_byte c (addr_byte i2c_addr_num I2C_MASTER_WRITE) ESP32_I2C_ACK_CHECK_EN,
   .i2c_master_write_byte c i2c_reg_num ESP32_I2C_ACK_CHECK_EN,
   .i2c_master_write c buf_addr n ESP32_I2C_ACK_CHECK_EN,
   .i2c_master_stop c]

/-- The command of a probe of the device `i2c_addr_num`, in the words of the
specification: START; address byte with write direction, ack-checked; STOP. -/
def probe_commands (c : i2c_cmd_handle_t) (i2c_addr_num : Nat) : List Call :=
  [.i2c_master_start c,
   .i2c_master_write_byte c (addr_byte i2c_addr_num I2C_MASTER_WRITE) ESP32_I2C_ACK_CHECK_EN,
   .i2c_master_stop c]

/-- Modelled from the spec: the functions `i2c_master_read` and `i2c_master_read_byte`
belong to the SDK, which is not part of the repository. A byte-stream read of `len` bytes
into `buf` targets `buf[0..len-1]` and answers every byte with `ack`; a read of one byte
targets `buf[0]`. The value is the list of the targeted addresses, each with the answer
given to its byte. -/
def Call.readTargets : Call → List (Nat × Nat)
  | .i2c_master_read _ buf len ack => (List.range len).map fun k => (buf + k, ack)
  | .i2c_master_read_byte _ buf ack => [(buf, ack)]
  | _ => []

/-- Modelled from the spec: the function `i2c_master_write` belongs to the SDK, which is
not part of the repository. A byte-stream write of `len` bytes from `buf` sends
`buf[0..len-1]` in order. The value is the list of the addresses of the bytes sent. -/
def Call.writeSources : Call → List Nat
  | .i2c_master_write _ buf len _ => (List.range len).map fun k => buf + k
  | _ => []

/-- The calls of one transaction on the logical bus `sys_i2c_id`, in the words of the
specification: acquire the lock of the assigned controller; attach the pins of the bus;
create the command `c` and compose `cmds`; execute it on that same controller with the
deadline `ticks`, the executor returning `x`; delete the command; detach the pins of the
bus, clock pin first; release the same lock. -/
def transaction_bracket (P : Platform) (rt : SYS_I2C_RUNTIME) (sys_i2c_id : Nat)
    (c : i2c_cmd_handle_t) (cmds : List Call) (ticks : Nat) (x : esp_err_t) : List Ev :=
  [⟨.xSemaphoreTake (rt.lock (rt.unit sys_i2c_id).port_num) portMAX_DELAY, pdTRUE⟩,
   ⟨.i2c_param_config (rt.unit sys_i2c_id).port_num (attach_config P rt sys_i2c_id), ESP_OK⟩,
   ⟨.i2c_cmd_link_create, c⟩] ++
  cmds.map (fun k => ⟨k, ESP_OK⟩) ++
  [⟨.i2c_master_cmd_begin (rt.unit sys_i2c_id).port_num c ticks, x⟩,
   ⟨.i2c_cmd_link_delete c, 0⟩,
   ⟨.gpio_config (detach_config P (rt.unit sys_i2c_id).scl_io_num), ESP_OK⟩,
   ⟨.gpio_config (detach_config P (rt.unit sys_i2c_id).sda_io_num), ESP_OK⟩,
   ⟨.xSemaphoreGive (rt.lock (rt.unit sys_i2c_id).port_num), pdTRUE⟩]

/-- An external call succeeded: a lock call returned `pdTRUE`, the creation of the
command link returned a handle, every other call with a return value returned `ESP_OK`. -/
def Succeeded (e : Ev) : Prop :=
  (e.call.kind = .take ∨ e.call.kind = .give → e.ret = pdTRUE) ∧
  (e.call = .i2c_cmd_link_create → e.ret ≠ 0) ∧
  (e.call.kind = .compose → e.call ≠ .i2c_cmd_link_create → e.ret = ESP_OK) ∧
  (e.call.kind = .attach ∨ e.call.kind = .detach ∨ e.call.kind = .exec → e.ret = ESP_OK)

instance (e : Ev) : Decidable (Succeeded e) := by
  unfold Succeeded; infer_instance

/-- The state of a pin in the mock of the pin router: not touched since the start,
connected to a controller, or configured as a plain pin in some mode with no controller
connected. -/
inductive PinState where
  | untouched
  | routed (port : i2c_port_t)
  | released (mode : gpio_mode_t) (pull_up_en : Bool)
  deriving DecidableEq, Repr

/-- Modelled from the spec: the pin routing primitives belong to the SDK, which is not
part of the repository. The spec describes them as `route(pin_pair, controller_id, clock_speed, clock_flags)`,
which connects the two pins to the controller, and `idle(pin_pair)`, which leaves a pin
with no controller connected. In this mock both succeed: `i2c_param_config` connects the
data pin and the clock pin of its record to its controller, `gpio_config` releases every
pin of its 64-bit pin mask into the mode of its record. The world is the state of every
pin. Every other call succeeds and leaves the pins alone. -/
def mock_router (c : Call) (pins : gpio_num_t → PinState) : Int × (gpio_num_t → PinState) :=
  match c with
  | .i2c_param_config port cfg =>
    (ESP_OK, fun q => if q = cfg.sda_io_num ∨ q = cfg.scl_io_num then .routed port else pins q)
  | .gpio_config cfg =>
    (ESP_OK, fun q =>
      if 0 ≤ q ∧ cfg.pin_bit_mask.testBit q.toNat = true
      then .released cfg.mode cfg.pull_up_en else pins q)
  | .xSemaphoreCreateMutex => (1, pins)
  | .xSemaphoreTake _ _ => (pdTRUE, pins)
  | .xSemaphoreGive _ => (pdTRUE, pins)
  | .i2c_cmd_link_create => (1, pins)
  | _ => (ESP_OK, pins)

/-- An attach of the logical bus followed immediately by its detach; the value is the
pair of the two returned values. -/
def attach_then_detach (P : Platform) (rt : SYS_I2C_RUNTIME) (sys_i2c_id : Nat) :
    Prog (Bool × Bool) :=
  (sys_i2c_attach_pins P rt sys_i2c_id).bind fun a =>
  (sys_i2c_detach_pins P rt sys_i2c_id).bind fun d =>
  .done (a, d)

/-! ## Controller initializer: `sys_i2c_init_all` -/

/-- The SDK names of the first and of the second controller. -/
def I2C_NUM_0 : i2c_port_t := 0
def I2C_NUM_1 : i2c_port_t := 1

/-- The assignment `SYS_I2C_runtime.port[p].lock = l`. -/
def SYS_I2C_RUNTIME.setLock (rt : SYS_I2C_RUNTIME) (p : i2c_port_t) (l : SemaphoreHandle_t) :
    SYS_I2C_RUNTIME :=
  { rt with lock := fun q => if q = p then l else rt.lock q }

/-- The block at the label `fail:` of `sys_i2c_init_all`, run with the current values of
`done_0` and `done_1`. -/
def init_all_fail (rt : SYS_I2C_RUNTIME) (done_0 done_1 : Bool) :
    Prog (Outcome × SYS_I2C_RUNTIME) :=
  (if done_0 then Prog.call (.vSemaphoreDelete (rt.lock I2C_NUM_0)) fun _ => Prog.done ()
    else Prog.done ()).bind fun _ =>
  (if done_1 then Prog.call (.vSemaphoreDelete (rt.lock I2C_NUM_1)) fun _ => Prog.done ()
    else Prog.done ()).bind fun _ =>
  .done (.returned false, rt)

/-- The `for` loop of `sys_i2c_init_all`, from the counter value `sys_i2c_id` on, up to
the `return`. The counter is a `uint8_t`; `fuel` bounds the number of times the loop
condition is evaluated. The record passed to `i2c_param_config` has the fields of the
record of `sys_i2c_attach_pins`. -/
def init_all_loop (P : Platform) :
    Nat → Nat → Bool → Bool → SYS_I2C_RUNTIME → Prog (Outcome × SYS_I2C_RUNTIME)
  | 0, _, _, _, rt => .done (.diverged, rt)
  | fuel + 1, sys_i2c_id, done_0, done_1, rt =>
    if ¬ (P.SYS_I2C_ID_CNT > sys_i2c_id) then .done (.returned true, rt) else
    if done_0 ∧ done_1 then .done (.returned true, rt) else
    -- 1A
    let port_num := (rt.unit sys_i2c_id).port_num
    if I2C_NUM_0 = port_num ∧ done_0 then
      init_all_loop P fuel ((sys_i2c_id + 1) % 256) done_0 done_1 rt else
    if I2C_NUM_1 = port_num ∧ done_1 then
      init_all_loop P fuel ((sys_i2c_id + 1) % 256) done_0 done_1 rt else
    -- 2A
    .call (.i2c_param_config port_num (attach_config P rt sys_i2c_id)) fun r1 =>
    if ESP_OK ≠ r1 then init_all_fail rt done_0 done_1 else
    -- 2B
    .call (.i2c_driver_install port_num .I2C_MODE_MASTER 0 0 0) fun r2 =>
    if ESP_OK ≠ r2 then init_all_fail rt done_0 done_1 else
    -- 3A
    .call .xSemaphoreCreateMutex fun l =>
    let rt' := rt.setLock port_num l
    if ¬ (rt'.lock port_num ≠ 0) then .done (.aborted 105, rt') else
    if rt'.lock port_num = 0 then init_all_fail rt' done_0 done_1 else
    -- 4A
    init_all_loop P fuel ((sys_i2c_id + 1) % 256)
      (if port_num = I2C_NUM_0 then true else done_0)
      (if port_num = I2C_NUM_1 then true else done_1) rt'

/-- The source function `sys_i2c_init_all`: the outcome and `SYS_I2C_runtime` afterwards.
The loop condition is evaluated at most 257 times, as in `sys_i2c_runtime_init`. -/
def sys_i2c_init_all (P : Platform) (APP_config : APP_CONFIG)
    (BSP_I2C_config : List BSP_I2C_CONFIG) (SYS_I2C_config : SYS_I2C_CONFIG)
    (rt : SYS_I2C_RUNTIME) : Prog (Outcome × SYS_I2C_RUNTIME) :=
  match sys_i2c_runtime_init P APP_config BSP_I2C_config SYS_I2C_config rt with
  | (.returned true, rt1) => init_all_loop P 257 0 false false rt1
  | (.returned false, rt1) => init_all_fail rt1 false false
  | (out, rt1) => .done (out, rt1)

/-- The call configures the controller `p`. -/
def Call.configures (p : i2c_port_t) : Call → Bool
  | .i2c_param_config q _ => decide (q = p)
  | _ => false

/-- The call installs the driver of the controller `p`. -/
def Call.installs (p : i2c_port_t) : Call → Bool
  | .i2c_driver_install q _ _ _ _ => decide (q = p)
  | _ => false

/-- The call creates a lock. -/
def Call.creates : Call → Bool
  | .xSemaphoreCreateMutex => true
  | _ => false

/-- The call destroys a lock. -/
def Call.destroys : Call → Bool
  | .vSemaphoreDelete _ => true
  | _ => false

/-- The event is the creation of the lock `h`. -/
def Ev.created (h : SemaphoreHandle_t) (e : Ev) : Bool :=
  e.call.creates && decide (e.ret = h)

/-- The event is the destruction of the lock `h`. -/
def Ev.destroyed (h : SemaphoreHandle_t) (e : Ev) : Bool :=
  match e.call with
  | .vSemaphoreDelete l => decide (l = h)
  | _ => false

/-- An external call of the controller initializer succeeded: the configuration and the
installation returned `ESP_OK`, the creation of a lock returned a handle. -/
def InitSucceeded (e : Ev) : Prop :=
  match e.call with
  | .i2c_param_config _ _ => e.ret = ESP_OK
  | .i2c_driver_install _ _ _ _ _ => e.ret = ESP_OK
  | .xSemaphoreCreateMutex => e.ret ≠ 0
  | _ => True

instance (e : Ev) : Decidable (InitSucceeded e) := by
  unfold InitSucceeded; split <;> infer_instance

/-- An external call of the controller initializer is a configuration or an installation
that failed. -/
def InitFailed (e : Ev) : Prop :=
  match e.call with
  | .i2c_param_config _ _ => e.ret ≠ ESP_OK
  | .i2c_driver_install _ _ _ _ _ => e.ret ≠ ESP_OK
  | _ => False

instance (e : Ev) : Decidable (InitFailed e) := by
  unfold InitFailed; split <;> infer_instance

/-- The calls of the `fail:` block of `sys_i2c_init_all`: the locks of the controllers
whose flag is set are destroyed. -/
def init_fail_trace (rt : SYS_I2C_RUNTIME) (done_0 done_1 : Bool) : List Ev :=
  (if done_0 then [⟨.vSemaphoreDelete (rt.lock I2C_NUM_0), 0⟩] else []) ++
  (if done_1 then [⟨.vSemaphoreDelete (rt.lock I2C_NUM_1), 0⟩] else [])

/-- The calls that initialise the controller of the logical bus `s.1` when they succeed,
the lock created being `s.2`: the configuration of the controller with the record of the
bus, the installation of its driver, the creation of its lock. -/
def init_calls (P : Platform) (rt : SYS_I2C_RUNTIME) (s : Nat × SemaphoreHandle_t) : List Ev :=
  [⟨.i2c_param_config (rt.unit s.1).port_num (attach_config P rt s.1), ESP_OK⟩,
   ⟨.i2c_driver_install (rt.unit s.1).port_num .I2C_MODE_MASTER 0 0 0, ESP_OK⟩,
   ⟨.xSemaphoreCreateMutex, s.2⟩]

/-- The controller `p` is marked as initialised by the flags `done_0` and `done_1`. -/
def Done (done_0 done_1 : Bool) (p : i2c_port_t) : Prop :=
  (I2C_NUM_0 = p ∧ done_0 = true) ∨ (I2C_NUM_1 = p ∧ done_1 = true)

/-- How a run of the loop of `sys_i2c_init_all` from the logical bus `id` on ends, the
flags being `d0` and `d1` and the table `rt` at its start. The run initialises the
controllers of some logical buses `steps`, each with its created lock, no controller
twice and none that was marked; the entries of the logical buses are left alone. Then
either it returns true, and the controller of every logical bus from `id` on was marked
or is initialised, and the table holds the created locks and no other new lock; or the
configuration or the installation for some logical bus fails, the `fail:` block destroys
the locks of the controllers marked by then, and it returns false; or the creation of a
lock fails and the assertion of line 105 aborts. -/
def InitRuns (P : Platform) (rt : SYS_I2C_RUNTIME) (id : Nat) (d0 d1 : Bool)
    (res : Outcome × SYS_I2C_RUNTIME) (tr : List Ev) : Prop :=
  ∃ steps : List (Nat × SemaphoreHandle_t),
    (∀ s ∈ steps, id ≤ s.1 ∧ s.1 < P.SYS_I2C_ID_CNT ∧ s.2 ≠ 0 ∧
      ¬ Done d0 d1 (rt.unit s.1).port_num) ∧
    (steps.map (fun s => (rt.unit s.1).port_num)).Nodup ∧
    res.2.unit = rt.unit ∧
    ((res.1 = .returned true ∧ tr = steps.flatMap (init_calls P rt) ∧
        (∀ j, id ≤ j → j < P.SYS_I2C_ID_CNT →
          Done d0 d1 (rt.unit j).port_num ∨
          (rt.unit j).port_num ∈ steps.map (fun s => (rt.unit s.1).port_num)) ∧
        (∀ s ∈ steps, res.2.lock (rt.unit s.1).port_num = s.2) ∧
        (∀ p, p ∉ steps.map (fun s => (rt.unit s.1).port_num) → res.2.lock p = rt.lock p)) ∨
      (res.1 = .returned false ∧
        (∃ j r, id ≤ j ∧ j < P.SYS_I2C_ID_CNT ∧ r ≠ ESP_OK ∧
          (tr = steps.flatMap (init_calls P rt) ++
              ⟨.i2c_param_config (rt.unit j).port_num (attach_config P rt j), r⟩ ::
              init_fail_trace res.2
                (d0 || decide (I2C_NUM_0 ∈ steps.map (fun s => (rt.unit s.1).port_num)))
                (d1 || decide (I2C_NUM_1 ∈ steps.map (fun s => (rt.unit s.1).port_num))) ∨
            tr = steps.flatMap (init_calls P rt) ++
              ⟨.i2c_param_config (rt.unit j).port_num (attach_config P rt j), ESP_OK⟩ ::
              ⟨.i2c_driver_install (rt.unit j).port_num .I2C_MODE_MASTER 0 0 0, r⟩ ::
              init_fail_trace res.2
                (d0 || decide (I2C_NUM_0 ∈ steps.map (fun s => (rt.unit s.1).port_num)))
                (d1 || decide (I2C_NUM_1 ∈ steps.map (fun s => (rt.unit s.1).port_num))))) ∧
        (∀ s ∈ steps, res.2.lock (rt.unit s.1).port_num = s.2) ∧
        (∀ p, p ∉ steps.map (fun s => (rt.unit s.1).port_num) → res.2.lock p = rt.lock p)) ∨
      (res.1 = .aborted 105 ∧
        ∃ j, id ≤ j ∧ j < P.SYS_I2C_ID_CNT ∧
          tr = steps.flatMap (init_calls P rt) ++ init_calls P rt (j, 0)))

/-- A build like the one of the repository with three logical buses. -/
def three_buses : Platform := { esp32 with SYS_I2C_ID_CNT := 3 }

/-- A board table for three logical buses, with the pins (4, 3), (6, 5) and (8, 7) on
every board. -/
def BSP_three : List BSP_I2C_CONFIG :=
  [⟨[⟨4, 3⟩, ⟨6, 5⟩, ⟨8, 7⟩]⟩, ⟨[⟨4, 3⟩, ⟨6, 5⟩, ⟨8, 7⟩]⟩, ⟨[⟨4, 3⟩, ⟨6, 5⟩, ⟨8, 7⟩]⟩]

/-- An assignment table for three logical buses: the first two share controller 1, the
third is on controller 0. -/
def SYS_three : SYS_I2C_CONFIG := ⟨[1, 1, 0], [⟨400000, 0⟩, ⟨100000, 2⟩]⟩

/-- A build with two logical buses on a chip with three controllers. -/
def three_controllers : Platform := { two_buses with I2C_NUM_MAX := 3 }

/-- A board table for two logical buses, with the pins (4, 3) and (6, 5) on every board. -/
def BSP_two : List BSP_I2C_CONFIG :=
  [⟨[⟨4, 3⟩, ⟨6, 5⟩]⟩, ⟨[⟨4, 3⟩, ⟨6, 5⟩]⟩, ⟨[⟨4, 3⟩, ⟨6, 5⟩]⟩]

/-- An assignment table for two logical buses on a chip with three controllers: the first
bus is on the third controller, `2`, the second on controller 0. -/
def SYS_third : SYS_I2C_CONFIG :=
  ⟨[2, 0], [⟨400000, 0⟩, ⟨100000, 0⟩, ⟨100000, 0⟩]⟩

/-! ## Bus scan: `sys_i2c_scan_print` -/

def UINT32_MAX : Nat := 0xffffffff

/-- The texts that `sys_i2c_scan_print` prints, one constructor for each `printf` of the
source, with the values of its arguments. -/
inductive Out where
  /-- A line break printed on its own. -/
  | newline
  /-- The line `START I2C SCAN`. -/
  | start
  /-- The line `There are :: n :: I2C Buses [SYS_I2C_ID_CNT]`. -/
  | bus_count (n : Nat)
  /-- The line `I2C Bus sys_i2c_id = ...`. -/
  | bus (sys_i2c_id : Nat)
  /-- The line `sda_io_num = ..., scl_io_num = ...`. -/
  | pins (sda_io_num scl_io_num : gpio_num_t)
  /-- The line `i2c_port_num = ...: clk_speed = ..., clk_flags = 0x...`. -/
  | controller (port_num : i2c_port_t) (clk_speed clk_flags : Nat)
  /-- The line of the sixteen column titles `0` to `f`. -/
  | columns
  /-- The start of a grid row: a line break and the address of its first cell. -/
  | row (i2c_addr_num : Nat)
  /-- A grid cell of a device that was found: its address. -/
  | found (i2c_addr_num : Nat)
  /-- A grid cell of an address without a device: `--`. -/
  | not_found
  /-- The line `END I2C SCAN: :: found_cnt :: devices on :: n :: I2C Buses`. -/
  | summary (found_cnt n : Nat)
  deriving DecidableEq, Repr

/-- One call of `sys_i2c_probe` made by the scan: its arguments and what it gave back. -/
structure ProbeRecord where
  sys_i2c_id : Nat
  i2c_addr_num : Nat
  result : ProbeResult
  deriving DecidableEq, Repr

/-- The state of a run of `sys_i2c_scan_print`: the local `found_cnt`, the text printed so
far, and the calls of `sys_i2c_probe` made so far, in order. -/
structure Scan where
  found_cnt : Nat
  out : List Out
  probes : List ProbeRecord
  deriving DecidableEq, Repr

/-- One `printf`. Its return value is dropped by the source. -/
def Scan.print (s : Scan) (x : Out) : Scan := { s with out := s.out ++ [x] }

/-- The start of a grid row is printed before the probe of every address that is a
multiple of 16. -/
def Scan.row (s : Scan) (i2c_addr_num : Nat) : Scan :=
  if i2c_addr_num % 16 = 0 then s.print (.row i2c_addr_num) else s

/-- The call `sys_i2c_probe(sys_i2c_id, i2c_addr_num, &found_flag)` has been made and
gave `r`. -/
def Scan.probed (s : Scan) (sys_i2c_id i2c_addr_num : Nat) (r : ProbeResult) : Scan :=
  { s with probes := s.probes ++ [⟨sys_i2c_id, i2c_addr_num, r⟩] }

/-- The cell printed after a probe that returned true: when `found_flag` is set, the
address, and `found_cnt++`; otherwise `--`. `found_cnt` is a `uint`, 32 bits wide. -/
def Scan.cell (s : Scan) (i2c_addr_num : Nat) (found_flag : Bool) : Scan :=
  if found_flag then
    { s.print (.found i2c_addr_num) with found_cnt := (s.found_cnt + 1) % 2 ^ 32 }
  else s.print .not_found

/-- The five `printf` at the start of the block of one logical bus. Without clock flags
the printed flags are `UINT32_MAX`. -/
def Scan.header (s : Scan) (P : Platform) (rt : SYS_I2C_RUNTIME) (sys_i2c_id : Nat) : Scan :=
  ((((s.print .newline).print (.bus sys_i2c_id)).print
    (.pins (rt.unit sys_i2c_id).sda_io_num (rt.unit sys_i2c_id).scl_io_num)).print
    (.controller (rt.unit sys_i2c_id).port_num (rt.unit sys_i2c_id).clk_speed
      (if P.SYS_I2C_CLK_FLAGS_ENABLE then (rt.unit sys_i2c_id).clk_flags else UINT32_MAX))).print
    .columns

/-- The address `&found_flag` of the local variable of `sys_i2c_scan_print`: it is not
null. -/
def scan_found_flag_addr : Nat := 1

/-- The `do ... while (end_addr >= ++i2c_addr_num)` loop of `sys_i2c_scan_print` for one
logical bus, from the address `i2c_addr_num` on; `found_flag` is the value of the local
before the pass. The counter is a `uint8_t`. The loop ends with `none` when its condition
fails, and with `some (returned false)` at `goto fail`; the first argument bounds
the number of passes. -/
def scan_addr_loop (P : Platform) (rt : SYS_I2C_RUNTIME) (sys_i2c_id : Nat) :
    Nat → Nat → Bool → Scan → Prog (Option Outcome × Scan)
  | 0, _, _, s => .done (some .diverged, s)
  | fuel + 1, i2c_addr_num, found_flag, s =>
    (sys_i2c_probe P rt sys_i2c_id i2c_addr_num scan_found_flag_addr found_flag).bind fun r =>
    if ¬ r.ret then
      .done (some (.returned false), (s.row i2c_addr_num).probed sys_i2c_id i2c_addr_num r)
    else if SYS_I2C_ADDR_NUM_MAX ≥ (i2c_addr_num + 1) % 256 then
      scan_addr_loop P rt sys_i2c_id fuel ((i2c_addr_num + 1) % 256) r.found_flag
        (((s.row i2c_addr_num).probed sys_i2c_id i2c_addr_num r).cell i2c_addr_num
          r.found_flag)
    else
      .done (none,
        ((s.row i2c_addr_num).probed sys_i2c_id i2c_addr_num r).cell i2c_addr_num
          r.found_flag)

/-- The `for (sys_i2c_id = 0; SYS_I2C_ID_CNT > sys_i2c_id; ++sys_i2c_id)` loop of
`sys_i2c_scan_print` from `sys_i2c_id` on; the counter is a `uint8_t`. The local
`found_flag` of the block is not initialised: `indeterminate sys_i2c_id` is the value it
happens to have at the start of the block of the bus `sys_i2c_id`. -/
def scan_bus_loop (P : Platform) (rt : SYS_I2C_RUNTIME) (indeterminate : Nat → Bool) :
    Nat → Nat → Scan → Prog (Option Outcome × Scan)
  | 0, _, s => .done (some .diverged, s)
  | fuel + 1, sys_i2c_id, s =>
    if ¬ (P.SYS_I2C_ID_CNT > sys_i2c_id) then .done (none, s) else
    (scan_addr_loop P rt sys_i2c_id 256 SYS_I2C_ADDR_NUM_MIN (indeterminate sys_i2c_id)
      (s.header P rt sys_i2c_id)).bind fun x =>
    if x.1 ≠ none then .done x else
    scan_bus_loop P rt indeterminate fuel ((sys_i2c_id + 1) % 256) (x.2.print .newline)

/-- The source function `sys_i2c_scan_print`: how it ends, with the text it printed and
the probes it made. `indeterminate` gives the values of the local `found_flag` before it
is first written. -/
def sys_i2c_scan_print (P : Platform) (rt : SYS_I2C_RUNTIME) (indeterminate : Nat → Bool) :
    Prog (Outcome × Scan) :=
  (scan_bus_loop P rt indeterminate 257 0
    ⟨0, [.newline, .start, .bus_count P.SYS_I2C_ID_CNT], []⟩).bind fun x =>
  match x.1 with
  | some e => .done (e, x.2)
  | none => .done (.returned true, x.2.print (.summary x.2.found_cnt P.SYS_I2C_ID_CNT))

/-- The pair (logical bus, address) of a probe. -/
def ProbeRecord.pair (r : ProbeRecord) : Nat × Nat := (r.sys_i2c_id, r.i2c_addr_num)

/-- The grid cell that stands for a probe: the address when the probe reported a device,
`--` otherwise. -/
def ProbeRecord.cell (r : ProbeRecord) : Out :=
  if r.result.found_flag then .found r.i2c_addr_num else .not_found

def Out.isCell : Out → Bool
  | .found _ => true
  | .not_found => true
  | _ => false

def Out.isSummary : Out → Bool
  | .summary _ _ => true
  | _ => false

/-- The pairs (logical bus, address) in scan order up to, and without, the address
`i2c_addr_num` of the bus `sys_i2c_id`: every address `0x00..0x7F` of the buses before,
then the addresses below `i2c_addr_num`. -/
def scanned (sys_i2c_id i2c_addr_num : Nat) : List (Nat × Nat) :=
  (List.range sys_i2c_id).flatMap (fun i => (List.range 128).map fun a => (i, a)) ++
  (List.range i2c_addr_num).map fun a => (sys_i2c_id, a)

/-- The state of a scan in which every probe so far returned true, just before the
address `i2c_addr_num` of the bus `sys_i2c_id`. -/
structure Scanning (sys_i2c_id i2c_addr_num : Nat) (s : Scan) : Prop where
  pairs : s.probes.map ProbeRecord.pair = scanned sys_i2c_id i2c_addr_num
  passed : ∀ r ∈ s.probes, r.result.ret = true
  cells : s.out.filter Out.isCell = s.probes.map ProbeRecord.cell
  count : s.found_cnt = (s.probes.filter fun r => r.result.found_flag).length
  open_end : ∀ x ∈ s.out, x.isSummary = false

/-- The state of a scan that stopped at a probe that returned false: that probe is the
last one made, every probe before it returned true and has its cell, the failed one has
none, and no summary line was printed. -/
def ScanFailed (P : Platform) (s : Scan) : Prop :=
  ∃ (init : List ProbeRecord) (last : ProbeRecord),
    s.probes = init ++ [last] ∧ last.result.ret = false ∧
    (∀ r ∈ init, r.result.ret = true) ∧
    last.sys_i2c_id < P.SYS_I2C_ID_CNT ∧ last.i2c_addr_num < 128 ∧
    init.map ProbeRecord.pair = scanned last.sys_i2c_id last.i2c_addr_num ∧
    s.out.filter Out.isCell = init.map ProbeRecord.cell ∧
    ∀ x ∈ s.out, x.isSummary = false

/-- The two ways a scan ends when there are at most 255 logical buses. It returns true:
every probe returned true, the probes are those of every address `0x00..0x7F` of every
bus in order, and the text ends with the summary line, which carries `found_cnt`. Or it
returns false: the last probe made returned false and no summary line was printed. -/
def ScanRuns (P : Platform) (x : Outcome × Scan) : Prop :=
  (x.1 = .returned true ∧
    ∃ s : Scan, Scanning P.SYS_I2C_ID_CNT 0 s ∧
      x.2 = s.print (.summary s.found_cnt P.SYS_I2C_ID_CNT)) ∨
  (x.1 = .returned false ∧ ScanFailed P x.2)

/-- A runtime table with two logical buses on controller 0, whose lock is the handle `1`:
bus 0 on the pins (4, 3) at 400 kHz and bus 1 on the pins (18, 19) at 100 kHz. -/
def runtime_two : SYS_I2C_RUNTIME :=
  { unit := fun i =>
      if i = 0 then ⟨4, 3, 0, 400000, 0⟩ else
      if i = 1 then ⟨18, 19, 0, 100000, 0⟩ else ⟨0, 0, 0, 0, 0⟩
    lock := fun p => if p = 0 then 1 else 0 }

/-- The world of `mock_bus_device`: the data and clock pin routed last by
`i2c_param_config` and not released since by a `gpio_config`, and the device address of
the command composed last. -/
structure BusWorld where
  routed : Option (gpio_num_t × gpio_num_t)
  addressed : Option Nat
  deriving DecidableEq, Repr

/-- Modelled from the spec: the external functions belong to the SDK and the kernel,
which are not part of the repository. A mock of them with one device, at the address
`device` on the bus with the pins `sda` and `scl`. The executor acknowledges only when
those pins are the routed ones and the command composed last addresses `device`; it
answers no-acknowledge (`ESP_FAIL`) otherwise. Every other call succeeds and a created
handle is `1`. -/
def mock_bus_device (sda scl : gpio_num_t) (device : Nat) (c : Call) (w : BusWorld) :
    Int × BusWorld :=
  match c with
  | .xSemaphoreCreateMutex => (1, w)
  | .xSemaphoreTake _ _ => (pdTRUE, w)
  | .xSemaphoreGive _ => (pdTRUE, w)
  | .i2c_param_config _ cfg =>
    (ESP_OK, { w with routed := some (cfg.sda_io_num, cfg.scl_io_num) })
  | .gpio_config _ => (ESP_OK, { w with routed := none })
  | .i2c_cmd_link_create => (1, { w with addressed := none })
  | .i2c_master_write_byte _ data _ =>
    (ESP_OK, if w.addressed = none then { w with addressed := some (data / 2) } else w)
  | .i2c_master_cmd_begin _ _ _ =>
    (if w.routed = some (sda, scl) ∧ w.addressed = some device then ESP_OK else ESP_FAIL, w)
  | _ => (ESP_OK, w)
/-- The answers of `mock_device 0x3C` along a scan of the bus of the repository. -/
def scan_answers : Nat → Int :=
  (sys_i2c_scan_print esp32 runtime0 fun _ => false).answers (mock_device 0x3C) none

/-- The answers of `mock_bus_device 4 3 0x50`, one device at `0x50` on bus 0, along a scan
of the two buses of `runtime_two`. -/
def scan_two_answers : Nat → Int :=
  (sys_i2c_scan_print two_buses runtime_two fun _ => false).answers
    (mock_bus_device 4 3 0x50) ⟨none, none⟩

/-! ## A device that stores what is written to a register and echoes it on a read -/

/-- Where the device of `mock_echo` stands while a command link is executed: the bus is
idle; a START was sent and the next byte is the address byte; the device `dev` is
addressed for writing and the next byte selects a register; the register `reg` is
selected and `sent` payload bytes were written so far; the device is addressed for
reading and the next byte read is the one at `pos` of the payload stored in `reg`. -/
inductive EchoPhase where
  | idle
  | address
  | register (dev : Nat)
  | payload (dev reg : Nat) (sent : List Nat)
  | reading (dev reg pos : Nat)
  deriving DecidableEq, Repr

/-- The state of the execution of a command link by `mock_echo`: the bytes of the memory
behind the buffer pointers, the payload stored per device address and register, the
phase, and the device and register selected last. -/
structure EchoRun where
  mem : Nat → Nat
  store : Nat → Nat → List Nat
  phase : EchoPhase
  selected : Option (Nat × Nat)

/-- The payload `bytes` becomes the content of the register `reg` of the device `dev`. -/
def EchoRun.put (s : EchoRun) (dev reg : Nat) (bytes : List Nat) : EchoRun :=
  { s with
    store := fun d r => if d = dev ∧ r = reg then bytes else s.store d r
    phase := .payload dev reg bytes }

/-- The device `dev` sends `len` bytes of the content of its register `reg`, from the
position `pos` on, and the controller stores them in `buf[0..len-1]`; a byte beyond the
stored content reads as `0`. -/
def EchoRun.get (s : EchoRun) (dev reg pos buf len : Nat) : EchoRun :=
  { s with
    mem := fun a =>
      if buf ≤ a ∧ a < buf + len then (s.store dev reg).getD (pos + (a - buf)) 0 else s.mem a
    phase := .reading dev reg (pos + len) }

/-- Modelled from the spec: the executor and the devices on the bus are not part of the
repository; the spec's round-trip property asks for a mock that stores the payload of a
write to a device and register and echoes it back on a matching read. One command of a
link, executed: START; STOP; a byte written, which is the address
byte (upper seven bits the device, lowest bit the direction) after a START, the register
number after an address byte with write direction, and payload after that; a block
written from a buffer, which is payload; a block or a byte read into a buffer. -/
def echo_step (s : EchoRun) : Call → EchoRun
  | .i2c_master_start _ => { s with phase := .address }
  | .i2c_master_stop _ => { s with phase := .idle }
  | .i2c_master_write_byte _ data _ =>
    match s.phase with
    | .address =>
      if data % 2 = I2C_MASTER_WRITE then { s with phase := .register (data / 2) } else
      match s.selected with
      | some (dev, reg) =>
        if dev = data / 2 then { s with phase := .reading dev reg 0 }
        else { s with phase := .idle }
      | none => { s with phase := .idle }
    | .register dev => { s with phase := .payload dev data [], selected := some (dev, data) }
    | .payload dev reg sent => s.put dev reg (sent ++ [data])
    | _ => s
  | .i2c_master_write _ buf len _ =>
    match s.phase with
    | .payload dev reg sent =>
      s.put dev reg (sent ++ (List.range len).map fun k => s.mem (buf + k))
    | _ => s
  | .i2c_master_read _ buf len _ =>
    match s.phase with
    | .reading dev reg pos => s.get dev reg pos buf len
    | _ => s
  | .i2c_master_read_byte _ buf _ =>
    match s.phase with
    | .reading dev reg pos => s.get dev reg pos buf 1
    | _ => s
  | _ => s

/-- The world of `mock_echo`: the bytes of the memory behind the buffer pointers, the
payload stored per device address and register, and the commands put on the command link
since it was created. -/
structure EchoWorld where
  mem : Nat → Nat
  store : Nat → Nat → List Nat
  link : List Call

/-- The executor of `mock_echo`: the commands of the link are executed in order, from an
idle bus. -/
def EchoWorld.execute (w : EchoWorld) : EchoWorld :=
  { w with
    mem := (w.link.foldl echo_step ⟨w.mem, w.store, .idle, none⟩).mem
    store := (w.link.foldl echo_step ⟨w.mem, w.store, .idle, none⟩).store }

/-- Modelled from the spec: the external functions belong to the SDK and the kernel,
which are not part of the repository. A mock of them with devices that store the payload
written to a register and send it back when the register is read. Every call succeeds and a created
handle is `1`; a composition call puts its command on the link, and the executor
executes the commands of the link. -/
def mock_echo (c : Call) (w : EchoWorld) : Int × EchoWorld :=
  match c with
  | .xSemaphoreCreateMutex => (1, w)
  | .xSemaphoreTake _ _ => (pdTRUE, w)
  | .xSemaphoreGive _ => (pdTRUE, w)
  | .i2c_cmd_link_create => (1, { w with link := [] })
  | .i2c_master_start _ => (ESP_OK, { w with link := w.link ++ [c] })
  | .i2c_master_stop _ => (ESP_OK, { w with link := w.link ++ [c] })
  | .i2c_master_write_byte _ _ _ => (ESP_OK, { w with link := w.link ++ [c] })
  | .i2c_master_write _ _ _ _ => (ESP_OK, { w with link := w.link ++ [c] })
  | .i2c_master_read _ _ _ _ => (ESP_OK, { w with link := w.link ++ [c] })
  | .i2c_master_read_byte _ _ _ => (ESP_OK, { w with link := w.link ++ [c] })
  | .i2c_master_cmd_begin _ _ _ => (ESP_OK, w.execute)
  | _ => (ESP_OK, w)

/-- A memory that holds the bytes `0x11, 0x22, 0x33` at the addresses 100 to 102 and
zero elsewhere, no stored payload, an empty link. -/
def echo_world : EchoWorld :=
  { mem := fun a => if a = 100 then 0x11 else if a = 101 then 0x22 else
      if a = 102 then 0x33 else 0
    store := fun _ _ => []
    link := [] }

/-! # Theorems -/

/-! ## Running programs -/

namespace Prog

@[simp] theorem result_done {α : Type} (a : α) (o : Nat → Int) (n : Nat) :
    (done a).result o n = a := rfl

@[simp] theorem result_call {α : Type} (c : Call) (k : Int → Prog α) (o : Nat → Int)
    (n : Nat) : (call c k).result o n = (k (c.retOf (o n))).result o (n + 1) := rfl

@[simp] theorem trace_done {α : Type} (a : α) (o : Nat → Int) (n : Nat) :
    (done a).trace o n = [] := rfl

@[simp] theorem trace_call {α : Type} (c : Call) (k : Int → Prog α) (o : Nat → Int)
    (n : Nat) :
    (call c k).trace o n = ⟨c, c.retOf (o n)⟩ :: (k (c.retOf (o n))).trace o (n + 1) := rfl

@[simp] theorem result_ite {α : Type} (c : Prop) [Decidable c] (p q : Prog α)
    (o : Nat → Int) (n : Nat) :
    (if c then p else q).result o n = if c then p.result o n else q.result o n := by
  split <;> rfl

@[simp] theorem trace_ite {α : Type} (c : Prop) [Decidable c] (p q : Prog α)
    (o : Nat → Int) (n : Nat) :
    (if c then p else q).trace o n = if c then p.trace o n else q.trace o n := by
  split <;> rfl

@[simp] theorem bind_done {α β : Type} (a : α) (f : α → Prog β) : (done a).bind f = f a :=
  rfl

@[simp] theorem bind_call {α β : Type} (c : Call) (k : Int → Prog α) (f : α → Prog β) :
    (call c k).bind f = call c (fun r => (k r).bind f) := rfl

@[simp] theorem bind_ite {α β : Type} (c : Prop) [Decidable c] (p q : Prog α)
    (f : α → Prog β) : (if c then p else q).bind f = if c then p.bind f else q.bind f := by
  split <;> rfl

/-- A run against a handler is the run against the oracle of the handler's answers. -/
theorem exec_eq_oracle {W α : Type} (h : Call → W → Int × W) (p : Prog α) (w : W) :
    (p.exec h w).1 = p.result (p.answers h w) 0 := by
  suffices H : ∀ (p : Prog α) (w : W) (o : Nat → Int) (n : Nat),
      (∀ i, o (n + i) = p.answers h w i) → (p.exec h w).1 = p.result o n from
    H p w _ 0 (fun i => by rw [Nat.zero_add])
  intro p
  induction p with
  | done a => intro w o n _; rfl
  | call c k ih =>
    intro w o n ho
    have h0 : o n = (h c w).1 := by simpa [answers] using ho 0
    simp only [exec, result, h0]
    apply ih
    intro i
    have := ho (i + 1)
    simpa [answers, Nat.add_assoc, Nat.add_comm 1 i] using this

end Prog

/-! ## The calls of the `fail:` block -/

@[simp] theorem Call.kind_xSemaphoreTake (l : SemaphoreHandle_t) (t : Nat) :
    (Call.xSemaphoreTake l t).kind = .take := rfl
@[simp] theorem Call.kind_xSemaphoreGive (l : SemaphoreHandle_t) :
    (Call.xSemaphoreGive l).kind = .give := rfl
@[simp] theorem Call.kind_i2c_param_config (p : i2c_port_t) (c : i2c_config_t) :
    (Call.i2c_param_config p c).kind = .attach := rfl
@[simp] theorem Call.kind_gpio_config (c : gpio_config_t) :
    (Call.gpio_config c).kind = .detach := rfl
@[simp] theorem Call.kind_i2c_cmd_link_create : Call.i2c_cmd_link_create.kind = .compose := rfl
@[simp] theorem Call.kind_i2c_cmd_link_delete (c : i2c_cmd_handle_t) :
    (Call.i2c_cmd_link_delete c).kind = .delete := rfl
@[simp] theorem Call.kind_i2c_master_start (c : i2c_cmd_handle_t) :
    (Call.i2c_master_start c).kind = .compose := rfl
@[simp] theorem Call.kind_i2c_master_stop (c : i2c_cmd_handle_t) :
    (Call.i2c_master_stop c).kind = .compose := rfl
@[simp] theorem Call.kind_i2c_master_write_byte (c : i2c_cmd_handle_t) (d a : Nat) :
    (Call.i2c_master_write_byte c d a).kind = .compose := rfl
@[simp] theorem Call.kind_i2c_master_write (c : i2c_cmd_handle_t) (b n a : Nat) :
    (Call.i2c_master_write c b n a).kind = .compose := rfl
@[simp] theorem Call.kind_i2c_master_read (c : i2c_cmd_handle_t) (b n a : Nat) :
    (Call.i2c_master_read c b n a).kind = .compose := rfl
@[simp] theorem Call.kind_i2c_master_read_byte (c : i2c_cmd_handle_t) (b a : Nat) :
    (Call.i2c_master_read_byte c b a).kind = .compose := rfl
@[simp] theorem Call.kind_i2c_master_cmd_begin (p : i2c_port_t) (c : i2c_cmd_handle_t)
    (t : Nat) : (Call.i2c_master_cmd_begin p c t).kind = .exec := rfl

@[simp] theorem result_fail_exit {α : Type} (P : Platform) (rt : SYS_I2C_RUNTIME) (id : Nat)
    (l : Bool) (c : i2c_cmd_handle_t) (p : i2c_port_t) (a : α) (o : Nat → Int) (n : Nat) :
    (fail_exit P rt id l c p a).result o n = a := by
  simp only [fail_exit, sys_i2c_detach_pins, Prog.bind_ite, Prog.bind_call, Prog.bind_done,
    Prog.result_ite, Prog.result_call, Prog.result_done, ite_self]

@[simp] theorem trace_fail_exit {α : Type} (P : Platform) (rt : SYS_I2C_RUNTIME) (id : Nat)
    (l : Bool) (c : i2c_cmd_handle_t) (p : i2c_port_t) (a : α) (o : Nat → Int) (n : Nat) :
    (fail_exit P rt id l c p a).trace o n = fail_trace P rt id l c p o n := by
  simp only [fail_trace, fail_exit, sys_i2c_detach_pins, Prog.bind_ite, Prog.bind_call,
    Prog.bind_done, Prog.trace_ite, Prog.trace_call, Prog.trace_done]

/-- The calls of the `fail:` block: a run of `sys_i2c_detach_pins`, the deletion of the
command link if `i2c_cmd` is set, the release of the lock if `lock_taken` is set. -/
theorem fail_trace_eq (P : Platform) (rt : SYS_I2C_RUNTIME) (id : Nat)
    (l : Bool) (c : i2c_cmd_handle_t) (p : i2c_port_t) (o : Nat → Int) (n : Nat) :
    ∃ k, fail_trace P rt id l c p o n =
      (sys_i2c_detach_pins P rt id).trace o n ++
      (if c ≠ 0 then [⟨.i2c_cmd_link_delete c, 0⟩] else []) ++
      (if l then [⟨.xSemaphoreGive (rt.lock p), o k⟩] else []) := by
  simp only [fail_trace, fail_exit, sys_i2c_detach_pins, Prog.bind_ite, Prog.bind_call,
    Prog.bind_done, Prog.trace_ite, Prog.trace_call, Prog.trace_done, Call.retOf, Call.isVoid]
  by_cases hid : P.SYS_I2C_ID_CNT > id <;> by_cases h1 : ESP_OK ≠ o n <;>
    by_cases h2 : ESP_OK ≠ o (n + 1) <;> by_cases hc : c ≠ 0 <;>
    cases l <;> simp [hid, h1, h2, hc]

/-- The `fail:` block only detaches, deletes the command link and gives the lock. -/
theorem fail_trace_kind (P : Platform) (rt : SYS_I2C_RUNTIME) (id : Nat)
    (l : Bool) (c : i2c_cmd_handle_t) (p : i2c_port_t) (o : Nat → Int) (n : Nat) :
    ∀ e ∈ fail_trace P rt id l c p o n,
      e.call.kind = .detach ∨ e.call.kind = .delete ∨ (l = true ∧ e.call.kind = .give) := by
  obtain ⟨k, hk⟩ := fail_trace_eq P rt id l c p o n
  rw [hk]
  simp only [sys_i2c_detach_pins, Prog.trace_ite, Prog.trace_call, Prog.trace_done]
  intro e he
  simp only [List.mem_append] at he
  rcases he with (he | he) | he
  · split_ifs at he <;> simp at he <;> rcases he with rfl | rfl <;> simp
  · split_ifs at he <;> simp at he
    subst he; simp
  · cases l <;> simp at he
    subst he; simp

theorem fail_trace_no_exec (P : Platform) (rt : SYS_I2C_RUNTIME) (id : Nat)
    (l : Bool) (c : i2c_cmd_handle_t) (p : i2c_port_t) (o : Nat → Int) (n : Nat)
    (q : Ev → Prop) : ¬ ∃ e ∈ fail_trace P rt id l c p o n, e.call.kind = .exec ∧ q e := by
  rintro ⟨e, he, hx, -⟩
  rcases fail_trace_kind P rt id l c p o n e he with h | h | ⟨_, h⟩ <;> simp [h] at hx

/-! ## The runs of the three operations -/

/-- Every run of `sys_i2c_probe` on accepted arguments is one of `ProbeCases`. -/
theorem probe_cases (P : Platform) (rt : SYS_I2C_RUNTIME)
    (id addr fa : Nat) (flag : Bool) (o : Nat → Int)
    (hid : id < P.SYS_I2C_ID_CNT) (haddr : addr < 128) (hflag : fa ≠ 0) :
    ProbeCases P rt id addr flag o ((sys_i2c_probe P rt id addr fa flag).result o 0)
      ((sys_i2c_probe P rt id addr fa flag).trace o 0) := by
  have hid' : P.SYS_I2C_ID_CNT > id := hid
  have haddr' : SYS_I2C_ADDR_INVALID > addr := haddr
  simp [sys_i2c_probe, hid', haddr', hflag, sys_i2c_attach_pins, sys_i2c_detach_pins,
    Call.retOf, Call.isVoid]
  by_cases h0 : pdTRUE = o 0
  swap
  · simp only [if_neg h0]
    exact Or.inr (Or.inr (Or.inr ⟨1, o 6, by decide, rfl, ⟨0, _, o 0, _, rfl, Ne.symm h0, rfl,
      fun h => Call.noConfusion h, fun h => Kind.noConfusion h, rfl⟩⟩))
  simp only [if_pos h0, ← h0, if_true]
  by_cases h1 : ESP_OK = o 1
  swap
  · simp only [if_neg h1]
    exact Or.inr (Or.inr (Or.inr ⟨1, o 6, by decide, rfl, ⟨1, _, o 1, _, rfl, Ne.symm h1, rfl,
      fun h => Call.noConfusion h, fun h => Kind.noConfusion h, rfl⟩⟩))
  simp only [if_pos h1, ← h1, if_true]
  by_cases h2 : o 2 = 0
  · simp only [if_pos h2, h2]
    exact Or.inr (Or.inr (Or.inr ⟨1, o 6, by decide, rfl, ⟨2, _, 0, _, rfl, (by decide : (0 : Int) ≠ 1), rfl, fun _ => rfl,
      fun h => Kind.noConfusion h, rfl⟩⟩))
  simp only [if_neg h2]
  generalize o 2 = c at h2 ⊢
  by_cases h3 : ESP_OK = o 3
  swap
  · simp only [if_neg h3]
    exact Or.inr (Or.inr (Or.inr ⟨c, o 6, h2, rfl, ⟨3, _, o 3, _, rfl, Ne.symm h3, rfl,
      fun h => Call.noConfusion h, fun h => Kind.noConfusion h, rfl⟩⟩))
  simp only [if_pos h3, ← h3, if_true]
  by_cases h4 : ESP_OK = o 4
  swap
  · simp only [if_neg h4]
    exact Or.inr (Or.inr (Or.inr ⟨c, o 6, h2, rfl, ⟨4, _, o 4, _, rfl, Ne.symm h4, rfl,
      fun h => Call.noConfusion h, fun h => Kind.noConfusion h, rfl⟩⟩))
  simp only [if_pos h4, ← h4, if_true]
  by_cases h5 : ESP_OK = o 5
  swap
  · simp only [if_neg h5]
    exact Or.inr (Or.inr (Or.inr ⟨c, o 6, h2, rfl, ⟨5, _, o 5, _, rfl, Ne.symm h5, rfl,
      fun h => Call.noConfusion h, fun h => Kind.noConfusion h, rfl⟩⟩))
  simp only [if_pos h5, ← h5, if_true]
  by_cases h8 : ESP_OK = o 8
  swap
  · simp only [if_neg h8]
    exact Or.inr (Or.inr (Or.inr ⟨c, o 6, h2, rfl, ⟨8, _, o 8, _, rfl, Ne.symm h8, rfl,
      fun h => Call.noConfusion h, fun h => Kind.noConfusion h, rfl⟩⟩))
  simp only [if_pos h8, ← h8, if_true]
  by_cases h9 : ESP_OK = o 9
  swap
  · simp only [if_neg h9]
    exact Or.inr (Or.inr (Or.inr ⟨c, o 6, h2, rfl, ⟨9, _, o 9, _, rfl, Ne.symm h9, rfl,
      fun h => Call.noConfusion h, fun h => Kind.noConfusion h, rfl⟩⟩))
  simp only [if_pos h9, ← h9, if_true]
  by_cases h10 : pdTRUE = o 10
  swap
  · simp only [if_neg h10]
    exact Or.inr (Or.inr (Or.inr ⟨c, o 6, h2, rfl, ⟨10, _, o 10, _, rfl, Ne.symm h10, rfl,
      fun h => Call.noConfusion h, fun h => Kind.noConfusion h, rfl⟩⟩))
  simp only [if_pos h10, ← h10, if_true]
  by_cases hx : o 6 = ESP_OK
  · simp only [if_pos hx, hx]
    exact Or.inl ⟨c, h2, rfl, rfl⟩
  simp only [if_neg hx]
  by_cases hy : o 6 = ESP_FAIL
  · simp only [if_pos hy, hy]
    exact Or.inr (Or.inl ⟨c, h2, rfl, rfl⟩)
  simp only [if_neg hy]
  exact Or.inr (Or.inr (Or.inl ⟨c, o 6, 11, h2, hx, hy, rfl, rfl⟩))

/-- Every run of `sys_i2c_write` on accepted arguments is one of `RwCases`. -/
theorem write_cases (P : Platform) (rt : SYS_I2C_RUNTIME)
    (id addr reg buf size : Nat) (o : Nat → Int)
    (hid : id < P.SYS_I2C_ID_CNT) (haddr : addr < 128) (hbuf : buf ≠ 0) (hsize : size ≠ 0) :
    RwCases P rt id o (write_success_trace P rt id addr reg buf size)
      ((sys_i2c_write P rt id addr reg buf size).result o 0)
      ((sys_i2c_write P rt id addr reg buf size).trace o 0) := by
  have hid' : P.SYS_I2C_ID_CNT > id := hid
  have haddr' : SYS_I2C_ADDR_INVALID > addr := haddr
  simp [sys_i2c_write, hid', haddr', hbuf, hsize, sys_i2c_attach_pins, sys_i2c_detach_pins,
    Call.retOf, Call.isVoid]
  by_cases h0 : pdTRUE = o 0
  swap
  · simp only [if_neg h0]
    exact Or.inr ⟨1, by decide, by simp [h0], ⟨0, _, o 0, _, rfl, Ne.symm h0, rfl,
      fun h => Call.noConfusion h, fun h => Kind.noConfusion h, rfl⟩⟩
  simp only [if_pos h0, ← h0, if_true]
  by_cases h1 : ESP_OK = o 1
  swap
  · simp only [if_neg h1]
    exact Or.inr ⟨1, by decide, by simp [h1], ⟨1, _, o 1, _, rfl, Ne.symm h1, rfl,
      fun h => Call.noConfusion h, fun h => Kind.noConfusion h, rfl⟩⟩
  simp only [if_pos h1, ← h1, if_true]
  by_cases h2 : o 2 = 0
  · simp only [if_pos h2, h2]
    exact Or.inr ⟨1, by decide, by simp, ⟨2, _, 0, _, rfl, (by decide : (0 : Int) ≠ 1), rfl, fun _ => rfl,
      fun h => Kind.noConfusion h, rfl⟩⟩
  simp only [if_neg h2]
  generalize o 2 = c at h2 ⊢
  by_cases h3 : ESP_OK = o 3
  swap
  · simp only [if_neg h3]
    exact Or.inr ⟨c, h2, by simp [h3], ⟨3, _, o 3, _, rfl, Ne.symm h3, rfl,
      fun h => Call.noConfusion h, fun h => Kind.noConfusion h, rfl⟩⟩
  simp only [if_pos h3, ← h3, if_true]
  by_cases h4 : ESP_OK = o 4
  swap
  · simp only [if_neg h4]
    exact Or.inr ⟨c, h2, by simp [h4], ⟨4, _, o 4, _, rfl, Ne.symm h4, rfl,
      fun h => Call.noConfusion h, fun h => Kind.noConfusion h, rfl⟩⟩
  simp only [if_pos h4, ← h4, if_true]
  by_cases h5 : ESP_OK = o 5
  swap
  · simp only [if_neg h5]
    exact Or.inr ⟨c, h2, by simp [h5], ⟨5, _, o 5, _, rfl, Ne.symm h5, rfl,
      fun h => Call.noConfusion h, fun h => Kind.noConfusion h, rfl⟩⟩
  simp only [if_pos h5, ← h5, if_true]
  by_cases h6 : ESP_OK = o 6
  swap
  · simp only [if_neg h6]
    exact Or.inr ⟨c, h2, by simp [h6], ⟨6, _, o 6, _, rfl, Ne.symm h6, rfl,
      fun h => Call.noConfusion h, fun h => Kind.noConfusion h, rfl⟩⟩
  simp only [if_pos h6, ← h6, if_true]
  by_cases h7 : ESP_OK = o 7
  swap
  · simp only [if_neg h7]
    exact Or.inr ⟨c, h2, by simp [h7], ⟨7, _, o 7, _, rfl, Ne.symm h7, rfl,
      fun h => Call.noConfusion h, fun h => Kind.noConfusion h, rfl⟩⟩
  simp only [if_pos h7, ← h7, if_true]
  by_cases h8 : ESP_OK = o 8
  swap
  · simp only [if_neg h8]
    exact Or.inr ⟨c, h2, by simp [h8], ⟨8, _, o 8, _, rfl, Ne.symm h8, rfl,
      fun h => Call.noConfusion h, fun _ => rfl, rfl⟩⟩
  simp only [if_pos h8, ← h8, if_true]
  by_cases h10 : ESP_OK = o 10
  swap
  · simp only [if_neg h10]
    exact Or.inr ⟨c, h2, by simp [h10], ⟨10, _, o 10, _, rfl, Ne.symm h10, rfl,
      fun h => Call.noConfusion h, fun h => Kind.noConfusion h, rfl⟩⟩
  simp only [if_pos h10, ← h10, if_true]
  by_cases h11 : ESP_OK = o 11
  swap
  · simp only [if_neg h11]
    exact Or.inr ⟨c, h2, by simp [h11], ⟨11, _, o 11, _, rfl, Ne.symm h11, rfl,
      fun h => Call.noConfusion h, fun h => Kind.noConfusion h, rfl⟩⟩
  simp only [if_pos h11, ← h11, if_true]
  by_cases h12 : pdTRUE = o 12
  swap
  · simp only [if_neg h12]
    exact Or.inr ⟨c, h2, by simp [h12], ⟨12, _, o 12, _, rfl, Ne.symm h12, rfl,
      fun h => Call.noConfusion h, fun h => Kind.noConfusion h, rfl⟩⟩
  simp only [if_pos h12, ← h12, if_true]
  exact Or.inl ⟨c, h2, by simp [h2], rfl⟩

theorem read_success_trace_many (P : Platform) (rt : SYS_I2C_RUNTIME)
    (id addr reg buf size : Nat) (c : i2c_cmd_handle_t) (hs : size > 1) :
    read_success_trace P rt id addr reg buf size c =
      [⟨.xSemaphoreTake (rt.lock (rt.unit id).port_num) portMAX_DELAY, pdTRUE⟩,
       ⟨.i2c_param_config (rt.unit id).port_num (attach_config P rt id), ESP_OK⟩,
       ⟨.i2c_cmd_link_create, c⟩,
       ⟨.i2c_master_start c, ESP_OK⟩,
       ⟨.i2c_master_write_byte c (addr_byte addr I2C_MASTER_WRITE) ESP32_I2C_ACK_CHECK_EN, ESP_OK⟩,
       ⟨.i2c_master_write_byte c reg ESP32_I2C_ACK_CHECK_EN, ESP_OK⟩,
       ⟨.i2c_master_start c, ESP_OK⟩,
       ⟨.i2c_master_write_byte c (addr_byte addr I2C_MASTER_READ) ESP32_I2C_ACK_CHECK_EN, ESP_OK⟩,
       ⟨.i2c_master_read c buf (size - 1) ESP32_I2C_ACK_VAL, ESP_OK⟩,
       ⟨.i2c_master_read_byte c (buf + size - 1) ESP32_I2C_NACK_VAL, ESP_OK⟩,
       ⟨.i2c_master_stop c, ESP_OK⟩,
       ⟨.i2c_master_cmd_begin (rt.unit id).port_num c (ESP32_I2C_BUS_TIMEOUT_TICK P), ESP_OK⟩,
       ⟨.i2c_cmd_link_delete c, 0⟩,
       ⟨.gpio_config (detach_config P (rt.unit id).scl_io_num), ESP_OK⟩,
       ⟨.gpio_config (detach_config P (rt.unit id).sda_io_num), ESP_OK⟩,
       ⟨.xSemaphoreGive (rt.lock (rt.unit id).port_num), pdTRUE⟩] := by
  simp [read_success_trace, hs]

theorem read_success_trace_one (P : Platform) (rt : SYS_I2C_RUNTIME)
    (id addr reg buf size : Nat) (c : i2c_cmd_handle_t) (hs : ¬ size > 1) :
    read_success_trace P rt id addr reg buf size c =
      [⟨.xSemaphoreTake (rt.lock (rt.unit id).port_num) portMAX_DELAY, pdTRUE⟩,
       ⟨.i2c_param_config (rt.unit id).port_num (attach_config P rt id), ESP_OK⟩,
       ⟨.i2c_cmd_link_create, c⟩,
       ⟨.i2c_master_start c, ESP_OK⟩,
       ⟨.i2c_master_write_byte c (addr_byte addr I2C_MASTER_WRITE) ESP32_I2C_ACK_CHECK_EN, ESP_OK⟩,
       ⟨.i2c_master_write_byte c reg ESP32_I2C_ACK_CHECK_EN, ESP_OK⟩,
       ⟨.i2c_master_start c, ESP_OK⟩,
       ⟨.i2c_master_write_byte c (addr_byte addr I2C_MASTER_READ) ESP32_I2C_ACK_CHECK_EN, ESP_OK⟩,
       ⟨.i2c_master_read_byte c (buf + size - 1) ESP32_I2C_NACK_VAL, ESP_OK⟩,
       ⟨.i2c_master_stop c, ESP_OK⟩,
       ⟨.i2c_master_cmd_begin (rt.unit id).port_num c (ESP32_I2C_BUS_TIMEOUT_TICK P), ESP_OK⟩,
       ⟨.i2c_cmd_link_delete c, 0⟩,
       ⟨.gpio_config (detach_config P (rt.unit id).scl_io_num), ESP_OK⟩,
       ⟨.gpio_config (detach_config P (rt.unit id).sda_io_num), ESP_OK⟩,
       ⟨.xSemaphoreGive (rt.lock (rt.unit id).port_num), pdTRUE⟩] := by
  simp [read_success_trace, hs]

/-- Every run of `sys_i2c_read` on accepted arguments is one of `RwCases`. -/
theorem read_cases (P : Platform) (rt : SYS_I2C_RUNTIME)
    (id addr reg buf size : Nat) (o : Nat → Int)
    (hid : id < P.SYS_I2C_ID_CNT) (haddr : addr < 128) (hbuf : buf ≠ 0) (hsize : size ≠ 0) :
    RwCases P rt id o (read_success_trace P rt id addr reg buf size)
      ((sys_i2c_read P rt id addr reg buf size).result o 0)
      ((sys_i2c_read P rt id addr reg buf size).trace o 0) := by
  show RwCases P rt id o (fun c => read_success_trace P rt id addr reg buf size c) _ _
  have hid' : P.SYS_I2C_ID_CNT > id := hid
  have haddr' : SYS_I2C_ADDR_INVALID > addr := haddr
  by_cases hs : size > 1
  · simp only [read_success_trace_many P rt id addr reg buf size _ hs]
    simp [sys_i2c_read, hid', haddr', hbuf, hsize, hs, sys_i2c_attach_pins,
      sys_i2c_detach_pins, Call.retOf, Call.isVoid]
    by_cases h0 : pdTRUE = o 0
    swap
    · simp only [if_neg h0]
      exact Or.inr ⟨1, by decide, by simp [h0], ⟨0, _, o 0, _, rfl, Ne.symm h0, rfl,
        fun h => Call.noConfusion h, fun h => Kind.noConfusion h, rfl⟩⟩
    simp only [if_pos h0, ← h0, if_true]
    by_cases h1 : ESP_OK = o 1
    swap
    · simp only [if_neg h1]
      exact Or.inr ⟨1, by decide, by simp [h1], ⟨1, _, o 1, _, rfl, Ne.symm h1, rfl,
        fun h => Call.noConfusion h, fun h => Kind.noConfusion h, rfl⟩⟩
    simp only [if_pos h1, ← h1, if_true]
    by_cases h2 : o 2 = 0
    · simp only [if_pos h2, h2]
      exact Or.inr ⟨1, by decide, by simp, ⟨2, _, 0, _, rfl, (by decide : (0 : Int) ≠ 1), rfl, fun _ => rfl,
        fun h => Kind.noConfusion h, rfl⟩⟩
    simp only [if_neg h2]
    generalize o 2 = c at h2 ⊢
    by_cases h3 : ESP_OK = o 3
    swap
    · simp only [if_neg h3]
      exact Or.inr ⟨c, h2, by simp [h3], ⟨3, _, o 3, _, rfl, Ne.symm h3, rfl,
        fun h => Call.noConfusion h, fun h => Kind.noConfusion h, rfl⟩⟩
    simp only [if_pos h3, ← h3, if_true]
    by_cases h4 : ESP_OK = o 4
    swap
    · simp only [if_neg h4]
      exact Or.inr ⟨c, h2, by simp [h4], ⟨4, _, o 4, _, rfl, Ne.symm h4, rfl,
        fun h => Call.noConfusion h, fun h => Kind.noConfusion h, rfl⟩⟩
    simp only [if_pos h4, ← h4, if_true]
    by_cases h5 : ESP_OK = o 5
    swap
    · simp only [if_neg h5]
      exact Or.inr ⟨c, h2, by simp [h5], ⟨5, _, o 5, _, rfl, Ne.symm h5, rfl,
        fun h => Call.noConfusion h, fun h => Kind.noConfusion h, rfl⟩⟩
    simp only [if_pos h5, ← h5, if_true]
    by_cases h6 : ESP_OK = o 6
    swap
    · simp only [if_neg h6]
      exact Or.inr ⟨c, h2, by simp [h6], ⟨6, _, o 6, _, rfl, Ne.symm h6, rfl,
        fun h => Call.noConfusion h, fun h => Kind.noConfusion h, rfl⟩⟩
    simp only [if_pos h6, ← h6, if_true]
    by_cases h7 : ESP_OK = o 7
    swap
    · simp only [if_neg h7]
      exact Or.inr ⟨c, h2, by simp [h7], ⟨7, _, o 7, _, rfl, Ne.symm h7, rfl,
        fun h => Call.noConfusion h, fun h => Kind.noConfusion h, rfl⟩⟩
    simp only [if_pos h7, ← h7, if_true]
    by_cases h8 : ESP_OK = o 8
    swap
    · simp only [if_neg h8]
      exact Or.inr ⟨c, h2, by simp [h8], ⟨8, _, o 8, _, rfl, Ne.symm h8, rfl,
        fun h => Call.noConfusion h, fun h => Kind.noConfusion h, rfl⟩⟩
    simp only [if_pos h8, ← h8, if_true]
    by_cases h9 : ESP_OK = o 9
    swap
    · simp only [if_neg h9]
      exact Or.inr ⟨c, h2, by simp [h9], ⟨9, _, o 9, _, rfl, Ne.symm h9, rfl,
        fun h => Call.noConfusion h, fun h => Kind.noConfusion h, rfl⟩⟩
    simp only [if_pos h9, ← h9, if_true]
    by_cases h10 : ESP_OK = o 10
    swap
    · simp only [if_neg h10]
      exact Or.inr ⟨c, h2, by simp [h10], ⟨10, _, o 10, _, rfl, Ne.symm h10, rfl,
        fun h => Call.noConfusion h, fun h => Kind.noConfusion h, rfl⟩⟩
    simp only [if_pos h10, ← h10, if_true]
    by_cases h11 : ESP_OK = o 11
    swap
    · simp only [if_neg h11]
      exact Or.inr ⟨c, h2, by simp [h11], ⟨11, _, o 11, _, rfl, Ne.symm h11, rfl,
        fun h => Call.noConfusion h, fun _ => rfl, rfl⟩⟩
    simp only [if_pos h11, ← h11, if_true]
    by_cases h13 : ESP_OK = o 13
    swap
    · simp only [if_neg h13]
      exact Or.inr ⟨c, h2, by simp [h13], ⟨13, _, o 13, _, rfl, Ne.symm h13, rfl,
        fun h => Call.noConfusion h, fun h => Kind.noConfusion h, rfl⟩⟩
    simp only [if_pos h13, ← h13, if_true]
    by_cases h14 : ESP_OK = o 14
    swap
    · simp only [if_neg h14]
      exact Or.inr ⟨c, h2, by simp [h14], ⟨14, _, o 14, _, rfl, Ne.symm h14, rfl,
        fun h => Call.noConfusion h, fun h => Kind.noConfusion h, rfl⟩⟩
    simp only [if_pos h14, ← h14, if_true]
    by_cases h15 : pdTRUE = o 15
    swap
    · simp only [if_neg h15]
      exact Or.inr ⟨c, h2, by simp [h15], ⟨15, _, o 15, _, rfl, Ne.symm h15, rfl,
        fun h => Call.noConfusion h, fun h => Kind.noConfusion h, rfl⟩⟩
    simp only [if_pos h15, ← h15, if_true]
    exact Or.inl ⟨c, h2, by simp [h2], rfl⟩
  · simp only [read_success_trace_one P rt id addr reg buf size _ hs]
    simp [sys_i2c_read, hid', haddr', hbuf, hsize, hs, sys_i2c_attach_pins,
      sys_i2c_detach_pins, Call.retOf, Call.isVoid]
    by_cases h0 : pdTRUE = o 0
    swap
    · simp only [if_neg h0]
      exact Or.inr ⟨1, by decide, by simp [h0], ⟨0, _, o 0, _, rfl, Ne.symm h0, rfl,
        fun h => Call.noConfusion h, fun h => Kind.noConfusion h, rfl⟩⟩
    simp only [if_pos h0, ← h0, if_true]
    by_cases h1 : ESP_OK = o 1
    swap
    · simp only [if_neg h1]
      exact Or.inr ⟨1, by decide, by simp [h1], ⟨1, _, o 1, _, rfl, Ne.symm h1, rfl,
        fun h => Call.noConfusion h, fun h => Kind.noConfusion h, rfl⟩⟩
    simp only [if_pos h1, ← h1, if_true]
    by_cases h2 : o 2 = 0
    · simp only [if_pos h2, h2]
      exact Or.inr ⟨1, by decide, by simp, ⟨2, _, 0, _, rfl, (by decide : (0 : Int) ≠ 1), rfl, fun _ => rfl,
        fun h => Kind.noConfusion h, rfl⟩⟩
    simp only [if_neg h2]
    generalize o 2 = c at h2 ⊢
    by_cases h3 : ESP_OK = o 3
    swap
    · simp only [if_neg h3]
      exact Or.inr ⟨c, h2, by simp [h3], ⟨3, _, o 3, _, rfl, Ne.symm h3, rfl,
        fun h => Call.noConfusion h, fun h => Kind.noConfusion h, rfl⟩⟩
    simp only [if_pos h3, ← h3, if_true]
    by_cases h4 : ESP_OK = o 4
    swap
    · simp only [if_neg h4]
      exact Or.inr ⟨c, h2, by simp [h4], ⟨4, _, o 4, _, rfl, Ne.symm h4, rfl,
        fun h => Call.noConfusion h, fun h => Kind.noConfusion h, rfl⟩⟩
    simp only [if_pos h4, ← h4, if_true]
    by_cases h5 : ESP_OK = o 5
    swap
    · simp only [if_neg h5]
      exact Or.inr ⟨c, h2, by simp [h5], ⟨5, _, o 5, _, rfl, Ne.symm h5, rfl,
        fun h => Call.noConfusion h, fun h => Kind.noConfusion h, rfl⟩⟩
    simp only [if_pos h5, ← h5, if_true]
    by_cases h6 : ESP_OK = o 6
    swap
    · simp only [if_neg h6]
      exact Or.inr ⟨c, h2, by simp [h6], ⟨6, _, o 6, _, rfl, Ne.symm h6, rfl,
        fun h => Call.noConfusion h, fun h => Kind.noConfusion h, rfl⟩⟩
    simp only [if_pos h6, ← h6, if_true]
    by_cases h7 : ESP_OK = o 7
    swap
    · simp only [if_neg h7]
      exact Or.inr ⟨c, h2, by simp [h7], ⟨7, _, o 7, _, rfl, Ne.symm h7, rfl,
        fun h => Call.noConfusion h, fun h => Kind.noConfusion h, rfl⟩⟩
    simp only [if_pos h7, ← h7, if_true]
    by_cases h8 : ESP_OK = o 8
    swap
    · simp only [if_neg h8]
      exact Or.inr ⟨c, h2, by simp [h8], ⟨8, _, o 8, _, rfl, Ne.symm h8, rfl,
        fun h => Call.noConfusion h, fun h => Kind.noConfusion h, rfl⟩⟩
    simp only [if_pos h8, ← h8, if_true]
    by_cases h9 : ESP_OK = o 9
    swap
    · simp only [if_neg h9]
      exact Or.inr ⟨c, h2, by simp [h9], ⟨9, _, o 9, _, rfl, Ne.symm h9, rfl,
        fun h => Call.noConfusion h, fun h => Kind.noConfusion h, rfl⟩⟩
    simp only [if_pos h9, ← h9, if_true]
    by_cases h10 : ESP_OK = o 10
    swap
    · simp only [if_neg h10]
      exact Or.inr ⟨c, h2, by simp [h10], ⟨10, _, o 10, _, rfl, Ne.symm h10, rfl,
        fun h => Call.noConfusion h, fun _ => rfl, rfl⟩⟩
    simp only [if_pos h10, ← h10, if_true]
    by_cases h12 : ESP_OK = o 12
    swap
    · simp only [if_neg h12]
      exact Or.inr ⟨c, h2, by simp [h12], ⟨12, _, o 12, _, rfl, Ne.symm h12, rfl,
        fun h => Call.noConfusion h, fun h => Kind.noConfusion h, rfl⟩⟩
    simp only [if_pos h12, ← h12, if_true]
    by_cases h13 : ESP_OK = o 13
    swap
    · simp only [if_neg h13]
      exact Or.inr ⟨c, h2, by simp [h13], ⟨13, _, o 13, _, rfl, Ne.symm h13, rfl,
        fun h => Call.noConfusion h, fun h => Kind.noConfusion h, rfl⟩⟩
    simp only [if_pos h13, ← h13, if_true]
    by_cases h14 : pdTRUE = o 14
    swap
    · simp only [if_neg h14]
      exact Or.inr ⟨c, h2, by simp [h14], ⟨14, _, o 14, _, rfl, Ne.symm h14, rfl,
        fun h => Call.noConfusion h, fun h => Kind.noConfusion h, rfl⟩⟩
    simp only [if_pos h14, ← h14, if_true]
    exact Or.inl ⟨c, h2, by simp [h2], rfl⟩

/-! ## Shape of the successful sequences -/

theorem Call.isVoid_of_kind_delete (c : Call) (h : c.kind = .delete) : c.isVoid = true := by
  cases c <;> first | rfl | exact Kind.noConfusion h

theorem probe_success_rets (P : Platform) (rt : SYS_I2C_RUNTIME) (id addr : Nat)
    (c : i2c_cmd_handle_t) (x : esp_err_t) :
    ∀ a ∈ probe_success_trace P rt id addr c x, SuccessRet a := by
  simp [probe_success_trace, SuccessRet]

theorem write_success_rets (P : Platform) (rt : SYS_I2C_RUNTIME) (id addr reg buf size : Nat)
    (c : i2c_cmd_handle_t) :
    ∀ a ∈ write_success_trace P rt id addr reg buf size c, SuccessRet a := by
  simp [write_success_trace, SuccessRet]

theorem read_success_rets (P : Platform) (rt : SYS_I2C_RUNTIME) (id addr reg buf size : Nat)
    (c : i2c_cmd_handle_t) :
    ∀ a ∈ read_success_trace P rt id addr reg buf size c, SuccessRet a := by
  by_cases hs : size > 1
  · rw [read_success_trace_many P rt id addr reg buf size c hs]
    simp [SuccessRet]
  · rw [read_success_trace_one P rt id addr reg buf size c hs]
    simp [SuccessRet]

theorem probe_exec_last (P : Platform) (rt : SYS_I2C_RUNTIME) (id addr : Nat)
    (c : i2c_cmd_handle_t) (x : esp_err_t) :
    ExecLast (probe_success_trace P rt id addr c x) := by
  intro j e hS hk
  have hj : j < 11 := by
    have := (List.getElem?_eq_some.1 hS).1
    simpa [probe_success_trace] using this
  interval_cases j <;> simp [probe_success_trace] at hS <;> subst hS <;>
    simp [probe_success_trace] at hk ⊢

theorem write_exec_last (P : Platform) (rt : SYS_I2C_RUNTIME) (id addr reg buf size : Nat)
    (c : i2c_cmd_handle_t) :
    ExecLast (write_success_trace P rt id addr reg buf size c) := by
  intro j e hS hk
  have hj : j < 13 := by
    have := (List.getElem?_eq_some.1 hS).1
    simpa [write_success_trace] using this
  interval_cases j <;> simp [write_success_trace] at hS <;> subst hS <;>
    simp [write_success_trace] at hk ⊢

theorem read_exec_last (P : Platform) (rt : SYS_I2C_RUNTIME) (id addr reg buf size : Nat)
    (c : i2c_cmd_handle_t) :
    ExecLast (read_success_trace P rt id addr reg buf size c) := by
  by_cases hs : size > 1
  · rw [read_success_trace_many P rt id addr reg buf size c hs]
    intro j e hS hk
    have hj : j < 16 := by
      have := (List.getElem?_eq_some.1 hS).1
      simpa using this
    interval_cases j <;> simp at hS <;> subst hS <;> simp at hk ⊢
  · rw [read_success_trace_one P rt id addr reg buf size c hs]
    intro j e hS hk
    have hj : j < 15 := by
      have := (List.getElem?_eq_some.1 hS).1
      simpa using this
    interval_cases j <;> simp at hS <;> subst hS <;> simp at hk ⊢

/-- The call at which a run left the successful sequence, when every lock call, attach
call and detach call of the run succeeded: a composition step or the executor. -/
theorem failed_call_kind (S tr tail : List Ev) (e : Ev) (r : Int) (j : Nat)
    (hS : S[j]? = some e) (hrets : ∀ a ∈ S, SuccessRet a) (hr : r ≠ e.ret)
    (hv : e.call.isVoid = false) (htr : tr = S.take j ++ ⟨e.call, r⟩ :: tail)
    (hlock : ∀ a ∈ tr, a.call.kind = .take ∨ a.call.kind = .give → a.ret = pdTRUE)
    (hattach : ∀ a ∈ tr, a.call.kind = .attach → a.ret = ESP_OK)
    (hdetach : ∀ a ∈ tr, a.call.kind = .detach → a.ret = ESP_OK) :
    e.call.kind = .compose ∨ e.call.kind = .exec := by
  have hmem : e ∈ S := List.getElem?_mem hS
  have hev : (⟨e.call, r⟩ : Ev) ∈ tr := by rw [htr]; simp
  obtain ⟨h1, h2, h3⟩ := hrets e hmem
  have l := hlock _ hev
  have a := hattach _ hev
  have d := hdetach _ hev
  simp only at l a d
  cases hk : e.call.kind
  · exact absurd ((l (Or.inl hk)).trans (h1 (Or.inl hk)).symm) hr
  · exact absurd ((l (Or.inr hk)).trans (h1 (Or.inr hk)).symm) hr
  · exact absurd ((a hk).trans (h2 (Or.inl hk)).symm) hr
  · exact absurd ((d hk).trans (h2 (Or.inr hk)).symm) hr
  · exact Or.inl rfl
  · exact Or.inr rfl
  · rw [Call.isVoid_of_kind_delete _ hk] at hv; exact absurd hv (by decide)
  · exact absurd hk h3

/-- In a run that left the successful sequence at a lock acquisition, an attach, a
composition step or the executor, the only call that can be the executor is the one at
which the run left the sequence. -/
theorem exec_of_stopped (P : Platform) (rt : SYS_I2C_RUNTIME) (id : Nat) (l : Bool)
    (c : i2c_cmd_handle_t) (p : i2c_port_t) (o : Nat → Int) (m : Nat) (S tr : List Ev)
    (e : Ev) (r : Int) (j : Nat) (hlast : ExecLast S) (hS : S[j]? = some e)
    (hk : e.call.kind = .take ∨ e.call.kind = .attach ∨ e.call.kind = .compose ∨
      e.call.kind = .exec)
    (htr : tr = S.take j ++ ⟨e.call, r⟩ :: fail_trace P rt id l c p o m)
    (a : Ev) (ha : a ∈ tr) (hak : a.call.kind = .exec) : a = ⟨e.call, r⟩ := by
  rw [htr] at ha
  rcases List.mem_append.1 ha with h | h
  · exact absurd hak (hlast j e hS hk a h)
  · rcases List.mem_cons.1 h with h | h
    · exact h
    · exact absurd ⟨a, h, hak, trivial⟩ (fail_trace_no_exec P rt id l c p o m (fun _ => True))

/-! ## Rejected arguments -/

/-- A `sys_i2c_read` that returns true was given accepted arguments. -/
theorem read_accepts (P : Platform) (rt : SYS_I2C_RUNTIME)
    (id addr reg buf size : Nat) (o : Nat → Int)
    (h : (sys_i2c_read P rt id addr reg buf size).result o 0 = true) :
    id < P.SYS_I2C_ID_CNT ∧ addr < 128 ∧ buf ≠ 0 ∧ size ≠ 0 := by
  unfold sys_i2c_read at h
  by_cases h1 : P.SYS_I2C_ID_CNT > id
  swap
  · rw [if_pos h1] at h; simp at h
  by_cases h2 : SYS_I2C_ADDR_INVALID > addr
  swap
  · rw [if_neg (not_not.2 h1), if_pos h2] at h; simp at h
  by_cases h3 : buf = 0
  · rw [if_neg (not_not.2 h1), if_neg (not_not.2 h2), if_pos h3] at h; simp at h
  by_cases h4 : size = 0
  · rw [if_neg (not_not.2 h1), if_neg (not_not.2 h2), if_neg h3, if_pos h4] at h; simp at h
  exact ⟨h1, h2, h3, h4⟩

/-- A `sys_i2c_write` that returns true was given accepted arguments. -/
theorem write_accepts (P : Platform) (rt : SYS_I2C_RUNTIME)
    (id addr reg buf size : Nat) (o : Nat → Int)
    (h : (sys_i2c_write P rt id addr reg buf size).result o 0 = true) :
    id < P.SYS_I2C_ID_CNT ∧ addr < 128 ∧ buf ≠ 0 ∧ size ≠ 0 := by
  unfold sys_i2c_write at h
  by_cases h1 : P.SYS_I2C_ID_CNT > id
  swap
  · rw [if_pos h1] at h; simp at h
  by_cases h2 : SYS_I2C_ADDR_INVALID > addr
  swap
  · rw [if_neg (not_not.2 h1), if_pos h2] at h; simp at h
  by_cases h3 : buf = 0
  · rw [if_neg (not_not.2 h1), if_neg (not_not.2 h2), if_pos h3] at h; simp at h
  by_cases h4 : size = 0
  · rw [if_neg (not_not.2 h1), if_neg (not_not.2 h2), if_neg h3, if_pos h4] at h; simp at h
  exact ⟨h1, h2, h3, h4⟩

/-! ## Claims on the transaction engine -/

/-- C1: on accepted arguments (valid bus id, address below 128, non-null flag pointer),
when every lock call, every attach call and every detach call of the run succeeds and the
executor is invoked and returns `x`, `sys_i2c_probe` returns true with the flag set when
`x` is `ESP_OK` (acknowledge), true with the flag cleared when `x` is `ESP_FAIL` (no
acknowledge), and false for every other `x`. -/
theorem probe_outcome_table (P : Platform) (rt : SYS_I2C_RUNTIME)
    (sys_i2c_id i2c_addr_num found_flag_addr : Nat) (found_flag : Bool) (o : Nat → Int)
    (hid : sys_i2c_id < P.SYS_I2C_ID_CNT) (haddr : i2c_addr_num < 128)
    (hflag : found_flag_addr ≠ 0)
    (hlock : ∀ e ∈ (sys_i2c_probe P rt sys_i2c_id i2c_addr_num found_flag_addr found_flag).trace
      o 0, e.call.kind = .take ∨ e.call.kind = .give → e.ret = pdTRUE)
    (hattach : ∀ e ∈
      (sys_i2c_probe P rt sys_i2c_id i2c_addr_num found_flag_addr found_flag).trace o 0,
      e.call.kind = .attach → e.ret = ESP_OK)
    (hdetach : ∀ e ∈
      (sys_i2c_probe P rt sys_i2c_id i2c_addr_num found_flag_addr found_flag).trace o 0,
      e.call.kind = .detach → e.ret = ESP_OK)
    (x : esp_err_t)
    (hexec : ∃ e ∈
      (sys_i2c_probe P rt sys_i2c_id i2c_addr_num found_flag_addr found_flag).trace o 0,
      e.call.kind = .exec ∧ e.ret = x) :
    (x = ESP_OK →
      (sys_i2c_probe P rt sys_i2c_id i2c_addr_num found_flag_addr found_flag).result o 0 =
        ⟨true, true⟩) ∧
    (x = ESP_FAIL →
      (sys_i2c_probe P rt sys_i2c_id i2c_addr_num found_flag_addr found_flag).result o 0 =
        ⟨true, false⟩) ∧
    (x ≠ ESP_OK → x ≠ ESP_FAIL →
      ((sys_i2c_probe P rt sys_i2c_id i2c_addr_num found_flag_addr found_flag).result o 0).ret =
        false) := by
  have hnx := fail_trace_no_exec P rt sys_i2c_id
  rcases probe_cases P rt sys_i2c_id i2c_addr_num found_flag_addr found_flag o hid haddr hflag
    with ⟨c, -, hres, htr⟩ | ⟨c, -, hres, htr⟩ | ⟨c, x', m, -, hx1, hx2, hres, htr⟩ |
      ⟨c, x', -, hres, j, e, r, m, hS, hr, hv, -, hex, htr⟩
  · rw [htr] at hexec
    obtain rfl : ESP_OK = x := by simpa [probe_success_trace] using hexec
    simp [hres, ESP_OK, ESP_FAIL]
  · rw [htr] at hexec
    obtain rfl : ESP_FAIL = x := by simpa [probe_success_trace] using hexec
    simp [hres, ESP_OK, ESP_FAIL]
  · rw [htr] at hexec
    simp only [List.mem_append, or_and_right, exists_or, hnx, or_false] at hexec
    obtain rfl : x' = x := by simpa [probe_success_trace] using hexec
    simp [hres, hx1, hx2]
  · exfalso
    rcases failed_call_kind _ _ _ e r j hS (probe_success_rets P rt _ _ c x') hr hv htr
      hlock hattach hdetach with hk | hk
    · obtain ⟨a, ha, hak, -⟩ := hexec
      have := exec_of_stopped P rt _ _ _ _ o m _ _ e r j (probe_exec_last P rt _ _ c x') hS
        (Or.inr (Or.inr (Or.inl hk))) htr a ha hak
      subst this
      rw [hk] at hak
      exact Kind.noConfusion hak
    · exact absurd (hex hk) (by decide)

/-- C6: whenever `sys_i2c_read` or `sys_i2c_write` returns true, the calls of the run are
exactly the successful sequence for some non-null command link `c`: the executor is
invoked once, on the controller assigned to the logical bus, with the composed link, and
it returned `ESP_OK`. -/
theorem success_runs_one_transaction (P : Platform) (rt : SYS_I2C_RUNTIME)
    (sys_i2c_id i2c_addr_num i2c_reg_num buf_addr buf_size : Nat) (o : Nat → Int) :
    ((sys_i2c_read P rt sys_i2c_id i2c_addr_num i2c_reg_num buf_addr buf_size).result o 0 =
        true →
      ∃ c, c ≠ 0 ∧
        (sys_i2c_read P rt sys_i2c_id i2c_addr_num i2c_reg_num buf_addr buf_size).trace o 0 =
          read_success_trace P rt sys_i2c_id i2c_addr_num i2c_reg_num buf_addr buf_size c ∧
        ((sys_i2c_read P rt sys_i2c_id i2c_addr_num i2c_reg_num buf_addr buf_size).trace
            o 0).filter (fun e => e.call.kind = .exec) =
          [⟨.i2c_master_cmd_begin (rt.unit sys_i2c_id).port_num c
            (ESP32_I2C_BUS_TIMEOUT_TICK P), ESP_OK⟩]) ∧
    ((sys_i2c_write P rt sys_i2c_id i2c_addr_num i2c_reg_num buf_addr buf_size).result o 0 =
        true →
      ∃ c, c ≠ 0 ∧
        (sys_i2c_write P rt sys_i2c_id i2c_addr_num i2c_reg_num buf_addr buf_size).trace o 0 =
          write_success_trace P rt sys_i2c_id i2c_addr_num i2c_reg_num buf_addr buf_size c ∧
        ((sys_i2c_write P rt sys_i2c_id i2c_addr_num i2c_reg_num buf_addr buf_size).trace
            o 0).filter (fun e => e.call.kind = .exec) =
          [⟨.i2c_master_cmd_begin (rt.unit sys_i2c_id).port_num c
            (ESP32_I2C_BUS_TIMEOUT_TICK P), ESP_OK⟩]) := by
  constructor
  · intro h
    have hargs := read_accepts P rt sys_i2c_id i2c_addr_num i2c_reg_num buf_addr buf_size o h
    rcases read_cases P rt sys_i2c_id i2c_addr_num i2c_reg_num buf_addr buf_size o
      hargs.1 hargs.2.1 hargs.2.2.1 hargs.2.2.2 with ⟨c, hc, -, htr⟩ | ⟨c, -, hres, -⟩
    · refine ⟨c, hc, htr, ?_⟩
      rw [htr]
      by_cases hs : buf_size > 1
      · rw [read_success_trace_many P rt _ _ _ _ _ c hs]; simp [List.filter]
      · rw [read_success_trace_one P rt _ _ _ _ _ c hs]; simp [List.filter]
    · rw [hres] at h; exact absurd h (by decide)
  · intro h
    have hargs := write_accepts P rt sys_i2c_id i2c_addr_num i2c_reg_num buf_addr buf_size o h
    rcases write_cases P rt sys_i2c_id i2c_addr_num i2c_reg_num buf_addr buf_size o
      hargs.1 hargs.2.1 hargs.2.2.1 hargs.2.2.2 with ⟨c, hc, -, htr⟩ | ⟨c, -, hres, -⟩
    · refine ⟨c, hc, htr, ?_⟩
      rw [htr]
      simp [write_success_trace, List.filter]
    · rw [hres] at h; exact absurd h (by decide)

/-- Witness of C1: against the mock in which only the device at `0x3C` acknowledges, on
the bus of the repository (id 0, controller 0, clock 400000, pins (4, 3)), probing `0x3C`
returns true with the flag set and probing `0x3D` returns true with the flag cleared. -/
theorem probe_outcome_table_witness :
    ((sys_i2c_probe esp32 runtime0 0 0x3C 1 false).exec (mock_device 0x3C) none).1 =
      ⟨true, true⟩ ∧
    ((sys_i2c_probe esp32 runtime0 0 0x3D 1 false).exec (mock_device 0x3C) none).1 =
      ⟨true, false⟩ := by
  constructor
  · rw [Prog.exec_eq_oracle]
    exact (probe_outcome_table esp32 runtime0 0 0x3C 1 false _ (by decide) (by decide)
      (by decide) (by decide) (by decide) (by decide) ESP_OK (by decide)).1 rfl
  · rw [Prog.exec_eq_oracle]
    exact (probe_outcome_table esp32 runtime0 0 0x3D 1 false _ (by decide) (by decide)
      (by decide) (by decide) (by decide) (by decide) ESP_FAIL (by decide)).2.1 rfl

/-- On rejected arguments `sys_i2c_read` only runs the `fail:` block, with `lock_taken`
false and `i2c_cmd` null, and returns false. -/
theorem read_rejects (P : Platform) (rt : SYS_I2C_RUNTIME)
    (id addr reg buf size : Nat) (o : Nat → Int)
    (h : ¬ id < P.SYS_I2C_ID_CNT ∨ ¬ addr < 128 ∨ buf = 0 ∨ size = 0) :
    (sys_i2c_read P rt id addr reg buf size).result o 0 = false ∧
    (sys_i2c_read P rt id addr reg buf size).trace o 0 = fail_trace P rt id false 0 0 o 0 := by
  unfold sys_i2c_read
  by_cases h1 : P.SYS_I2C_ID_CNT > id
  swap
  · rw [if_pos h1]; exact ⟨result_fail_exit .., trace_fail_exit ..⟩
  rw [if_neg (not_not.2 h1)]
  by_cases h2 : SYS_I2C_ADDR_INVALID > addr
  swap
  · rw [if_pos h2]; exact ⟨result_fail_exit .., trace_fail_exit ..⟩
  rw [if_neg (not_not.2 h2)]
  by_cases h3 : buf = 0
  · rw [if_pos h3]; exact ⟨result_fail_exit .., trace_fail_exit ..⟩
  rw [if_neg h3]
  by_cases h4 : size = 0
  · rw [if_pos h4]; exact ⟨result_fail_exit .., trace_fail_exit ..⟩
  rcases h with h | h | h | h
  · exact absurd h1 h
  · exact absurd h2 h
  · exact absurd h h3
  · exact absurd h h4

/-- On rejected arguments `sys_i2c_write` only runs the `fail:` block, with `lock_taken`
false and `i2c_cmd` null, and returns false. -/
theorem write_rejects (P : Platform) (rt : SYS_I2C_RUNTIME)
    (id addr reg buf size : Nat) (o : Nat → Int)
    (h : ¬ id < P.SYS_I2C_ID_CNT ∨ ¬ addr < 128 ∨ buf = 0 ∨ size = 0) :
    (sys_i2c_write P rt id addr reg buf size).result o 0 = false ∧
    (sys_i2c_write P rt id addr reg buf size).trace o 0 = fail_trace P rt id false 0 0 o 0 := by
  unfold sys_i2c_write
  by_cases h1 : P.SYS_I2C_ID_CNT > id
  swap
  · rw [if_pos h1]; exact ⟨result_fail_exit .., trace_fail_exit ..⟩
  rw [if_neg (not_not.2 h1)]
  by_cases h2 : SYS_I2C_ADDR_INVALID > addr
  swap
  · rw [if_pos h2]; exact ⟨result_fail_exit .., trace_fail_exit ..⟩
  rw [if_neg (not_not.2 h2)]
  by_cases h3 : buf = 0
  · rw [if_pos h3]; exact ⟨result_fail_exit .., trace_fail_exit ..⟩
  rw [if_neg h3]
  by_cases h4 : size = 0
  · rw [if_pos h4]; exact ⟨result_fail_exit .., trace_fail_exit ..⟩
  rcases h with h | h | h | h
  · exact absurd h1 h
  · exact absurd h2 h
  · exact absurd h h3
  · exact absurd h h4

/-- On rejected arguments `sys_i2c_probe` only runs the `fail:` block, with `lock_taken`
false and `i2c_cmd` null, returns false and leaves the flag as it was. -/
theorem probe_rejects (P : Platform) (rt : SYS_I2C_RUNTIME)
    (id addr fa : Nat) (flag : Bool) (o : Nat → Int)
    (h : ¬ id < P.SYS_I2C_ID_CNT ∨ ¬ addr < 128 ∨ fa = 0) :
    (sys_i2c_probe P rt id addr fa flag).result o 0 = ⟨false, flag⟩ ∧
    (sys_i2c_probe P rt id addr fa flag).trace o 0 = fail_trace P rt id false 0 0 o 0 := by
  unfold sys_i2c_probe
  by_cases h1 : P.SYS_I2C_ID_CNT > id
  swap
  · rw [if_pos h1]; exact ⟨result_fail_exit .., trace_fail_exit ..⟩
  rw [if_neg (not_not.2 h1)]
  by_cases h2 : SYS_I2C_ADDR_INVALID > addr
  swap
  · rw [if_pos h2]; exact ⟨result_fail_exit .., trace_fail_exit ..⟩
  rw [if_neg (not_not.2 h2)]
  by_cases h3 : fa = 0
  · rw [if_pos h3]; exact ⟨result_fail_exit .., trace_fail_exit ..⟩
  rcases h with h | h | h
  · exact absurd h1 h
  · exact absurd h2 h
  · exact absurd h h3

/-- With `lock_taken` false and `i2c_cmd` null the `fail:` block is one run of
`sys_i2c_detach_pins`. -/
theorem fail_trace_unlocked (P : Platform) (rt : SYS_I2C_RUNTIME) (id : Nat)
    (p : i2c_port_t) (o : Nat → Int) (n : Nat) :
    fail_trace P rt id false 0 p o n = (sys_i2c_detach_pins P rt id).trace o n := by
  obtain ⟨k, hk⟩ := fail_trace_eq P rt id false 0 p o n
  simpa using hk

/-- A run of `sys_i2c_detach_pins` only calls `gpio_config`. -/
theorem detach_trace_kind (P : Platform) (rt : SYS_I2C_RUNTIME) (id : Nat)
    (o : Nat → Int) (n : Nat) :
    ∀ e ∈ (sys_i2c_detach_pins P rt id).trace o n, e.call.kind = .detach := by
  intro e he
  rw [← fail_trace_unlocked P rt id 0 o n] at he
  rcases fail_trace_kind P rt id false 0 0 o n e he with h | h | ⟨h, -⟩
  · exact h
  · obtain ⟨k, hk⟩ := fail_trace_eq P rt id false 0 0 o n
    rw [fail_trace_unlocked] at he
    simp only [sys_i2c_detach_pins, Prog.trace_ite, Prog.trace_call, Prog.trace_done] at he
    split_ifs at he <;> simp at he <;> rcases he with rfl | rfl <;> simp at h
  · exact absurd h (by decide)

/-- C5: `sys_i2c_read` and `sys_i2c_write` return false when the bus id is not below
`SYS_I2C_ID_CNT`, or the device address is not below 128, or the buffer pointer is null,
or the length is 0; `sys_i2c_probe` returns false when the bus id or the device address
is out of range or the flag pointer is null. In each of these cases the calls of the run
are those of one `sys_i2c_detach_pins`, all of them `gpio_config`: the lock is never
taken, no command is created or composed, the executor is never invoked. The register
address is not checked: with the other arguments accepted, `sys_i2c_read` and
`sys_i2c_write` begin with the acquisition of the lock for every register address. -/
theorem argument_rejection (P : Platform) (rt : SYS_I2C_RUNTIME)
    (sys_i2c_id i2c_addr_num i2c_reg_num buf_addr buf_size found_flag_addr : Nat)
    (found_flag : Bool) (o : Nat → Int) :
    ((¬ sys_i2c_id < P.SYS_I2C_ID_CNT ∨ ¬ i2c_addr_num < 128 ∨ buf_addr = 0 ∨ buf_size = 0) →
      (sys_i2c_read P rt sys_i2c_id i2c_addr_num i2c_reg_num buf_addr buf_size).result o 0 =
        false ∧
      (sys_i2c_read P rt sys_i2c_id i2c_addr_num i2c_reg_num buf_addr buf_size).trace o 0 =
        (sys_i2c_detach_pins P rt sys_i2c_id).trace o 0 ∧
      (sys_i2c_write P rt sys_i2c_id i2c_addr_num i2c_reg_num buf_addr buf_size).result o 0 =
        false ∧
      (sys_i2c_write P rt sys_i2c_id i2c_addr_num i2c_reg_num buf_addr buf_size).trace o 0 =
        (sys_i2c_detach_pins P rt sys_i2c_id).trace o 0) ∧
    ((¬ sys_i2c_id < P.SYS_I2C_ID_CNT ∨ ¬ i2c_addr_num < 128 ∨ found_flag_addr = 0) →
      ((sys_i2c_probe P rt sys_i2c_id i2c_addr_num found_flag_addr found_flag).result o 0).ret =
        false ∧
      (sys_i2c_probe P rt sys_i2c_id i2c_addr_num found_flag_addr found_flag).trace o 0 =
        (sys_i2c_detach_pins P rt sys_i2c_id).trace o 0) ∧
    (∀ e ∈ (sys_i2c_detach_pins P rt sys_i2c_id).trace o 0,
      e.call.kind = .detach ∧ e.call.kind ≠ .take ∧ e.call.kind ≠ .compose ∧
        e.call.kind ≠ .exec) ∧
    (sys_i2c_id < P.SYS_I2C_ID_CNT → i2c_addr_num < 128 → buf_addr ≠ 0 → buf_size ≠ 0 →
      ((sys_i2c_read P rt sys_i2c_id i2c_addr_num i2c_reg_num buf_addr buf_size).trace
          o 0).head? =
        some ⟨.xSemaphoreTake (rt.lock (rt.unit sys_i2c_id).port_num) portMAX_DELAY, o 0⟩ ∧
      ((sys_i2c_write P rt sys_i2c_id i2c_addr_num i2c_reg_num buf_addr buf_size).trace
          o 0).head? =
        some ⟨.xSemaphoreTake (rt.lock (rt.unit sys_i2c_id).port_num) portMAX_DELAY, o 0⟩) := by
  refine ⟨fun h => ?_, fun h => ?_, fun e he => ?_, fun h1 h2 h3 h4 => ?_⟩
  · obtain ⟨r1, r2⟩ := read_rejects P rt sys_i2c_id i2c_addr_num i2c_reg_num buf_addr buf_size o h
    obtain ⟨w1, w2⟩ := write_rejects P rt sys_i2c_id i2c_addr_num i2c_reg_num buf_addr buf_size o h
    rw [fail_trace_unlocked] at r2 w2
    exact ⟨r1, r2, w1, w2⟩
  · obtain ⟨p1, p2⟩ := probe_rejects P rt sys_i2c_id i2c_addr_num found_flag_addr found_flag o h
    rw [fail_trace_unlocked] at p2
    rw [p1]
    exact ⟨rfl, p2⟩
  · have := detach_trace_kind P rt sys_i2c_id o 0 e he
    simp [this]
  · have h1' : P.SYS_I2C_ID_CNT > sys_i2c_id := h1
    have h2' : SYS_I2C_ADDR_INVALID > i2c_addr_num := h2
    constructor
    · unfold sys_i2c_read
      rw [if_neg (not_not.2 h1'), if_neg (not_not.2 h2'), if_neg h3, if_neg h4]
      rfl
    · unfold sys_i2c_write
      rw [if_neg (not_not.2 h1'), if_neg (not_not.2 h2'), if_neg h3, if_neg h4]
      rfl

/-- Witness of C5: on the bus of the repository a read from the device address 128 is
rejected, and a read with accepted arguments from register 255 begins by taking the
lock. -/
theorem argument_rejection_witness :
    (sys_i2c_read esp32 runtime0 0 128 0 1 1).result (script []) 0 = false ∧
    ((sys_i2c_read esp32 runtime0 0 0x3C 255 1 1).trace (script []) 0).head? =
      some ⟨.xSemaphoreTake 1 portMAX_DELAY, 0⟩ :=
  ⟨((argument_rejection esp32 runtime0 0 128 0 1 1 1 false (script [])).1
      (Or.inr (Or.inl (by decide)))).1,
   ((argument_rejection esp32 runtime0 0 0x3C 255 1 1 1 false (script [])).2.2.2
      (by decide) (by decide) (by decide) (by decide)).1⟩

/-- A run of `sys_i2c_detach_pins` for a valid bus id begins with `gpio_config` on the
clock pin. -/
theorem detach_trace_head (P : Platform) (rt : SYS_I2C_RUNTIME) (id : Nat)
    (o : Nat → Int) (n : Nat) (hid : id < P.SYS_I2C_ID_CNT) :
    ((sys_i2c_detach_pins P rt id).trace o n).head? =
      some ⟨.gpio_config (detach_config P (rt.unit id).scl_io_num), o n⟩ := by
  have hid' : P.SYS_I2C_ID_CNT > id := hid
  unfold sys_i2c_detach_pins
  rw [if_neg (not_not.2 hid')]
  rfl

/-- A trace that continues a successful lock acquisition with the `fail:` block, run
with `lock_taken` set, ends cleaned up. -/
theorem cleaned_of_fail (P : Platform) (rt : SYS_I2C_RUNTIME) (id : Nat) (o : Nat → Int)
    (hid : id < P.SYS_I2C_ID_CNT) (mid : List Ev) (c : i2c_cmd_handle_t) (m : Nat) :
    CleanedUp P rt id o
      (⟨.xSemaphoreTake (rt.lock (rt.unit id).port_num) portMAX_DELAY, pdTRUE⟩ ::
        (mid ++ fail_trace P rt id true c (rt.unit id).port_num o m)) := by
  obtain ⟨k, hk⟩ := fail_trace_eq P rt id true c (rt.unit id).port_num o m
  refine ⟨mid, if c ≠ 0 then [⟨.i2c_cmd_link_delete c, 0⟩] else [], m, o k, ?_,
    detach_trace_head P rt id o m hid, ?_⟩
  · rw [hk]; simp [List.append_assoc]
  · intro e he
    split_ifs at he <;> simp at he
    subst he; rfl

/-- A run that took the lock and then left the successful sequence ends cleaned up. -/
theorem cleaned_of_stopped (P : Platform) (rt : SYS_I2C_RUNTIME) (id : Nat) (o : Nat → Int)
    (hid : id < P.SYS_I2C_ID_CNT) (b : Bool) (S : List Ev) (c : i2c_cmd_handle_t)
    (tr : List Ev)
    (hst : StoppedAt P rt id o b
      (⟨.xSemaphoreTake (rt.lock (rt.unit id).port_num) portMAX_DELAY, pdTRUE⟩ :: S) c tr)
    (hin : (⟨.xSemaphoreTake (rt.lock (rt.unit id).port_num) portMAX_DELAY, pdTRUE⟩ : Ev) ∈ tr) :
    CleanedUp P rt id o tr := by
  obtain ⟨j, e, r, m, hS, hr, -, -, -, htr⟩ := hst
  cases j with
  | zero =>
    exfalso
    simp only [List.getElem?_cons_zero, Option.some.injEq] at hS
    subst hS
    rw [htr] at hin
    simp only [List.take_zero, List.nil_append, List.mem_cons] at hin
    rcases hin with h | h
    · have : pdTRUE = r := congrArg Ev.ret h
      exact hr this.symm
    · rcases fail_trace_kind _ _ _ _ _ _ _ _ _ h with h | h | ⟨h, -⟩
      · exact Kind.noConfusion h
      · exact Kind.noConfusion h
      · simp at h
  | succ j =>
    rw [htr]
    have := cleaned_of_fail P rt id o hid (S.take j ++ [⟨e.call, r⟩])
      (if j + 1 ≤ 2 then 0 else c) m
    simpa [List.take_succ_cons, List.append_assoc] using this

/-- C2: for each of `sys_i2c_read`, `sys_i2c_write` and `sys_i2c_probe`, a run in which
the lock of the controller was acquired and that returns false ends cleaned up: after the
acquisition and the steps that followed it, `sys_i2c_detach_pins` runs for the logical
bus, reaching its pins, and the last call of the run is the `xSemaphoreGive` on the lock
of that controller. -/
theorem cleanup_after_failure (P : Platform) (rt : SYS_I2C_RUNTIME)
    (sys_i2c_id i2c_addr_num i2c_reg_num buf_addr buf_size found_flag_addr : Nat)
    (found_flag : Bool) (o : Nat → Int) :
    ((⟨.xSemaphoreTake (rt.lock (rt.unit sys_i2c_id).port_num) portMAX_DELAY, pdTRUE⟩ : Ev) ∈
        (sys_i2c_read P rt sys_i2c_id i2c_addr_num i2c_reg_num buf_addr buf_size).trace o 0 →
      (sys_i2c_read P rt sys_i2c_id i2c_addr_num i2c_reg_num buf_addr buf_size).result o 0 =
        false →
      CleanedUp P rt sys_i2c_id o
        ((sys_i2c_read P rt sys_i2c_id i2c_addr_num i2c_reg_num buf_addr buf_size).trace o 0)) ∧
    ((⟨.xSemaphoreTake (rt.lock (rt.unit sys_i2c_id).port_num) portMAX_DELAY, pdTRUE⟩ : Ev) ∈
        (sys_i2c_write P rt sys_i2c_id i2c_addr_num i2c_reg_num buf_addr buf_size).trace o 0 →
      (sys_i2c_write P rt sys_i2c_id i2c_addr_num i2c_reg_num buf_addr buf_size).result o 0 =
        false →
      CleanedUp P rt sys_i2c_id o
        ((sys_i2c_write P rt sys_i2c_id i2c_addr_num i2c_reg_num buf_addr buf_size).trace
          o 0)) ∧
    ((⟨.xSemaphoreTake (rt.lock (rt.unit sys_i2c_id).port_num) portMAX_DELAY, pdTRUE⟩ : Ev) ∈
        (sys_i2c_probe P rt sys_i2c_id i2c_addr_num found_flag_addr found_flag).trace o 0 →
      ((sys_i2c_probe P rt sys_i2c_id i2c_addr_num found_flag_addr found_flag).result o 0).ret =
        false →
      CleanedUp P rt sys_i2c_id o
        ((sys_i2c_probe P rt sys_i2c_id i2c_addr_num found_flag_addr found_flag).trace o 0)) := by
  have hnot : ∀ p n, (⟨.xSemaphoreTake (rt.lock (rt.unit sys_i2c_id).port_num)
      portMAX_DELAY, pdTRUE⟩ : Ev) ∉ fail_trace P rt sys_i2c_id false 0 p o n := by
    intro p n h
    rcases fail_trace_kind _ _ _ _ _ _ _ _ _ h with h | h | ⟨h, -⟩
    · exact Kind.noConfusion h
    · exact Kind.noConfusion h
    · simp at h
  refine ⟨fun hin hres => ?_, fun hin hres => ?_, fun hin hres => ?_⟩
  · by_cases hv : sys_i2c_id < P.SYS_I2C_ID_CNT ∧ i2c_addr_num < 128 ∧ buf_addr ≠ 0 ∧
        buf_size ≠ 0
    · rcases read_cases P rt sys_i2c_id i2c_addr_num i2c_reg_num buf_addr buf_size o
        hv.1 hv.2.1 hv.2.2.1 hv.2.2.2 with ⟨c, -, h, -⟩ | ⟨c, -, -, hst⟩
      · rw [h] at hres; exact absurd hres (by decide)
      · exact cleaned_of_stopped P rt _ o hv.1 _ _ c _ hst hin
    · have := (read_rejects P rt sys_i2c_id i2c_addr_num i2c_reg_num buf_addr buf_size o
        (by tauto)).2
      rw [this] at hin
      exact absurd hin (hnot _ _)
  · by_cases hv : sys_i2c_id < P.SYS_I2C_ID_CNT ∧ i2c_addr_num < 128 ∧ buf_addr ≠ 0 ∧
        buf_size ≠ 0
    · rcases write_cases P rt sys_i2c_id i2c_addr_num i2c_reg_num buf_addr buf_size o
        hv.1 hv.2.1 hv.2.2.1 hv.2.2.2 with ⟨c, -, h, -⟩ | ⟨c, -, -, hst⟩
      · rw [h] at hres; exact absurd hres (by decide)
      · exact cleaned_of_stopped P rt _ o hv.1 _ _ c _ hst hin
    · have := (write_rejects P rt sys_i2c_id i2c_addr_num i2c_reg_num buf_addr buf_size o
        (by tauto)).2
      rw [this] at hin
      exact absurd hin (hnot _ _)
  · by_cases hv : sys_i2c_id < P.SYS_I2C_ID_CNT ∧ i2c_addr_num < 128 ∧ found_flag_addr ≠ 0
    · rcases probe_cases P rt sys_i2c_id i2c_addr_num found_flag_addr found_flag o
        hv.1 hv.2.1 hv.2.2 with ⟨c, -, h, -⟩ | ⟨c, -, h, -⟩ | ⟨c, x, m, -, -, -, -, htr⟩ |
          ⟨c, x, -, -, hst⟩
      · rw [h] at hres; exact absurd hres (by decide)
      · rw [h] at hres; exact absurd hres (by decide)
      · rw [htr]
        exact cleaned_of_fail P rt _ o hv.1 _ c m
      · exact cleaned_of_stopped P rt _ o hv.1 _ _ c _ hst hin
    · have := (probe_rejects P rt sys_i2c_id i2c_addr_num found_flag_addr found_flag o
        (by tauto)).2
      rw [this] at hin
      exact absurd hin (hnot _ _)

/-- Witness of C2: on the bus of the repository, a read whose attach fails, a write whose
executor times out and a probe whose executor times out all end cleaned up. -/
theorem cleanup_after_failure_witness :
    CleanedUp esp32 runtime0 0 (script [1, -1, 0, 0, 1])
      ((sys_i2c_read esp32 runtime0 0 0x3C 0x40 1 1).trace (script [1, -1, 0, 0, 1]) 0) ∧
    CleanedUp esp32 runtime0 0 (script [1, 0, 1, 0, 0, 0, 0, 0, 0x107, 0, 0, 0, 1])
      ((sys_i2c_write esp32 runtime0 0 0x3C 0x40 1 1).trace
        (script [1, 0, 1, 0, 0, 0, 0, 0, 0x107, 0, 0, 0, 1]) 0) ∧
    CleanedUp esp32 runtime0 0 (script [1, 0, 1, 0, 0, 0, 0x107, 0, 0, 0, 1, 0, 0, 0, 1])
      ((sys_i2c_probe esp32 runtime0 0 0x3C 1 false).trace
        (script [1, 0, 1, 0, 0, 0, 0x107, 0, 0, 0, 1, 0, 0, 0, 1]) 0) :=
  ⟨(cleanup_after_failure esp32 runtime0 0 0x3C 0x40 1 1 1 false _).1 (by decide) (by decide),
   (cleanup_after_failure esp32 runtime0 0 0x3C 0x40 1 1 1 false _).2.1 (by decide)
     (by decide),
   (cleanup_after_failure esp32 runtime0 0 0x3C 0x40 1 1 1 false _).2.2 (by decide)
     (by decide)⟩

/-- C3, evaluated: the pin-routing primitive of detach is called while the lock is not
held. On the bus of the repository a read from the device address 128 is rejected and its
calls are the two `gpio_config` of `sys_i2c_detach_pins`, with no lock call at all; a
probe whose executor times out calls `gpio_config` again after it has given the lock
back, and gives the lock a second time. A run in which every step succeeds does keep
every routing call under the lock. -/
theorem detach_outside_lock :
    (sys_i2c_read esp32 runtime0 0 128 0 1 1).trace (script []) 0 =
      [⟨.gpio_config (detach_config esp32 3), 0⟩, ⟨.gpio_config (detach_config esp32 4), 0⟩] ∧
    routing_under_lock 1 false
      ((sys_i2c_read esp32 runtime0 0 128 0 1 1).trace (script []) 0) = false ∧
    (sys_i2c_probe esp32 runtime0 0 0x3C 1 false).trace
        (script [1, 0, 1, 0, 0, 0, 0x107, 0, 0, 0, 1, 0, 0, 0, 1]) 0 =
      [⟨.xSemaphoreTake 1 portMAX_DELAY, 1⟩,
       ⟨.i2c_param_config 0 (attach_config esp32 runtime0 0), 0⟩,
       ⟨.i2c_cmd_link_create, 1⟩,
       ⟨.i2c_master_start 1, 0⟩,
       ⟨.i2c_master_write_byte 1 0x78 1, 0⟩,
       ⟨.i2c_master_stop 1, 0⟩,
       ⟨.i2c_master_cmd_begin 0 1 3, 0x107⟩,
       ⟨.i2c_cmd_link_delete 1, 0⟩,
       ⟨.gpio_config (detach_config esp32 3), 0⟩,
       ⟨.gpio_config (detach_config esp32 4), 0⟩,
       ⟨.xSemaphoreGive 1, 1⟩,
       ⟨.gpio_config (detach_config esp32 3), 0⟩,
       ⟨.gpio_config (detach_config esp32 4), 0⟩,
       ⟨.i2c_cmd_link_delete 1, 0⟩,
       ⟨.xSemaphoreGive 1, 1⟩] ∧
    routing_under_lock 1 false
      ((sys_i2c_probe esp32 runtime0 0 0x3C 1 false).trace
        (script [1, 0, 1, 0, 0, 0, 0x107, 0, 0, 0, 1, 0, 0, 0, 1]) 0) = false ∧
    routing_under_lock 1 false
      ((sys_i2c_probe esp32 runtime0 0 0x3C 1 false).trace
        (script [1, 0, 1, 0, 0, 0, 0, 0, 0, 0, 1]) 0) = true := by
  decide

/-- On the successful sequences of `sys_i2c_read` the executor returns `ESP_OK`. -/
theorem read_success_exec_ret (P : Platform) (rt : SYS_I2C_RUNTIME)
    (id addr reg buf size : Nat) (c : i2c_cmd_handle_t) :
    ∀ a ∈ read_success_trace P rt id addr reg buf size c,
      a.call.kind = .exec → a.ret = ESP_OK := by
  by_cases hs : size > 1
  · rw [read_success_trace_many P rt id addr reg buf size c hs]; simp
  · rw [read_success_trace_one P rt id addr reg buf size c hs]; simp

/-- On the successful sequence of `sys_i2c_write` the executor returns `ESP_OK`. -/
theorem write_success_exec_ret (P : Platform) (rt : SYS_I2C_RUNTIME)
    (id addr reg buf size : Nat) (c : i2c_cmd_handle_t) :
    ∀ a ∈ write_success_trace P rt id addr reg buf size c,
      a.call.kind = .exec → a.ret = ESP_OK := by
  simp [write_success_trace]

/-- A run that left a successful sequence of read or write although its executor
returned `ESP_OK` and every detach call and lock release of the run succeeded: there is
none. -/
theorem stopped_contra (P : Platform) (rt : SYS_I2C_RUNTIME) (id : Nat) (o : Nat → Int)
    (S : List Ev) (c : i2c_cmd_handle_t) (tr : List Ev)
    (hrets : ∀ a ∈ S, SuccessRet a) (hlast : ExecLast S)
    (hxr : ∀ a ∈ S, a.call.kind = .exec → a.ret = ESP_OK)
    (hst : StoppedAt P rt id o true S c tr)
    (hexec : ∃ e ∈ tr, e.call.kind = .exec ∧ e.ret = ESP_OK)
    (hdetach : ∀ e ∈ tr, e.call.kind = .detach → e.ret = ESP_OK)
    (hgive : ∀ e ∈ tr, e.call.kind = .give → e.ret = pdTRUE) : False := by
  obtain ⟨j, e, r, m, hS, hr, hv, -, -, htr⟩ := hst
  have hmem : e ∈ S := List.getElem?_mem hS
  have hev : (⟨e.call, r⟩ : Ev) ∈ tr := by rw [htr]; simp
  obtain ⟨h1, h2, h3⟩ := hrets e hmem
  have before : e.call.kind = .take ∨ e.call.kind = .attach ∨ e.call.kind = .compose ∨
      e.call.kind = .exec → False := by
    intro hk
    obtain ⟨a, ha, hak, har⟩ := hexec
    have := exec_of_stopped P rt _ _ _ _ o m _ _ e r j hlast hS hk htr a ha hak
    subst this
    exact hr (har.trans (hxr e hmem hak).symm)
  cases hk : e.call.kind
  · exact before (Or.inl hk)
  · exact hr ((hgive _ hev hk).trans (h1 (Or.inr hk)).symm)
  · exact before (Or.inr (Or.inl hk))
  · exact hr ((hdetach _ hev hk).trans (h2 (Or.inr hk)).symm)
  · exact before (Or.inr (Or.inr (Or.inl hk)))
  · exact before (Or.inr (Or.inr (Or.inr hk)))
  · rw [Call.isVoid_of_kind_delete _ hk] at hv; exact absurd hv (by decide)
  · exact absurd hk h3

/-- C7, refuted as stated: a read on the bus of the repository whose executor returns
`ESP_OK` and whose first `gpio_config` of the detach then fails returns false. -/
theorem executor_success_not_sufficient :
    (∃ e ∈ (sys_i2c_read esp32 runtime0 0 0x3C 0x40 1 1).trace
        (script [1, 0, 1, 0, 0, 0, 0, 0, 0, 0, 0, 0, -1, 0, 0, 1]) 0,
      e.call.kind = .exec ∧ e.ret = ESP_OK) ∧
    (sys_i2c_read esp32 runtime0 0 0x3C 0x40 1 1).result
      (script [1, 0, 1, 0, 0, 0, 0, 0, 0, 0, 0, 0, -1, 0, 0, 1]) 0 = false := by
  decide

/-- C7, amended: in every run of `sys_i2c_read` or `sys_i2c_write` in which the executor
is invoked and returns `ESP_OK`, and in which every detach call and every release of the
lock succeeds, the call returns true. -/
theorem executor_and_cleanup_success (P : Platform) (rt : SYS_I2C_RUNTIME)
    (sys_i2c_id i2c_addr_num i2c_reg_num buf_addr buf_size : Nat) (o : Nat → Int) :
    ((∃ e ∈ (sys_i2c_read P rt sys_i2c_id i2c_addr_num i2c_reg_num buf_addr buf_size).trace
          o 0, e.call.kind = .exec ∧ e.ret = ESP_OK) →
      (∀ e ∈ (sys_i2c_read P rt sys_i2c_id i2c_addr_num i2c_reg_num buf_addr buf_size).trace
          o 0, e.call.kind = .detach → e.ret = ESP_OK) →
      (∀ e ∈ (sys_i2c_read P rt sys_i2c_id i2c_addr_num i2c_reg_num buf_addr buf_size).trace
          o 0, e.call.kind = .give → e.ret = pdTRUE) →
      (sys_i2c_read P rt sys_i2c_id i2c_addr_num i2c_reg_num buf_addr buf_size).result o 0 =
        true) ∧
    ((∃ e ∈ (sys_i2c_write P rt sys_i2c_id i2c_addr_num i2c_reg_num buf_addr buf_size).trace
          o 0, e.call.kind = .exec ∧ e.ret = ESP_OK) →
      (∀ e ∈ (sys_i2c_write P rt sys_i2c_id i2c_addr_num i2c_reg_num buf_addr buf_size).trace
          o 0, e.call.kind = .detach → e.ret = ESP_OK) →
      (∀ e ∈ (sys_i2c_write P rt sys_i2c_id i2c_addr_num i2c_reg_num buf_addr buf_size).trace
          o 0, e.call.kind = .give → e.ret = pdTRUE) →
      (sys_i2c_write P rt sys_i2c_id i2c_addr_num i2c_reg_num buf_addr buf_size).result o 0 =
        true) := by
  refine ⟨fun hexec hdetach hgive => ?_, fun hexec hdetach hgive => ?_⟩
  · by_cases hv : sys_i2c_id < P.SYS_I2C_ID_CNT ∧ i2c_addr_num < 128 ∧ buf_addr ≠ 0 ∧
        buf_size ≠ 0
    · rcases read_cases P rt sys_i2c_id i2c_addr_num i2c_reg_num buf_addr buf_size o
        hv.1 hv.2.1 hv.2.2.1 hv.2.2.2 with ⟨c, -, h, -⟩ | ⟨c, -, -, hst⟩
      · exact h
      · exact (stopped_contra P rt _ o _ c _ (read_success_rets P rt _ _ _ _ _ c)
          (read_exec_last P rt _ _ _ _ _ c) (read_success_exec_ret P rt _ _ _ _ _ c)
          hst hexec hdetach hgive).elim
    · have := (read_rejects P rt sys_i2c_id i2c_addr_num i2c_reg_num buf_addr buf_size o
        (by tauto)).2
      rw [this] at hexec
      exact absurd hexec (fail_trace_no_exec _ _ _ _ _ _ _ _ _)
  · by_cases hv : sys_i2c_id < P.SYS_I2C_ID_CNT ∧ i2c_addr_num < 128 ∧ buf_addr ≠ 0 ∧
        buf_size ≠ 0
    · rcases write_cases P rt sys_i2c_id i2c_addr_num i2c_reg_num buf_addr buf_size o
        hv.1 hv.2.1 hv.2.2.1 hv.2.2.2 with ⟨c, -, h, -⟩ | ⟨c, -, -, hst⟩
      · exact h
      · exact (stopped_contra P rt _ o _ c _ (write_success_rets P rt _ _ _ _ _ c)
          (write_exec_last P rt _ _ _ _ _ c) (write_success_exec_ret P rt _ _ _ _ _ c)
          hst hexec hdetach hgive).elim
    · have := (write_rejects P rt sys_i2c_id i2c_addr_num i2c_reg_num buf_addr buf_size o
        (by tauto)).2
      rw [this] at hexec
      exact absurd hexec (fail_trace_no_exec _ _ _ _ _ _ _ _ _)

/-- Witness of C7 as amended: a read and a write on the bus of the repository in which
every call succeeds return true. -/
theorem executor_and_cleanup_success_witness :
    (sys_i2c_read esp32 runtime0 0 0x3C 0x40 1 2).result
      (script [1, 0, 1, 0, 0, 0, 0, 0, 0, 0, 0, 0, 0, 0, 0, 1]) 0 = true ∧
    (sys_i2c_write esp32 runtime0 0 0x3C 0x40 1 2).result
      (script [1, 0, 1, 0, 0, 0, 0, 0, 0, 0, 0, 0, 1]) 0 = true :=
  ⟨(executor_and_cleanup_success esp32 runtime0 0 0x3C 0x40 1 2 _).1 (by decide) (by decide)
     (by decide),
   (executor_and_cleanup_success esp32 runtime0 0 0x3C 0x40 1 2 _).2 (by decide) (by decide)
     (by decide)⟩

/-- Witness of C6: a read of two bytes on the bus of the repository in which every call
succeeds returns true, and its calls are the successful sequence with the link `1`. -/
theorem success_runs_one_transaction_witness :
    ∃ c, c ≠ 0 ∧
      (sys_i2c_read esp32 runtime0 0 0x3C 0x40 1 2).trace
          (script [1, 0, 1, 0, 0, 0, 0, 0, 0, 0, 0, 0, 0, 0, 0, 1]) 0 =
        read_success_trace esp32 runtime0 0 0x3C 0x40 1 2 c ∧
      ((sys_i2c_read esp32 runtime0 0 0x3C 0x40 1 2).trace
          (script [1, 0, 1, 0, 0, 0, 0, 0, 0, 0, 0, 0, 0, 0, 0, 1]) 0).filter
          (fun e => e.call.kind = .exec) =
        [⟨.i2c_master_cmd_begin (runtime0.unit 0).port_num c
          (ESP32_I2C_BUS_TIMEOUT_TICK esp32), ESP_OK⟩] :=
  (success_runs_one_transaction esp32 runtime0 0 0x3C 0x40 1 2 _).1 (by decide)

/-! ## The runtime table builder -/

/-- A pass of the loop that does not end the program has written the merged entry of its
logical bus, the entry passes the checks, and no other entry and no lock has changed. -/
theorem runtime_init_body_none (P : Platform) (bsp : List BSP_I2C_CONFIG)
    (sys : SYS_I2C_CONFIG) (bsp_id i : Nat) (rt rt' : SYS_I2C_RUNTIME)
    (h : runtime_init_body P bsp sys bsp_id i rt = (none, rt')) :
    Merged bsp sys bsp_id i (rt'.unit i) ∧ Checked P (rt'.unit i) ∧
    (∀ j, j ≠ i → rt'.unit j = rt.unit j) ∧ rt'.lock = rt.lock := by
  unfold runtime_init_body at h
  cases h1 : (bsp[bsp_id]?).bind (fun b => b.unit[i]?) with
  | none => simp [h1] at h
  | some pins =>
    cases h2 : sys.unit[i]? with
    | none => simp [h1, h2] at h
    | some port =>
      simp only [h1, h2] at h
      by_cases h3 : P.I2C_NUM_MAX > port
      swap
      · simp [h3] at h
      cases h4 : sys.clock? port with
      | none => simp [h3, h4] at h
      | some clock =>
        simp only [h4, h3, not_true_eq_false, if_false] at h
        split_ifs at h with c1 c2 c3 c4 c5 c6 c7 <;> cases h
        simp only [not_not] at c1 c2 c3 c4 c5 c6
        refine ⟨⟨pins, clock, h1, ?_, ?_, ?_⟩, ⟨?_, ⟨?_, ?_, ?_, ?_, ?_⟩, ?_, ?_⟩, ?_, rfl⟩
        all_goals simp [SYS_I2C_RUNTIME.setUnit]
        · exact h2
        · exact h4
        · exact h3
        · exact c1
        · exact c2
        · exact c3
        · simpa using c4
        · simpa using c5
        · exact c6
        · intro hf
          simp only [not_and, not_not] at c7
          simpa [FlagsOk] using c7 hf
        · intro j hj; simp [hj]

/-- A pass of the loop never ends the program by returning: it aborts or reads outside a
table. -/
theorem runtime_init_body_some (P : Platform) (bsp : List BSP_I2C_CONFIG)
    (sys : SYS_I2C_CONFIG) (bsp_id i : Nat) (rt rt' : SYS_I2C_RUNTIME) (out : Outcome)
    (h : runtime_init_body P bsp sys bsp_id i rt = (some out, rt')) :
    out = .undefined ∨ ∃ line, out = .aborted line := by
  unfold runtime_init_body at h
  cases h1 : (bsp[bsp_id]?).bind (fun b => b.unit[i]?) with
  | none => simp [h1] at h; exact Or.inl h.1.symm
  | some pins =>
    cases h2 : sys.unit[i]? with
    | none => simp [h1, h2] at h; exact Or.inl h.1.symm
    | some port =>
      simp only [h1, h2] at h
      by_cases h3 : P.I2C_NUM_MAX > port
      swap
      · simp [h3] at h; exact Or.inr ⟨_, h.1.symm⟩
      cases h4 : sys.clock? port with
      | none => simp [h3, h4] at h; exact Or.inl h.1.symm
      | some clock =>
        simp only [h4, h3, not_true_eq_false, if_false] at h
        split_ifs at h <;> cases h <;> exact Or.inr ⟨_, rfl⟩

/-- With tables of the declared sizes and no negative controller id, a pass of the loop
for a logical bus below `SYS_I2C_ID_CNT` reads no table outside its bounds: the
controller id is compared with `I2C_NUM_MAX` before it indexes the clock table. -/
theorem runtime_init_body_defined (P : Platform) (bsp : List BSP_I2C_CONFIG)
    (sys : SYS_I2C_CONFIG) (bsp_id i : Nat) (rt : SYS_I2C_RUNTIME)
    (hsz : TablesSized P bsp sys) (hnn : ∀ p ∈ sys.unit, (0 : Int) ≤ p)
    (hb : bsp_id < P.BSP_ID_CNT) (hi : i < P.SYS_I2C_ID_CNT) :
    (runtime_init_body P bsp sys bsp_id i rt).1 ≠ some .undefined := by
  obtain ⟨s1, s2, s3, s4⟩ := hsz
  have hb' : bsp_id < bsp.length := s1 ▸ hb
  have e1 : bsp[bsp_id]? = some bsp[bsp_id] := List.getElem?_eq_getElem hb'
  have hu : i < (bsp[bsp_id]).unit.length := by
    rw [s2 _ (List.getElem_mem _)]; exact hi
  have e2 : (bsp[bsp_id]).unit[i]? = some (bsp[bsp_id]).unit[i] := List.getElem?_eq_getElem hu
  have hi' : i < sys.unit.length := s3 ▸ hi
  have e3 : sys.unit[i]? = some sys.unit[i] := List.getElem?_eq_getElem hi'
  unfold runtime_init_body
  simp only [e1, Option.some_bind, e2, e3]
  have h0 : (0 : Int) ≤ sys.unit[i] := hnn _ (List.getElem_mem _)
  by_cases h3 : (P.I2C_NUM_MAX : Int) > sys.unit[i]
  swap
  · simp [h3]
  have hp : (sys.unit[i]).toNat < sys.port.length := by
    rw [s4]
    have := Int.toNat_of_nonneg h0
    omega
  have e4 : sys.clock? sys.unit[i] = some sys.port[(sys.unit[i]).toNat] := by
    unfold SYS_I2C_CONFIG.clock?
    rw [if_pos h0]
    exact List.getElem?_eq_getElem hp
  simp only [e4, h3, not_true_eq_false, if_false]
  split_ifs <;> simp

/-- A pass of the loop goes on to the next logical bus when the tables give an entry for
the bus and the entry passes the checks. -/
theorem runtime_init_body_ok (P : Platform) (bsp : List BSP_I2C_CONFIG)
    (sys : SYS_I2C_CONFIG) (bsp_id i : Nat) (rt : SYS_I2C_RUNTIME) (u : RuntimeUnit)
    (hm : Merged bsp sys bsp_id i u) (hc : Checked P u) :
    (runtime_init_body P bsp sys bsp_id i rt).1 = none := by
  obtain ⟨pins, clock, h1, h2, h4, hu⟩ := hm
  obtain ⟨h3, ⟨c1, c2, c3, c4, c5⟩, c6, c7⟩ := hc
  have h3' : P.I2C_NUM_MAX > u.port_num := h3
  rw [hu] at c1 c2 c3 c4 c5 c6 c7
  simp only at c1 c2 c3 c4 c5 c6 c7
  have c7' : ¬ (P.SYS_I2C_CLK_FLAGS_ENABLE = true ∧
      ¬ ((I2C_SCLK_SRC_FLAG_FOR_NOMAL ||| I2C_SCLK_SRC_FLAG_AWARE_DFS |||
          I2C_SCLK_SRC_FLAG_LIGHT_SLEEP) ≥ clock.clk_flags)) := fun h => h.2 (c7 h.1)
  have c6' : clock.clk_speed ≠ 0 ∧ SYS_I2C_CLOCK_MAX ≥ clock.clk_speed := c6
  unfold runtime_init_body
  simp only [h1, h2, h4, h3', not_true_eq_false, if_false]
  rw [if_neg (not_not.2 c1), if_neg (not_not.2 c2), if_neg (not_not.2 c3),
    if_neg (not_not.2 c4), if_neg (not_not.2 c5), if_neg (not_not.2 c6'), if_neg c7']

/-- A pass of the loop that goes on says that the tables give an entry for the bus that
passes the checks. -/
theorem runtime_init_body_none_iff (P : Platform) (bsp : List BSP_I2C_CONFIG)
    (sys : SYS_I2C_CONFIG) (bsp_id i : Nat) (rt : SYS_I2C_RUNTIME) :
    (runtime_init_body P bsp sys bsp_id i rt).1 = none ↔
      ∃ u, Merged bsp sys bsp_id i u ∧ Checked P u := by
  constructor
  · intro h
    have := runtime_init_body_none P bsp sys bsp_id i rt
      (runtime_init_body P bsp sys bsp_id i rt).2 (Prod.ext h rfl)
    exact ⟨_, this.1, this.2.1⟩
  · rintro ⟨u, hm, hc⟩
    exact runtime_init_body_ok P bsp sys bsp_id i rt u hm hc

/-- The loop of `sys_i2c_runtime_init`, when it returns: the logical buses from the
counter value on have their merged entries in the table and passed the checks, the
entries below the counter value and the locks are unchanged. -/
theorem runtime_init_loop_returned (P : Platform) (bsp : List BSP_I2C_CONFIG)
    (sys : SYS_I2C_CONFIG) (bsp_id : Nat) (h255 : P.SYS_I2C_ID_CNT ≤ 255) :
    ∀ (fuel id : Nat) (rt rt' : SYS_I2C_RUNTIME) (b : Bool), id ≤ P.SYS_I2C_ID_CNT →
      runtime_init_loop P bsp sys bsp_id fuel id rt = (.returned b, rt') →
      b = true ∧
      (∀ j, id ≤ j → j < P.SYS_I2C_ID_CNT →
        Merged bsp sys bsp_id j (rt'.unit j) ∧ Checked P (rt'.unit j)) ∧
      (∀ j, j < id → rt'.unit j = rt.unit j) ∧ rt'.lock = rt.lock := by
  intro fuel
  induction fuel with
  | zero => intro id rt rt' b _ h; simp [runtime_init_loop] at h
  | succ fuel ih =>
    intro id rt rt' b hid h
    unfold runtime_init_loop at h
    by_cases hc : P.SYS_I2C_ID_CNT > id
    swap
    · rw [if_pos hc] at h
      cases h
      exact ⟨rfl, fun j h1 h2 => absurd (lt_of_le_of_lt h1 h2) hc, fun _ _ => rfl, rfl⟩
    rw [if_neg (not_not.2 hc)] at h
    rcases hb : runtime_init_body P bsp sys bsp_id id rt with ⟨_ | out, rt1⟩
    · rw [hb] at h
      simp only at h
      have hmod : (id + 1) % 256 = id + 1 := Nat.mod_eq_of_lt (by omega)
      rw [hmod] at h
      obtain ⟨hb1, hall, hlow, hlock⟩ := ih (id + 1) rt1 rt' b hc h
      obtain ⟨bm, bc, bo, bl⟩ := runtime_init_body_none P bsp sys bsp_id id rt rt1 hb
      refine ⟨hb1, fun j h1 h2 => ?_, fun j hj => ?_, hlock.trans bl⟩
      · rcases Nat.eq_or_lt_of_le h1 with h | h
        · subst h
          rw [hlow id (Nat.lt_succ_self id)]
          exact ⟨bm, bc⟩
        · exact hall j h h2
      · rw [hlow j (Nat.lt_succ_of_lt hj)]
        exact bo j (Nat.ne_of_lt hj)
    · rw [hb] at h
      simp only at h
      rcases runtime_init_body_some P bsp sys bsp_id id rt rt1 out hb with ho | ⟨l, ho⟩ <;>
        subst ho <;> cases h

/-- With more than 255 logical buses the loop of `sys_i2c_runtime_init` never returns:
its 8-bit counter never reaches `SYS_I2C_ID_CNT`. -/
theorem runtime_init_loop_wraps (P : Platform) (bsp : List BSP_I2C_CONFIG)
    (sys : SYS_I2C_CONFIG) (bsp_id : Nat) (h256 : 256 ≤ P.SYS_I2C_ID_CNT) :
    ∀ (fuel id : Nat) (rt : SYS_I2C_RUNTIME) (b : Bool), id < 256 →
      (runtime_init_loop P bsp sys bsp_id fuel id rt).1 ≠ .returned b := by
  intro fuel
  induction fuel with
  | zero => intro id rt b _; simp [runtime_init_loop]
  | succ fuel ih =>
    intro id rt b hid
    unfold runtime_init_loop
    have hc : P.SYS_I2C_ID_CNT > id := lt_of_lt_of_le hid h256
    rw [if_neg (not_not.2 hc)]
    rcases hb : runtime_init_body P bsp sys bsp_id id rt with ⟨_ | out, rt1⟩
    · simp only
      exact ih _ rt1 b (Nat.mod_lt _ (by decide))
    · simp only
      rcases runtime_init_body_some P bsp sys bsp_id id rt rt1 out hb with ho | ⟨l, ho⟩ <;>
        subst ho <;> simp

/-- With at most 255 logical buses the loop ends within `SYS_I2C_ID_CNT + 1` evaluations
of its condition. -/
theorem runtime_init_loop_ends (P : Platform) (bsp : List BSP_I2C_CONFIG)
    (sys : SYS_I2C_CONFIG) (bsp_id : Nat) (h255 : P.SYS_I2C_ID_CNT ≤ 255) :
    ∀ (fuel id : Nat) (rt : SYS_I2C_RUNTIME), id ≤ P.SYS_I2C_ID_CNT →
      P.SYS_I2C_ID_CNT - id < fuel →
      (runtime_init_loop P bsp sys bsp_id fuel id rt).1 ≠ .diverged := by
  intro fuel
  induction fuel with
  | zero => intro id rt _ h; exact absurd h (Nat.not_lt_zero _)
  | succ fuel ih =>
    intro id rt hid hf
    unfold runtime_init_loop
    by_cases hc : P.SYS_I2C_ID_CNT > id
    swap
    · rw [if_pos hc]; simp
    rw [if_neg (not_not.2 hc)]
    rcases hb : runtime_init_body P bsp sys bsp_id id rt with ⟨_ | out, rt1⟩
    · simp only
      have hmod : (id + 1) % 256 = id + 1 := Nat.mod_eq_of_lt (by omega)
      rw [hmod]
      exact ih (id + 1) rt1 hc (by omega)
    · simp only
      rcases runtime_init_body_some P bsp sys bsp_id id rt rt1 out hb with ho | ⟨l, ho⟩ <;>
        subst ho <;> simp

/-- With tables of the declared sizes and no negative controller id the loop reads no
table outside its bounds. -/
theorem runtime_init_loop_defined (P : Platform) (bsp : List BSP_I2C_CONFIG)
    (sys : SYS_I2C_CONFIG) (bsp_id : Nat) (hsz : TablesSized P bsp sys)
    (hnn : ∀ p ∈ sys.unit, (0 : Int) ≤ p) (hb : bsp_id < P.BSP_ID_CNT) :
    ∀ (fuel id : Nat) (rt : SYS_I2C_RUNTIME),
      (runtime_init_loop P bsp sys bsp_id fuel id rt).1 ≠ .undefined := by
  intro fuel
  induction fuel with
  | zero => intro id rt; simp [runtime_init_loop]
  | succ fuel ih =>
    intro id rt
    unfold runtime_init_loop
    by_cases hc : P.SYS_I2C_ID_CNT > id
    swap
    · rw [if_pos hc]; simp
    rw [if_neg (not_not.2 hc)]
    have hd := runtime_init_body_defined P bsp sys bsp_id id rt hsz hnn hb hc
    rcases hbd : runtime_init_body P bsp sys bsp_id id rt with ⟨_ | out, rt1⟩
    · simp only
      exact ih _ rt1
    · simp only
      rw [hbd] at hd
      intro h
      exact hd (by rw [h])

/-- The loop returns true when every logical bus from the counter value on has an entry
in the tables that passes the checks. -/
theorem runtime_init_loop_ok (P : Platform) (bsp : List BSP_I2C_CONFIG)
    (sys : SYS_I2C_CONFIG) (bsp_id : Nat) (h255 : P.SYS_I2C_ID_CNT ≤ 255) :
    ∀ (fuel id : Nat) (rt : SYS_I2C_RUNTIME), id ≤ P.SYS_I2C_ID_CNT →
      P.SYS_I2C_ID_CNT - id < fuel →
      (∀ j, id ≤ j → j < P.SYS_I2C_ID_CNT →
        ∃ u, Merged bsp sys bsp_id j u ∧ Checked P u) →
      (runtime_init_loop P bsp sys bsp_id fuel id rt).1 = .returned true := by
  intro fuel
  induction fuel with
  | zero => intro id rt _ h; exact absurd h (Nat.not_lt_zero _)
  | succ fuel ih =>
    intro id rt hid hf hall
    unfold runtime_init_loop
    by_cases hc : P.SYS_I2C_ID_CNT > id
    swap
    · rw [if_pos hc]
    rw [if_neg (not_not.2 hc)]
    have hn := (runtime_init_body_none_iff P bsp sys bsp_id id rt).2 (hall id le_rfl hc)
    rcases hb : runtime_init_body P bsp sys bsp_id id rt with ⟨_ | out, rt1⟩
    · simp only
      have hmod : (id + 1) % 256 = id + 1 := Nat.mod_eq_of_lt (by omega)
      rw [hmod]
      exact ih (id + 1) rt1 hc (by omega) (fun j h1 h2 => hall j (Nat.le_of_succ_le h1) h2)
    · rw [hb] at hn; cases hn

/-- When `sys_i2c_runtime_init` returns true there are between 1 and 255 logical buses,
the board id is in range, and every logical bus has its merged entry in the runtime
table, which passed the checks. -/
theorem runtime_init_true (P : Platform) (app : APP_CONFIG) (bsp : List BSP_I2C_CONFIG)
    (sys : SYS_I2C_CONFIG) (rt : SYS_I2C_RUNTIME)
    (h : (sys_i2c_runtime_init P app bsp sys rt).1 = .returned true) :
    0 < P.SYS_I2C_ID_CNT ∧ P.SYS_I2C_ID_CNT ≤ 255 ∧ app.bsp_id < P.BSP_ID_CNT ∧
    ∀ j, j < P.SYS_I2C_ID_CNT →
      Merged bsp sys app.bsp_id j ((sys_i2c_runtime_init P app bsp sys rt).2.unit j) ∧
      Checked P ((sys_i2c_runtime_init P app bsp sys rt).2.unit j) := by
  unfold sys_i2c_runtime_init at h ⊢
  by_cases h0 : P.SYS_I2C_ID_CNT = 0
  · rw [if_pos h0] at h; cases h
  rw [if_neg h0] at h ⊢
  by_cases hb : P.BSP_ID_CNT > app.bsp_id
  swap
  · simp only [if_pos hb] at h; cases h
  simp only [if_neg (not_not.2 hb)] at h ⊢
  by_cases h255 : P.SYS_I2C_ID_CNT ≤ 255
  · have := runtime_init_loop_returned P bsp sys app.bsp_id h255 257 0 rt _ true
      (Nat.zero_le _) (Prod.ext h rfl)
    exact ⟨Nat.pos_of_ne_zero h0, h255, hb, fun j hj => this.2.1 j (Nat.zero_le _) hj⟩
  · exact absurd h (runtime_init_loop_wraps P bsp sys app.bsp_id (by omega) 257 0 rt true
      (by decide))

/-- With tables of the declared sizes, no negative controller id and between 1 and 255
logical buses, `sys_i2c_runtime_init` either returns true or aborts on a failed
assertion. -/
theorem runtime_init_rejects (P : Platform) (app : APP_CONFIG) (bsp : List BSP_I2C_CONFIG)
    (sys : SYS_I2C_CONFIG) (rt : SYS_I2C_RUNTIME) (hsz : TablesSized P bsp sys)
    (hnn : ∀ p ∈ sys.unit, (0 : Int) ≤ p)
    (h0 : 0 < P.SYS_I2C_ID_CNT) (h255 : P.SYS_I2C_ID_CNT ≤ 255)
    (h : (sys_i2c_runtime_init P app bsp sys rt).1 ≠ .returned true) :
    ∃ line, (sys_i2c_runtime_init P app bsp sys rt).1 = .aborted line := by
  unfold sys_i2c_runtime_init at h ⊢
  rw [if_neg (Nat.pos_iff_ne_zero.1 h0)] at h ⊢
  by_cases hb : P.BSP_ID_CNT > app.bsp_id
  swap
  · simp only [if_pos hb]; exact ⟨_, rfl⟩
  simp only [if_neg (not_not.2 hb)] at h ⊢
  rcases ho : runtime_init_loop P bsp sys app.bsp_id 257 0 rt with ⟨out, rt'⟩
  rw [ho] at h
  cases out with
  | returned b =>
    have := (runtime_init_loop_returned P bsp sys app.bsp_id h255 257 0 rt rt' b
      (Nat.zero_le _) ho).1
    subst this
    exact absurd rfl h
  | aborted line => exact ⟨line, rfl⟩
  | undefined =>
    exact absurd (by rw [ho])
      (runtime_init_loop_defined P bsp sys app.bsp_id hsz hnn hb 257 0 rt)
  | diverged =>
    exact absurd (by rw [ho]) (runtime_init_loop_ends P bsp sys app.bsp_id h255 257 0 rt
      (Nat.zero_le _) (by omega))

/-- With tables of the declared sizes and between 1 and 255 logical buses,
`sys_i2c_runtime_init` returns true, or aborts on a failed assertion, or indexes the clock
table with a negative controller id of the table. -/
theorem runtime_init_rejects_or_undefined (P : Platform) (app : APP_CONFIG)
    (bsp : List BSP_I2C_CONFIG) (sys : SYS_I2C_CONFIG) (rt : SYS_I2C_RUNTIME)
    (hsz : TablesSized P bsp sys) (h0 : 0 < P.SYS_I2C_ID_CNT) (h255 : P.SYS_I2C_ID_CNT ≤ 255)
    (h : (sys_i2c_runtime_init P app bsp sys rt).1 ≠ .returned true) :
    (∃ line, (sys_i2c_runtime_init P app bsp sys rt).1 = .aborted line) ∨
    ((sys_i2c_runtime_init P app bsp sys rt).1 = .undefined ∧ ∃ p ∈ sys.unit, p < (0 : Int)) := by
  by_cases hnn : ∀ p ∈ sys.unit, (0 : Int) ≤ p
  · exact Or.inl (runtime_init_rejects P app bsp sys rt hsz hnn h0 h255 h)
  have hneg : ∃ p ∈ sys.unit, p < (0 : Int) := by
    by_contra hno
    apply hnn
    intro p hp
    by_contra hlt
    exact hno ⟨p, hp, lt_of_not_ge hlt⟩
  unfold sys_i2c_runtime_init at h ⊢
  rw [if_neg (Nat.pos_iff_ne_zero.1 h0)] at h ⊢
  by_cases hb : P.BSP_ID_CNT > app.bsp_id
  swap
  · simp only [if_pos hb]; exact Or.inl ⟨_, rfl⟩
  simp only [if_neg (not_not.2 hb)] at h ⊢
  rcases ho : runtime_init_loop P bsp sys app.bsp_id 257 0 rt with ⟨out, rt'⟩
  rw [ho] at h
  cases out with
  | returned b =>
    have := (runtime_init_loop_returned P bsp sys app.bsp_id h255 257 0 rt rt' b
      (Nat.zero_le _) ho).1
    subst this
    exact absurd rfl h
  | aborted line => exact Or.inl ⟨line, rfl⟩
  | undefined => exact Or.inr ⟨rfl, hneg⟩
  | diverged =>
    exact absurd (by rw [ho]) (runtime_init_loop_ends P bsp sys app.bsp_id h255 257 0 rt
      (Nat.zero_le _) (by omega))

/-- `sys_i2c_runtime_init` returns true when there are between 1 and 255 logical buses,
the board id is in range and every logical bus has an entry in the tables that passes the
checks. -/
theorem runtime_init_accepts (P : Platform) (app : APP_CONFIG) (bsp : List BSP_I2C_CONFIG)
    (sys : SYS_I2C_CONFIG) (rt : SYS_I2C_RUNTIME)
    (h0 : 0 < P.SYS_I2C_ID_CNT) (h255 : P.SYS_I2C_ID_CNT ≤ 255)
    (hb : app.bsp_id < P.BSP_ID_CNT)
    (hall : ∀ j, j < P.SYS_I2C_ID_CNT → ∃ u, Merged bsp sys app.bsp_id j u ∧ Checked P u) :
    (sys_i2c_runtime_init P app bsp sys rt).1 = .returned true := by
  have hb' : P.BSP_ID_CNT > app.bsp_id := hb
  unfold sys_i2c_runtime_init
  rw [if_neg (Nat.pos_iff_ne_zero.1 h0)]
  simp only [if_neg (not_not.2 hb')]
  exact runtime_init_loop_ok P bsp sys app.bsp_id h255 257 0 rt (Nat.zero_le _) (by omega)
    (fun j _ hj => hall j hj)

/-! ## Claims on the runtime table builder -/

/-- C8: `sys_i2c_runtime_init` does not return true on a configuration in which, for
some logical bus, the data pin equals the clock pin, or one of the two pins is
`GPIO_NUM_NC`, or one of the two pins is not a valid output pin; with tables of the
declared sizes and at most 255 logical buses it then aborts on a failed assertion, unless
the table holds a negative controller id and the run reads the clock table below its start
(a negative controller id passes the comparison with `I2C_NUM_MAX`, and the clock table is
indexed before the pins are checked). Hence when it returns true every logical bus has, in the runtime table, two distinct,
connected, valid output pins. -/
theorem pins_validated (P : Platform) (APP_config : APP_CONFIG)
    (BSP_I2C_config : List BSP_I2C_CONFIG) (SYS_I2C_config : SYS_I2C_CONFIG)
    (rt : SYS_I2C_RUNTIME) :
    (∀ (i : Nat) (pins : BspUnit), i < P.SYS_I2C_ID_CNT →
      (BSP_I2C_config[APP_config.bsp_id]?).bind (fun b => b.unit[i]?) = some pins →
      (pins.sda_io_num = pins.scl_io_num ∨ pins.sda_io_num = GPIO_NUM_NC ∨
        pins.scl_io_num = GPIO_NUM_NC ∨ P.GPIO_IS_VALID_OUTPUT_GPIO pins.sda_io_num = false ∨
         P.GPIO_IS_VALID_OUTPUT_GPIO pins.scl_io_num = false) →
      (sys_i2c_runtime_init P APP_config BSP_I2C_config SYS_I2C_config rt).1 ≠
          .returned true ∧
        (TablesSized P BSP_I2C_config SYS_I2C_config → P.SYS_I2C_ID_CNT ≤ 255 →
          (∃ line, (sys_i2c_runtime_init P APP_config BSP_I2C_config SYS_I2C_config rt).1 =
            .aborted line) ∨
          ((sys_i2c_runtime_init P APP_config BSP_I2C_config SYS_I2C_config rt).1 =
              .undefined ∧
            ∃ p ∈ SYS_I2C_config.unit, p < (0 : Int)))) ∧
    ((sys_i2c_runtime_init P APP_config BSP_I2C_config SYS_I2C_config rt).1 =
        .returned true →
      ∀ i, i < P.SYS_I2C_ID_CNT →
        PinsOk P
          ((sys_i2c_runtime_init P APP_config BSP_I2C_config SYS_I2C_config rt).2.unit
            i).sda_io_num
          ((sys_i2c_runtime_init P APP_config BSP_I2C_config SYS_I2C_config rt).2.unit
            i).scl_io_num) := by
  have key : ∀ (i : Nat) (pins : BspUnit), i < P.SYS_I2C_ID_CNT →
      (BSP_I2C_config[APP_config.bsp_id]?).bind (fun b => b.unit[i]?) = some pins →
      (pins.sda_io_num = pins.scl_io_num ∨ pins.sda_io_num = GPIO_NUM_NC ∨
        pins.scl_io_num = GPIO_NUM_NC ∨ P.GPIO_IS_VALID_OUTPUT_GPIO pins.sda_io_num = false ∨
         P.GPIO_IS_VALID_OUTPUT_GPIO pins.scl_io_num = false) →
      (sys_i2c_runtime_init P APP_config BSP_I2C_config SYS_I2C_config rt).1 ≠
          .returned true := by
    intro i pins hi hp hbad htrue
    obtain ⟨-, -, -, hall⟩ := runtime_init_true P APP_config BSP_I2C_config SYS_I2C_config rt htrue
    obtain ⟨⟨pins', clock, hp', -, -, hu⟩, -, ⟨c1, c2, c3, c4, c5⟩, -, -⟩ := hall i hi
    rw [hp] at hp'
    cases hp'
    rw [hu] at c1 c2 c3 c4 c5
    simp only at c1 c2 c3 c4 c5
    rcases hbad with h | h | h | h | h
    · exact c3 h.symm
    · exact c2 h.symm
    · exact c1 h.symm
    · rw [h] at c5; cases c5
    · rw [h] at c4; cases c4
  refine ⟨fun i pins hi hp hbad => ⟨key i pins hi hp hbad, fun hsz h255 => ?_⟩,
    fun htrue i hi => ?_⟩
  · exact runtime_init_rejects_or_undefined P APP_config BSP_I2C_config SYS_I2C_config rt hsz
      (Nat.lt_of_le_of_lt (Nat.zero_le _) hi) h255 (key i pins hi hp hbad)
  · exact ((runtime_init_true P APP_config BSP_I2C_config SYS_I2C_config rt htrue).2.2.2
      i hi).2.2.1

/-- Witness of C8: the tables of the repository with the data pin of bus 0 moved onto its
clock pin are rejected on the assertion of line 164, and the tables of the repository
themselves are accepted with the pins (4, 3) for bus 0. -/
theorem pins_validated_witness :
    ((sys_i2c_runtime_init esp32 ⟨0⟩ [⟨[⟨3, 3⟩]⟩, ⟨[⟨4, 3⟩]⟩, ⟨[⟨4, 3⟩]⟩] SYS_I2C_config
        SYS_I2C_RUNTIME.zero).1 ≠ .returned true ∧
      ((∃ line, (sys_i2c_runtime_init esp32 ⟨0⟩ [⟨[⟨3, 3⟩]⟩, ⟨[⟨4, 3⟩]⟩, ⟨[⟨4, 3⟩]⟩]
          SYS_I2C_config SYS_I2C_RUNTIME.zero).1 = .aborted line) ∨
        ((sys_i2c_runtime_init esp32 ⟨0⟩ [⟨[⟨3, 3⟩]⟩, ⟨[⟨4, 3⟩]⟩, ⟨[⟨4, 3⟩]⟩]
            SYS_I2C_config SYS_I2C_RUNTIME.zero).1 = .undefined ∧
          ∃ p ∈ SYS_I2C_config.unit, p < (0 : Int)))) ∧
    (sys_i2c_runtime_init esp32 ⟨0⟩ [⟨[⟨3, 3⟩]⟩, ⟨[⟨4, 3⟩]⟩, ⟨[⟨4, 3⟩]⟩] SYS_I2C_config
      SYS_I2C_RUNTIME.zero).1 = .aborted 164 ∧
    PinsOk esp32
      ((sys_i2c_runtime_init esp32 APP_config BSP_I2C_config SYS_I2C_config
        SYS_I2C_RUNTIME.zero).2.unit 0).sda_io_num
      ((sys_i2c_runtime_init esp32 APP_config BSP_I2C_config SYS_I2C_config
        SYS_I2C_RUNTIME.zero).2.unit 0).scl_io_num :=
  ⟨⟨((pins_validated esp32 ⟨0⟩ [⟨[⟨3, 3⟩]⟩, ⟨[⟨4, 3⟩]⟩, ⟨[⟨4, 3⟩]⟩] SYS_I2C_config
        SYS_I2C_RUNTIME.zero).1 0 ⟨3, 3⟩ (by decide) (by decide) (Or.inl rfl)).1,
     ((pins_validated esp32 ⟨0⟩ [⟨[⟨3, 3⟩]⟩, ⟨[⟨4, 3⟩]⟩, ⟨[⟨4, 3⟩]⟩] SYS_I2C_config
        SYS_I2C_RUNTIME.zero).1 0 ⟨3, 3⟩ (by decide) (by decide) (Or.inl rfl)).2
        (by decide) (by decide)⟩,
   by decide,
   (pins_validated esp32 APP_config BSP_I2C_config SYS_I2C_config SYS_I2C_RUNTIME.zero).2
     (by decide) 0 (by decide)⟩

/-- C9: on a configuration that passes every other check (tables of the declared sizes,
between 1 and 255 logical buses, board id in range, and for every logical bus valid pins,
a controller id in range and valid clock flags), `sys_i2c_runtime_init` returns true if
and only if the clock speed of every logical bus, which is the clock speed of its
controller, is above 0 and at most `SYS_I2C_CLOCK_MAX`, which is 1000000. -/
theorem clock_validated (P : Platform) (APP_config : APP_CONFIG)
    (BSP_I2C_config : List BSP_I2C_CONFIG) (SYS_I2C_config : SYS_I2C_CONFIG)
    (rt : SYS_I2C_RUNTIME)
    (h0 : 0 < P.SYS_I2C_ID_CNT) (h255 : P.SYS_I2C_ID_CNT ≤ 255)
    (hb : APP_config.bsp_id < P.BSP_ID_CNT)
    (hother : ∀ i, i < P.SYS_I2C_ID_CNT → ∃ (pins : BspUnit) (port : i2c_port_t)
      (clock : PortClock),
      (BSP_I2C_config[APP_config.bsp_id]?).bind (fun b => b.unit[i]?) = some pins ∧
      SYS_I2C_config.unit[i]? = some port ∧ SYS_I2C_config.clock? port = some clock ∧
      port < P.I2C_NUM_MAX ∧ PinsOk P pins.sda_io_num pins.scl_io_num ∧
      FlagsOk P clock.clk_flags) :
    SYS_I2C_CLOCK_MAX = 1000000 ∧
    ((sys_i2c_runtime_init P APP_config BSP_I2C_config SYS_I2C_config rt).1 = .returned true ↔
      ∀ (i : Nat) (port : i2c_port_t) (clock : PortClock), i < P.SYS_I2C_ID_CNT →
        SYS_I2C_config.unit[i]? = some port → SYS_I2C_config.clock? port = some clock →
        0 < clock.clk_speed ∧ clock.clk_speed ≤ SYS_I2C_CLOCK_MAX) := by
  refine ⟨rfl, fun htrue i port clock hi hu hp => ?_, fun hclk => ?_⟩
  · obtain ⟨⟨pins', clock', -, hu', hp', he⟩, -, -, ⟨c1, c2⟩, -⟩ :=
      (runtime_init_true P APP_config BSP_I2C_config SYS_I2C_config rt htrue).2.2.2 i hi
    rw [hu] at hu'
    cases hu'
    rw [hp] at hp'
    cases hp'
    rw [he] at c1 c2
    exact ⟨Nat.pos_of_ne_zero c1, c2⟩
  · refine runtime_init_accepts P APP_config BSP_I2C_config SYS_I2C_config rt h0 h255 hb
      (fun j hj => ?_)
    obtain ⟨pins, port, clock, e1, e2, e3, hp, hpins, hflags⟩ := hother j hj
    obtain ⟨k1, k2⟩ := hclk j port clock hj e2 e3
    exact ⟨⟨pins.sda_io_num, pins.scl_io_num, port, clock.clk_speed, clock.clk_flags⟩,
      ⟨pins, clock, e1, e2, e3, rfl⟩, hp, hpins, ⟨Nat.pos_iff_ne_zero.1 k1, k2⟩, hflags⟩

/-- Witness of C9: with the tables of the repository and the clock of controller 0 set
to 1000000 the build returns true; set to 0 or to 1000001 it does not. -/
theorem clock_validated_witness :
    (sys_i2c_runtime_init esp32 APP_config BSP_I2C_config ⟨[0], [⟨1000000, 0⟩, ⟨100000, 0⟩]⟩
      SYS_I2C_RUNTIME.zero).1 = .returned true ∧
    (sys_i2c_runtime_init esp32 APP_config BSP_I2C_config ⟨[0], [⟨0, 0⟩, ⟨100000, 0⟩]⟩
      SYS_I2C_RUNTIME.zero).1 ≠ .returned true ∧
    (sys_i2c_runtime_init esp32 APP_config BSP_I2C_config ⟨[0], [⟨1000001, 0⟩, ⟨100000, 0⟩]⟩
      SYS_I2C_RUNTIME.zero).1 ≠ .returned true := by
  have other : ∀ clk : Nat, ∀ i, i < esp32.SYS_I2C_ID_CNT →
      ∃ (pins : BspUnit) (port : i2c_port_t) (clock : PortClock),
      (BSP_I2C_config[APP_config.bsp_id]?).bind (fun b => b.unit[i]?) = some pins ∧
      (⟨[0], [⟨clk, 0⟩, ⟨100000, 0⟩]⟩ : SYS_I2C_CONFIG).unit[i]? = some port ∧
      (⟨[0], [⟨clk, 0⟩, ⟨100000, 0⟩]⟩ : SYS_I2C_CONFIG).clock? port = some clock ∧
      port < esp32.I2C_NUM_MAX ∧ PinsOk esp32 pins.sda_io_num pins.scl_io_num ∧
      FlagsOk esp32 clock.clk_flags := by
    intro clk i hi
    have : i = 0 := Nat.lt_one_iff.1 hi
    subst this
    exact ⟨⟨4, 3⟩, 0, ⟨clk, 0⟩, rfl, rfl, rfl, by decide, by unfold PinsOk; decide,
      fun _ => Nat.zero_le _⟩
  refine ⟨?_, fun h => ?_, fun h => ?_⟩
  · refine (clock_validated esp32 APP_config BSP_I2C_config ⟨[0], [⟨1000000, 0⟩, ⟨100000, 0⟩]⟩
      SYS_I2C_RUNTIME.zero (by decide) (by decide) (by decide) (other 1000000)).2.2 ?_
    intro i port clock hi hu hp
    have : i = 0 := Nat.lt_one_iff.1 hi
    subst this
    cases hu
    cases hp
    decide
  · have := (clock_validated esp32 APP_config BSP_I2C_config ⟨[0], [⟨0, 0⟩, ⟨100000, 0⟩]⟩
      SYS_I2C_RUNTIME.zero (by decide) (by decide) (by decide) (other 0)).2.1 h 0 0 ⟨0, 0⟩
      (by decide) rfl rfl
    exact absurd this.1 (by decide)
  · have := (clock_validated esp32 APP_config BSP_I2C_config ⟨[0], [⟨1000001, 0⟩, ⟨100000, 0⟩]⟩
      SYS_I2C_RUNTIME.zero (by decide) (by decide) (by decide) (other 1000001)).2.1 h 0 0
      ⟨1000001, 0⟩ (by decide) rfl rfl
    exact absurd this.2 (by decide)

/-- The upper bound of the controller id is validated: `sys_i2c_runtime_init` does not
return true on a configuration in which the controller id of some logical bus is not
below `I2C_NUM_MAX`; with tables of the declared sizes, no negative controller id and at
most 255 logical buses it then aborts on a failed assertion, and no table is read outside
its bounds. When it returns true the controller id of every logical bus is below
`I2C_NUM_MAX`. -/
theorem controller_upper_bound (P : Platform) (APP_config : APP_CONFIG)
    (BSP_I2C_config : List BSP_I2C_CONFIG) (SYS_I2C_config : SYS_I2C_CONFIG)
    (rt : SYS_I2C_RUNTIME) :
    (∀ (i : Nat) (port : i2c_port_t), i < P.SYS_I2C_ID_CNT →
      SYS_I2C_config.unit[i]? = some port → ¬ port < P.I2C_NUM_MAX →
      (sys_i2c_runtime_init P APP_config BSP_I2C_config SYS_I2C_config rt).1 ≠
          .returned true ∧
        (TablesSized P BSP_I2C_config SYS_I2C_config →
          (∀ p ∈ SYS_I2C_config.unit, (0 : Int) ≤ p) → P.SYS_I2C_ID_CNT ≤ 255 →
          ∃ line, (sys_i2c_runtime_init P APP_config BSP_I2C_config SYS_I2C_config rt).1 =
            .aborted line)) ∧
    (TablesSized P BSP_I2C_config SYS_I2C_config →
      (∀ p ∈ SYS_I2C_config.unit, (0 : Int) ≤ p) →
      (sys_i2c_runtime_init P APP_config BSP_I2C_config SYS_I2C_config rt).1 ≠ .undefined) ∧
    ((sys_i2c_runtime_init P APP_config BSP_I2C_config SYS_I2C_config rt).1 =
        .returned true →
      ∀ i, i < P.SYS_I2C_ID_CNT →
        ((sys_i2c_runtime_init P APP_config BSP_I2C_config SYS_I2C_config rt).2.unit
          i).port_num < P.I2C_NUM_MAX) := by
  have key : ∀ (i : Nat) (port : i2c_port_t), i < P.SYS_I2C_ID_CNT →
      SYS_I2C_config.unit[i]? = some port → ¬ port < P.I2C_NUM_MAX →
      (sys_i2c_runtime_init P APP_config BSP_I2C_config SYS_I2C_config rt).1 ≠
          .returned true := by
    intro i port hi hu hbad htrue
    obtain ⟨⟨pins', clock, -, hu', -, -⟩, c0, -⟩ :=
      (runtime_init_true P APP_config BSP_I2C_config SYS_I2C_config rt htrue).2.2.2 i hi
    rw [hu] at hu'
    cases hu'
    exact hbad c0
  refine ⟨fun i port hi hu hbad => ⟨key i port hi hu hbad, fun hsz hnn h255 => ?_⟩,
    fun hsz hnn => ?_, fun htrue i hi => ?_⟩
  · exact runtime_init_rejects P APP_config BSP_I2C_config SYS_I2C_config rt hsz hnn
      (Nat.lt_of_le_of_lt (Nat.zero_le _) hi) h255 (key i port hi hu hbad)
  · unfold sys_i2c_runtime_init
    by_cases h0 : P.SYS_I2C_ID_CNT = 0
    · rw [if_pos h0]; simp
    rw [if_neg h0]
    by_cases hb : P.BSP_ID_CNT > APP_config.bsp_id
    swap
    · simp only [if_pos hb]; simp
    simp only [if_neg (not_not.2 hb)]
    exact runtime_init_loop_defined P BSP_I2C_config SYS_I2C_config _ hsz hnn hb 257 0 rt
  · exact ((runtime_init_true P APP_config BSP_I2C_config SYS_I2C_config rt htrue).2.2.2
      i hi).2.1

/-- C10, evaluated: a negative controller id is not rejected. On the tables of the
repository with bus 0 assigned to the controller `-1`, the only check on the id, the
comparison `I2C_NUM_MAX > port_num` of line 155, passes; the id `-1` has been stored in
the runtime table; the clock table, which has no entry `-1`, is then indexed with it, and
the run does not end on a failed assertion. With bus 0 assigned to the controller `2`,
which is not below `I2C_NUM_MAX`, the run does abort on line 155, before the clock table
is indexed. -/
theorem negative_controller_not_rejected :
    ((esp32.I2C_NUM_MAX : Int) > -1) ∧
    (⟨[-1], [⟨400000, 0⟩, ⟨100000, 0⟩]⟩ : SYS_I2C_CONFIG).clock? (-1) = none ∧
    (sys_i2c_runtime_init esp32 APP_config BSP_I2C_config
      ⟨[-1], [⟨400000, 0⟩, ⟨100000, 0⟩]⟩ SYS_I2C_RUNTIME.zero).1 = .undefined ∧
    ((sys_i2c_runtime_init esp32 APP_config BSP_I2C_config
      ⟨[-1], [⟨400000, 0⟩, ⟨100000, 0⟩]⟩ SYS_I2C_RUNTIME.zero).2.unit 0).port_num = -1 ∧
    (∀ line, (sys_i2c_runtime_init esp32 APP_config BSP_I2C_config
      ⟨[-1], [⟨400000, 0⟩, ⟨100000, 0⟩]⟩ SYS_I2C_RUNTIME.zero).1 ≠ .aborted line) ∧
    (sys_i2c_runtime_init esp32 APP_config BSP_I2C_config
      ⟨[2], [⟨400000, 0⟩, ⟨100000, 0⟩]⟩ SYS_I2C_RUNTIME.zero).1 = .aborted 155 := by
  refine ⟨by decide, by decide, by decide, by decide, fun line h => ?_, by decide⟩
  have h2 : (sys_i2c_runtime_init esp32 APP_config BSP_I2C_config
      ⟨[-1], [⟨400000, 0⟩, ⟨100000, 0⟩]⟩ SYS_I2C_RUNTIME.zero).1 = .undefined := by decide
  rw [h2] at h
  cases h

/-! ## Claims on the runtime table builder, continued -/

/-- The numeric test of the source on the clock flags and the bit test of the
specification agree on every 32-bit value. -/
theorem flags_test_iff (f : Nat) (hf : f < 2 ^ 32) :
    (I2C_SCLK_SRC_FLAG_FOR_NOMAL ||| I2C_SCLK_SRC_FLAG_AWARE_DFS |||
      I2C_SCLK_SRC_FLAG_LIGHT_SLEEP) ≥ f ↔ flags_in_bit_range f := by
  constructor
  · intro h
    have h3 : f ≤ 3 := h
    unfold flags_in_bit_range
    interval_cases f <;> decide
  · intro h
    by_contra hc
    have h4 : f ≥ 2 ^ 2 := by
      have : ¬ f ≤ 3 := hc
      omega
    obtain ⟨k, hk, hb⟩ := Nat.ge_two_pow_implies_high_bit_true h4
    have hk32 : k < 32 := by
      by_contra h32
      have : f < 2 ^ k := lt_of_lt_of_le hf (Nat.pow_le_pow_right (by decide) (by omega))
      rw [Nat.testBit_lt_two_pow this] at hb
      cases hb
    have := congrArg (fun x => x.testBit k) h
    simp only [Nat.testBit_and, hb, Bool.true_and, Nat.zero_testBit] at this
    interval_cases k <;> exact absurd this (by decide)

/-- The numeric test of the source on the clock flags says that no bit above bit 1 is
set. -/
theorem flags_test_bits (f : Nat) :
    (I2C_SCLK_SRC_FLAG_FOR_NOMAL ||| I2C_SCLK_SRC_FLAG_AWARE_DFS |||
      I2C_SCLK_SRC_FLAG_LIGHT_SLEEP) ≥ f ↔ ∀ k, f.testBit k = true → k = 0 ∨ k = 1 := by
  constructor
  · intro h k hk
    have h3 : f < 2 ^ 2 := Nat.lt_succ_of_le h
    by_contra hc
    have : f < 2 ^ k := lt_of_lt_of_le h3 (Nat.pow_le_pow_right (by decide) (by omega))
    rw [Nat.testBit_lt_two_pow this] at hk
    cases hk
  · intro h
    have : f < 2 ^ 2 := by
      apply Nat.lt_pow_two_of_testBit
      intro i hi
      by_contra hc
      have := h i (by simpa using hc)
      omega
    exact Nat.le_of_lt_succ this

/-- C11: with the clock flags enabled, on a configuration that passes every other check
(between 1 and 255 logical buses, board id in range, and for every logical bus valid
pins, a controller id in range and a valid clock speed) and whose clock flags are 32-bit
values, `sys_i2c_runtime_init` returns true if and only if the clock flags of every
logical bus, which are those of its controller, have no bit set other than bit 0
(`I2C_SCLK_SRC_FLAG_AWARE_DFS`) and bit 1 (`I2C_SCLK_SRC_FLAG_LIGHT_SLEEP`). The numeric
test of the source, `(FOR_NOMAL | AWARE_DFS | LIGHT_SLEEP) >= clk_flags`, is equivalent
for every 32-bit value to `clk_flags & ~3 == 0`, and to no bit other than bits 0 and 1
being set. -/
theorem flags_validated (P : Platform) (APP_config : APP_CONFIG)
    (BSP_I2C_config : List BSP_I2C_CONFIG) (SYS_I2C_config : SYS_I2C_CONFIG)
    (rt : SYS_I2C_RUNTIME) (hen : P.SYS_I2C_CLK_FLAGS_ENABLE = true)
    (h0 : 0 < P.SYS_I2C_ID_CNT) (h255 : P.SYS_I2C_ID_CNT ≤ 255)
    (hb : APP_config.bsp_id < P.BSP_ID_CNT)
    (hother : ∀ i, i < P.SYS_I2C_ID_CNT → ∃ (pins : BspUnit) (port : i2c_port_t)
      (clock : PortClock),
      (BSP_I2C_config[APP_config.bsp_id]?).bind (fun b => b.unit[i]?) = some pins ∧
      SYS_I2C_config.unit[i]? = some port ∧ SYS_I2C_config.clock? port = some clock ∧
      port < P.I2C_NUM_MAX ∧ PinsOk P pins.sda_io_num pins.scl_io_num ∧
      (clock.clk_speed ≠ 0 ∧ clock.clk_speed ≤ SYS_I2C_CLOCK_MAX) ∧
      clock.clk_flags < 2 ^ 32) :
    (∀ f : Nat, f < 2 ^ 32 →
      (((I2C_SCLK_SRC_FLAG_FOR_NOMAL ||| I2C_SCLK_SRC_FLAG_AWARE_DFS |||
          I2C_SCLK_SRC_FLAG_LIGHT_SLEEP) ≥ f ↔ flags_in_bit_range f) ∧
        (flags_in_bit_range f ↔ ∀ k, f.testBit k = true → k = 0 ∨ k = 1))) ∧
    ((sys_i2c_runtime_init P APP_config BSP_I2C_config SYS_I2C_config rt).1 = .returned true ↔
      ∀ (i : Nat) (port : i2c_port_t) (clock : PortClock), i < P.SYS_I2C_ID_CNT →
        SYS_I2C_config.unit[i]? = some port → SYS_I2C_config.clock? port = some clock →
        flags_in_bit_range clock.clk_flags) := by
  refine ⟨fun f hf => ⟨flags_test_iff f hf,
    (flags_test_iff f hf).symm.trans (flags_test_bits f)⟩,
    fun htrue i port clock hi hu hp => ?_, fun hfl => ?_⟩
  · obtain ⟨⟨pins', clock', -, hu', hp', he⟩, -, -, -, c3⟩ :=
      (runtime_init_true P APP_config BSP_I2C_config SYS_I2C_config rt htrue).2.2.2 i hi
    obtain ⟨-, port2, clock2, -, e2, e3, -, -, -, h32⟩ := hother i hi
    rw [hu] at hu' e2
    cases hu'
    cases e2
    rw [hp] at hp' e3
    cases hp'
    cases e3
    rw [he] at c3
    exact (flags_test_iff _ h32).1 (c3 hen)
  · refine runtime_init_accepts P APP_config BSP_I2C_config SYS_I2C_config rt h0 h255 hb
      (fun j hj => ?_)
    obtain ⟨pins, port, clock, e1, e2, e3, hp, hpins, hclk, h32⟩ := hother j hj
    exact ⟨⟨pins.sda_io_num, pins.scl_io_num, port, clock.clk_speed, clock.clk_flags⟩,
      ⟨pins, clock, e1, e2, e3, rfl⟩, hp, hpins, hclk,
      fun _ => (flags_test_iff _ h32).2 (hfl j port clock hj e2 e3)⟩

/-- Witness of C11: with the tables of the repository and the clock flags of controller 0
set to 3 (both bits) the build returns true; set to 4 (bit 2) it does not. -/
theorem flags_validated_witness :
    (sys_i2c_runtime_init esp32 APP_config BSP_I2C_config ⟨[0], [⟨400000, 3⟩, ⟨100000, 0⟩]⟩
      SYS_I2C_RUNTIME.zero).1 = .returned true ∧
    (sys_i2c_runtime_init esp32 APP_config BSP_I2C_config ⟨[0], [⟨400000, 4⟩, ⟨100000, 0⟩]⟩
      SYS_I2C_RUNTIME.zero).1 ≠ .returned true := by
  have other : ∀ fl : Nat, fl < 2 ^ 32 → ∀ i, i < esp32.SYS_I2C_ID_CNT →
      ∃ (pins : BspUnit) (port : i2c_port_t) (clock : PortClock),
      (BSP_I2C_config[APP_config.bsp_id]?).bind (fun b => b.unit[i]?) = some pins ∧
      (⟨[0], [⟨400000, fl⟩, ⟨100000, 0⟩]⟩ : SYS_I2C_CONFIG).unit[i]? = some port ∧
      (⟨[0], [⟨400000, fl⟩, ⟨100000, 0⟩]⟩ : SYS_I2C_CONFIG).clock? port = some clock ∧
      port < esp32.I2C_NUM_MAX ∧ PinsOk esp32 pins.sda_io_num pins.scl_io_num ∧
      (clock.clk_speed ≠ 0 ∧ clock.clk_speed ≤ SYS_I2C_CLOCK_MAX) ∧
      clock.clk_flags < 2 ^ 32 := by
    intro fl hfl i hi
    have : i = 0 := Nat.lt_one_iff.1 hi
    subst this
    exact ⟨⟨4, 3⟩, 0, ⟨400000, fl⟩, rfl, rfl, rfl, by decide, by unfold PinsOk; decide,
      (by decide : (400000 : Nat) ≠ 0 ∧ 400000 ≤ SYS_I2C_CLOCK_MAX), hfl⟩
  refine ⟨?_, fun h => ?_⟩
  · refine (flags_validated esp32 APP_config BSP_I2C_config ⟨[0], [⟨400000, 3⟩, ⟨100000, 0⟩]⟩
      SYS_I2C_RUNTIME.zero rfl (by decide) (by decide) (by decide)
      (other 3 (by decide))).2.2 ?_
    intro i port clock hi hu hp
    have : i = 0 := Nat.lt_one_iff.1 hi
    subst this
    cases hu
    cases hp
    unfold flags_in_bit_range
    decide
  · have := (flags_validated esp32 APP_config BSP_I2C_config ⟨[0], [⟨400000, 4⟩, ⟨100000, 0⟩]⟩
      SYS_I2C_RUNTIME.zero rfl (by decide) (by decide) (by decide)
      (other 4 (by decide))).2.1 h 0 0 ⟨400000, 4⟩ (by decide) rfl rfl
    exact absurd this (by unfold flags_in_bit_range; decide)

/-- A pass of the loop writes no entry but the one of its logical bus and no lock, also
when it ends the program. -/
theorem runtime_init_body_frame (P : Platform) (bsp : List BSP_I2C_CONFIG)
    (sys : SYS_I2C_CONFIG) (bsp_id i : Nat) (rt : SYS_I2C_RUNTIME) :
    (∀ j, j ≠ i → (runtime_init_body P bsp sys bsp_id i rt).2.unit j = rt.unit j) ∧
    (runtime_init_body P bsp sys bsp_id i rt).2.lock = rt.lock := by
  unfold runtime_init_body
  cases h1 : (bsp[bsp_id]?).bind (fun b => b.unit[i]?) with
  | none => exact ⟨fun _ _ => rfl, rfl⟩
  | some pins =>
    cases h2 : sys.unit[i]? with
    | none =>
      refine ⟨fun j hj => ?_, rfl⟩
      simp [SYS_I2C_RUNTIME.setUnit, hj]
    | some port =>
      simp only
      by_cases h3 : P.I2C_NUM_MAX > port
      swap
      · rw [if_pos h3]
        refine ⟨fun j hj => ?_, rfl⟩
        simp [SYS_I2C_RUNTIME.setUnit, hj]
      rw [if_neg (not_not.2 h3)]
      cases h4 : sys.clock? port with
      | none =>
        refine ⟨fun j hj => ?_, rfl⟩
        simp [SYS_I2C_RUNTIME.setUnit, hj]
      | some clock =>
        simp only
        split_ifs <;> exact ⟨fun j hj => by simp [SYS_I2C_RUNTIME.setUnit, hj], rfl⟩

/-- A pass of the loop that aborts has made the stores that precede the failed
assertion. -/
theorem runtime_init_body_aborted (P : Platform) (bsp : List BSP_I2C_CONFIG)
    (sys : SYS_I2C_CONFIG) (bsp_id i : Nat) (rt rt' : SYS_I2C_RUNTIME) (line : Nat)
    (h : runtime_init_body P bsp sys bsp_id i rt = (some (.aborted line), rt')) :
    StoredBefore P bsp sys bsp_id i line (rt.unit i) (rt'.unit i) := by
  unfold runtime_init_body at h
  cases h1 : (bsp[bsp_id]?).bind (fun b => b.unit[i]?) with
  | none => simp [h1] at h
  | some pins =>
    cases h2 : sys.unit[i]? with
    | none => simp [h1, h2] at h
    | some port =>
      simp only [h1, h2] at h
      by_cases h3 : P.I2C_NUM_MAX > port
      swap
      · simp only [h3, not_false_eq_true, if_true, Prod.mk.injEq, Option.some.injEq,
          Outcome.aborted.injEq] at h
        obtain ⟨hl, hrt⟩ := h
        refine ⟨pins, port, h1, h2, Or.inl ⟨hl.symm, h3, ?_⟩⟩
        rw [← hrt]
        simp [SYS_I2C_RUNTIME.setUnit]
      cases h4 : sys.clock? port with
      | none => simp [h3, h4] at h
      | some clock =>
        simp only [h4, h3, not_true_eq_false, if_false] at h
        have hm : ∀ rt5 : SYS_I2C_RUNTIME,
            rt5.unit i = ⟨pins.sda_io_num, pins.scl_io_num, port, clock.clk_speed,
              clock.clk_flags⟩ →
            Merged bsp sys bsp_id i (rt5.unit i) := by
          intro rt5 h5
          refine ⟨pins, clock, h1, ?_, ?_, ?_⟩
          · rw [h5]; exact h2
          · rw [h5]; exact h4
          · rw [h5]
        have hu : ∀ (l : Nat) (rt5 : SYS_I2C_RUNTIME), 162 ≤ l →
            rt5.unit i = ⟨pins.sda_io_num, pins.scl_io_num, port, clock.clk_speed,
              clock.clk_flags⟩ →
            ((some (Outcome.aborted l), rt5) : Option Outcome × SYS_I2C_RUNTIME) =
              (some (.aborted line), rt') →
            StoredBefore P bsp sys bsp_id i line (rt.unit i) (rt'.unit i) := by
          intro l rt5 hl h5 he
          have hl2 : l = line := by
            have := congrArg Prod.fst he
            simpa using this
          have hrt : rt5 = rt' := congrArg Prod.snd he
          refine ⟨pins, port, h1, h2, Or.inr ⟨by omega, ?_⟩⟩
          rw [← hrt]
          exact hm rt5 h5
        split_ifs at h
        all_goals first
          | (refine hu _ _ ?_ ?_ h
             · decide
             · simp [SYS_I2C_RUNTIME.setUnit])
          | cases h

/-- The loop of `sys_i2c_runtime_init`, when it aborts: it does so in the pass of some
logical bus `k`, which has no entry in the tables that passes the checks; the stores of
that pass that precede the failed assertion have been made into the entry of `k`; the
logical buses from the counter value up to `k` have their merged entries in the table and
passed the checks; the entries below the counter value and above `k` and the locks are
unchanged. -/
theorem runtime_init_loop_aborted (P : Platform) (bsp : List BSP_I2C_CONFIG)
    (sys : SYS_I2C_CONFIG) (bsp_id : Nat) (h255 : P.SYS_I2C_ID_CNT ≤ 255) :
    ∀ (fuel id : Nat) (rt rt' : SYS_I2C_RUNTIME) (line : Nat), id ≤ P.SYS_I2C_ID_CNT →
      runtime_init_loop P bsp sys bsp_id fuel id rt = (.aborted line, rt') →
      ∃ k, id ≤ k ∧ k < P.SYS_I2C_ID_CNT ∧
        (¬ ∃ u, Merged bsp sys bsp_id k u ∧ Checked P u) ∧
        StoredBefore P bsp sys bsp_id k line (rt.unit k) (rt'.unit k) ∧
        (∀ j, id ≤ j → j < k →
          Merged bsp sys bsp_id j (rt'.unit j) ∧ Checked P (rt'.unit j)) ∧
        (∀ j, j < id ∨ k < j → rt'.unit j = rt.unit j) ∧ rt'.lock = rt.lock := by
  intro fuel
  induction fuel with
  | zero => intro id rt rt' line _ h; simp [runtime_init_loop] at h
  | succ fuel ih =>
    intro id rt rt' line hid h
    unfold runtime_init_loop at h
    by_cases hc : P.SYS_I2C_ID_CNT > id
    swap
    · rw [if_pos hc] at h
      cases h
    rw [if_neg (not_not.2 hc)] at h
    rcases hb : runtime_init_body P bsp sys bsp_id id rt with ⟨_ | out, rt1⟩
    · rw [hb] at h
      simp only at h
      have hmod : (id + 1) % 256 = id + 1 := Nat.mod_eq_of_lt (by omega)
      rw [hmod] at h
      obtain ⟨k, hk1, hk2, hbad, hst, hall, hframe, hlock⟩ := ih (id + 1) rt1 rt' line hc h
      obtain ⟨bm, bc, bo, bl⟩ := runtime_init_body_none P bsp sys bsp_id id rt rt1 hb
      refine ⟨k, Nat.le_of_succ_le hk1, hk2, hbad, ?_, fun j h1 h2 => ?_, fun j hj => ?_,
        hlock.trans bl⟩
      · rw [← bo k (by omega)]
        exact hst
      · rcases Nat.eq_or_lt_of_le h1 with h | h
        · subst h
          rw [hframe id (Or.inl (Nat.lt_succ_self id))]
          exact ⟨bm, bc⟩
        · exact hall j h h2
      · rcases hj with hj | hj
        · rw [hframe j (Or.inl (Nat.lt_succ_of_lt hj))]
          exact bo j (Nat.ne_of_lt hj)
        · rw [hframe j (Or.inr hj)]
          exact bo j (by omega)
    · rw [hb] at h
      simp only at h
      cases h
      have hfr := runtime_init_body_frame P bsp sys bsp_id id rt
      rw [hb] at hfr
      refine ⟨id, le_rfl, hc, fun hex => ?_,
        runtime_init_body_aborted P bsp sys bsp_id id rt _ line hb,
        fun j h1 h2 => absurd h1 (by omega), fun j hj => hfr.1 j (by omega), hfr.2⟩
      have := (runtime_init_body_none_iff P bsp sys bsp_id id rt).2 hex
      rw [hb] at this
      cases this

/-- C12, refuted as stated: on a configuration with two logical buses whose second bus
has its data pin on its clock pin, `sys_i2c_runtime_init` aborts on the assertion of line
164, and the runtime table, which was zero before, then holds the entry of the first bus
and the entry of the rejected second bus, both written from the rejected configuration. -/
theorem partial_table_on_rejection :
    (sys_i2c_runtime_init two_buses ⟨0⟩ [⟨[⟨4, 3⟩, ⟨5, 5⟩]⟩, ⟨[⟨4, 3⟩, ⟨5, 5⟩]⟩, ⟨[⟨4, 3⟩, ⟨5, 5⟩]⟩]
      ⟨[0, 1], [⟨400000, 0⟩, ⟨100000, 0⟩]⟩ SYS_I2C_RUNTIME.zero).1 = .aborted 164 ∧
    (sys_i2c_runtime_init two_buses ⟨0⟩ [⟨[⟨4, 3⟩, ⟨5, 5⟩]⟩, ⟨[⟨4, 3⟩, ⟨5, 5⟩]⟩, ⟨[⟨4, 3⟩, ⟨5, 5⟩]⟩]
      ⟨[0, 1], [⟨400000, 0⟩, ⟨100000, 0⟩]⟩ SYS_I2C_RUNTIME.zero).2.unit 0 =
      ⟨4, 3, 0, 400000, 0⟩ ∧
    (sys_i2c_runtime_init two_buses ⟨0⟩ [⟨[⟨4, 3⟩, ⟨5, 5⟩]⟩, ⟨[⟨4, 3⟩, ⟨5, 5⟩]⟩, ⟨[⟨4, 3⟩, ⟨5, 5⟩]⟩]
      ⟨[0, 1], [⟨400000, 0⟩, ⟨100000, 0⟩]⟩ SYS_I2C_RUNTIME.zero).2.unit 1 =
      ⟨5, 5, 1, 100000, 0⟩ ∧
    SYS_I2C_RUNTIME.zero.unit 0 = ⟨0, 0, 0, 0, 0⟩ ∧
    SYS_I2C_RUNTIME.zero.unit 1 = ⟨0, 0, 0, 0, 0⟩ := by
  decide

/-- C12, amended: when `sys_i2c_runtime_init` does not return true on tables of the
declared sizes with at most 255 logical buses, then either there is no logical bus and it
returns false, or the board id is out of range and it aborts on the assertion of line 145,
in both cases with the runtime table untouched; or it aborts on a failed assertion in the
pass of the first violating logical bus `k`: every logical bus before `k` passed the
checks and has its merged entry in the table, bus `k` has no entry in the tables that
passes the checks, the stores of bus `k` that precede its failed assertion have been made
(on line 155 the pins and the controller id, the clock being the old one; on a later line
the whole merged entry), and no entry of a logical bus after `k` and no lock has been
written. The one run that is no rejection is the one that indexes the clock table with a
negative controller id of the table, which the comparison of line 155 lets through. -/
theorem rejection_stops_at_first_violation (P : Platform) (APP_config : APP_CONFIG)
    (BSP_I2C_config : List BSP_I2C_CONFIG) (SYS_I2C_config : SYS_I2C_CONFIG)
    (rt : SYS_I2C_RUNTIME) (hsz : TablesSized P BSP_I2C_config SYS_I2C_config)
    (h255 : P.SYS_I2C_ID_CNT ≤ 255)
    (hrej : (sys_i2c_runtime_init P APP_config BSP_I2C_config SYS_I2C_config rt).1 ≠
      .returned true) :
    (P.SYS_I2C_ID_CNT = 0 ∧
      sys_i2c_runtime_init P APP_config BSP_I2C_config SYS_I2C_config rt =
        (.returned false, rt)) ∨
    (¬ APP_config.bsp_id < P.BSP_ID_CNT ∧
      sys_i2c_runtime_init P APP_config BSP_I2C_config SYS_I2C_config rt =
        (.aborted 145, rt)) ∨
    ((sys_i2c_runtime_init P APP_config BSP_I2C_config SYS_I2C_config rt).1 = .undefined ∧
      ∃ p ∈ SYS_I2C_config.unit, p < (0 : Int)) ∨
    ∃ (k line : Nat), k < P.SYS_I2C_ID_CNT ∧
      (sys_i2c_runtime_init P APP_config BSP_I2C_config SYS_I2C_config rt).1 =
        .aborted line ∧
      (¬ ∃ u, Merged BSP_I2C_config SYS_I2C_config APP_config.bsp_id k u ∧ Checked P u) ∧
      StoredBefore P BSP_I2C_config SYS_I2C_config APP_config.bsp_id k line (rt.unit k)
        ((sys_i2c_runtime_init P APP_config BSP_I2C_config SYS_I2C_config rt).2.unit k) ∧
      (∀ j, j < k →
        Merged BSP_I2C_config SYS_I2C_config APP_config.bsp_id j
          ((sys_i2c_runtime_init P APP_config BSP_I2C_config SYS_I2C_config rt).2.unit j) ∧
        Checked P
          ((sys_i2c_runtime_init P APP_config BSP_I2C_config SYS_I2C_config rt).2.unit j)) ∧
      (∀ j, k < j →
        (sys_i2c_runtime_init P APP_config BSP_I2C_config SYS_I2C_config rt).2.unit j =
          rt.unit j) ∧
      (sys_i2c_runtime_init P APP_config BSP_I2C_config SYS_I2C_config rt).2.lock =
        rt.lock := by
  by_cases h0 : P.SYS_I2C_ID_CNT = 0
  · left
    exact ⟨h0, by unfold sys_i2c_runtime_init; rw [if_pos h0]⟩
  by_cases hb : P.BSP_ID_CNT > APP_config.bsp_id
  swap
  · right; left
    refine ⟨hb, ?_⟩
    unfold sys_i2c_runtime_init
    rw [if_neg h0]
    simp only [if_pos hb]
  right; right
  rcases runtime_init_rejects_or_undefined P APP_config BSP_I2C_config SYS_I2C_config rt hsz
    (Nat.pos_of_ne_zero h0) h255 hrej with ⟨line, hl⟩ | hund
  swap
  · exact Or.inl hund
  right
  have hrun : sys_i2c_runtime_init P APP_config BSP_I2C_config SYS_I2C_config rt =
      runtime_init_loop P BSP_I2C_config SYS_I2C_config APP_config.bsp_id 257 0 rt := by
    unfold sys_i2c_runtime_init
    rw [if_neg h0]
    simp only [if_neg (not_not.2 hb)]
  rw [hrun] at hl ⊢
  obtain ⟨k, -, hk, hbad, hst, hall, hframe, hlock⟩ :=
    runtime_init_loop_aborted P BSP_I2C_config SYS_I2C_config APP_config.bsp_id h255 257 0 rt
      _ line (Nat.zero_le _) (Prod.ext hl rfl)
  exact ⟨k, line, hk, hl, hbad, hst, fun j hj => hall j (Nat.zero_le _) hj,
    fun j hj => hframe j (Or.inr hj), hlock⟩

/-- Witness of C12 as amended: the configuration with two logical buses whose second bus
has its data pin on its clock pin is rejected. -/
theorem rejection_stops_at_first_violation_witness :
    (two_buses.SYS_I2C_ID_CNT = 0 ∧
      sys_i2c_runtime_init two_buses ⟨0⟩
          [⟨[⟨4, 3⟩, ⟨5, 5⟩]⟩, ⟨[⟨4, 3⟩, ⟨5, 5⟩]⟩, ⟨[⟨4, 3⟩, ⟨5, 5⟩]⟩]
          ⟨[0, 1], [⟨400000, 0⟩, ⟨100000, 0⟩]⟩ SYS_I2C_RUNTIME.zero =
        (.returned false, SYS_I2C_RUNTIME.zero)) ∨
    (¬ (⟨0⟩ : APP_CONFIG).bsp_id < two_buses.BSP_ID_CNT ∧
      sys_i2c_runtime_init two_buses ⟨0⟩
          [⟨[⟨4, 3⟩, ⟨5, 5⟩]⟩, ⟨[⟨4, 3⟩, ⟨5, 5⟩]⟩, ⟨[⟨4, 3⟩, ⟨5, 5⟩]⟩]
          ⟨[0, 1], [⟨400000, 0⟩, ⟨100000, 0⟩]⟩ SYS_I2C_RUNTIME.zero =
        (.aborted 145, SYS_I2C_RUNTIME.zero)) ∨
    ((sys_i2c_runtime_init two_buses ⟨0⟩
          [⟨[⟨4, 3⟩, ⟨5, 5⟩]⟩, ⟨[⟨4, 3⟩, ⟨5, 5⟩]⟩, ⟨[⟨4, 3⟩, ⟨5, 5⟩]⟩]
          ⟨[0, 1], [⟨400000, 0⟩, ⟨100000, 0⟩]⟩ SYS_I2C_RUNTIME.zero).1 = .undefined ∧
      ∃ p ∈ (⟨[0, 1], [⟨400000, 0⟩, ⟨100000, 0⟩]⟩ : SYS_I2C_CONFIG).unit, p < (0 : Int)) ∨
    ∃ (k line : Nat), k < two_buses.SYS_I2C_ID_CNT ∧
      (sys_i2c_runtime_init two_buses ⟨0⟩
          [⟨[⟨4, 3⟩, ⟨5, 5⟩]⟩, ⟨[⟨4, 3⟩, ⟨5, 5⟩]⟩, ⟨[⟨4, 3⟩, ⟨5, 5⟩]⟩]
          ⟨[0, 1], [⟨400000, 0⟩, ⟨100000, 0⟩]⟩ SYS_I2C_RUNTIME.zero).1 = .aborted line ∧
      (¬ ∃ u, Merged [⟨[⟨4, 3⟩, ⟨5, 5⟩]⟩, ⟨[⟨4, 3⟩, ⟨5, 5⟩]⟩, ⟨[⟨4, 3⟩, ⟨5, 5⟩]⟩]
          ⟨[0, 1], [⟨400000, 0⟩, ⟨100000, 0⟩]⟩ (⟨0⟩ : APP_CONFIG).bsp_id k u ∧
        Checked two_buses u) ∧
      StoredBefore two_buses [⟨[⟨4, 3⟩, ⟨5, 5⟩]⟩, ⟨[⟨4, 3⟩, ⟨5, 5⟩]⟩, ⟨[⟨4, 3⟩, ⟨5, 5⟩]⟩]
        ⟨[0, 1], [⟨400000, 0⟩, ⟨100000, 0⟩]⟩ (⟨0⟩ : APP_CONFIG).bsp_id k line
        (SYS_I2C_RUNTIME.zero.unit k)
        ((sys_i2c_runtime_init two_buses ⟨0⟩
            [⟨[⟨4, 3⟩, ⟨5, 5⟩]⟩, ⟨[⟨4, 3⟩, ⟨5, 5⟩]⟩, ⟨[⟨4, 3⟩, ⟨5, 5⟩]⟩]
            ⟨[0, 1], [⟨400000, 0⟩, ⟨100000, 0⟩]⟩ SYS_I2C_RUNTIME.zero).2.unit k) ∧
      (∀ j, j < k →
        Merged [⟨[⟨4, 3⟩, ⟨5, 5⟩]⟩, ⟨[⟨4, 3⟩, ⟨5, 5⟩]⟩, ⟨[⟨4, 3⟩, ⟨5, 5⟩]⟩]
          ⟨[0, 1], [⟨400000, 0⟩, ⟨100000, 0⟩]⟩ (⟨0⟩ : APP_CONFIG).bsp_id j
          ((sys_i2c_runtime_init two_buses ⟨0⟩
            [⟨[⟨4, 3⟩, ⟨5, 5⟩]⟩, ⟨[⟨4, 3⟩, ⟨5, 5⟩]⟩, ⟨[⟨4, 3⟩, ⟨5, 5⟩]⟩]
            ⟨[0, 1], [⟨400000, 0⟩, ⟨100000, 0⟩]⟩ SYS_I2C_RUNTIME.zero).2.unit j) ∧
        Checked two_buses
          ((sys_i2c_runtime_init two_buses ⟨0⟩
            [⟨[⟨4, 3⟩, ⟨5, 5⟩]⟩, ⟨[⟨4, 3⟩, ⟨5, 5⟩]⟩, ⟨[⟨4, 3⟩, ⟨5, 5⟩]⟩]
            ⟨[0, 1], [⟨400000, 0⟩, ⟨100000, 0⟩]⟩ SYS_I2C_RUNTIME.zero).2.unit j)) ∧
      (∀ j, k < j →
        (sys_i2c_runtime_init two_buses ⟨0⟩
            [⟨[⟨4, 3⟩, ⟨5, 5⟩]⟩, ⟨[⟨4, 3⟩, ⟨5, 5⟩]⟩, ⟨[⟨4, 3⟩, ⟨5, 5⟩]⟩]
            ⟨[0, 1], [⟨400000, 0⟩, ⟨100000, 0⟩]⟩ SYS_I2C_RUNTIME.zero).2.unit j =
          SYS_I2C_RUNTIME.zero.unit j) ∧
      (sys_i2c_runtime_init two_buses ⟨0⟩
          [⟨[⟨4, 3⟩, ⟨5, 5⟩]⟩, ⟨[⟨4, 3⟩, ⟨5, 5⟩]⟩, ⟨[⟨4, 3⟩, ⟨5, 5⟩]⟩]
          ⟨[0, 1], [⟨400000, 0⟩, ⟨100000, 0⟩]⟩ SYS_I2C_RUNTIME.zero).2.lock =
        SYS_I2C_RUNTIME.zero.lock :=
  rejection_stops_at_first_violation two_buses ⟨0⟩
    [⟨[⟨4, 3⟩, ⟨5, 5⟩]⟩, ⟨[⟨4, 3⟩, ⟨5, 5⟩]⟩, ⟨[⟨4, 3⟩, ⟨5, 5⟩]⟩]
    ⟨[0, 1], [⟨400000, 0⟩, ⟨100000, 0⟩]⟩ SYS_I2C_RUNTIME.zero (by decide) (by decide)
    (by decide)

/-- C13: after a `sys_i2c_runtime_init` that returned true, for every logical bus
`i < SYS_I2C_ID_CNT` the entry `unit[i]` of the runtime table holds the pins of
`BSP_I2C_config[bsp_id].unit[i]`, the controller `SYS_I2C_config.unit[i].port_num`, and
the clock speed and clock flags of `SYS_I2C_config.port[port_num]` for that controller.
Consequently two logical buses on the same controller have the same clock speed and the
same clock flags. -/
theorem merged_values (P : Platform) (APP_config : APP_CONFIG)
    (BSP_I2C_config : List BSP_I2C_CONFIG) (SYS_I2C_config : SYS_I2C_CONFIG)
    (rt : SYS_I2C_RUNTIME)
    (h : (sys_i2c_runtime_init P APP_config BSP_I2C_config SYS_I2C_config rt).1 =
      .returned true) :
    (∀ i, i < P.SYS_I2C_ID_CNT →
      ∃ (board : BSP_I2C_CONFIG) (pins : BspUnit) (port : i2c_port_t) (clock : PortClock),
        BSP_I2C_config[APP_config.bsp_id]? = some board ∧ board.unit[i]? = some pins ∧
        SYS_I2C_config.unit[i]? = some port ∧ SYS_I2C_config.clock? port = some clock ∧
        (sys_i2c_runtime_init P APP_config BSP_I2C_config SYS_I2C_config rt).2.unit i =
          { sda_io_num := pins.sda_io_num
            scl_io_num := pins.scl_io_num
            port_num := port
            clk_speed := clock.clk_speed
            clk_flags := clock.clk_flags }) ∧
    (∀ i j, i < P.SYS_I2C_ID_CNT → j < P.SYS_I2C_ID_CNT →
      ((sys_i2c_runtime_init P APP_config BSP_I2C_config SYS_I2C_config rt).2.unit i).port_num =
        ((sys_i2c_runtime_init P APP_config BSP_I2C_config SYS_I2C_config rt).2.unit
          j).port_num →
      ((sys_i2c_runtime_init P APP_config BSP_I2C_config SYS_I2C_config rt).2.unit i).clk_speed =
        ((sys_i2c_runtime_init P APP_config BSP_I2C_config SYS_I2C_config rt).2.unit
          j).clk_speed ∧
      ((sys_i2c_runtime_init P APP_config BSP_I2C_config SYS_I2C_config rt).2.unit i).clk_flags =
        ((sys_i2c_runtime_init P APP_config BSP_I2C_config SYS_I2C_config rt).2.unit
          j).clk_flags) := by
  have hall := (runtime_init_true P APP_config BSP_I2C_config SYS_I2C_config rt h).2.2.2
  constructor
  · intro i hi
    obtain ⟨⟨pins, clock, h1, h2, h3, hu⟩, -⟩ := hall i hi
    obtain ⟨board, hb1, hb2⟩ := Option.bind_eq_some.1 h1
    exact ⟨board, pins, _, clock, hb1, hb2, h2, h3, hu⟩
  · intro i j hi hj hp
    obtain ⟨⟨pi, ci, -, -, i3, iu⟩, -⟩ := hall i hi
    obtain ⟨⟨pj, cj, -, -, j3, ju⟩, -⟩ := hall j hj
    rw [hp, j3] at i3
    cases i3
    rw [iu, ju]
    exact ⟨rfl, rfl⟩

/-- Witness of C13: two logical buses, with the pins (4, 3) and (6, 5), both assigned to
controller 1, whose clock is 100000 Hz with the flags 2. The runtime table holds, for
each bus, its own pins, the controller 1 and the clock of controller 1. -/
theorem merged_values_witness :
    (sys_i2c_runtime_init two_buses ⟨0⟩
        [⟨[⟨4, 3⟩, ⟨6, 5⟩]⟩, ⟨[⟨4, 3⟩, ⟨6, 5⟩]⟩, ⟨[⟨4, 3⟩, ⟨6, 5⟩]⟩]
        ⟨[1, 1], [⟨400000, 0⟩, ⟨100000, 2⟩]⟩ SYS_I2C_RUNTIME.zero).2.unit 0 =
      ⟨4, 3, 1, 100000, 2⟩ ∧
    (sys_i2c_runtime_init two_buses ⟨0⟩
        [⟨[⟨4, 3⟩, ⟨6, 5⟩]⟩, ⟨[⟨4, 3⟩, ⟨6, 5⟩]⟩, ⟨[⟨4, 3⟩, ⟨6, 5⟩]⟩]
        ⟨[1, 1], [⟨400000, 0⟩, ⟨100000, 2⟩]⟩ SYS_I2C_RUNTIME.zero).2.unit 1 =
      ⟨6, 5, 1, 100000, 2⟩ ∧
    ((sys_i2c_runtime_init two_buses ⟨0⟩
        [⟨[⟨4, 3⟩, ⟨6, 5⟩]⟩, ⟨[⟨4, 3⟩, ⟨6, 5⟩]⟩, ⟨[⟨4, 3⟩, ⟨6, 5⟩]⟩]
        ⟨[1, 1], [⟨400000, 0⟩, ⟨100000, 2⟩]⟩ SYS_I2C_RUNTIME.zero).2.unit 0).clk_speed =
      ((sys_i2c_runtime_init two_buses ⟨0⟩
        [⟨[⟨4, 3⟩, ⟨6, 5⟩]⟩, ⟨[⟨4, 3⟩, ⟨6, 5⟩]⟩, ⟨[⟨4, 3⟩, ⟨6, 5⟩]⟩]
        ⟨[1, 1], [⟨400000, 0⟩, ⟨100000, 2⟩]⟩ SYS_I2C_RUNTIME.zero).2.unit 1).clk_speed := by
  have key := merged_values two_buses ⟨0⟩
    [⟨[⟨4, 3⟩, ⟨6, 5⟩]⟩, ⟨[⟨4, 3⟩, ⟨6, 5⟩]⟩, ⟨[⟨4, 3⟩, ⟨6, 5⟩]⟩]
    ⟨[1, 1], [⟨400000, 0⟩, ⟨100000, 2⟩]⟩ SYS_I2C_RUNTIME.zero (by decide)
  refine ⟨?_, ?_, (key.2 0 1 (by decide) (by decide) (by decide)).1⟩
  · obtain ⟨board, pins, port, clock, h1, h2, h3, h4, hu⟩ := key.1 0 (by decide)
    cases h1
    cases h2
    cases h3
    cases h4
    exact hu
  · obtain ⟨board, pins, port, clock, h1, h2, h3, h4, hu⟩ := key.1 1 (by decide)
    cases h1
    cases h2
    cases h3
    cases h4
    exact hu

/-! ## The composed command and the executor call of a run -/

theorem composed_append (l₁ l₂ : List Ev) : composed (l₁ ++ l₂) = composed l₁ ++ composed l₂ :=
  List.filter_append _ _

theorem composed_eq_nil (l : List Ev) (h : ∀ a ∈ l, a.call.kind ≠ .compose) :
    composed l = [] := by
  unfold composed
  rw [List.filter_eq_nil_iff]
  intro a ha
  simpa using h a ha

/-- A run that left the successful sequence `Pre ++ X :: Post`, in which `X` is the call
of the executor, `Pre` has no executor call and `Post` neither creates nor composes: its
composition calls are an initial part of those of `Pre`; they are all of them, with the
same return values, when the run reaches the executor; and every executor call of the run
is the call of `X`. -/
theorem composed_of_stopped (Pre Post F tr : List Ev) (X e : Ev) (r : Int) (j : Nat)
    (hX : X.call.kind = .exec)
    (hPre : ∀ a ∈ Pre, a.call.kind ≠ .exec)
    (hPost : ∀ a ∈ Post, a.call.kind ≠ .exec ∧ a.call.kind ≠ .compose)
    (hF : ∀ a ∈ F, a.call.kind ≠ .exec ∧ a.call.kind ≠ .compose)
    (hS : (Pre ++ X :: Post)[j]? = some e)
    (htr : tr = (Pre ++ X :: Post).take j ++ ⟨e.call, r⟩ :: F) :
    (composed tr).map Ev.call <+: (composed Pre).map Ev.call ∧
    ((∃ a ∈ tr, a.call.kind = .exec) → composed tr = composed Pre) ∧
    (∀ a ∈ tr, a.call.kind = .exec → a.call = X.call) := by
  have hXc : X.call.kind ≠ .compose := by rw [hX]; exact fun h => Kind.noConfusion h
  have hmemS : ∀ a ∈ Pre ++ X :: Post, a.call.kind = .exec → a = X := by
    intro a ha hk
    rcases List.mem_append.1 ha with h | h
    · exact absurd hk (hPre a h)
    · rcases List.mem_cons.1 h with h | h
      · exact h
      · exact absurd hk (hPost a h).1
  have heS : e ∈ Pre ++ X :: Post := List.getElem?_mem hS
  refine ⟨?_, ?_, ?_⟩
  · have h1 : (composed tr).map Ev.call =
        (composed ((Pre ++ X :: Post).take (j + 1))).map Ev.call := by
      rw [htr, List.take_succ, hS]
      simp only [composed_append, List.map_append, Option.toList]
      rw [show (⟨e.call, r⟩ :: F : List Ev) = [⟨e.call, r⟩] ++ F from rfl, composed_append,
        composed_eq_nil F (fun a ha => (hF a ha).2), List.append_nil]
      congr 1
      unfold composed
      by_cases hk : e.call.kind = .compose <;> simp [List.filter_cons, hk]
    have h2 : composed (Pre ++ X :: Post) = composed Pre := by
      rw [composed_append, composed_eq_nil (X :: Post), List.append_nil]
      intro a ha
      rcases List.mem_cons.1 ha with h | h
      · rw [h]; exact hXc
      · exact (hPost a h).2
    rw [h1, ← h2]
    exact ((List.take_prefix _ _).filter _).map _
  · rintro ⟨a, ha, hk⟩
    have hj : Pre.length ≤ j := by
      by_contra hlt
      have hlt : j < Pre.length := Nat.lt_of_not_le hlt
      rw [List.getElem?_append_left hlt] at hS
      have hePre : e ∈ Pre := List.getElem?_mem hS
      rw [htr, List.take_append_of_le_length (Nat.le_of_lt hlt)] at ha
      rcases List.mem_append.1 ha with h | h
      · exact hPre a (List.mem_of_mem_take h) hk
      · rcases List.mem_cons.1 h with h | h
        · rw [h] at hk; exact hPre e hePre hk
        · exact (hF a h).1 hk
    rw [List.getElem?_append_right hj] at hS
    have heP : e ∈ X :: Post := List.getElem?_mem hS
    have hec : e.call.kind ≠ .compose := by
      rcases List.mem_cons.1 heP with h | h
      · rw [h]; exact hXc
      · exact (hPost e h).2
    rw [htr, List.take_append_eq_append_take, List.take_of_length_le hj, composed_append,
      composed_append, composed_eq_nil (List.take _ _), composed_eq_nil (_ :: F)]
    · simp
    · intro b hb
      rcases List.mem_cons.1 hb with h | h
      · rw [h]; exact hec
      · exact (hF b h).2
    · intro b hb
      rcases List.mem_cons.1 (List.mem_of_mem_take hb) with h | h
      · rw [h]; exact hXc
      · exact (hPost b h).2
  · intro a ha hk
    rw [htr] at ha
    rcases List.mem_append.1 ha with h | h
    · rw [hmemS a (List.mem_of_mem_take h) hk]
    · rcases List.mem_cons.1 h with h | h
      · rw [h] at hk ⊢
        show e.call = X.call
        exact congrArg Ev.call (hmemS e heS hk)
      · exact absurd hk (hF a h).1

theorem read_commands_kind (c : i2c_cmd_handle_t) (addr reg buf n : Nat) :
    ∀ k ∈ read_commands c addr reg buf n, k.kind = .compose ∧ k ≠ .i2c_cmd_link_create := by
  unfold read_commands
  by_cases hn : n > 1 <;> simp [hn]

theorem write_commands_kind (c : i2c_cmd_handle_t) (addr reg buf n : Nat) :
    ∀ k ∈ write_commands c addr reg buf n, k.kind = .compose ∧ k ≠ .i2c_cmd_link_create := by
  simp [write_commands]

theorem probe_commands_kind (c : i2c_cmd_handle_t) (addr : Nat) :
    ∀ k ∈ probe_commands c addr, k.kind = .compose ∧ k ≠ .i2c_cmd_link_create := by
  simp [probe_commands]

/-- The successful sequence of `sys_i2c_read` is the transaction with the command of a
read and the long deadline. -/
theorem read_success_bracket (P : Platform) (rt : SYS_I2C_RUNTIME)
    (id addr reg buf n : Nat) (c : i2c_cmd_handle_t) (hn : n ≠ 0) :
    read_success_trace P rt id addr reg buf n c =
      transaction_bracket P rt id c (read_commands c addr reg buf n)
        (ESP32_I2C_BUS_TIMEOUT_TICK P) ESP_OK := by
  have e : buf + n - 1 = buf + (n - 1) := by omega
  unfold read_success_trace transaction_bracket read_commands
  rw [e]
  by_cases hs : n > 1 <;> simp [hs]

/-- The successful sequence of `sys_i2c_write` is the transaction with the command of a
write and the long deadline. -/
theorem write_success_bracket (P : Platform) (rt : SYS_I2C_RUNTIME)
    (id addr reg buf n : Nat) (c : i2c_cmd_handle_t) :
    write_success_trace P rt id addr reg buf n c =
      transaction_bracket P rt id c (write_commands c addr reg buf n)
        (ESP32_I2C_BUS_TIMEOUT_TICK P) ESP_OK := by
  simp [write_success_trace, transaction_bracket, write_commands]

/-- The successful sequence of `sys_i2c_probe` is the transaction with the command of a
probe and the short deadline. -/
theorem probe_success_bracket (P : Platform) (rt : SYS_I2C_RUNTIME)
    (id addr : Nat) (c : i2c_cmd_handle_t) (x : esp_err_t) :
    probe_success_trace P rt id addr c x =
      transaction_bracket P rt id c (probe_commands c addr)
        (ESP32_I2C_PROBE_TIMEOUT_TICK P) x := by
  simp [probe_success_trace, transaction_bracket, probe_commands]

/-- The composition calls of a transaction are the creation of the link and the
commands. -/
theorem composed_bracket_pre (P : Platform) (rt : SYS_I2C_RUNTIME) (id : Nat)
    (c : i2c_cmd_handle_t) (cmds : List Call) (hc : ∀ k ∈ cmds, k.kind = .compose) :
    composed
      ([⟨.xSemaphoreTake (rt.lock (rt.unit id).port_num) portMAX_DELAY, pdTRUE⟩,
        ⟨.i2c_param_config (rt.unit id).port_num (attach_config P rt id), ESP_OK⟩,
        ⟨.i2c_cmd_link_create, c⟩] ++ cmds.map (fun k => (⟨k, ESP_OK⟩ : Ev))) =
      ⟨.i2c_cmd_link_create, c⟩ :: cmds.map (fun k => (⟨k, ESP_OK⟩ : Ev)) := by
  have h : composed (cmds.map (fun k => (⟨k, ESP_OK⟩ : Ev))) =
      cmds.map (fun k => (⟨k, ESP_OK⟩ : Ev)) := by
    unfold composed
    rw [List.filter_eq_self]
    intro a ha
    obtain ⟨k, hk, rfl⟩ := List.mem_map.1 ha
    simpa using hc k hk
  rw [composed_append, h]
  simp [composed]

/-- The runs of a transaction that goes through, possibly followed by calls that neither
compose nor execute, and the runs that leave it at some call: the composition calls are
an initial part of the creation of the link and the commands; they are all of them, each
having returned `ESP_OK`, when the run reaches the executor; and every executor call of
the run executes the link `c` on the controller of the bus with the deadline `ticks`. -/
theorem bracket_run (P : Platform) (rt : SYS_I2C_RUNTIME) (id : Nat) (o : Nat → Int)
    (b : Bool) (c : i2c_cmd_handle_t) (cmds : List Call) (ticks : Nat) (x : esp_err_t)
    (tr : List Ev) (hc : ∀ k ∈ cmds, k.kind = .compose)
    (h : (∃ F, (∀ a ∈ F, a.call.kind ≠ .exec ∧ a.call.kind ≠ .compose) ∧
        tr = transaction_bracket P rt id c cmds ticks x ++ F) ∨
      StoppedAt P rt id o b (transaction_bracket P rt id c cmds ticks x) c tr) :
    (composed tr).map Ev.call <+: .i2c_cmd_link_create :: cmds ∧
    ((∃ a ∈ tr, a.call.kind = .exec) →
      composed tr = ⟨.i2c_cmd_link_create, c⟩ :: cmds.map (fun k => (⟨k, ESP_OK⟩ : Ev))) ∧
    (∀ a ∈ tr, a.call.kind = .exec →
      a.call = .i2c_master_cmd_begin (rt.unit id).port_num c ticks) := by
  have hsplit : transaction_bracket P rt id c cmds ticks x =
      ([⟨.xSemaphoreTake (rt.lock (rt.unit id).port_num) portMAX_DELAY, pdTRUE⟩,
        ⟨.i2c_param_config (rt.unit id).port_num (attach_config P rt id), ESP_OK⟩,
        ⟨.i2c_cmd_link_create, c⟩] ++ cmds.map (fun k => (⟨k, ESP_OK⟩ : Ev))) ++
      ⟨.i2c_master_cmd_begin (rt.unit id).port_num c ticks, x⟩ ::
      [⟨.i2c_cmd_link_delete c, 0⟩,
       ⟨.gpio_config (detach_config P (rt.unit id).scl_io_num), ESP_OK⟩,
       ⟨.gpio_config (detach_config P (rt.unit id).sda_io_num), ESP_OK⟩,
       ⟨.xSemaphoreGive (rt.lock (rt.unit id).port_num), pdTRUE⟩] := by
    simp [transaction_bracket]
  have hPre : ∀ a ∈ ([⟨.xSemaphoreTake (rt.lock (rt.unit id).port_num) portMAX_DELAY, pdTRUE⟩,
        ⟨.i2c_param_config (rt.unit id).port_num (attach_config P rt id), ESP_OK⟩,
        ⟨.i2c_cmd_link_create, c⟩] ++ cmds.map (fun k => (⟨k, ESP_OK⟩ : Ev)) : List Ev),
      a.call.kind ≠ .exec := by
    intro a ha
    rcases List.mem_append.1 ha with h | h
    · simp at h
      rcases h with h | h | h <;> rw [h] <;> simp
    · obtain ⟨k, hk, rfl⟩ := List.mem_map.1 h
      rw [show (⟨k, ESP_OK⟩ : Ev).call = k from rfl, hc k hk]
      exact fun h => Kind.noConfusion h
  have hPost : ∀ a ∈ ([⟨.i2c_cmd_link_delete c, 0⟩,
       ⟨.gpio_config (detach_config P (rt.unit id).scl_io_num), ESP_OK⟩,
       ⟨.gpio_config (detach_config P (rt.unit id).sda_io_num), ESP_OK⟩,
       ⟨.xSemaphoreGive (rt.lock (rt.unit id).port_num), pdTRUE⟩] : List Ev),
      a.call.kind ≠ .exec ∧ a.call.kind ≠ .compose := by
    intro a ha
    simp at ha
    rcases ha with h | h | h | h <;> rw [h] <;> simp
  have hmap : (⟨.i2c_cmd_link_create, c⟩ :: cmds.map (fun k => (⟨k, ESP_OK⟩ : Ev))).map
      Ev.call = .i2c_cmd_link_create :: cmds := by
    simp [Function.comp_def]
  rcases h with ⟨F, hF, htr⟩ | ⟨j, e, r, m, hS, -, -, -, -, htr⟩
  · have hcomp : composed tr =
        ⟨.i2c_cmd_link_create, c⟩ :: cmds.map (fun k => (⟨k, ESP_OK⟩ : Ev)) := by
      rw [htr, hsplit, composed_append, composed_append, composed_bracket_pre P rt id c cmds hc,
        composed_eq_nil (_ :: _), composed_eq_nil F (fun a ha => (hF a ha).2)]
      · simp
      · intro a ha
        rcases List.mem_cons.1 ha with h | h
        · rw [h]; simp
        · exact (hPost a h).2
    refine ⟨by rw [hcomp, hmap], fun _ => hcomp, fun a ha hk => ?_⟩
    rw [htr, hsplit] at ha
    rcases List.mem_append.1 ha with h | h
    · rcases List.mem_append.1 h with h | h
      · exact absurd hk (hPre a h)
      · rcases List.mem_cons.1 h with h | h
        · rw [h]
        · exact absurd hk (hPost a h).1
    · exact absurd hk (hF a h).1
  · rw [hsplit] at hS htr
    have hF : ∀ a ∈ fail_trace P rt id (decide (0 < j)) (if j ≤ 2 then 0 else c)
        (rt.unit id).port_num o m, a.call.kind ≠ .exec ∧ a.call.kind ≠ .compose := by
      intro a ha
      rcases fail_trace_kind P rt id _ _ _ o m a ha with h | h | ⟨_, h⟩ <;> rw [h] <;>
        exact ⟨fun h => Kind.noConfusion h, fun h => Kind.noConfusion h⟩
    obtain ⟨h1, h2, h3⟩ := composed_of_stopped _ _ _ tr
      ⟨.i2c_master_cmd_begin (rt.unit id).port_num c ticks, x⟩ e r j rfl hPre hPost hF hS htr
    rw [composed_bracket_pre P rt id c cmds hc] at h1 h2
    rw [hmap] at h1
    exact ⟨h1, h2, h3⟩

/-- A call of a transaction that returned something else than in the transaction, and
yet succeeded: it is the executor, and the executor of the transaction did not return
`ESP_OK`. -/
theorem bracket_failed_call (P : Platform) (rt : SYS_I2C_RUNTIME) (id : Nat)
    (c : i2c_cmd_handle_t) (cmds : List Call) (ticks : Nat) (x : esp_err_t) (e : Ev) (r : Int)
    (hc : ∀ k ∈ cmds, k.kind = .compose ∧ k ≠ .i2c_cmd_link_create)
    (he : e ∈ transaction_bracket P rt id c cmds ticks x)
    (hr : r ≠ e.ret) (hv : e.call.isVoid = false) (hcr : e.call = .i2c_cmd_link_create → r = 0)
    (hs : Succeeded ⟨e.call, r⟩) : e.call.kind = .exec ∧ x ≠ ESP_OK := by
  obtain ⟨s1, s2, s3, s4⟩ := hs
  simp only at s1 s2 s3 s4
  simp only [transaction_bracket, List.mem_append, List.mem_cons, List.mem_map,
    List.mem_singleton, List.not_mem_nil, or_false] at he
  rcases he with ((h | h | h) | ⟨k, hk, h⟩) | (h | h | h | h | h)
  · subst h; exact absurd (s1 (Or.inl rfl)) hr
  · subst h; exact absurd (s4 (Or.inl rfl)) hr
  · subst h; exact absurd (hcr rfl) (s2 rfl)
  · subst h; exact absurd (s3 (hc k hk).1 (hc k hk).2) hr
  · subst h
    refine ⟨rfl, fun hx => hr ?_⟩
    rw [s4 (Or.inr (Or.inr rfl))]
    exact hx.symm
  · subst h; exact absurd hv (by simp [Call.isVoid])
  · subst h; exact absurd (s4 (Or.inr (Or.inl rfl))) hr
  · subst h; exact absurd (s4 (Or.inr (Or.inl rfl))) hr
  · subst h; exact absurd (s1 (Or.inr rfl)) hr

/-- The executor call of a transaction is one of its calls. -/
theorem bracket_has_exec (P : Platform) (rt : SYS_I2C_RUNTIME) (id : Nat)
    (c : i2c_cmd_handle_t) (cmds : List Call) (ticks : Nat) (x : esp_err_t) :
    ∃ a ∈ transaction_bracket P rt id c cmds ticks x, a.call.kind = .exec :=
  ⟨⟨.i2c_master_cmd_begin (rt.unit id).port_num c ticks, x⟩, by simp [transaction_bracket], rfl⟩

/-- A run that left a transaction at some call although every call of the run other than
the executor succeeded: it left it at the executor. -/
theorem stopped_reaches_exec (P : Platform) (rt : SYS_I2C_RUNTIME) (id : Nat)
    (o : Nat → Int) (b : Bool) (c : i2c_cmd_handle_t) (cmds : List Call) (ticks : Nat)
    (x : esp_err_t) (tr : List Ev)
    (hc : ∀ k ∈ cmds, k.kind = .compose ∧ k ≠ .i2c_cmd_link_create)
    (hst : StoppedAt P rt id o b (transaction_bracket P rt id c cmds ticks x) c tr)
    (hs : ∀ a ∈ tr, a.call.kind ≠ .exec → Succeeded a) :
    b = true ∧ ∃ a ∈ tr, a.call.kind = .exec := by
  obtain ⟨j, e, r, m, hS, hr, hv, hcr, hb, htr⟩ := hst
  have hev : (⟨e.call, r⟩ : Ev) ∈ tr := by rw [htr]; simp
  by_cases hk : e.call.kind = .exec
  · exact ⟨hb hk, _, hev, hk⟩
  · exact absurd (bracket_failed_call P rt id c cmds ticks x e r hc (List.getElem?_mem hS) hr hv
      hcr (hs _ hev hk)).1 hk

/-- A run that left a transaction whose executor returns `ESP_OK` at some call: one of
its calls did not succeed. -/
theorem stopped_not_succeeded (P : Platform) (rt : SYS_I2C_RUNTIME) (id : Nat)
    (o : Nat → Int) (b : Bool) (c : i2c_cmd_handle_t) (cmds : List Call) (ticks : Nat)
    (x : esp_err_t) (tr : List Ev)
    (hc : ∀ k ∈ cmds, k.kind = .compose ∧ k ≠ .i2c_cmd_link_create)
    (hst : StoppedAt P rt id o b (transaction_bracket P rt id c cmds ticks x) c tr)
    (hx : b = true → x = ESP_OK)
    (hs : ∀ a ∈ tr, Succeeded a) : False := by
  obtain ⟨hb, -⟩ := stopped_reaches_exec P rt id o b c cmds ticks x tr hc hst
    (fun a ha _ => hs a ha)
  obtain ⟨j, e, r, m, hS, hr, hv, hcr, -, htr⟩ := hst
  have hev : (⟨e.call, r⟩ : Ev) ∈ tr := by rw [htr]; simp
  exact (bracket_failed_call P rt id c cmds ticks x e r hc (List.getElem?_mem hS) hr hv
      hcr (hs _ hev)).2 (hx hb)

/-- The bytes that the command of a read asks for: `buffer[0..n-1]` in order, each once,
all but the last answered with an acknowledge and the last with a no-acknowledge. -/
theorem read_commands_targets (c : i2c_cmd_handle_t) (addr reg buf n : Nat) (hn : 1 ≤ n) :
    (read_commands c addr reg buf n).flatMap Call.readTargets =
      (List.range n).map (fun k =>
        (buf + k, if k + 1 < n then ESP32_I2C_ACK_VAL else ESP32_I2C_NACK_VAL)) := by
  obtain ⟨m, rfl⟩ : ∃ m, n = m + 1 := ⟨n - 1, by omega⟩
  rw [List.range_succ, List.map_append]
  have hlast : ¬ m + 1 < m + 1 := Nat.lt_irrefl _
  have hmap : (List.range m).map (fun k =>
        (buf + k, if k + 1 < m + 1 then ESP32_I2C_ACK_VAL else ESP32_I2C_NACK_VAL)) =
      (List.range m).map (fun k => (buf + k, ESP32_I2C_ACK_VAL)) := by
    apply List.map_congr_left
    intro k hk
    have : k + 1 < m + 1 := Nat.succ_lt_succ (List.mem_range.1 hk)
    simp [this]
  rw [hmap]
  unfold read_commands
  by_cases hm : m + 1 > 1
  · simp [hm, Call.readTargets, List.flatMap]
  · have : m = 0 := by omega
    subst this
    simp [Call.readTargets, List.flatMap]

/-- What the runs of a read or a write have in common, the successful sequence being the
transaction with the commands `cmds c`: the composition calls of a run are an initial part
of the creation of a link `c` and its commands, all of them when the run reaches the
executor, and every executor call executes `c` on the controller of the bus with the
deadline `ticks`; a run in which every call but the executor succeeds reaches the
executor; a run in which every call succeeds is the transaction, and the value is true. -/
theorem rw_run (P : Platform) (rt : SYS_I2C_RUNTIME) (id : Nat) (o : Nat → Int)
    (cmds : i2c_cmd_handle_t → List Call) (ticks : Nat) (res : Bool) (tr : List Ev)
    (hc : ∀ c, ∀ k ∈ cmds c, k.kind = .compose ∧ k ≠ .i2c_cmd_link_create)
    (h : RwCases P rt id o (fun c => transaction_bracket P rt id c (cmds c) ticks ESP_OK)
      res tr) :
    (∃ c, c ≠ 0 ∧
      (composed tr).map Ev.call <+: .i2c_cmd_link_create :: cmds c ∧
      ((∃ a ∈ tr, a.call.kind = .exec) →
        composed tr =
          ⟨.i2c_cmd_link_create, c⟩ :: (cmds c).map (fun k => (⟨k, ESP_OK⟩ : Ev))) ∧
      (∀ a ∈ tr, a.call.kind = .exec →
        a.call = .i2c_master_cmd_begin (rt.unit id).port_num c ticks)) ∧
    ((∀ a ∈ tr, a.call.kind ≠ .exec → Succeeded a) → ∃ a ∈ tr, a.call.kind = .exec) ∧
    ((∀ a ∈ tr, Succeeded a) →
      res = true ∧ ∃ c, c ≠ 0 ∧ tr = transaction_bracket P rt id c (cmds c) ticks ESP_OK) := by
  rcases h with ⟨c, hc0, hres, htr⟩ | ⟨c, hc0, -, hst⟩
  · refine ⟨⟨c, hc0, bracket_run P rt id o true c (cmds c) ticks ESP_OK tr
      (fun k hk => (hc c k hk).1) (Or.inl ⟨[], by simp, by simpa using htr⟩)⟩, fun _ => ?_,
      fun _ => ⟨hres, c, hc0, htr⟩⟩
    rw [htr]
    exact bracket_has_exec P rt id c (cmds c) ticks ESP_OK
  · refine ⟨⟨c, hc0, bracket_run P rt id o true c (cmds c) ticks ESP_OK tr
      (fun k hk => (hc c k hk).1) (Or.inr hst)⟩, fun hs => ?_, fun hs => ?_⟩
    · exact (stopped_reaches_exec P rt id o true c (cmds c) ticks ESP_OK tr (hc c) hst hs).2
    · exact (stopped_not_succeeded P rt id o true c (cmds c) ticks ESP_OK tr (hc c) hst
        (fun _ => rfl) hs).elim

/-- The runs of a probe, in the same terms as `rw_run`. -/
theorem probe_run (P : Platform) (rt : SYS_I2C_RUNTIME) (id addr : Nat) (flag : Bool)
    (o : Nat → Int) (res : ProbeResult) (tr : List Ev)
    (h : ProbeCases P rt id addr flag o res tr) :
    (∃ c, c ≠ 0 ∧
      (composed tr).map Ev.call <+: .i2c_cmd_link_create :: probe_commands c addr ∧
      ((∃ a ∈ tr, a.call.kind = .exec) →
        composed tr =
          ⟨.i2c_cmd_link_create, c⟩ ::
            (probe_commands c addr).map (fun k => (⟨k, ESP_OK⟩ : Ev))) ∧
      (∀ a ∈ tr, a.call.kind = .exec →
        a.call = .i2c_master_cmd_begin (rt.unit id).port_num c
          (ESP32_I2C_PROBE_TIMEOUT_TICK P))) ∧
    ((∀ a ∈ tr, a.call.kind ≠ .exec → Succeeded a) → ∃ a ∈ tr, a.call.kind = .exec) ∧
    ((∀ a ∈ tr, Succeeded a) →
      res = ⟨true, true⟩ ∧ ∃ c, c ≠ 0 ∧ tr = transaction_bracket P rt id c
        (probe_commands c addr) (ESP32_I2C_PROBE_TIMEOUT_TICK P) ESP_OK) := by
  have hk := fun c => probe_commands_kind c addr
  unfold ProbeCases at h
  simp only [probe_success_bracket] at h
  have hexec : ∀ (c : i2c_cmd_handle_t) (x : esp_err_t),
      (⟨.i2c_master_cmd_begin (rt.unit id).port_num c (ESP32_I2C_PROBE_TIMEOUT_TICK P), x⟩ :
        Ev) ∈ transaction_bracket P rt id c (probe_commands c addr)
          (ESP32_I2C_PROBE_TIMEOUT_TICK P) x := by
    intro c x; simp [transaction_bracket]
  rcases h with ⟨c, hc0, hres, htr⟩ | ⟨c, hc0, hres, htr⟩ | ⟨c, x, m, hc0, hx, -, -, htr⟩ |
    ⟨c, x, hc0, -, hst⟩
  · refine ⟨⟨c, hc0, bracket_run P rt id o false c _ _ ESP_OK tr
      (fun k hk' => (hk c k hk').1) (Or.inl ⟨[], by simp, by simpa using htr⟩)⟩, fun _ => ?_,
      fun _ => ⟨hres, c, hc0, htr⟩⟩
    rw [htr]
    exact bracket_has_exec P rt id c _ _ ESP_OK
  · refine ⟨⟨c, hc0, bracket_run P rt id o false c _ _ ESP_FAIL tr
      (fun k hk' => (hk c k hk').1) (Or.inl ⟨[], by simp, by simpa using htr⟩)⟩, fun _ => ?_,
      fun hs => ?_⟩
    · rw [htr]
      exact bracket_has_exec P rt id c _ _ ESP_FAIL
    · have hm : (⟨.i2c_master_cmd_begin (rt.unit id).port_num c
          (ESP32_I2C_PROBE_TIMEOUT_TICK P), ESP_FAIL⟩ : Ev) ∈ tr := htr ▸ hexec c ESP_FAIL
      have : ESP_FAIL = ESP_OK := (hs _ hm).2.2.2 (Or.inr (Or.inr rfl))
      exact absurd this (by decide)
  · have hF : ∀ a ∈ fail_trace P rt id true c (rt.unit id).port_num o m,
        a.call.kind ≠ .exec ∧ a.call.kind ≠ .compose := by
      intro a ha
      rcases fail_trace_kind P rt id _ _ _ o m a ha with h | h | ⟨_, h⟩ <;> rw [h] <;>
        exact ⟨fun h => Kind.noConfusion h, fun h => Kind.noConfusion h⟩
    refine ⟨⟨c, hc0, bracket_run P rt id o false c _ _ x tr
      (fun k hk' => (hk c k hk').1) (Or.inl ⟨_, hF, htr⟩)⟩, fun _ => ?_, fun hs => ?_⟩
    · obtain ⟨a, ha, hka⟩ := bracket_has_exec P rt id c (probe_commands c addr)
        (ESP32_I2C_PROBE_TIMEOUT_TICK P) x
      exact ⟨a, by rw [htr]; exact List.mem_append_left _ ha, hka⟩
    · have hm : (⟨.i2c_master_cmd_begin (rt.unit id).port_num c
          (ESP32_I2C_PROBE_TIMEOUT_TICK P), x⟩ : Ev) ∈ tr := by
        rw [htr]; exact List.mem_append_left _ (hexec c x)
      have : x = ESP_OK := (hs _ hm).2.2.2 (Or.inr (Or.inr rfl))
      exact absurd this hx
  · refine ⟨⟨c, hc0, bracket_run P rt id o false c _ _ x tr
      (fun k hk' => (hk c k hk').1) (Or.inr hst)⟩, fun hs => ?_, fun hs => ?_⟩
    · exact absurd (stopped_reaches_exec P rt id o false c _ _ x tr (hk c) hst hs).1
        (by decide)
    · exact (stopped_not_succeeded P rt id o false c _ _ x tr (hk c) hst
        (fun h => absurd h (by decide)) hs).elim

/-- The runs of `sys_i2c_read` on accepted arguments, in the terms of `rw_run`. -/
theorem read_run (P : Platform) (rt : SYS_I2C_RUNTIME)
    (id addr reg buf n : Nat) (o : Nat → Int)
    (hid : id < P.SYS_I2C_ID_CNT) (haddr : addr < 128) (hbuf : buf ≠ 0) (hn : n ≠ 0) :
    RwCases P rt id o
      (fun c => transaction_bracket P rt id c (read_commands c addr reg buf n)
        (ESP32_I2C_BUS_TIMEOUT_TICK P) ESP_OK)
      ((sys_i2c_read P rt id addr reg buf n).result o 0)
      ((sys_i2c_read P rt id addr reg buf n).trace o 0) := by
  have h := read_cases P rt id addr reg buf n o hid haddr hbuf hn
  have hS : read_success_trace P rt id addr reg buf n =
      fun c => transaction_bracket P rt id c (read_commands c addr reg buf n)
        (ESP32_I2C_BUS_TIMEOUT_TICK P) ESP_OK :=
    funext fun c => read_success_bracket P rt id addr reg buf n c hn
  rw [hS] at h
  exact h

/-- The runs of `sys_i2c_write` on accepted arguments, in the terms of `rw_run`. -/
theorem write_run (P : Platform) (rt : SYS_I2C_RUNTIME)
    (id addr reg buf n : Nat) (o : Nat → Int)
    (hid : id < P.SYS_I2C_ID_CNT) (haddr : addr < 128) (hbuf : buf ≠ 0) (hn : n ≠ 0) :
    RwCases P rt id o
      (fun c => transaction_bracket P rt id c (write_commands c addr reg buf n)
        (ESP32_I2C_BUS_TIMEOUT_TICK P) ESP_OK)
      ((sys_i2c_write P rt id addr reg buf n).result o 0)
      ((sys_i2c_write P rt id addr reg buf n).trace o 0) := by
  have h := write_cases P rt id addr reg buf n o hid haddr hbuf hn
  have hS : write_success_trace P rt id addr reg buf n =
      fun c => transaction_bracket P rt id c (write_commands c addr reg buf n)
        (ESP32_I2C_BUS_TIMEOUT_TICK P) ESP_OK :=
    funext fun c => write_success_bracket P rt id addr reg buf n c
  rw [hS] at h
  exact h

/-! ## Claims on the composed transactions -/

/-- C16: for every valid request with a buffer of `n >= 1` bytes and every behaviour of
the external functions, the composition calls of `sys_i2c_read` are an initial part of:
the creation of a command link `c`, then START; address byte with write direction,
ack-checked; register-address byte, ack-checked; repeated START; address byte with read
direction, ack-checked; if `n > 1`, a read of `n - 1` bytes into `buffer[0..n-2]` with
acknowledge; a read of one byte into `buffer[n-1]` with no-acknowledge; STOP. When the
run reaches the executor the composition calls are exactly this sequence, each having
returned `ESP_OK`, and the executor is given the link `c`; it is reached whenever the
calls before it succeed. The sequence asks for exactly `n` bytes, `buffer[0..n-1]` in
order, each once, all but the last with acknowledge and the last with no-acknowledge. -/
theorem read_command_sequence (P : Platform) (rt : SYS_I2C_RUNTIME)
    (sys_i2c_id i2c_addr_num i2c_reg_num buf_addr n : Nat) (o : Nat → Int)
    (hid : sys_i2c_id < P.SYS_I2C_ID_CNT) (haddr : i2c_addr_num < 128)
    (hbuf : buf_addr ≠ 0) (hn : 1 ≤ n) :
    (∃ c, c ≠ 0 ∧
      (composed ((sys_i2c_read P rt sys_i2c_id i2c_addr_num i2c_reg_num buf_addr n).trace
          o 0)).map Ev.call <+:
        .i2c_cmd_link_create :: read_commands c i2c_addr_num i2c_reg_num buf_addr n ∧
      ((∃ a ∈ (sys_i2c_read P rt sys_i2c_id i2c_addr_num i2c_reg_num buf_addr n).trace o 0,
          a.call.kind = .exec) →
        composed ((sys_i2c_read P rt sys_i2c_id i2c_addr_num i2c_reg_num buf_addr n).trace
            o 0) =
          ⟨.i2c_cmd_link_create, c⟩ ::
            (read_commands c i2c_addr_num i2c_reg_num buf_addr n).map
              (fun k => (⟨k, ESP_OK⟩ : Ev))) ∧
      (∀ a ∈ (sys_i2c_read P rt sys_i2c_id i2c_addr_num i2c_reg_num buf_addr n).trace o 0,
        a.call.kind = .exec →
        a.call = .i2c_master_cmd_begin (rt.unit sys_i2c_id).port_num c
          (ESP32_I2C_BUS_TIMEOUT_TICK P))) ∧
    ((∀ a ∈ (sys_i2c_read P rt sys_i2c_id i2c_addr_num i2c_reg_num buf_addr n).trace o 0,
        a.call.kind ≠ .exec → Succeeded a) →
      ∃ a ∈ (sys_i2c_read P rt sys_i2c_id i2c_addr_num i2c_reg_num buf_addr n).trace o 0,
        a.call.kind = .exec) ∧
    (∀ c, (read_commands c i2c_addr_num i2c_reg_num buf_addr n).flatMap Call.readTargets =
      (List.range n).map (fun k =>
        (buf_addr + k, if k + 1 < n then ESP32_I2C_ACK_VAL else ESP32_I2C_NACK_VAL))) ∧
    (∀ c, ((read_commands c i2c_addr_num i2c_reg_num buf_addr n).flatMap
      Call.readTargets).length = n) := by
  have hrun := rw_run P rt sys_i2c_id o _ _ _ _
    (fun c => read_commands_kind c i2c_addr_num i2c_reg_num buf_addr n)
    (read_run P rt sys_i2c_id i2c_addr_num i2c_reg_num buf_addr n o hid haddr hbuf
      (Nat.pos_iff_ne_zero.1 hn))
  refine ⟨hrun.1, hrun.2.1, fun c => read_commands_targets c _ _ _ _ hn, fun c => ?_⟩
  rw [read_commands_targets c _ _ _ _ hn]
  simp

/-- Witness of C16: a read of three bytes into the buffer at address 16 on the bus of the
repository, every call succeeding: the composition calls are the creation of the link `1`
and the command of the read. -/
theorem read_command_sequence_witness :
    ∃ c, c ≠ 0 ∧
      composed ((sys_i2c_read esp32 runtime0 0 0x3C 0x40 16 3).trace
          (script [1, 0, 1, 0, 0, 0, 0, 0, 0, 0, 0, 0, 0, 0, 0, 1]) 0) =
        ⟨.i2c_cmd_link_create, c⟩ ::
          (read_commands c 0x3C 0x40 16 3).map (fun k => (⟨k, ESP_OK⟩ : Ev)) ∧
      (read_commands c 0x3C 0x40 16 3).flatMap Call.readTargets =
        [(16, ESP32_I2C_ACK_VAL), (17, ESP32_I2C_ACK_VAL), (18, ESP32_I2C_NACK_VAL)] := by
  have key := read_command_sequence esp32 runtime0 0 0x3C 0x40 16 3
    (script [1, 0, 1, 0, 0, 0, 0, 0, 0, 0, 0, 0, 0, 0, 0, 1]) (by decide) (by decide)
    (by decide) (by decide)
  obtain ⟨c, hc, -, h2, -⟩ := key.1
  exact ⟨c, hc, h2 (by decide), (key.2.2.1 c).trans (by decide)⟩

/-- C17: for every valid request with a buffer of `n >= 1` bytes and every behaviour of
the external functions, the composition calls of `sys_i2c_write` are an initial part of:
the creation of a command link `c`, then START; address byte with write direction,
ack-checked; register-address byte, ack-checked; the `n` payload bytes `buffer[0..n-1]`
in order, ack-checked; STOP. When the run reaches the executor the composition calls are
exactly this sequence, each having returned `ESP_OK`, and the executor is given the link
`c` on the controller assigned to the logical bus with the deadline of 1000 ms in ticks;
it is reached whenever the calls before it succeed. -/
theorem write_command_sequence (P : Platform) (rt : SYS_I2C_RUNTIME)
    (sys_i2c_id i2c_addr_num i2c_reg_num buf_addr n : Nat) (o : Nat → Int)
    (hid : sys_i2c_id < P.SYS_I2C_ID_CNT) (haddr : i2c_addr_num < 128)
    (hbuf : buf_addr ≠ 0) (hn : 1 ≤ n) :
    (∃ c, c ≠ 0 ∧
      (composed ((sys_i2c_write P rt sys_i2c_id i2c_addr_num i2c_reg_num buf_addr n).trace
          o 0)).map Ev.call <+:
        .i2c_cmd_link_create :: write_commands c i2c_addr_num i2c_reg_num buf_addr n ∧
      ((∃ a ∈ (sys_i2c_write P rt sys_i2c_id i2c_addr_num i2c_reg_num buf_addr n).trace o 0,
          a.call.kind = .exec) →
        composed ((sys_i2c_write P rt sys_i2c_id i2c_addr_num i2c_reg_num buf_addr n).trace
            o 0) =
          ⟨.i2c_cmd_link_create, c⟩ ::
            (write_commands c i2c_addr_num i2c_reg_num buf_addr n).map
              (fun k => (⟨k, ESP_OK⟩ : Ev))) ∧
      (∀ a ∈ (sys_i2c_write P rt sys_i2c_id i2c_addr_num i2c_reg_num buf_addr n).trace o 0,
        a.call.kind = .exec →
        a.call = .i2c_master_cmd_begin (rt.unit sys_i2c_id).port_num c
          (pdMS_TO_TICKS P 1000))) ∧
    ((∀ a ∈ (sys_i2c_write P rt sys_i2c_id i2c_addr_num i2c_reg_num buf_addr n).trace o 0,
        a.call.kind ≠ .exec → Succeeded a) →
      ∃ a ∈ (sys_i2c_write P rt sys_i2c_id i2c_addr_num i2c_reg_num buf_addr n).trace o 0,
        a.call.kind = .exec) ∧
    (∀ c, (write_commands c i2c_addr_num i2c_reg_num buf_addr n).flatMap Call.writeSources =
      (List.range n).map (fun k => buf_addr + k)) := by
  have hrun := rw_run P rt sys_i2c_id o _ _ _ _
    (fun c => write_commands_kind c i2c_addr_num i2c_reg_num buf_addr n)
    (write_run P rt sys_i2c_id i2c_addr_num i2c_reg_num buf_addr n o hid haddr hbuf
      (Nat.pos_iff_ne_zero.1 hn))
  exact ⟨hrun.1, hrun.2.1, fun c => by simp [write_commands, Call.writeSources, List.flatMap]⟩

/-- Witness of C17: a write of two bytes from the buffer at address 16 on the bus of the
repository, every call succeeding: the composition calls are the creation of the link `1`
and the command of the write, and the executor call is on controller 0 with 100 ticks. -/
theorem write_command_sequence_witness :
    ∃ c, c ≠ 0 ∧
      composed ((sys_i2c_write esp32 runtime0 0 0x3C 0x40 16 2).trace
          (script [1, 0, 1, 0, 0, 0, 0, 0, 0, 0, 0, 0, 1]) 0) =
        ⟨.i2c_cmd_link_create, c⟩ ::
          (write_commands c 0x3C 0x40 16 2).map (fun k => (⟨k, ESP_OK⟩ : Ev)) ∧
      ∀ a ∈ (sys_i2c_write esp32 runtime0 0 0x3C 0x40 16 2).trace
          (script [1, 0, 1, 0, 0, 0, 0, 0, 0, 0, 0, 0, 1]) 0,
        a.call.kind = .exec → a.call = .i2c_master_cmd_begin 0 c 100 := by
  have key := write_command_sequence esp32 runtime0 0 0x3C 0x40 16 2
    (script [1, 0, 1, 0, 0, 0, 0, 0, 0, 0, 0, 0, 1]) (by decide) (by decide)
    (by decide) (by decide)
  obtain ⟨c, hc, -, h2, h3⟩ := key.1
  exact ⟨c, hc, h2 (by decide), h3⟩

/-- The deadline of a probe is shorter than the deadline of a read or a write, in ticks,
for a tick rate that is positive and fits the 32-bit tick type. -/
theorem probe_timeout_lt (P : Platform) (h0 : 0 < P.configTICK_RATE_HZ)
    (h32 : P.configTICK_RATE_HZ < 2 ^ 32) :
    ESP32_I2C_PROBE_TIMEOUT_TICK P < ESP32_I2C_BUS_TIMEOUT_TICK P := by
  unfold ESP32_I2C_PROBE_TIMEOUT_TICK ESP32_I2C_BUS_TIMEOUT_TICK pdMS_TO_TICKS
  have h1 : 1000 * P.configTICK_RATE_HZ / 1000 = P.configTICK_RATE_HZ := by omega
  have h2 : 30 * P.configTICK_RATE_HZ / 1000 < P.configTICK_RATE_HZ := by omega
  rw [h1, Nat.mod_eq_of_lt h32, Nat.mod_eq_of_lt (lt_trans h2 h32)]
  exact h2

/-- C18: for every valid request and every behaviour of the external functions, the
composition calls of `sys_i2c_probe` are an initial part of: the creation of a command
link `c`, then START; address byte with write direction, ack-checked; STOP. When the run
reaches the executor the composition calls are exactly this sequence, each having returned
`ESP_OK`, and the executor is given the link `c` with the deadline of 30 ms in ticks; it is
reached whenever the calls before it succeed. The command has no register byte and no
data bytes: one byte is written, the address byte, and no byte is read or taken from a
buffer. The deadline of 30 ms is shorter than the deadline of 1000 ms of a read or a
write, also in ticks when the tick rate is positive and fits the 32-bit tick type. -/
theorem probe_command_sequence (P : Platform) (rt : SYS_I2C_RUNTIME)
    (sys_i2c_id i2c_addr_num found_flag_addr : Nat) (found_flag : Bool) (o : Nat → Int)
    (hid : sys_i2c_id < P.SYS_I2C_ID_CNT) (haddr : i2c_addr_num < 128)
    (hflag : found_flag_addr ≠ 0) :
    (∃ c, c ≠ 0 ∧
      (composed ((sys_i2c_probe P rt sys_i2c_id i2c_addr_num found_flag_addr found_flag).trace
          o 0)).map Ev.call <+: .i2c_cmd_link_create :: probe_commands c i2c_addr_num ∧
      ((∃ a ∈ (sys_i2c_probe P rt sys_i2c_id i2c_addr_num found_flag_addr found_flag).trace
          o 0, a.call.kind = .exec) →
        composed ((sys_i2c_probe P rt sys_i2c_id i2c_addr_num found_flag_addr found_flag).trace
            o 0) =
          ⟨.i2c_cmd_link_create, c⟩ ::
            (probe_commands c i2c_addr_num).map (fun k => (⟨k, ESP_OK⟩ : Ev))) ∧
      (∀ a ∈ (sys_i2c_probe P rt sys_i2c_id i2c_addr_num found_flag_addr found_flag).trace
          o 0, a.call.kind = .exec →
        a.call = .i2c_master_cmd_begin (rt.unit sys_i2c_id).port_num c
          (pdMS_TO_TICKS P 30))) ∧
    ((∀ a ∈ (sys_i2c_probe P rt sys_i2c_id i2c_addr_num found_flag_addr found_flag).trace
        o 0, a.call.kind ≠ .exec → Succeeded a) →
      ∃ a ∈ (sys_i2c_probe P rt sys_i2c_id i2c_addr_num found_flag_addr found_flag).trace
        o 0, a.call.kind = .exec) ∧
    (∀ c, probe_commands c i2c_addr_num =
        [.i2c_master_start c,
         .i2c_master_write_byte c (addr_byte i2c_addr_num I2C_MASTER_WRITE)
           ESP32_I2C_ACK_CHECK_EN,
         .i2c_master_stop c] ∧
      (probe_commands c i2c_addr_num).flatMap Call.readTargets = [] ∧
      (probe_commands c i2c_addr_num).flatMap Call.writeSources = []) ∧
    ESP32_I2C_PROBE_TIMEOUT_TICK P = pdMS_TO_TICKS P 30 ∧
    ESP32_I2C_BUS_TIMEOUT_TICK P = pdMS_TO_TICKS P 1000 ∧
    (0 < P.configTICK_RATE_HZ → P.configTICK_RATE_HZ < 2 ^ 32 →
      ESP32_I2C_PROBE_TIMEOUT_TICK P < ESP32_I2C_BUS_TIMEOUT_TICK P) := by
  have hrun := probe_run P rt sys_i2c_id i2c_addr_num found_flag o _ _
    (probe_cases P rt sys_i2c_id i2c_addr_num found_flag_addr found_flag o hid haddr hflag)
  exact ⟨hrun.1, hrun.2.1, fun c => ⟨rfl, rfl, rfl⟩, rfl, rfl, probe_timeout_lt P⟩

/-- Witness of C18: a probe of the address 0x3C on the bus of the repository, every call
succeeding: the composition calls are the creation of the link `1` and the command of the
probe, the executor call has the deadline of 3 ticks, and 3 ticks are less than the 100
ticks of a read or a write. -/
theorem probe_command_sequence_witness :
    (∃ c, c ≠ 0 ∧
      composed ((sys_i2c_probe esp32 runtime0 0 0x3C 1 false).trace
          (script [1, 0, 1, 0, 0, 0, 0, 0, 0, 0, 1]) 0) =
        ⟨.i2c_cmd_link_create, c⟩ ::
          (probe_commands c 0x3C).map (fun k => (⟨k, ESP_OK⟩ : Ev)) ∧
      ∀ a ∈ (sys_i2c_probe esp32 runtime0 0 0x3C 1 false).trace
          (script [1, 0, 1, 0, 0, 0, 0, 0, 0, 0, 1]) 0,
        a.call.kind = .exec → a.call = .i2c_master_cmd_begin 0 c 3) ∧
    ESP32_I2C_PROBE_TIMEOUT_TICK esp32 < ESP32_I2C_BUS_TIMEOUT_TICK esp32 := by
  have key := probe_command_sequence esp32 runtime0 0 0x3C 1 false
    (script [1, 0, 1, 0, 0, 0, 0, 0, 0, 0, 1]) (by decide) (by decide) (by decide)
  obtain ⟨c, hc, -, h2, h3⟩ := key.1
  exact ⟨⟨c, hc, h2 (by decide), h3⟩, key.2.2.2.2.2 (by decide) (by decide)⟩

/-- The pin mask `BIT64 pin` of a pin from 0 to 63 names that pin and no other. -/
theorem BIT64_testBit (pin q : Int) (h0 : 0 ≤ pin) (h64 : pin < 64) :
    (0 ≤ q ∧ (BIT64 pin).testBit q.toNat = true) ↔ q = pin := by
  have hlt : pin.toNat < 64 := by omega
  have hpow : 2 ^ pin.toNat < 2 ^ 64 := Nat.pow_lt_pow_right (by decide) hlt
  unfold BIT64
  rw [Nat.mod_eq_of_lt hpow, Nat.testBit_two_pow]
  clear hpow
  simp only [decide_eq_true_eq]
  constructor
  · rintro ⟨hq, h⟩
    have h1 := Int.toNat_of_nonneg hq
    have h2 := Int.toNat_of_nonneg h0
    rw [← h1, ← h2, h]
  · rintro rfl
    exact ⟨h0, rfl⟩

/-- C20: for every valid logical bus id whose two pins are pins that a 64-bit pin mask
can name (0 to 63), over the mock router, in which the primitives succeed, from every
state of the pins: `sys_i2c_attach_pins` connects the two pins of the bus to its
controller with one `i2c_param_config`; `sys_i2c_attach_pins` followed immediately by
`sys_i2c_detach_pins` returns true twice and leaves both the clock pin and the data pin
of the bus released in the open-drain input/output mode with no controller connected, and
every other pin, so every pin of another logical bus that is not also a pin of this one,
in the state it had. The recorded calls are the `i2c_param_config` of the bus and one
`gpio_config` for its clock pin and one for its data pin. -/
theorem attach_detach_leaves_idle (P : Platform) (rt : SYS_I2C_RUNTIME) (sys_i2c_id : Nat)
    (pins : gpio_num_t → PinState) (hid : sys_i2c_id < P.SYS_I2C_ID_CNT)
    (hsda : 0 ≤ (rt.unit sys_i2c_id).sda_io_num ∧ (rt.unit sys_i2c_id).sda_io_num < 64)
    (hscl : 0 ≤ (rt.unit sys_i2c_id).scl_io_num ∧ (rt.unit sys_i2c_id).scl_io_num < 64) :
    ((sys_i2c_attach_pins P rt sys_i2c_id).exec mock_router pins).1 = true ∧
    ((sys_i2c_attach_pins P rt sys_i2c_id).exec mock_router pins).2
        (rt.unit sys_i2c_id).sda_io_num = .routed (rt.unit sys_i2c_id).port_num ∧
    ((sys_i2c_attach_pins P rt sys_i2c_id).exec mock_router pins).2
        (rt.unit sys_i2c_id).scl_io_num = .routed (rt.unit sys_i2c_id).port_num ∧
    ((attach_then_detach P rt sys_i2c_id).exec mock_router pins).1 = (true, true) ∧
    ((attach_then_detach P rt sys_i2c_id).exec mock_router pins).2
        (rt.unit sys_i2c_id).scl_io_num =
      .released .GPIO_MODE_INPUT_OUTPUT_OD P.SYS_I2C_PULL_UP_ENABLE ∧
    ((attach_then_detach P rt sys_i2c_id).exec mock_router pins).2
        (rt.unit sys_i2c_id).sda_io_num =
      .released .GPIO_MODE_INPUT_OUTPUT_OD P.SYS_I2C_PULL_UP_ENABLE ∧
    (∀ q, q ≠ (rt.unit sys_i2c_id).sda_io_num → q ≠ (rt.unit sys_i2c_id).scl_io_num →
      ((attach_then_detach P rt sys_i2c_id).exec mock_router pins).2 q = pins q) ∧
    (attach_then_detach P rt sys_i2c_id).trace
        ((attach_then_detach P rt sys_i2c_id).answers mock_router pins) 0 =
      [⟨.i2c_param_config (rt.unit sys_i2c_id).port_num (attach_config P rt sys_i2c_id),
          ESP_OK⟩,
       ⟨.gpio_config (detach_config P (rt.unit sys_i2c_id).scl_io_num), ESP_OK⟩,
       ⟨.gpio_config (detach_config P (rt.unit sys_i2c_id).sda_io_num), ESP_OK⟩] := by
  have hid' : P.SYS_I2C_ID_CNT > sys_i2c_id := hid
  have bsda := fun q => BIT64_testBit (rt.unit sys_i2c_id).sda_io_num q hsda.1 hsda.2
  have bscl := fun q => BIT64_testBit (rt.unit sys_i2c_id).scl_io_num q hscl.1 hscl.2
  have hA : sys_i2c_attach_pins P rt sys_i2c_id =
      .call (.i2c_param_config (rt.unit sys_i2c_id).port_num (attach_config P rt sys_i2c_id))
        fun r => if ESP_OK ≠ r then .done false else .done true := by
    unfold sys_i2c_attach_pins
    rw [if_neg (not_not.2 hid')]
  have hD : sys_i2c_detach_pins P rt sys_i2c_id =
      .call (.gpio_config (detach_config P (rt.unit sys_i2c_id).scl_io_num)) fun r1 =>
      if ESP_OK ≠ r1 then .done false else
      .call (.gpio_config (detach_config P (rt.unit sys_i2c_id).sda_io_num)) fun r2 =>
      if ESP_OK ≠ r2 then .done false else .done true := by
    unfold sys_i2c_detach_pins
    rw [if_neg (not_not.2 hid')]
  refine ⟨?_, ?_, ?_, ?_, ?_, ?_, ?_, ?_⟩
  · rw [hA]; simp [Prog.exec, mock_router, Call.retOf, Call.isVoid]
  · rw [hA]; simp [Prog.exec, mock_router, Call.retOf, Call.isVoid, attach_config]
  · rw [hA]; simp [Prog.exec, mock_router, Call.retOf, Call.isVoid, attach_config]
  · unfold attach_then_detach
    rw [hA, hD]
    simp [Prog.exec, Prog.bind, mock_router, Call.retOf, Call.isVoid]
  · unfold attach_then_detach
    rw [hA, hD]
    simp [Prog.exec, Prog.bind, mock_router, Call.retOf, Call.isVoid, detach_config, bsda, bscl]
  · unfold attach_then_detach
    rw [hA, hD]
    simp [Prog.exec, Prog.bind, mock_router, Call.retOf, Call.isVoid, detach_config, bsda, bscl]
  · intro q h1 h2
    unfold attach_then_detach
    rw [hA, hD]
    simp [Prog.exec, Prog.bind, mock_router, Call.retOf, Call.isVoid, detach_config, bsda, bscl,
      attach_config, h1, h2]
  · unfold attach_then_detach
    rw [hA, hD]
    simp [Prog.trace, Prog.answers, Prog.bind, mock_router, Call.retOf, Call.isVoid]

/-- Witness of C20: on the bus of the repository, with the pins (4, 3), from pins that
are all untouched: after attach and detach the pins 3 and 4 are released in the
open-drain input/output mode and the pin 5 is still untouched. -/
theorem attach_detach_leaves_idle_witness :
    ((attach_then_detach esp32 runtime0 0).exec mock_router (fun _ => .untouched)).1 =
      (true, true) ∧
    ((attach_then_detach esp32 runtime0 0).exec mock_router (fun _ => .untouched)).2 3 =
      .released .GPIO_MODE_INPUT_OUTPUT_OD true ∧
    ((attach_then_detach esp32 runtime0 0).exec mock_router (fun _ => .untouched)).2 4 =
      .released .GPIO_MODE_INPUT_OUTPUT_OD true ∧
    ((attach_then_detach esp32 runtime0 0).exec mock_router (fun _ => .untouched)).2 5 =
      .untouched := by
  have key := attach_detach_leaves_idle esp32 runtime0 0 (fun _ => .untouched) (by decide)
    (by decide) (by decide)
  exact ⟨key.2.2.2.1, key.2.2.2.2.1, key.2.2.2.2.2.1,
    key.2.2.2.2.2.2.1 5 (by decide) (by decide)⟩

/-! ## The controller initializer -/

theorem init_all_fail_result (rt : SYS_I2C_RUNTIME) (d0 d1 : Bool) (o : Nat → Int) (n : Nat) :
    (init_all_fail rt d0 d1).result o n = (.returned false, rt) := by
  cases d0 <;> cases d1 <;> rfl

theorem init_all_fail_trace (rt : SYS_I2C_RUNTIME) (d0 d1 : Bool) (o : Nat → Int) (n : Nat) :
    (init_all_fail rt d0 d1).trace o n = init_fail_trace rt d0 d1 := by
  cases d0 <;> cases d1 <;> rfl

theorem init_all_loop_done (P : Platform) (fuel id : Nat) (d0 d1 : Bool)
    (rt : SYS_I2C_RUNTIME)
    (h : ¬ P.SYS_I2C_ID_CNT > id ∨ (d0 = true ∧ d1 = true)) :
    init_all_loop P (fuel + 1) id d0 d1 rt = .done (.returned true, rt) := by
  unfold init_all_loop
  by_cases h1 : P.SYS_I2C_ID_CNT > id
  · rw [if_neg (not_not.2 h1), if_pos (h.resolve_left (not_not.2 h1))]
  · rw [if_pos h1]

theorem init_all_loop_skip (P : Platform) (fuel id : Nat) (d0 d1 : Bool)
    (rt : SYS_I2C_RUNTIME) (h1 : P.SYS_I2C_ID_CNT > id) (h2 : ¬ (d0 = true ∧ d1 = true))
    (h3 : Done d0 d1 (rt.unit id).port_num) :
    init_all_loop P (fuel + 1) id d0 d1 rt =
      init_all_loop P fuel ((id + 1) % 256) d0 d1 rt := by
  rw [init_all_loop]
  rw [if_neg (not_not.2 h1), if_neg h2]
  simp only
  by_cases h4 : I2C_NUM_0 = (rt.unit id).port_num ∧ d0 = true
  · rw [if_pos h4]
  · rw [if_neg h4, if_pos (h3.resolve_left h4)]

/-- One pass of the loop of `sys_i2c_init_all` that initialises a controller: the
configuration fails, or the installation fails, in both cases the `fail:` block runs; or
the creation of the lock fails and the assertion of line 105 aborts; or the three calls
succeed and the loop goes on with the flag of the controller set and the lock stored. -/
theorem init_all_loop_step (P : Platform) (fuel id : Nat) (d0 d1 : Bool)
    (rt : SYS_I2C_RUNTIME) (o : Nat → Int) (n : Nat)
    (h1 : P.SYS_I2C_ID_CNT > id) (h2 : ¬ (d0 = true ∧ d1 = true))
    (h3 : ¬ Done d0 d1 (rt.unit id).port_num) :
    (∃ r, r ≠ ESP_OK ∧
      (init_all_loop P (fuel + 1) id d0 d1 rt).trace o n =
        ⟨.i2c_param_config (rt.unit id).port_num (attach_config P rt id), r⟩ ::
          init_fail_trace rt d0 d1 ∧
      (init_all_loop P (fuel + 1) id d0 d1 rt).result o n = (.returned false, rt)) ∨
    (∃ r, r ≠ ESP_OK ∧
      (init_all_loop P (fuel + 1) id d0 d1 rt).trace o n =
        ⟨.i2c_param_config (rt.unit id).port_num (attach_config P rt id), ESP_OK⟩ ::
        ⟨.i2c_driver_install (rt.unit id).port_num .I2C_MODE_MASTER 0 0 0, r⟩ ::
          init_fail_trace rt d0 d1 ∧
      (init_all_loop P (fuel + 1) id d0 d1 rt).result o n = (.returned false, rt)) ∨
    ((init_all_loop P (fuel + 1) id d0 d1 rt).trace o n =
        init_calls P rt (id, 0) ∧
      (init_all_loop P (fuel + 1) id d0 d1 rt).result o n =
        (.aborted 105, rt.setLock (rt.unit id).port_num 0)) ∨
    (∃ l, l ≠ 0 ∧
      (init_all_loop P (fuel + 1) id d0 d1 rt).trace o n =
        init_calls P rt (id, l) ++
        (init_all_loop P fuel ((id + 1) % 256)
          (if (rt.unit id).port_num = I2C_NUM_0 then true else d0)
          (if (rt.unit id).port_num = I2C_NUM_1 then true else d1)
          (rt.setLock (rt.unit id).port_num l)).trace o (n + 3) ∧
      (init_all_loop P (fuel + 1) id d0 d1 rt).result o n =
        (init_all_loop P fuel ((id + 1) % 256)
          (if (rt.unit id).port_num = I2C_NUM_0 then true else d0)
          (if (rt.unit id).port_num = I2C_NUM_1 then true else d1)
          (rt.setLock (rt.unit id).port_num l)).result o (n + 3)) := by
  have h4 : ¬ (I2C_NUM_0 = (rt.unit id).port_num ∧ d0 = true) := fun h => h3 (Or.inl h)
  have h5 : ¬ (I2C_NUM_1 = (rt.unit id).port_num ∧ d1 = true) := fun h => h3 (Or.inr h)
  rw [init_all_loop]
  rw [if_neg (not_not.2 h1), if_neg h2]
  simp only
  rw [if_neg h4, if_neg h5]
  simp only [Prog.trace_call, Prog.result_call, Prog.trace_ite, Prog.result_ite,
    init_all_fail_trace, init_all_fail_result, Prog.trace_done, Prog.result_done,
    Call.retOf, Call.isVoid, Bool.false_eq_true, if_false, SYS_I2C_RUNTIME.setLock, if_true,
    not_not]
  by_cases c1 : ESP_OK = o n
  swap
  · left
    exact ⟨o n, Ne.symm c1, by simp [c1], by simp [c1]⟩
  right
  by_cases c2 : ESP_OK = o (n + 1)
  swap
  · left
    exact ⟨o (n + 1), Ne.symm c2, by simp [← c1, c2], by simp [← c1, c2]⟩
  right
  by_cases c3 : o (n + 1 + 1) = 0
  · left
    simp [← c1, ← c2, c3, init_calls]
  · right
    refine ⟨o (n + 1 + 1), c3, ?_, ?_⟩
    · simp [← c1, ← c2, c3, init_calls]
    · simp [← c1, ← c2, c3]

@[simp] theorem setLock_unit (rt : SYS_I2C_RUNTIME) (p : i2c_port_t) (l : SemaphoreHandle_t) :
    (rt.setLock p l).unit = rt.unit := rfl

@[simp] theorem init_calls_setLock (P : Platform) (rt : SYS_I2C_RUNTIME) (p : i2c_port_t)
    (l : SemaphoreHandle_t) : init_calls P (rt.setLock p l) = init_calls P rt := rfl

@[simp] theorem attach_config_setLock (P : Platform) (rt : SYS_I2C_RUNTIME) (p : i2c_port_t)
    (l : SemaphoreHandle_t) (j : Nat) :
    attach_config P (rt.setLock p l) j = attach_config P rt j := rfl

/-- The flags after a pass that initialised the controller `p0`, which is 0 or 1, mark
`p0` and what was marked. -/
theorem Done_step (d0 d1 : Bool) (p0 p : Int) (h01 : p0 = 0 ∨ p0 = 1) :
    Done (if p0 = I2C_NUM_0 then true else d0) (if p0 = I2C_NUM_1 then true else d1) p ↔
      Done d0 d1 p ∨ p = p0 := by
  unfold Done I2C_NUM_0 I2C_NUM_1
  rcases h01 with h | h <;> subst h <;> simp <;> tauto

/-- A run from the next logical bus on is a run from this one on when the controller of
this one is marked. -/
theorem InitRuns.skip (P : Platform) (rt : SYS_I2C_RUNTIME) (id : Nat) (d0 d1 : Bool)
    (res : Outcome × SYS_I2C_RUNTIME) (tr : List Ev)
    (h : InitRuns P rt (id + 1) d0 d1 res tr) (hd : Done d0 d1 (rt.unit id).port_num) :
    InitRuns P rt id d0 d1 res tr := by
  obtain ⟨steps, c1, c2, c3, hcase⟩ := h
  refine ⟨steps, fun s hs => ?_, c2, c3, ?_⟩
  · obtain ⟨a, b, c, d⟩ := c1 s hs
    exact ⟨Nat.le_of_succ_le a, b, c, d⟩
  · rcases hcase with ⟨r1, r2, r3, r4, r5⟩ | ⟨r1, ⟨j, r, a, b, c, d⟩, r4, r5⟩ | ⟨r1, j, a, b, c⟩
    · refine Or.inl ⟨r1, r2, fun j h1 h2 => ?_, r4, r5⟩
      rcases Nat.eq_or_lt_of_le h1 with h | h
      · subst h; exact Or.inl hd
      · exact r3 j h h2
    · exact Or.inr (Or.inl ⟨r1, ⟨j, r, Nat.le_of_succ_le a, b, c, d⟩, r4, r5⟩)
    · exact Or.inr (Or.inr ⟨r1, j, Nat.le_of_succ_le a, b, c⟩)

/-- A run from the next logical bus on, after a pass that initialised the controller of
this one with the lock `l`, is a run from this one on that starts with the three calls of
the pass. -/
theorem InitRuns.step (P : Platform) (rt : SYS_I2C_RUNTIME) (id : Nat) (d0 d1 : Bool)
    (l : SemaphoreHandle_t) (res : Outcome × SYS_I2C_RUNTIME) (tr : List Ev)
    (h : InitRuns P (rt.setLock (rt.unit id).port_num l) (id + 1)
      (if (rt.unit id).port_num = I2C_NUM_0 then true else d0)
      (if (rt.unit id).port_num = I2C_NUM_1 then true else d1) res tr)
    (hl : l ≠ 0) (hd : ¬ Done d0 d1 (rt.unit id).port_num)
    (h01 : (rt.unit id).port_num = 0 ∨ (rt.unit id).port_num = 1)
    (hid : id < P.SYS_I2C_ID_CNT) :
    InitRuns P rt id d0 d1 res (init_calls P rt (id, l) ++ tr) := by
  obtain ⟨steps, c1, c2, c3, hcase⟩ := h
  simp only [setLock_unit, init_calls_setLock, attach_config_setLock, Done_step _ _ _ _ h01]
    at c1 c2 c3 hcase
  have hnot : (rt.unit id).port_num ∉ steps.map (fun s => (rt.unit s.1).port_num) := by
    intro hm
    obtain ⟨s, hs, he⟩ := List.mem_map.1 hm
    exact (c1 s hs).2.2.2 (Or.inr he)
  have hlock : ∀ p, (rt.setLock (rt.unit id).port_num l).lock p =
      if p = (rt.unit id).port_num then l else rt.lock p := fun p => rfl
  have hf0 : ((if (rt.unit id).port_num = I2C_NUM_0 then true else d0) ||
        decide (I2C_NUM_0 ∈ steps.map (fun s => (rt.unit s.1).port_num))) =
      (d0 || decide (I2C_NUM_0 ∈
        ((id, l) :: steps).map (fun s => (rt.unit s.1).port_num))) := by
    by_cases hp : (rt.unit id).port_num = I2C_NUM_0
    · simp [hp]
    · have hp' : (I2C_NUM_0 == (rt.unit id).port_num) = false :=
        beq_eq_false_iff_ne.2 (fun h => hp h.symm)
      simp [hp, hp']
  have hf1 : ((if (rt.unit id).port_num = I2C_NUM_1 then true else d1) ||
        decide (I2C_NUM_1 ∈ steps.map (fun s => (rt.unit s.1).port_num))) =
      (d1 || decide (I2C_NUM_1 ∈
        ((id, l) :: steps).map (fun s => (rt.unit s.1).port_num))) := by
    by_cases hp : (rt.unit id).port_num = I2C_NUM_1
    · simp [hp]
    · have hp' : (I2C_NUM_1 == (rt.unit id).port_num) = false :=
        beq_eq_false_iff_ne.2 (fun h => hp h.symm)
      simp [hp, hp']
  have hflat : ((id, l) :: steps).flatMap (init_calls P rt) =
      init_calls P rt (id, l) ++ steps.flatMap (init_calls P rt) := by
    simp [List.flatMap]
  have hlocks : (∀ s ∈ steps, res.2.lock (rt.unit s.1).port_num = s.2) →
      (∀ p, p ∉ steps.map (fun s => (rt.unit s.1).port_num) →
        res.2.lock p = (rt.setLock (rt.unit id).port_num l).lock p) →
      (∀ s ∈ (id, l) :: steps, res.2.lock (rt.unit s.1).port_num = s.2) ∧
      (∀ p, p ∉ ((id, l) :: steps).map (fun s => (rt.unit s.1).port_num) →
        res.2.lock p = rt.lock p) := by
    intro r4 r5
    constructor
    · intro s hs
      rcases List.mem_cons.1 hs with h | h
      · subst h
        rw [r5 _ hnot, hlock, if_pos rfl]
      · exact r4 s h
    · intro p hp
      rw [List.map_cons, List.mem_cons, not_or] at hp
      rw [r5 p hp.2, hlock, if_neg hp.1]
  refine ⟨(id, l) :: steps, fun s hs => ?_, ?_, c3, ?_⟩
  · rcases List.mem_cons.1 hs with h | h
    · subst h
      exact ⟨le_rfl, hid, hl, hd⟩
    · obtain ⟨a, b, c, d⟩ := c1 s h
      exact ⟨Nat.le_of_succ_le a, b, c, fun hx => d (Or.inl hx)⟩
  · rw [List.map_cons]
    exact List.nodup_cons.2 ⟨hnot, c2⟩
  · rcases hcase with ⟨r1, r2, r3, r4, r5⟩ | ⟨r1, ⟨j, r, a, b, c, d⟩, r4, r5⟩ | ⟨r1, j, a, b, c⟩
    · refine Or.inl ⟨r1, by rw [r2, hflat], fun j h1 h2 => ?_, hlocks r4 r5⟩
      rcases Nat.eq_or_lt_of_le h1 with h | h
      · subst h
        exact Or.inr (by simp)
      · rcases r3 j h h2 with (hx | hx) | hx
        · exact Or.inl hx
        · exact Or.inr (by rw [hx]; simp)
        · exact Or.inr (by rw [List.map_cons]; exact List.mem_cons_of_mem _ hx)
    · refine Or.inr (Or.inl ⟨r1, ⟨j, r, Nat.le_of_succ_le a, b, c, ?_⟩, hlocks r4 r5⟩)
      rw [hf0, hf1] at d
      rw [hflat]
      rcases d with d | d
      · exact Or.inl (by rw [d, List.append_assoc])
      · exact Or.inr (by rw [d, List.append_assoc])
    · exact Or.inr (Or.inr ⟨r1, j, Nat.le_of_succ_le a, b, by rw [c, hflat, List.append_assoc]⟩)

/-- Every run of the loop of `sys_i2c_init_all` over at most 255 logical buses whose
controllers are 0 or 1 ends in one of the three ways of `InitRuns`. -/
theorem init_all_loop_runs (P : Platform) (o : Nat → Int) (h255 : P.SYS_I2C_ID_CNT ≤ 255) :
    ∀ (fuel id : Nat) (d0 d1 : Bool) (rt : SYS_I2C_RUNTIME) (n : Nat),
      id ≤ P.SYS_I2C_ID_CNT → P.SYS_I2C_ID_CNT - id < fuel →
      (∀ j, id ≤ j → j < P.SYS_I2C_ID_CNT →
        (rt.unit j).port_num = 0 ∨ (rt.unit j).port_num = 1) →
      InitRuns P rt id d0 d1 ((init_all_loop P fuel id d0 d1 rt).result o n)
        ((init_all_loop P fuel id d0 d1 rt).trace o n) := by
  intro fuel
  induction fuel with
  | zero => intro id d0 d1 rt n _ h; exact absurd h (Nat.not_lt_zero _)
  | succ fuel ih =>
    intro id d0 d1 rt n hid hf hports
    by_cases hdone : ¬ P.SYS_I2C_ID_CNT > id ∨ (d0 = true ∧ d1 = true)
    · rw [init_all_loop_done P fuel id d0 d1 rt hdone]
      refine ⟨[], by simp, by simp, rfl, Or.inl ⟨rfl, rfl, fun j h1 h2 => ?_, by simp,
        fun _ _ => rfl⟩⟩
      rcases hdone with h | ⟨h0, h1'⟩
      · exact absurd (lt_of_le_of_lt h1 h2) h
      · rcases hports j h1 h2 with h | h
        · exact Or.inl (Or.inl ⟨h.symm, h0⟩)
        · exact Or.inl (Or.inr ⟨h.symm, h1'⟩)
    rw [not_or, not_not] at hdone
    obtain ⟨h1, h2⟩ := hdone
    have hmod : (id + 1) % 256 = id + 1 := Nat.mod_eq_of_lt (by omega)
    by_cases h3 : Done d0 d1 (rt.unit id).port_num
    · rw [init_all_loop_skip P fuel id d0 d1 rt h1 h2 h3, hmod]
      exact InitRuns.skip P rt id d0 d1 _ _
        (ih (id + 1) d0 d1 rt n h1 (by omega) (fun j a b => hports j (Nat.le_of_succ_le a) b))
        h3
    · have h01 := hports id le_rfl h1
      rcases init_all_loop_step P fuel id d0 d1 rt o n h1 h2 h3 with
        ⟨r, hr, htr, hres⟩ | ⟨r, hr, htr, hres⟩ | ⟨htr, hres⟩ | ⟨l, hl, htr, hres⟩
      · rw [htr, hres]
        exact ⟨[], by simp, by simp, rfl, Or.inr (Or.inl ⟨rfl, ⟨id, r, le_rfl, h1, hr,
          Or.inl (by simp)⟩, by simp, fun _ _ => rfl⟩)⟩
      · rw [htr, hres]
        exact ⟨[], by simp, by simp, rfl, Or.inr (Or.inl ⟨rfl, ⟨id, r, le_rfl, h1, hr,
          Or.inr (by simp)⟩, by simp, fun _ _ => rfl⟩)⟩
      · rw [htr, hres]
        exact ⟨[], by simp, by simp, rfl, Or.inr (Or.inr ⟨rfl, id, le_rfl, h1, by simp⟩)⟩
      · rw [htr, hres, hmod]
        exact InitRuns.step P rt id d0 d1 l _ _
          (ih (id + 1) _ _ _ (n + 3) h1 (by omega)
            (fun j a b => hports j (Nat.le_of_succ_le a) b))
          hl h3 h01 h1

theorem int_zero_or_one (q : Int) (h0 : 0 ≤ q) (h1 : q ≤ 1) : q = 0 ∨ q = 1 := by omega

/-- On a table that passed the validation, a controller id that is at most 1 is 0 or 1:
the validation has read the clock table at it. -/
theorem valid_port_zero_or_one (P : Platform) (app : APP_CONFIG) (bsp : List BSP_I2C_CONFIG)
    (sys : SYS_I2C_CONFIG) (rt : SYS_I2C_RUNTIME)
    (hvalid : (sys_i2c_runtime_init P app bsp sys rt).1 = .returned true) (j : Nat)
    (hj : j < P.SYS_I2C_ID_CNT)
    (h1 : ((sys_i2c_runtime_init P app bsp sys rt).2.unit j).port_num ≤ 1) :
    ((sys_i2c_runtime_init P app bsp sys rt).2.unit j).port_num = 0 ∨
    ((sys_i2c_runtime_init P app bsp sys rt).2.unit j).port_num = 1 := by
  obtain ⟨⟨pins, clock, -, -, hp, -⟩, -⟩ :=
    (runtime_init_true P app bsp sys rt hvalid).2.2.2 j hj
  have h0 : (0 : Int) ≤ ((sys_i2c_runtime_init P app bsp sys rt).2.unit j).port_num := by
    by_contra hneg
    unfold SYS_I2C_CONFIG.clock? at hp
    rw [if_neg hneg] at hp
    cases hp
  exact int_zero_or_one _ h0 h1

/-- On a table that passed the validation and whose controllers are 0 or 1, every run of
`sys_i2c_init_all` is a run of its loop from the first logical bus on, no controller being
marked, and ends in one of the three ways of `InitRuns`. -/
theorem init_all_runs (P : Platform) (app : APP_CONFIG) (bsp : List BSP_I2C_CONFIG)
    (sys : SYS_I2C_CONFIG) (rt : SYS_I2C_RUNTIME) (o : Nat → Int)
    (hvalid : (sys_i2c_runtime_init P app bsp sys rt).1 = .returned true)
    (hports : ∀ j, j < P.SYS_I2C_ID_CNT →
      ((sys_i2c_runtime_init P app bsp sys rt).2.unit j).port_num ≤ 1) :
    InitRuns P (sys_i2c_runtime_init P app bsp sys rt).2 0 false false
      ((sys_i2c_init_all P app bsp sys rt).result o 0)
      ((sys_i2c_init_all P app bsp sys rt).trace o 0) := by
  have h255 := (runtime_init_true P app bsp sys rt hvalid).2.1
  have hrun : sys_i2c_init_all P app bsp sys rt =
      init_all_loop P 257 0 false false (sys_i2c_runtime_init P app bsp sys rt).2 := by
    unfold sys_i2c_init_all
    rcases hr : sys_i2c_runtime_init P app bsp sys rt with ⟨out, rt1⟩
    rw [hr] at hvalid
    simp only at hvalid
    subst hvalid
    rfl
  rw [hrun]
  exact init_all_loop_runs P o h255 257 0 false false _ 0 (Nat.zero_le _) (by omega)
    (fun j _ hj => valid_port_zero_or_one P app bsp sys rt hvalid j hj (hports j hj))

/-- When the validation does not return true, `sys_i2c_init_all` makes no external call
and ends as the validation did: with an abort, or with the value false when there is no
logical bus. -/
theorem init_all_invalid (P : Platform) (app : APP_CONFIG) (bsp : List BSP_I2C_CONFIG)
    (sys : SYS_I2C_CONFIG) (rt : SYS_I2C_RUNTIME) (o : Nat → Int)
    (h : (sys_i2c_runtime_init P app bsp sys rt).1 ≠ .returned true) :
    (sys_i2c_init_all P app bsp sys rt).trace o 0 = [] ∧
    (sys_i2c_init_all P app bsp sys rt).result o 0 = sys_i2c_runtime_init P app bsp sys rt := by
  unfold sys_i2c_init_all
  rcases hr : sys_i2c_runtime_init P app bsp sys rt with ⟨out, rt1⟩
  rw [hr] at h
  cases out with
  | returned b =>
    cases b
    · exact ⟨rfl, rfl⟩
    · exact absurd rfl h
  | aborted line => exact ⟨rfl, rfl⟩
  | undefined => exact ⟨rfl, rfl⟩
  | diverged => exact ⟨rfl, rfl⟩

theorem init_calls_succeeded (P : Platform) (rt : SYS_I2C_RUNTIME)
    (steps : List (Nat × SemaphoreHandle_t)) (hs : ∀ s ∈ steps, s.2 ≠ 0) :
    ∀ e ∈ steps.flatMap (init_calls P rt),
      InitSucceeded e ∧ ¬ InitFailed e ∧ e.call.destroys = false := by
  intro e he
  obtain ⟨s, hs', he'⟩ := List.mem_flatMap.1 he
  simp only [init_calls, List.mem_cons, List.mem_singleton, List.not_mem_nil, or_false] at he'
  rcases he' with h | h | h <;> subst h
  · exact ⟨rfl, fun h => h rfl, rfl⟩
  · exact ⟨rfl, fun h => h rfl, rfl⟩
  · exact ⟨hs s hs', fun h => h, rfl⟩

/-- The calls of successful initialisations, counted: as many configurations and as many
installations of the controller `p` as there are initialisations of `p`, and as many
creations of the lock `h` as there are initialisations that created `h`. -/
theorem init_calls_count (P : Platform) (rt : SYS_I2C_RUNTIME) (p : i2c_port_t)
    (h : SemaphoreHandle_t) (steps : List (Nat × SemaphoreHandle_t)) :
    (steps.flatMap (init_calls P rt)).countP (fun e => e.call.configures p) =
      (steps.map (fun s => (rt.unit s.1).port_num)).count p ∧
    (steps.flatMap (init_calls P rt)).countP (fun e => e.call.installs p) =
      (steps.map (fun s => (rt.unit s.1).port_num)).count p ∧
    (steps.flatMap (init_calls P rt)).countP (fun e => e.call.creates) = steps.length ∧
    (steps.flatMap (init_calls P rt)).countP (Ev.created h) = (steps.map Prod.snd).count h := by
  induction steps with
  | nil => simp
  | cons s rest ih =>
    obtain ⟨i1, i2, i3, i4⟩ := ih
    have hflat : (s :: rest).flatMap (init_calls P rt) =
        init_calls P rt s ++ rest.flatMap (init_calls P rt) := by simp [List.flatMap]
    rw [hflat]
    simp only [List.countP_append, i1, i2, i3, i4, List.map_cons, List.count_cons,
      List.length_cons]
    refine ⟨?_, ?_, ?_, ?_⟩
    · by_cases hp : (rt.unit s.1).port_num = p <;>
        simp [init_calls, Call.configures, List.countP_cons, hp, Nat.add_comm]
    · by_cases hp : (rt.unit s.1).port_num = p <;>
        simp [init_calls, Call.installs, List.countP_cons, hp, Nat.add_comm]
    · simp [init_calls, Call.creates, List.countP_cons, Nat.add_comm]
    · by_cases hp : s.2 = h <;>
        simp [init_calls, Ev.created, Call.creates, List.countP_cons, hp, Nat.add_comm]

/-- Locks stored by controller, the controllers being 0 or 1 and none occurring twice:
the lock `h` occurs among the stored locks as often as it is the lock of a controller
that occurs. -/
theorem count_by_port {α : Type} (f : Int → Int) (key : α → Int) (val : α → Int) :
    ∀ steps : List α, (∀ s ∈ steps, (key s = 0 ∨ key s = 1) ∧ f (key s) = val s) →
      (steps.map key).Nodup →
      ∀ h, (steps.map val).count h =
        (if 0 ∈ steps.map key ∧ f 0 = h then 1 else 0) +
        (if 1 ∈ steps.map key ∧ f 1 = h then 1 else 0) := by
  intro steps
  induction steps with
  | nil => intro _ _ h; simp
  | cons s rest ih =>
    intro hk hn h
    rw [List.map_cons, List.nodup_cons] at hn
    have ih' := ih (fun t ht => hk t (List.mem_cons_of_mem _ ht)) hn.2 h
    obtain ⟨k01, kf⟩ := hk s (List.mem_cons_self _ _)
    rw [List.map_cons, List.count_cons, ih', List.map_cons]
    simp only [List.mem_cons]
    rcases k01 with h0 | h1
    · rw [h0] at kf hn
      have hn0 : ¬ (0 ∈ rest.map key) := hn.1
      simp only [h0, hn0, false_and, if_false, true_or, true_and, Nat.zero_add,
        (by decide : ¬ (1 : Int) = 0), false_or, ← kf]
      by_cases hv : f 0 = h
      · simp [hv, Nat.add_comm]
      · have hv' : ¬ (f 0 == h) = true := by simpa using hv
        simp [hv, hv']
    · rw [h1] at kf hn
      have hn1 : ¬ (1 ∈ rest.map key) := hn.1
      simp only [h1, hn1, false_and, if_false, true_or, true_and, Nat.add_zero,
        (by decide : ¬ (0 : Int) = 1), false_or, ← kf]
      by_cases hv : f 1 = h
      · simp [hv]
      · have hv' : ¬ (f 1 == h) = true := by simpa using hv
        simp [hv, hv']

/-! ## Claims on the controller initializer -/

/-- C14: on every table that passed the validation and whose controller ids are 0 or 1,
a run of `sys_i2c_init_all` in which every external call succeeds returns true. Its calls
are, for some logical buses `steps` with pairwise different controllers, the
configuration of the controller with the record of the bus, the installation of its driver
and the creation of a lock, which the table then holds for that controller. A controller
is among them exactly if a logical bus is assigned to it: it is then configured once and
installed once, however many logical buses share it, and there are as many lock creations
as such controllers. A controller that no logical bus is assigned to is not configured,
not installed, and its lock entry is left alone. Hence the controller of every logical bus
has a created lock. -/
theorem init_all_once (P : Platform) (APP_config : APP_CONFIG)
    (BSP_I2C_config : List BSP_I2C_CONFIG) (SYS_I2C_config : SYS_I2C_CONFIG)
    (rt : SYS_I2C_RUNTIME) (o : Nat → Int)
    (hvalid : (sys_i2c_runtime_init P APP_config BSP_I2C_config SYS_I2C_config rt).1 =
      .returned true)
    (hports : ∀ j, j < P.SYS_I2C_ID_CNT →
      ((sys_i2c_runtime_init P APP_config BSP_I2C_config SYS_I2C_config rt).2.unit j).port_num
        ≤ 1)
    (hsucc : ∀ e ∈ (sys_i2c_init_all P APP_config BSP_I2C_config SYS_I2C_config rt).trace o 0,
      InitSucceeded e) :
    ((sys_i2c_init_all P APP_config BSP_I2C_config SYS_I2C_config rt).result o 0).1 =
      .returned true ∧
    (∃ steps : List (Nat × SemaphoreHandle_t),
      (sys_i2c_init_all P APP_config BSP_I2C_config SYS_I2C_config rt).trace o 0 =
        steps.flatMap
          (init_calls P (sys_i2c_runtime_init P APP_config BSP_I2C_config SYS_I2C_config rt).2) ∧
      (steps.map (fun s =>
        ((sys_i2c_runtime_init P APP_config BSP_I2C_config SYS_I2C_config rt).2.unit
          s.1).port_num)).Nodup ∧
      (∀ s ∈ steps, s.1 < P.SYS_I2C_ID_CNT ∧ s.2 ≠ 0 ∧
        ((sys_i2c_init_all P APP_config BSP_I2C_config SYS_I2C_config rt).result o 0).2.lock
          ((sys_i2c_runtime_init P APP_config BSP_I2C_config SYS_I2C_config rt).2.unit
            s.1).port_num = s.2) ∧
      (∀ p, p ∈ steps.map (fun s =>
          ((sys_i2c_runtime_init P APP_config BSP_I2C_config SYS_I2C_config rt).2.unit
            s.1).port_num) ↔
        ∃ j, j < P.SYS_I2C_ID_CNT ∧
          ((sys_i2c_runtime_init P APP_config BSP_I2C_config SYS_I2C_config rt).2.unit
            j).port_num = p) ∧
      ((sys_i2c_init_all P APP_config BSP_I2C_config SYS_I2C_config rt).trace o 0).countP
        (fun e => e.call.creates) = steps.length) ∧
    (∀ p, (∃ j, j < P.SYS_I2C_ID_CNT ∧
        ((sys_i2c_runtime_init P APP_config BSP_I2C_config SYS_I2C_config rt).2.unit
          j).port_num = p) →
      ((sys_i2c_init_all P APP_config BSP_I2C_config SYS_I2C_config rt).trace o 0).countP
        (fun e => e.call.configures p) = 1 ∧
      ((sys_i2c_init_all P APP_config BSP_I2C_config SYS_I2C_config rt).trace o 0).countP
        (fun e => e.call.installs p) = 1 ∧
      ((sys_i2c_init_all P APP_config BSP_I2C_config SYS_I2C_config rt).result o 0).2.lock p
        ≠ 0) ∧
    (∀ p, (¬ ∃ j, j < P.SYS_I2C_ID_CNT ∧
        ((sys_i2c_runtime_init P APP_config BSP_I2C_config SYS_I2C_config rt).2.unit
          j).port_num = p) →
      ((sys_i2c_init_all P APP_config BSP_I2C_config SYS_I2C_config rt).trace o 0).countP
        (fun e => e.call.configures p) = 0 ∧
      ((sys_i2c_init_all P APP_config BSP_I2C_config SYS_I2C_config rt).trace o 0).countP
        (fun e => e.call.installs p) = 0 ∧
      ((sys_i2c_init_all P APP_config BSP_I2C_config SYS_I2C_config rt).result o 0).2.lock p =
        (sys_i2c_runtime_init P APP_config BSP_I2C_config SYS_I2C_config rt).2.lock p) ∧
    (∀ j, j < P.SYS_I2C_ID_CNT →
      ((sys_i2c_init_all P APP_config BSP_I2C_config SYS_I2C_config rt).result o 0).2.lock
        (((sys_i2c_init_all P APP_config BSP_I2C_config SYS_I2C_config rt).result o 0).2.unit
          j).port_num ≠ 0) := by
  obtain ⟨steps, c1, c2, c3, hcase⟩ :=
    init_all_runs P APP_config BSP_I2C_config SYS_I2C_config rt o hvalid hports
  have hnd : ∀ p, ¬ Done false false p := by
    intro p h
    rcases h with ⟨_, h⟩ | ⟨_, h⟩ <;> cases h
  rcases hcase with ⟨r1, r2, r3, r4, r5⟩ | ⟨-, ⟨j, r, -, -, hr, htr⟩, -, -⟩ | ⟨-, j, -, -, htr⟩
  · have hmem : ∀ p, p ∈ steps.map (fun s =>
          ((sys_i2c_runtime_init P APP_config BSP_I2C_config SYS_I2C_config rt).2.unit
            s.1).port_num) ↔
        ∃ j, j < P.SYS_I2C_ID_CNT ∧
          ((sys_i2c_runtime_init P APP_config BSP_I2C_config SYS_I2C_config rt).2.unit
            j).port_num = p := by
      intro p
      constructor
      · intro hp
        obtain ⟨s, hs, he⟩ := List.mem_map.1 hp
        exact ⟨s.1, (c1 s hs).2.1, he⟩
      · rintro ⟨j, hj, rfl⟩
        exact (r3 j (Nat.zero_le _) hj).resolve_left (hnd _)
    have hlockne : ∀ p, p ∈ steps.map (fun s =>
          ((sys_i2c_runtime_init P APP_config BSP_I2C_config SYS_I2C_config rt).2.unit
            s.1).port_num) →
        ((sys_i2c_init_all P APP_config BSP_I2C_config SYS_I2C_config rt).result o 0).2.lock p
          ≠ 0 := by
      intro p hp
      obtain ⟨s, hs, rfl⟩ := List.mem_map.1 hp
      rw [r4 s hs]
      exact (c1 s hs).2.2.1
    refine ⟨r1, ⟨steps, r2, c2, fun s hs => ⟨(c1 s hs).2.1, (c1 s hs).2.2.1, r4 s hs⟩, hmem, ?_⟩,
      fun p hp => ?_, fun p hp => ?_, fun j hj => ?_⟩
    · rw [r2]
      exact (init_calls_count P _ 0 0 steps).2.2.1
    · have hp' := (hmem p).2 hp
      rw [r2, (init_calls_count P _ p 0 steps).1, (init_calls_count P _ p 0 steps).2.1,
        List.count_eq_one_of_mem c2 hp']
      exact ⟨rfl, rfl, hlockne p hp'⟩
    · have hp' : p ∉ _ := fun h => hp ((hmem p).1 h)
      rw [r2, (init_calls_count P _ p 0 steps).1, (init_calls_count P _ p 0 steps).2.1,
        List.count_eq_zero_of_not_mem hp']
      exact ⟨rfl, rfl, r5 p hp'⟩
    · rw [c3]
      exact hlockne _ ((hmem _).2 ⟨j, hj, rfl⟩)
  · exfalso
    rcases htr with htr | htr
    · have hm : (⟨.i2c_param_config
          ((sys_i2c_runtime_init P APP_config BSP_I2C_config SYS_I2C_config rt).2.unit
            j).port_num
          (attach_config P (sys_i2c_runtime_init P APP_config BSP_I2C_config SYS_I2C_config
            rt).2 j), r⟩ : Ev) ∈
          (sys_i2c_init_all P APP_config BSP_I2C_config SYS_I2C_config rt).trace o 0 := by
        rw [htr]
        exact List.mem_append_right _ (List.mem_cons_self _ _)
      exact hr (hsucc _ hm)
    · have hm : (⟨.i2c_driver_install
          ((sys_i2c_runtime_init P APP_config BSP_I2C_config SYS_I2C_config rt).2.unit
            j).port_num .I2C_MODE_MASTER 0 0 0, r⟩ : Ev) ∈
          (sys_i2c_init_all P APP_config BSP_I2C_config SYS_I2C_config rt).trace o 0 := by
        rw [htr]
        exact List.mem_append_right _ (List.mem_cons_of_mem _ (List.mem_cons_self _ _))
      exact hr (hsucc _ hm)
  · exfalso
    have hm : (⟨.xSemaphoreCreateMutex, 0⟩ : Ev) ∈
        (sys_i2c_init_all P APP_config BSP_I2C_config SYS_I2C_config rt).trace o 0 := by
      rw [htr]
      exact List.mem_append_right _ (by simp [init_calls])
    exact hsucc _ hm rfl

/-- Witness of C14: three logical buses, the first two on controller 1 and the third on
controller 0, every call succeeding and the created locks being 5 and 6: the call returns
true, controller 1 is configured once and installed once, and the table holds the lock 5
for controller 1 and the lock 6 for controller 0. -/
theorem init_all_once_witness :
    ((sys_i2c_init_all three_buses ⟨0⟩ BSP_three SYS_three SYS_I2C_RUNTIME.zero).result
      (script [0, 0, 5, 0, 0, 6]) 0).1 = .returned true ∧
    ((sys_i2c_init_all three_buses ⟨0⟩ BSP_three SYS_three SYS_I2C_RUNTIME.zero).trace
      (script [0, 0, 5, 0, 0, 6]) 0).countP (fun e => e.call.configures 1) = 1 ∧
    ((sys_i2c_init_all three_buses ⟨0⟩ BSP_three SYS_three SYS_I2C_RUNTIME.zero).trace
      (script [0, 0, 5, 0, 0, 6]) 0).countP (fun e => e.call.installs 1) = 1 ∧
    ((sys_i2c_init_all three_buses ⟨0⟩ BSP_three SYS_three SYS_I2C_RUNTIME.zero).result
      (script [0, 0, 5, 0, 0, 6]) 0).2.lock 1 = 5 ∧
    ((sys_i2c_init_all three_buses ⟨0⟩ BSP_three SYS_three SYS_I2C_RUNTIME.zero).result
      (script [0, 0, 5, 0, 0, 6]) 0).2.lock 0 = 6 := by
  have key := init_all_once three_buses ⟨0⟩ BSP_three SYS_three SYS_I2C_RUNTIME.zero
    (script [0, 0, 5, 0, 0, 6]) (by decide) (by decide) (by decide)
  have k1 := key.2.2.1 1 ⟨0, by decide, by decide⟩
  exact ⟨key.1, k1.1, k1.2.1, by decide, by decide⟩

theorem init_fail_trace_destroys (rt : SYS_I2C_RUNTIME) (d0 d1 : Bool) :
    ∀ e ∈ init_fail_trace rt d0 d1,
      e.call.destroys = true ∧ ¬ InitFailed e ∧ e.call ≠ .xSemaphoreCreateMutex := by
  intro e he
  unfold init_fail_trace at he
  cases d0 <;> cases d1 <;> simp at he
  · subst he; exact ⟨rfl, fun h => h, fun h => Call.noConfusion h⟩
  · subst he; exact ⟨rfl, fun h => h, fun h => Call.noConfusion h⟩
  · rcases he with he | he <;> subst he <;>
      exact ⟨rfl, fun h => h, fun h => Call.noConfusion h⟩

theorem init_fail_trace_count (rt : SYS_I2C_RUNTIME) (d0 d1 : Bool) (h : SemaphoreHandle_t) :
    (init_fail_trace rt d0 d1).countP (Ev.destroyed h) =
      (if d0 = true ∧ rt.lock 0 = h then 1 else 0) +
      (if d1 = true ∧ rt.lock 1 = h then 1 else 0) := by
  unfold init_fail_trace I2C_NUM_0 I2C_NUM_1
  by_cases h0 : rt.lock 0 = h <;> by_cases h1 : rt.lock 1 = h <;>
    cases d0 <;> cases d1 <;> simp [Ev.destroyed, List.countP_cons, h0, h1]

/-- A run that ends with the `fail:` block of `sys_i2c_init_all` after successful
initialisations `A` and failed calls `fail` that neither create nor destroy a lock: it
splits into calls that destroy no lock and destructions of locks. -/
theorem rollback_split (A fail tr : List Ev) (rtf : SYS_I2C_RUNTIME) (d0 d1 : Bool)
    (htr : tr = A ++ fail ++ init_fail_trace rtf d0 d1)
    (hA : ∀ e ∈ A, e.call.destroys = false)
    (hfail : ∀ e ∈ fail, e.call.destroys = false ∧ e.call.creates = false)
    (hcount : ∀ h, A.countP (Ev.created h) =
      (init_fail_trace rtf d0 d1).countP (Ev.destroyed h)) :
    ∃ pre dels, tr = pre ++ dels ∧
      (∀ e ∈ pre, e.call.destroys = false) ∧ (∀ e ∈ dels, e.call.destroys = true) ∧
      ∀ h, pre.countP (Ev.created h) = dels.countP (Ev.destroyed h) := by
  refine ⟨A ++ fail, init_fail_trace rtf d0 d1, htr, fun e he => ?_,
    fun e he => (init_fail_trace_destroys _ _ _ e he).1, fun h => ?_⟩
  · rcases List.mem_append.1 he with h | h
    · exact hA e h
    · exact (hfail e h).1
  · rw [List.countP_append, hcount h]
    have : fail.countP (Ev.created h) = 0 := by
      rw [List.countP_eq_zero]
      intro e he
      simp [Ev.created, (hfail e he).2]
    rw [this, Nat.add_zero]


/-- C15, refuted as stated: on the tables of the repository, when the creation of the lock
fails (the configuration and the installation having succeeded), `sys_i2c_init_all` does
not return false: it aborts on the assertion of line 105. With three logical buses, when
the lock 5 of controller 1 is created and the creation of the lock of controller 0 then
fails, it aborts without having destroyed the lock 5. When the validation of the tables
fails, here on a controller id 2, it aborts on the assertion of line 155. And on a chip
with three controllers, on a table that passes the validation with a logical bus on the
controller 2, when the lock 5 of controller 2 is created and the configuration of
controller 0 then fails, the call returns false without having destroyed the lock 5: the
`fail:` block knows the controllers 0 and 1 only. -/
theorem init_all_failure_aborts :
    ((sys_i2c_init_all esp32 APP_config BSP_I2C_config SYS_I2C_config
      SYS_I2C_RUNTIME.zero).result (script [0, 0, 0]) 0).1 = .aborted 105 ∧
    ((sys_i2c_init_all three_buses ⟨0⟩ BSP_three SYS_three SYS_I2C_RUNTIME.zero).result
      (script [0, 0, 5, 0, 0, 0]) 0).1 = .aborted 105 ∧
    (⟨.xSemaphoreCreateMutex, 5⟩ : Ev) ∈
      (sys_i2c_init_all three_buses ⟨0⟩ BSP_three SYS_three SYS_I2C_RUNTIME.zero).trace
        (script [0, 0, 5, 0, 0, 0]) 0 ∧
    (∀ e ∈ (sys_i2c_init_all three_buses ⟨0⟩ BSP_three SYS_three SYS_I2C_RUNTIME.zero).trace
      (script [0, 0, 5, 0, 0, 0]) 0, e.call.destroys = false) ∧
    ((sys_i2c_init_all esp32 APP_config BSP_I2C_config ⟨[2], [⟨400000, 0⟩, ⟨100000, 0⟩]⟩
      SYS_I2C_RUNTIME.zero).result (script []) 0).1 = .aborted 155 ∧
    (sys_i2c_runtime_init three_controllers ⟨0⟩ BSP_two SYS_third SYS_I2C_RUNTIME.zero).1 =
      .returned true ∧
    ((sys_i2c_init_all three_controllers ⟨0⟩ BSP_two SYS_third SYS_I2C_RUNTIME.zero).result
      (script [0, 0, 5, -1]) 0).1 = .returned false ∧
    (sys_i2c_init_all three_controllers ⟨0⟩ BSP_two SYS_third SYS_I2C_RUNTIME.zero).trace
        (script [0, 0, 5, -1]) 0 =
      [⟨.i2c_param_config 2 (attach_config three_controllers
          (sys_i2c_runtime_init three_controllers ⟨0⟩ BSP_two SYS_third
            SYS_I2C_RUNTIME.zero).2 0), 0⟩,
       ⟨.i2c_driver_install 2 .I2C_MODE_MASTER 0 0 0, 0⟩,
       ⟨.xSemaphoreCreateMutex, 5⟩,
       ⟨.i2c_param_config 0 (attach_config three_controllers
          (sys_i2c_runtime_init three_controllers ⟨0⟩ BSP_two SYS_third
            SYS_I2C_RUNTIME.zero).2 1), -1⟩] ∧
    (∀ e ∈ (sys_i2c_init_all three_controllers ⟨0⟩ BSP_two SYS_third
        SYS_I2C_RUNTIME.zero).trace (script [0, 0, 5, -1]) 0, e.call.destroys = false) := by
  decide

/-- C15, amended: on a table that passed the validation and whose controller ids are 0 or
1, if the parameter configuration of a controller or the installation of its driver fails
during `sys_i2c_init_all`, the call returns false, and it returns false in no other case;
its calls are then the calls up to the failure, none of which destroys a lock, followed by
destructions of locks only, and every lock is destroyed as many times as it was created
before. If the creation of a lock fails the call aborts on the assertion of line 105, and
no call of the run destroys a lock; so it is in every run that ends in an abort. If the
validation of the tables does not return true the call makes no external call, hence
destroys no lock, and ends as the validation did. -/
theorem init_all_rollback (P : Platform) (APP_config : APP_CONFIG)
    (BSP_I2C_config : List BSP_I2C_CONFIG) (SYS_I2C_config : SYS_I2C_CONFIG)
    (rt : SYS_I2C_RUNTIME) (o : Nat → Int) :
    ((sys_i2c_runtime_init P APP_config BSP_I2C_config SYS_I2C_config rt).1 ≠ .returned true →
      (sys_i2c_init_all P APP_config BSP_I2C_config SYS_I2C_config rt).trace o 0 = [] ∧
      (sys_i2c_init_all P APP_config BSP_I2C_config SYS_I2C_config rt).result o 0 =
        sys_i2c_runtime_init P APP_config BSP_I2C_config SYS_I2C_config rt) ∧
    ((sys_i2c_runtime_init P APP_config BSP_I2C_config SYS_I2C_config rt).1 = .returned true →
      (∀ j, j < P.SYS_I2C_ID_CNT →
        ((sys_i2c_runtime_init P APP_config BSP_I2C_config SYS_I2C_config rt).2.unit
          j).port_num ≤ 1) →
      ((∃ e ∈ (sys_i2c_init_all P APP_config BSP_I2C_config SYS_I2C_config rt).trace o 0,
          InitFailed e) →
        ((sys_i2c_init_all P APP_config BSP_I2C_config SYS_I2C_config rt).result o 0).1 =
          .returned false ∧
        ∃ pre dels,
          (sys_i2c_init_all P APP_config BSP_I2C_config SYS_I2C_config rt).trace o 0 =
            pre ++ dels ∧
          (∀ e ∈ pre, e.call.destroys = false) ∧ (∀ e ∈ dels, e.call.destroys = true) ∧
          ∀ h, pre.countP (Ev.created h) = dels.countP (Ev.destroyed h)) ∧
      (((sys_i2c_init_all P APP_config BSP_I2C_config SYS_I2C_config rt).result o 0).1 =
          .returned false →
        ∃ e ∈ (sys_i2c_init_all P APP_config BSP_I2C_config SYS_I2C_config rt).trace o 0,
          InitFailed e) ∧
      ((∃ e ∈ (sys_i2c_init_all P APP_config BSP_I2C_config SYS_I2C_config rt).trace o 0,
          e.call = .xSemaphoreCreateMutex ∧ e.ret = 0) →
        ((sys_i2c_init_all P APP_config BSP_I2C_config SYS_I2C_config rt).result o 0).1 =
          .aborted 105) ∧
      (∀ line,
        ((sys_i2c_init_all P APP_config BSP_I2C_config SYS_I2C_config rt).result o 0).1 =
          .aborted line →
        ∀ e ∈ (sys_i2c_init_all P APP_config BSP_I2C_config SYS_I2C_config rt).trace o 0,
          e.call.destroys = false)) := by
  refine ⟨init_all_invalid P APP_config BSP_I2C_config SYS_I2C_config rt o,
    fun hvalid hports => ?_⟩
  obtain ⟨steps, c1, c2, c3, hcase⟩ :=
    init_all_runs P APP_config BSP_I2C_config SYS_I2C_config rt o hvalid hports
  have hsteps := init_calls_succeeded P
    (sys_i2c_runtime_init P APP_config BSP_I2C_config SYS_I2C_config rt).2 steps
    (fun s hs => (c1 s hs).2.2.1)
  have hzero : ∀ (j : Nat), ∀ e ∈ init_calls P
      (sys_i2c_runtime_init P APP_config BSP_I2C_config SYS_I2C_config rt).2 (j, 0),
      ¬ InitFailed e := by
    intro j e he
    simp only [init_calls, List.mem_cons, List.mem_singleton, List.not_mem_nil, or_false] at he
    rcases he with h | h | h <;> subst h
    · exact fun h => h rfl
    · exact fun h => h rfl
    · exact fun h => h
  rcases hcase with ⟨r1, r2, -, -, -⟩ | ⟨r1, ⟨j, r, -, -, hr, htr⟩, r4, -⟩ | ⟨r1, j, -, -, htr⟩
  · refine ⟨fun ⟨e, he, hf⟩ => ?_, fun h => ?_, fun ⟨e, he, hc, hz⟩ => ?_,
      fun line h => by rw [r1] at h; cases h⟩
    · rw [r2] at he
      exact absurd hf (hsteps e he).2.1
    · rw [r1] at h; cases h
    · rw [r2] at he
      have := (hsteps e he).1
      unfold InitSucceeded at this
      rw [hc] at this
      exact absurd hz this
  · have hkey : ∀ s ∈ steps,
        (((sys_i2c_runtime_init P APP_config BSP_I2C_config SYS_I2C_config rt).2.unit
          s.1).port_num = 0 ∨
         ((sys_i2c_runtime_init P APP_config BSP_I2C_config SYS_I2C_config rt).2.unit
          s.1).port_num = 1) ∧
        ((sys_i2c_init_all P APP_config BSP_I2C_config SYS_I2C_config rt).result o 0).2.lock
          ((sys_i2c_runtime_init P APP_config BSP_I2C_config SYS_I2C_config rt).2.unit
            s.1).port_num = s.2 :=
      fun s hs => ⟨valid_port_zero_or_one P APP_config BSP_I2C_config SYS_I2C_config rt
        hvalid s.1 (c1 s hs).2.1 (hports s.1 (c1 s hs).2.1), r4 s hs⟩
    have hcount := fun h => count_by_port
      ((sys_i2c_init_all P APP_config BSP_I2C_config SYS_I2C_config rt).result o 0).2.lock
      (fun s : Nat × SemaphoreHandle_t =>
        ((sys_i2c_runtime_init P APP_config BSP_I2C_config SYS_I2C_config rt).2.unit
          s.1).port_num) Prod.snd steps hkey c2 h
    have hpre : ∀ h, (steps.flatMap (init_calls P
        (sys_i2c_runtime_init P APP_config BSP_I2C_config SYS_I2C_config rt).2)).countP
          (Ev.created h) = (steps.map Prod.snd).count h :=
      fun h => (init_calls_count P _ 0 h steps).2.2.2
    have hdel : ∀ h, (steps.flatMap (init_calls P
        (sys_i2c_runtime_init P APP_config BSP_I2C_config SYS_I2C_config rt).2)).countP
          (Ev.created h) =
        (init_fail_trace
          ((sys_i2c_init_all P APP_config BSP_I2C_config SYS_I2C_config rt).result o 0).2
          (false || decide (I2C_NUM_0 ∈ steps.map (fun s =>
            ((sys_i2c_runtime_init P APP_config BSP_I2C_config SYS_I2C_config rt).2.unit
              s.1).port_num)))
          (false || decide (I2C_NUM_1 ∈ steps.map (fun s =>
            ((sys_i2c_runtime_init P APP_config BSP_I2C_config SYS_I2C_config rt).2.unit
              s.1).port_num)))).countP (Ev.destroyed h) := by
      intro h
      rw [hpre, hcount, init_fail_trace_count]
      simp only [I2C_NUM_0, I2C_NUM_1, Bool.false_or, decide_eq_true_eq]
    refine ⟨fun _ => ⟨r1, ?_⟩, fun _ => ?_, fun ⟨e, he, hc, hz⟩ => ?_,
      fun line h => by rw [r1] at h; cases h⟩
    · rcases htr with htr | htr
      · refine rollback_split _
          [⟨.i2c_param_config
            ((sys_i2c_runtime_init P APP_config BSP_I2C_config SYS_I2C_config rt).2.unit
              j).port_num
            (attach_config P (sys_i2c_runtime_init P APP_config BSP_I2C_config SYS_I2C_config
              rt).2 j), r⟩] _ _ _ _ (by rw [htr]; simp) (fun e he => (hsteps e he).2.2)
          (fun e he => ?_) hdel
        rw [List.mem_singleton.1 he]
        exact ⟨rfl, rfl⟩
      · refine rollback_split _
          [⟨.i2c_param_config
            ((sys_i2c_runtime_init P APP_config BSP_I2C_config SYS_I2C_config rt).2.unit
              j).port_num
            (attach_config P (sys_i2c_runtime_init P APP_config BSP_I2C_config SYS_I2C_config
              rt).2 j), ESP_OK⟩,
           ⟨.i2c_driver_install
            ((sys_i2c_runtime_init P APP_config BSP_I2C_config SYS_I2C_config rt).2.unit
              j).port_num .I2C_MODE_MASTER 0 0 0, r⟩] _ _ _ _ (by rw [htr]; simp)
          (fun e he => (hsteps e he).2.2) (fun e he => ?_) hdel
        simp only [List.mem_cons, List.mem_singleton, List.not_mem_nil, or_false] at he
        rcases he with h | h <;> rw [h] <;> exact ⟨rfl, rfl⟩
    · rcases htr with htr | htr
      · exact ⟨⟨.i2c_param_config _ _, r⟩, by
          rw [htr]
          exact List.mem_append_right _ (List.mem_cons_self _ _), hr⟩
      · exact ⟨⟨.i2c_driver_install _ _ _ _ _, r⟩, by
          rw [htr]
          exact List.mem_append_right _ (List.mem_cons_of_mem _ (List.mem_cons_self _ _)), hr⟩
    · exfalso
      have hcases : e ∈ steps.flatMap (init_calls P
            (sys_i2c_runtime_init P APP_config BSP_I2C_config SYS_I2C_config rt).2) ∨
          e.call ≠ .xSemaphoreCreateMutex := by
        rcases htr with htr | htr <;> rw [htr] at he
        · rcases List.mem_append.1 he with h | h
          · exact Or.inl h
          · rcases List.mem_cons.1 h with h | h
            · rw [h]; exact Or.inr (fun h => Call.noConfusion h)
            · exact Or.inr (init_fail_trace_destroys _ _ _ e h).2.2
        · rcases List.mem_append.1 he with h | h
          · exact Or.inl h
          · rcases List.mem_cons.1 h with h | h
            · rw [h]; exact Or.inr (fun h => Call.noConfusion h)
            · rcases List.mem_cons.1 h with h | h
              · rw [h]; exact Or.inr (fun h => Call.noConfusion h)
              · exact Or.inr (init_fail_trace_destroys _ _ _ e h).2.2
      rcases hcases with h | h
      · have := (hsteps e h).1
        unfold InitSucceeded at this
        rw [hc] at this
        exact this hz
      · exact h hc
  · refine ⟨fun ⟨e, he, hf⟩ => ?_, fun h => ?_, fun _ => r1, fun line _ e he => ?_⟩
    · rw [htr] at he
      rcases List.mem_append.1 he with h | h
      · exact absurd hf (hsteps e h).2.1
      · exact absurd hf (hzero j e h)
    · rw [r1] at h; cases h
    · rw [htr] at he
      rcases List.mem_append.1 he with h | h
      · exact (hsteps e h).2.2
      · simp only [init_calls, List.mem_cons, List.mem_singleton, List.not_mem_nil,
          or_false] at h
        rcases h with h | h | h <;> subst h <;> rfl

/-- Witness of C15 as amended: three logical buses, the lock 5 of controller 1 is created
and the installation of the driver of controller 0 then fails: the call returns false and
the lock 5 is destroyed once, as the last call. -/
theorem init_all_rollback_witness :
    ((sys_i2c_init_all three_buses ⟨0⟩ BSP_three SYS_three SYS_I2C_RUNTIME.zero).result
      (script [0, 0, 5, 0, -1]) 0).1 = .returned false ∧
    ((sys_i2c_init_all three_buses ⟨0⟩ BSP_three SYS_three SYS_I2C_RUNTIME.zero).trace
      (script [0, 0, 5, 0, -1]) 0).countP (Ev.destroyed 5) = 1 ∧
    ((sys_i2c_init_all three_buses ⟨0⟩ BSP_three SYS_three SYS_I2C_RUNTIME.zero).trace
      (script [0, 0, 5, 0, -1]) 0).getLast? = some ⟨.vSemaphoreDelete 5, 0⟩ :=
  ⟨(((init_all_rollback three_buses ⟨0⟩ BSP_three SYS_three SYS_I2C_RUNTIME.zero
      (script [0, 0, 5, 0, -1])).2 (by decide) (by decide)).1 (by decide)).1,
    by decide, by decide⟩

/-- C21: for a logical bus `id < SYS_I2C_ID_CNT`, `sys_i2c_attach_pins` makes exactly one
external call, `i2c_param_config`, addressed to the controller `runtime.unit[id].port_num`
with a configuration that carries the data pin, clock pin and clock speed of
`runtime.unit[id]` and, when clock flags are enabled, its clock flags; it returns true
exactly when that call returns `ESP_OK`. For `id ≥ SYS_I2C_ID_CNT` attach and detach are
the program that returns false at once, whatever the runtime table holds: no call is
made and no entry of the table is read. -/
theorem attach_one_routing_request (P : Platform) (rt : SYS_I2C_RUNTIME) (id : Nat)
    (o : Nat → Int) :
    (id < P.SYS_I2C_ID_CNT →
      (sys_i2c_attach_pins P rt id).trace o 0 =
        [⟨.i2c_param_config (rt.unit id).port_num (attach_config P rt id), o 0⟩] ∧
      (attach_config P rt id).sda_io_num = (rt.unit id).sda_io_num ∧
      (attach_config P rt id).scl_io_num = (rt.unit id).scl_io_num ∧
      (attach_config P rt id).clk_speed = (rt.unit id).clk_speed ∧
      (P.SYS_I2C_CLK_FLAGS_ENABLE = true →
        (attach_config P rt id).clk_flags = (rt.unit id).clk_flags) ∧
      (attach_config P rt id).mode = i2c_mode_t.I2C_MODE_MASTER ∧
      ((sys_i2c_attach_pins P rt id).result o 0 = true ↔ o 0 = ESP_OK)) ∧
    (¬ id < P.SYS_I2C_ID_CNT →
      (∀ rt2 : SYS_I2C_RUNTIME,
        sys_i2c_attach_pins P rt2 id = .done false ∧
        sys_i2c_detach_pins P rt2 id = .done false) ∧
      (sys_i2c_attach_pins P rt id).result o 0 = false ∧
      (sys_i2c_attach_pins P rt id).trace o 0 = [] ∧
      (sys_i2c_detach_pins P rt id).result o 0 = false ∧
      (sys_i2c_detach_pins P rt id).trace o 0 = []) := by
  constructor
  · intro h
    have h1 : P.SYS_I2C_ID_CNT > id := h
    refine ⟨?_, rfl, rfl, rfl, ?_, rfl, ?_⟩
    · unfold sys_i2c_attach_pins
      rw [if_neg (not_not.2 h1)]
      by_cases h2 : ESP_OK ≠ o 0 <;> simp [h2, Call.retOf, Call.isVoid]
    · intro hf
      simp [attach_config, hf]
    · unfold sys_i2c_attach_pins
      rw [if_neg (not_not.2 h1)]
      by_cases h2 : ESP_OK ≠ o 0
      · simp [h2, Call.retOf, Call.isVoid]
        exact fun h3 => h2 h3.symm
      · simp [h2, Call.retOf, Call.isVoid]
        exact ⟨Eq.symm, Eq.symm⟩
  · intro h
    have h1 : ¬ (P.SYS_I2C_ID_CNT > id) := h
    have key : ∀ rt2 : SYS_I2C_RUNTIME,
        sys_i2c_attach_pins P rt2 id = .done false ∧
        sys_i2c_detach_pins P rt2 id = .done false := by
      intro rt2
      unfold sys_i2c_attach_pins sys_i2c_detach_pins
      rw [if_pos h1, if_pos h1]
      exact ⟨rfl, rfl⟩
    refine ⟨key, ?_, ?_, ?_, ?_⟩
    · rw [(key rt).1]; rfl
    · rw [(key rt).1]; rfl
    · rw [(key rt).2]; rfl
    · rw [(key rt).2]; rfl

/-- C21 on the platform of the repository: bus 0 is routed by one `i2c_param_config` for
controller 0 with pins 4 (data) and 3 (clock); bus 1 does not exist and neither attach
nor detach calls anything. -/
theorem attach_one_routing_request_witness :
    (0 < esp32.SYS_I2C_ID_CNT ∧
      (sys_i2c_attach_pins esp32 runtime0 0).trace (script [0]) 0 =
        [⟨.i2c_param_config (runtime0.unit 0).port_num (attach_config esp32 runtime0 0),
          script [0] 0⟩] ∧
      ((sys_i2c_attach_pins esp32 runtime0 0).result (script [0]) 0 = true ↔
        script [0] 0 = ESP_OK)) ∧
    (¬ 1 < esp32.SYS_I2C_ID_CNT ∧
      (sys_i2c_attach_pins esp32 runtime0 1).trace (script [0]) 0 = [] ∧
      (sys_i2c_detach_pins esp32 runtime0 1).trace (script [0]) 0 = []) :=
  have h := attach_one_routing_request esp32 runtime0 0 (script [0])
  have h1 := attach_one_routing_request esp32 runtime0 1 (script [0])
  ⟨⟨by decide, (h.1 (by decide)).1, (h.1 (by decide)).2.2.2.2.2.2⟩,
   ⟨by decide, (h1.2 (by decide)).2.2.1, (h1.2 (by decide)).2.2.2.2⟩⟩
/-- C26, evaluated on the bus of the repository: the command link is deleted twice.
In a read of one byte whose executor succeeds, the link (handle `1`) is deleted, then the
first `gpio_config` of detach fails and the `fail:` block deletes the same handle again.
The same happens in a write whose lock release fails after the executor has run, and in
a probe whose executor times out (`0x107`). The link is created once in each of these
runs. A run in which every call succeeds deletes the link once. -/
theorem link_deleted_twice :
    ((sys_i2c_read esp32 runtime0 0 0x3C 0 1 1).trace
        (script [1, 0, 1, 0, 0, 0, 0, 0, 0, 0, 0, 0, -1]) 0).filter
      (fun e => decide (e.call = .i2c_cmd_link_create ∨ e.call.kind = .delete)) =
      [⟨.i2c_cmd_link_create, 1⟩, ⟨.i2c_cmd_link_delete 1, 0⟩, ⟨.i2c_cmd_link_delete 1, 0⟩] ∧
    (sys_i2c_read esp32 runtime0 0 0x3C 0 1 1).result
        (script [1, 0, 1, 0, 0, 0, 0, 0, 0, 0, 0, 0, -1]) 0 = false ∧
    ((sys_i2c_write esp32 runtime0 0 0x3C 0 1 1).trace
        (script [1, 0, 1, 0, 0, 0, 0, 0, 0, 0, 0, 0, 0]) 0).filter
      (fun e => decide (e.call = .i2c_cmd_link_create ∨ e.call.kind = .delete)) =
      [⟨.i2c_cmd_link_create, 1⟩, ⟨.i2c_cmd_link_delete 1, 0⟩, ⟨.i2c_cmd_link_delete 1, 0⟩] ∧
    ((sys_i2c_probe esp32 runtime0 0 0x3C 1 false).trace
        (script [1, 0, 1, 0, 0, 0, 0x107, 0, 0, 0, 1, 0, 0, 0, 1]) 0).filter
      (fun e => decide (e.call = .i2c_cmd_link_create ∨ e.call.kind = .delete)) =
      [⟨.i2c_cmd_link_create, 1⟩, ⟨.i2c_cmd_link_delete 1, 0⟩, ⟨.i2c_cmd_link_delete 1, 0⟩] ∧
    ((sys_i2c_read esp32 runtime0 0 0x3C 0 1 1).trace
        (script [1, 0, 1, 0, 0, 0, 0, 0, 0, 0, 0, 0, 0, 0, 1]) 0).filter
      (fun e => decide (e.call = .i2c_cmd_link_create ∨ e.call.kind = .delete)) =
      [⟨.i2c_cmd_link_create, 1⟩, ⟨.i2c_cmd_link_delete 1, 0⟩] := by
  decide

/-- C27, evaluated on the bus of the repository: the lock is given twice after one
acquisition. In a probe whose executor times out (`0x107`) the lock is taken once, given
back with success on the normal path, and given a second time by the `fail:` block; the
probe returns false. The same happens when the executor reports `0x103`. A probe whose
executor reports no acknowledge (`-1`) gives the lock once. -/
theorem lock_given_twice :
    ((sys_i2c_probe esp32 runtime0 0 0x3C 1 false).trace
        (script [1, 0, 1, 0, 0, 0, 0x107, 0, 0, 0, 1, 0, 0, 0, 1]) 0).filter
      (fun e => decide (e.call.kind = .take ∨ e.call.kind = .give)) =
      [⟨.xSemaphoreTake 1 portMAX_DELAY, 1⟩, ⟨.xSemaphoreGive 1, 1⟩, ⟨.xSemaphoreGive 1, 1⟩] ∧
    ((sys_i2c_probe esp32 runtime0 0 0x3C 1 false).result
        (script [1, 0, 1, 0, 0, 0, 0x107, 0, 0, 0, 1, 0, 0, 0, 1]) 0).ret = false ∧
    ((sys_i2c_probe esp32 runtime0 0 0x3C 1 false).trace
        (script [1, 0, 1, 0, 0, 0, 0x103, 0, 0, 0, 1, 0, 0, 0, 1]) 0).filter
      (fun e => decide (e.call.kind = .take ∨ e.call.kind = .give)) =
      [⟨.xSemaphoreTake 1 portMAX_DELAY, 1⟩, ⟨.xSemaphoreGive 1, 1⟩, ⟨.xSemaphoreGive 1, 1⟩] ∧
    ((sys_i2c_probe esp32 runtime0 0 0x3C 1 false).trace
        (script [1, 0, 1, 0, 0, 0, -1, 0, 0, 0, 1]) 0).filter
      (fun e => decide (e.call.kind = .take ∨ e.call.kind = .give)) =
      [⟨.xSemaphoreTake 1 portMAX_DELAY, 1⟩, ⟨.xSemaphoreGive 1, 1⟩] := by
  decide
/-- C28: whenever `sys_i2c_probe` returns false, the presence flag of the caller keeps
the value it had before the call; a flag that differs afterwards means the probe
returned true. This holds for every argument (also a null flag address, an address of
128 or more, a bus that does not exist) and every outcome of the external calls. -/
theorem probe_false_keeps_flag (P : Platform) (rt : SYS_I2C_RUNTIME)
    (id addr fa : Nat) (flag : Bool) (o : Nat → Int)
    (h : ((sys_i2c_probe P rt id addr fa flag).result o 0).ret = false) :
    ((sys_i2c_probe P rt id addr fa flag).result o 0).found_flag = flag := by
  by_cases hv : id < P.SYS_I2C_ID_CNT ∧ addr < 128 ∧ fa ≠ 0
  · obtain ⟨hid, haddr, hfa⟩ := hv
    rcases probe_cases P rt id addr fa flag o hid haddr hfa with
      ⟨c, _, hr, _⟩ | ⟨c, _, hr, _⟩ | ⟨c, x, m, _, _, _, hr, _⟩ | ⟨c, x, _, hr, _⟩
    · rw [hr] at h; exact absurd h (by decide)
    · rw [hr] at h; exact absurd h (by decide)
    · rw [hr]
    · rw [hr]
  · have hv2 : ¬ id < P.SYS_I2C_ID_CNT ∨ ¬ addr < 128 ∨ fa = 0 := by
      by_cases h1 : id < P.SYS_I2C_ID_CNT
      · by_cases h2 : addr < 128
        · right; right
          by_contra h3
          exact hv ⟨h1, h2, h3⟩
        · exact Or.inr (Or.inl h2)
      · exact Or.inl h1
    rw [(probe_rejects P rt id addr fa flag o hv2).1]

/-- C28 on the bus of the repository: a probe whose executor times out (`0x107`) returns
false and a flag that was true before the call is still true. -/
theorem probe_false_keeps_flag_witness :
    ((sys_i2c_probe esp32 runtime0 0 0x3C 1 true).result
      (script [1, 0, 1, 0, 0, 0, 0x107, 0, 0, 0, 1, 0, 0, 0, 1]) 0).ret = false ∧
    ((sys_i2c_probe esp32 runtime0 0 0x3C 1 true).result
      (script [1, 0, 1, 0, 0, 0, 0x107, 0, 0, 0, 1, 0, 0, 0, 1]) 0).found_flag = true :=
  ⟨by decide, probe_false_keeps_flag esp32 runtime0 0 0x3C 1 true
    (script [1, 0, 1, 0, 0, 0, 0x107, 0, 0, 0, 1, 0, 0, 0, 1]) (by decide)⟩
/-- The address byte of a seven-bit address and a direction bit is `2 * a + d`. -/
theorem addr_byte_eq (a d : Nat) (ha : a < 128) (hd : d < 2) : addr_byte a d = 2 * a + d := by
  unfold addr_byte
  interval_cases a <;> interval_cases d <;> rfl

/-- C29: for every device address `a < 128` and direction bit `d` (`I2C_MASTER_WRITE = 0`
or `I2C_MASTER_READ = 1`) the address byte `(a << 1 | d)` truncated to eight bits is
`2 * a + d`; the truncation loses no bit (the value before it is below 256), the upper
seven bits are `a`, the lowest bit is `d`, the write and read bytes of one address differ
in bit 0 only, and the byte determines the address and the direction, so distinct
addresses give distinct bytes. -/
theorem address_byte_layout (a d : Nat) (ha : a < SYS_I2C_ADDR_INVALID)
    (hd : d = I2C_MASTER_WRITE ∨ d = I2C_MASTER_READ) :
    addr_byte a d = 2 * a + d ∧
    ((a <<< 1) ||| d) = addr_byte a d ∧
    addr_byte a d / 2 = a ∧
    addr_byte a d % 2 = d ∧
    addr_byte a I2C_MASTER_READ = addr_byte a I2C_MASTER_WRITE + 1 ∧
    addr_byte a I2C_MASTER_WRITE ^^^ addr_byte a I2C_MASTER_READ = 1 ∧
    (∀ b e, b < SYS_I2C_ADDR_INVALID → (e = I2C_MASTER_WRITE ∨ e = I2C_MASTER_READ) →
      addr_byte a d = addr_byte b e → a = b ∧ d = e) ∧
    (∀ b e, b < SYS_I2C_ADDR_INVALID → (e = I2C_MASTER_WRITE ∨ e = I2C_MASTER_READ) →
      a ≠ b → addr_byte a d ≠ addr_byte b e) := by
  have ha' : a < 128 := ha
  have hd' : d < 2 := by rcases hd with h | h <;> simp [h, I2C_MASTER_WRITE, I2C_MASTER_READ]
  have key := addr_byte_eq a d ha' hd'
  have inj : ∀ b e, b < SYS_I2C_ADDR_INVALID → (e = I2C_MASTER_WRITE ∨ e = I2C_MASTER_READ) →
      addr_byte a d = addr_byte b e → a = b ∧ d = e := by
    intro b e hb he h
    have hb' : b < 128 := hb
    have he' : e < 2 := by
      rcases he with h | h <;> simp [h, I2C_MASTER_WRITE, I2C_MASTER_READ]
    rw [key, addr_byte_eq b e hb' he'] at h
    omega
  refine ⟨key, ?_, ?_, ?_, ?_, ?_, inj, ?_⟩
  · have : (a <<< 1) ||| d < 256 := by
      have h := key
      unfold addr_byte at h
      interval_cases a <;> interval_cases d <;> decide
    unfold addr_byte
    exact (Nat.mod_eq_of_lt this).symm
  · rw [key]; omega
  · rw [key]; omega
  · rw [addr_byte_eq a I2C_MASTER_READ ha' (by decide),
      addr_byte_eq a I2C_MASTER_WRITE ha' (by decide)]
    simp [I2C_MASTER_WRITE, I2C_MASTER_READ]
  · unfold addr_byte
    interval_cases a <;> rfl
  · intro b e hb he hab h
    exact hab (inj b e hb he h).1

/-- C29 at the address `0x3C` of the repository's display: the write byte is `0x78` and
the read byte is `0x79`. -/
theorem address_byte_layout_witness :
    addr_byte 0x3C I2C_MASTER_READ = 2 * 0x3C + I2C_MASTER_READ ∧
    addr_byte 0x3C I2C_MASTER_READ = 0x79 ∧
    addr_byte 0x3C I2C_MASTER_READ / 2 = 0x3C ∧
    addr_byte 0x3C I2C_MASTER_READ % 2 = I2C_MASTER_READ :=
  have h := address_byte_layout 0x3C I2C_MASTER_READ (by decide) (Or.inr rfl)
  ⟨h.1, by decide, h.2.2.1, h.2.2.2.1⟩

/-! ## The scan -/

/-- A sequence of two programs runs the second where the calls of the first end. -/
theorem Prog.result_bind {α β : Type} (p : Prog α) (f : α → Prog β) (o : Nat → Int)
    (n : Nat) :
    (p.bind f).result o n = (f (p.result o n)).result o (n + (p.trace o n).length) := by
  induction p generalizing n with
  | done a => rfl
  | call c k ih =>
    simp only [Prog.bind_call, Prog.result_call, Prog.trace_call, List.length_cons]
    rw [ih]
    congr 1
    omega

theorem scanned_succ (id a : Nat) : scanned id (a + 1) = scanned id a ++ [(id, a)] := by
  simp [scanned, List.range_succ]

theorem scanned_next_bus (id : Nat) : scanned (id + 1) 0 = scanned id 128 := by
  simp [scanned, List.range_succ]

theorem scanned_length (id a : Nat) : (scanned id a).length = id * 128 + a := by
  induction id generalizing a with
  | zero => simp [scanned]
  | succ k ih =>
    have h : (scanned (k + 1) a).length = (scanned k 128).length + a := by
      rw [← scanned_next_bus]
      simp [scanned]
    rw [h, ih]
    omega

theorem scanned_mem (id a : Nat) (x : Nat × Nat) (h : x ∈ scanned id a) :
    (x.1 < id ∧ x.2 < 128) ∨ (x.1 = id ∧ x.2 < a) := by
  simp only [scanned, List.mem_append, List.mem_flatMap, List.mem_map, List.mem_range] at h
  rcases h with ⟨i, hi, b, hb, rfl⟩ | ⟨b, hb, rfl⟩
  · exact Or.inl ⟨hi, hb⟩
  · exact Or.inr ⟨rfl, hb⟩

theorem Scanning.print {id a : Nat} {s : Scan} (h : Scanning id a s) (x : Out)
    (hc : x.isCell = false) (hs : x.isSummary = false) : Scanning id a (s.print x) := by
  refine ⟨h.pairs, h.passed, ?_, h.count, ?_⟩
  · simp [Scan.print, List.filter_append, hc, h.cells]
  · intro y hy
    simp only [Scan.print, List.mem_append, List.mem_singleton] at hy
    rcases hy with hy | rfl
    · exact h.open_end y hy
    · exact hs

theorem Scanning.row {id a : Nat} {s : Scan} (h : Scanning id a s) (b : Nat) :
    Scanning id a (s.row b) := by
  unfold Scan.row
  split
  · exact h.print _ rfl rfl
  · exact h

theorem Scanning.header {id a : Nat} {s : Scan} (h : Scanning id a s) (P : Platform)
    (rt : SYS_I2C_RUNTIME) (j : Nat) : Scanning id a (s.header P rt j) := by
  unfold Scan.header
  refine Scanning.print ?_ _ rfl rfl
  refine Scanning.print ?_ _ rfl rfl
  refine Scanning.print ?_ _ rfl rfl
  refine Scanning.print ?_ _ rfl rfl
  exact Scanning.print h _ rfl rfl

theorem filter_found_le (l : List ProbeRecord) :
    (l.filter fun r => r.result.found_flag).length ≤ l.length :=
  List.length_filter_le _ _

/-- One pass of the address loop whose probe returned true. -/
theorem Scanning.next {id a : Nat} {s : Scan} (h : Scanning id a s) (hid : id ≤ 255)
    (ha : a < 128) (r : ProbeResult) (hr : r.ret = true) :
    Scanning id (a + 1) (((s.row a).probed id a r).cell a r.found_flag) := by
  have h1 := h.row a
  have hlen : (s.row a).probes.length = id * 128 + a := by
    rw [← scanned_length, ← h1.pairs, List.length_map]
  have hcnt : (s.row a).found_cnt ≤ id * 128 + a := by
    rw [h1.count, ← hlen]
    exact filter_found_le _
  refine ⟨?_, ?_, ?_, ?_, ?_⟩
  · rw [scanned_succ, ← h1.pairs]
    cases hf : r.found_flag <;> simp [Scan.cell, Scan.probed, Scan.print, ProbeRecord.pair]
  · intro q hq
    have hq2 : q ∈ (s.row a).probes ++ [⟨id, a, r⟩] := by
      cases hf : r.found_flag <;>
        simpa [Scan.cell, Scan.probed, Scan.print, hf] using hq
    rcases List.mem_append.1 hq2 with hq3 | hq3
    · exact h1.passed q hq3
    · rw [List.mem_singleton.1 hq3]; exact hr
  · cases hf : r.found_flag <;>
      simp [Scan.cell, Scan.probed, Scan.print, List.filter_append, h1.cells, Out.isCell,
        ProbeRecord.cell, hf]
  · cases hf : r.found_flag
    · simp [Scan.cell, Scan.probed, Scan.print, List.filter_append, hf, h1.count]
    · have hmod : ((s.row a).found_cnt + 1) % 2 ^ 32 = (s.row a).found_cnt + 1 :=
        Nat.mod_eq_of_lt (by omega)
      have hfl := filter_found_le (s.row a).probes
      simp [Scan.cell, Scan.probed, Scan.print, List.filter_append, hf, hmod, h1.count]
      omega
  · intro y hy
    have hy2 : y ∈ (s.row a).out ∨ y = .found a ∨ y = .not_found := by
      cases hf : r.found_flag <;>
        simp [Scan.cell, Scan.probed, Scan.print, hf] at hy <;> tauto
    rcases hy2 with hy3 | rfl | rfl
    · exact h1.open_end y hy3
    · rfl
    · rfl

/-- One pass of the address loop whose probe returned false. -/
theorem Scanning.stop {id a : Nat} {s : Scan} (h : Scanning id a s) (P : Platform)
    (hid : id < P.SYS_I2C_ID_CNT) (ha : a < 128) (r : ProbeResult) (hr : r.ret = false) :
    ScanFailed P ((s.row a).probed id a r) := by
  have h1 := h.row a
  exact ⟨(s.row a).probes, ⟨id, a, r⟩, rfl, hr, h1.passed, hid, ha, h1.pairs, h1.cells,
    h1.open_end⟩

/-- The address loop of one bus, started before the address `a` in a state in which
every probe so far returned true, ends: either every probe up to `0x7F` returned true
and the loop is left at its condition, or a probe returned false and the scan stops
there. -/
theorem scan_addr_loop_runs (P : Platform) (rt : SYS_I2C_RUNTIME) (id : Nat)
    (o : Nat → Int) (hid : id < P.SYS_I2C_ID_CNT) (hid2 : id ≤ 255) :
    ∀ (fuel a : Nat) (flag : Bool) (s : Scan) (n : Nat), a < 128 → 128 - a ≤ fuel →
      Scanning id a s →
      (((scan_addr_loop P rt id fuel a flag s).result o n).1 = none ∧
        Scanning id 128 ((scan_addr_loop P rt id fuel a flag s).result o n).2) ∨
      (((scan_addr_loop P rt id fuel a flag s).result o n).1 = some (.returned false) ∧
        ScanFailed P ((scan_addr_loop P rt id fuel a flag s).result o n).2) := by
  intro fuel
  induction fuel with
  | zero => intro a flag s n ha hf; omega
  | succ fuel ih =>
    intro a flag s n ha hf hs
    unfold scan_addr_loop
    rw [Prog.result_bind]
    generalize (sys_i2c_probe P rt id a scan_found_flag_addr flag).result o n = r
    generalize n + ((sys_i2c_probe P rt id a scan_found_flag_addr flag).trace o n).length = m
    by_cases hr : r.ret = true
    · have hs2 := hs.next hid2 ha r hr
      by_cases hlast : a + 1 < 128
      · have hmod : (a + 1) % 256 = a + 1 := Nat.mod_eq_of_lt (by omega)
        have hc : SYS_I2C_ADDR_NUM_MAX ≥ a + 1 := by
          show a + 1 ≤ 127; omega
        simp only [hr, not_true_eq_false, if_false, hmod, if_pos hc]
        have hf2 : 128 - (a + 1) ≤ fuel := by omega
        exact ih (a + 1) r.found_flag _ m hlast hf2 hs2
      · have ha2 : a = 127 := by omega
        subst ha2
        have hc : ¬ (SYS_I2C_ADDR_NUM_MAX ≥ (127 + 1) % 256) := by decide
        simp only [hr, not_true_eq_false, if_false, if_neg hc, Prog.result_done]
        exact Or.inl ⟨trivial, hs2⟩
    · have hr2 : r.ret = false := by simpa using hr
      simp only [hr2, Bool.false_eq_true, not_false_eq_true, if_true, Prog.result_done]
      exact Or.inr ⟨trivial, hs.stop P hid ha r hr2⟩

/-- The bus loop, started at the bus `id` in a state in which every probe so far returned
true, ends: either every probe of the remaining buses returned true and the loop is left
at its condition, or a probe returned false and the scan stops there. -/
theorem scan_bus_loop_runs (P : Platform) (rt : SYS_I2C_RUNTIME) (u : Nat → Bool)
    (o : Nat → Int)
    (hcnt : P.SYS_I2C_ID_CNT ≤ 255) :
    ∀ (fuel id : Nat) (s : Scan) (n : Nat), id ≤ P.SYS_I2C_ID_CNT →
      P.SYS_I2C_ID_CNT - id < fuel → Scanning id 0 s →
      (((scan_bus_loop P rt u fuel id s).result o n).1 = none ∧
        Scanning P.SYS_I2C_ID_CNT 0 ((scan_bus_loop P rt u fuel id s).result o n).2) ∨
      (((scan_bus_loop P rt u fuel id s).result o n).1 = some (.returned false) ∧
        ScanFailed P ((scan_bus_loop P rt u fuel id s).result o n).2) := by
  intro fuel
  induction fuel with
  | zero => intro id s n _ hf; omega
  | succ fuel ih =>
    intro id s n hid hf hs
    unfold scan_bus_loop
    by_cases hc : P.SYS_I2C_ID_CNT > id
    · rw [if_neg (not_not.2 hc), Prog.result_bind]
      rcases scan_addr_loop_runs P rt id o hc (by omega) 256 SYS_I2C_ADDR_NUM_MIN (u id)
        (s.header P rt id) n (by decide) (by decide) (hs.header P rt id) with
        ⟨h1, h2⟩ | ⟨h1, h2⟩
      · generalize (scan_addr_loop P rt id 256 SYS_I2C_ADDR_NUM_MIN (u id)
          (s.header P rt id)).result o n = x at h1 h2
        have hmod : (id + 1) % 256 = id + 1 := Nat.mod_eq_of_lt (by omega)
        simp only [h1, ne_eq, not_true_eq_false, if_false, hmod]
        apply ih (id + 1) _ _ (by omega) (by omega)
        have h3 : Scanning (id + 1) 0 x.2 :=
          ⟨by rw [scanned_next_bus]; exact h2.pairs, h2.passed, h2.cells, h2.count,
            h2.open_end⟩
        exact h3.print _ rfl rfl
      · generalize (scan_addr_loop P rt id 256 SYS_I2C_ADDR_NUM_MIN (u id)
          (s.header P rt id)).result o n = x at h1 h2
        have hne : x.1 ≠ none := by rw [h1]; exact Option.some_ne_none _
        simp only [if_pos hne, Prog.result_done]
        exact Or.inr ⟨h1, h2⟩
    · rw [if_pos hc]
      have hid2 : id = P.SYS_I2C_ID_CNT := by omega
      subst hid2
      exact Or.inl ⟨rfl, hs⟩

theorem scan_print_runs (P : Platform) (rt : SYS_I2C_RUNTIME) (u : Nat → Bool)
    (o : Nat → Int)
    (hcnt : P.SYS_I2C_ID_CNT ≤ 255) :
    ScanRuns P ((sys_i2c_scan_print P rt u).result o 0) := by
  unfold sys_i2c_scan_print
  rw [Prog.result_bind]
  have h0 : Scanning 0 0 ⟨0, [.newline, .start, .bus_count P.SYS_I2C_ID_CNT], []⟩ :=
    ⟨rfl, by simp, by simp [Out.isCell], rfl, by simp [Out.isSummary]⟩
  rcases scan_bus_loop_runs P rt u o hcnt 257 0 _ 0 (Nat.zero_le _) (by omega) h0 with
    ⟨h1, h2⟩ | ⟨h1, h2⟩
  · generalize (scan_bus_loop P rt u 257 0
      ⟨0, [.newline, .start, .bus_count P.SYS_I2C_ID_CNT], []⟩).result o 0 = x at h1 h2
    obtain ⟨x1, x2⟩ := x
    simp only at h1
    subst h1
    exact Or.inl ⟨rfl, x2, h2, rfl⟩
  · generalize (scan_bus_loop P rt u 257 0
      ⟨0, [.newline, .start, .bus_count P.SYS_I2C_ID_CNT], []⟩).result o 0 = x at h1 h2
    obtain ⟨x1, x2⟩ := x
    simp only at h1
    subst h1
    exact Or.inr ⟨rfl, h2⟩
theorem scanned_all (n : Nat) :
    scanned n 0 = (List.range n).flatMap fun id => (List.range 128).map fun a => (id, a) := by
  simp [scanned]

/-- C22: on a platform with at most 255 logical buses (more cannot be counted by the
`uint8_t` bus counter, nor by the table builder), when every probe made by
`sys_i2c_scan_print` returns true the scan ends and returns true, and the probes it made
are, in this order, those of the addresses `0x00..0x7F` of bus 0, then of bus 1, and so
on up to the last bus: each pair once, `SYS_I2C_ID_CNT × 128` probes. Every probed
address is below 128, which is what the address check of the probe asks for, every
probed bus exists, and incrementing any probed address does not wrap the 8-bit
counter. -/
theorem scan_probes_every_address (P : Platform) (rt : SYS_I2C_RUNTIME) (u : Nat → Bool)
    (o : Nat → Int)
    (hcnt : P.SYS_I2C_ID_CNT ≤ 255)
    (hp : ∀ r ∈ ((sys_i2c_scan_print P rt u).result o 0).2.probes, r.result.ret = true) :
    ((sys_i2c_scan_print P rt u).result o 0).1 = .returned true ∧
    ((sys_i2c_scan_print P rt u).result o 0).2.probes.map ProbeRecord.pair =
      ((List.range P.SYS_I2C_ID_CNT).flatMap fun id =>
        (List.range 128).map fun a => (id, a)) ∧
    ((sys_i2c_scan_print P rt u).result o 0).2.probes.length = P.SYS_I2C_ID_CNT * 128 ∧
    ∀ r ∈ ((sys_i2c_scan_print P rt u).result o 0).2.probes,
      r.sys_i2c_id < P.SYS_I2C_ID_CNT ∧ r.i2c_addr_num < SYS_I2C_ADDR_INVALID ∧
      SYS_I2C_ADDR_NUM_MIN ≤ r.i2c_addr_num ∧ r.i2c_addr_num ≤ SYS_I2C_ADDR_NUM_MAX ∧
      (r.i2c_addr_num + 1) % 256 = r.i2c_addr_num + 1 := by
  rcases scan_print_runs P rt u o hcnt with ⟨h1, s, hs, h2⟩ | ⟨_, init, last, h2, h3, _⟩
  · have hprobes : ((sys_i2c_scan_print P rt u).result o 0).2.probes = s.probes := by
      rw [h2]; rfl
    have hpairs := hs.pairs
    rw [hprobes]
    refine ⟨h1, ?_, ?_, ?_⟩
    · rw [hpairs, scanned_all]
    · have h := congrArg List.length hpairs
      rw [List.length_map, scanned_length] at h
      omega
    · intro r hr
      have hm : r.pair ∈ scanned P.SYS_I2C_ID_CNT 0 := by
        rw [← hpairs]; exact List.mem_map_of_mem _ hr
      rcases scanned_mem _ _ _ hm with ⟨h3, h4⟩ | ⟨_, h4⟩
      · have h5 : r.i2c_addr_num < 128 := h4
        refine ⟨h3, h5, Nat.zero_le _, ?_, ?_⟩
        · show r.i2c_addr_num ≤ 127; omega
        · exact Nat.mod_eq_of_lt (by omega)
      · exact absurd h4 (Nat.not_lt_zero _)
  · have hm : last ∈ ((sys_i2c_scan_print P rt u).result o 0).2.probes := by
      rw [h2]; simp
    have := hp last hm
    rw [h3] at this
    exact absurd this (by decide)

/-- C23: on a platform with at most 255 logical buses, when every probe made by
`sys_i2c_scan_print` returns true, the device count `found_cnt` is the number of probes
that reported a device, the last text printed is the summary line with that count and
the number of buses, it is the only summary line, and the grid cells are, in order, the
cells of the probes: the address for a probe that reported a device and `--` for every
other one. The probes are those of every pair (bus, address) in scan order. -/
theorem scan_report_counts (P : Platform) (rt : SYS_I2C_RUNTIME) (u : Nat → Bool)
    (o : Nat → Int)
    (hcnt : P.SYS_I2C_ID_CNT ≤ 255)
    (hp : ∀ r ∈ ((sys_i2c_scan_print P rt u).result o 0).2.probes, r.result.ret = true) :
    ((sys_i2c_scan_print P rt u).result o 0).2.found_cnt =
      (((sys_i2c_scan_print P rt u).result o 0).2.probes.filter
        fun r => r.result.found_flag).length ∧
    ((sys_i2c_scan_print P rt u).result o 0).2.out.getLast? =
      some (.summary ((sys_i2c_scan_print P rt u).result o 0).2.found_cnt P.SYS_I2C_ID_CNT) ∧
    ((sys_i2c_scan_print P rt u).result o 0).2.out.filter Out.isSummary =
      [.summary ((sys_i2c_scan_print P rt u).result o 0).2.found_cnt P.SYS_I2C_ID_CNT] ∧
    ((sys_i2c_scan_print P rt u).result o 0).2.out.filter Out.isCell =
      ((sys_i2c_scan_print P rt u).result o 0).2.probes.map ProbeRecord.cell ∧
    ((sys_i2c_scan_print P rt u).result o 0).2.probes.map ProbeRecord.pair =
      ((List.range P.SYS_I2C_ID_CNT).flatMap fun id =>
        (List.range 128).map fun a => (id, a)) := by
  rcases scan_print_runs P rt u o hcnt with ⟨_, s, hs, h2⟩ | ⟨_, init, last, h2, h3, _⟩
  · rw [h2]
    have hnone : s.out.filter Out.isSummary = [] := by
      rw [List.filter_eq_nil_iff]
      intro x hx
      simp [hs.open_end x hx]
    refine ⟨hs.count, ?_, ?_, ?_, ?_⟩
    · simp [Scan.print]
    · simp [Scan.print, List.filter_append, hnone, Out.isSummary]
    · simp [Scan.print, List.filter_append, Out.isCell, hs.cells]
    · show s.probes.map ProbeRecord.pair = _
      rw [hs.pairs, scanned_all]
  · have hm : last ∈ ((sys_i2c_scan_print P rt u).result o 0).2.probes := by
      rw [h2]; simp
    have := hp last hm
    rw [h3] at this
    exact absurd this (by decide)

/-- C24: on a platform with at most 255 logical buses, when a probe made by
`sys_i2c_scan_print` returns false the scan returns false; the failed probe is the last
one made, so no later address and no later bus is probed: the probes before it are
exactly those that precede its pair in scan order and each of them returned true. No
summary line is printed, and the failed probe has no cell. -/
theorem scan_stops_at_failed_probe (P : Platform) (rt : SYS_I2C_RUNTIME) (u : Nat → Bool)
    (o : Nat → Int)
    (hcnt : P.SYS_I2C_ID_CNT ≤ 255)
    (hp : ∃ r ∈ ((sys_i2c_scan_print P rt u).result o 0).2.probes, r.result.ret = false) :
    ((sys_i2c_scan_print P rt u).result o 0).1 = .returned false ∧
    (∃ (init : List ProbeRecord) (last : ProbeRecord),
      ((sys_i2c_scan_print P rt u).result o 0).2.probes = init ++ [last] ∧
      last.result.ret = false ∧
      (∀ r ∈ init, r.result.ret = true) ∧
      last.sys_i2c_id < P.SYS_I2C_ID_CNT ∧ last.i2c_addr_num < 128 ∧
      init.map ProbeRecord.pair = scanned last.sys_i2c_id last.i2c_addr_num ∧
      ((sys_i2c_scan_print P rt u).result o 0).2.out.filter Out.isCell =
        init.map ProbeRecord.cell) ∧
    ∀ x ∈ ((sys_i2c_scan_print P rt u).result o 0).2.out, x.isSummary = false := by
  rcases scan_print_runs P rt u o hcnt with ⟨_, s, hs, h2⟩ | ⟨h1, init, last, h2, h3, h4, h5, h6,
    h7, h8, h9⟩
  · obtain ⟨r, hr, hf⟩ := hp
    have hprobes : ((sys_i2c_scan_print P rt u).result o 0).2.probes = s.probes := by
      rw [h2]; rfl
    rw [hprobes] at hr
    have := hs.passed r hr
    rw [hf] at this
    exact absurd this (by decide)
  · exact ⟨h1, ⟨init, last, h2, h3, h4, h5, h6, h7, h8⟩, h9⟩
set_option maxRecDepth 1000000 in
/-- C22 on the bus of the repository, with a mock in which every call succeeds and only
the address `0x3C` acknowledges: every probe returns true, the scan returns true and has
made 128 probes. -/
theorem scan_probes_every_address_witness :
    esp32.SYS_I2C_ID_CNT ≤ 255 ∧
    (∀ r ∈ ((sys_i2c_scan_print esp32 runtime0 fun _ => false).result scan_answers 0).2.probes,
      r.result.ret = true) ∧
    ((sys_i2c_scan_print esp32 runtime0 fun _ => false).result scan_answers 0).1 = .returned true ∧
    ((sys_i2c_scan_print esp32 runtime0 fun _ => false).result scan_answers 0).2.probes.length =
      esp32.SYS_I2C_ID_CNT * 128 :=
  have hp : ∀ r ∈ ((sys_i2c_scan_print esp32 runtime0 fun _ => false).result scan_answers 0).2.probes,
      r.result.ret = true := by
    unfold scan_answers
    rw [← Prog.exec_eq_oracle]
    decide
  have h := scan_probes_every_address esp32 runtime0 (fun _ => false) scan_answers (by decide) hp
  ⟨by decide, hp, h.1, h.2.2.1⟩

set_option maxRecDepth 1000000 in
/-- Every probe of the scan of `runtime_two` against the mock with one device, at `0x50`
on bus 0, returns true. -/
theorem scan_two_passes :
    ∀ r ∈ ((sys_i2c_scan_print two_buses runtime_two fun _ => false).result
        scan_two_answers 0).2.probes,
      r.result.ret = true := by
  unfold scan_two_answers
  rw [← Prog.exec_eq_oracle]
  decide

set_option maxRecDepth 1000000 in
/-- That scan counts one device. -/
theorem scan_two_count :
    ((sys_i2c_scan_print two_buses runtime_two fun _ => false).result
        scan_two_answers 0).2.found_cnt = 1 := by
  unfold scan_two_answers
  rw [← Prog.exec_eq_oracle]
  decide

set_option maxRecDepth 1000000 in
/-- The cells of that scan: `--` for the addresses `0x00..0x4F` of bus 0, the address
`0x50`, then `--` for the rest of bus 0 and for all of bus 1. -/
theorem scan_two_cells :
    ((sys_i2c_scan_print two_buses runtime_two fun _ => false).result
        scan_two_answers 0).2.out.filter Out.isCell =
      List.replicate 0x50 .not_found ++ [.found 0x50] ++
        List.replicate (0x2F + 128) .not_found := by
  unfold scan_two_answers
  rw [← Prog.exec_eq_oracle]
  decide

/-- C23 on two buses with a mock that acknowledges only the address `0x50` on bus 0:
every probe returns true, the count is 1, the summary line reads 1 device on 2 buses,
and of the 256 cells only the cell `0x50` of bus 0 (the 81st) shows a device. -/
theorem scan_report_counts_witness :
    two_buses.SYS_I2C_ID_CNT ≤ 255 ∧
    (∀ r ∈ ((sys_i2c_scan_print two_buses runtime_two fun _ => false).result
        scan_two_answers 0).2.probes,
      r.result.ret = true) ∧
    ((sys_i2c_scan_print two_buses runtime_two fun _ => false).result
        scan_two_answers 0).2.found_cnt =
      (((sys_i2c_scan_print two_buses runtime_two fun _ => false).result
        scan_two_answers 0).2.probes.filter fun r => r.result.found_flag).length ∧
    ((sys_i2c_scan_print two_buses runtime_two fun _ => false).result
        scan_two_answers 0).2.found_cnt = 1 ∧
    ((sys_i2c_scan_print two_buses runtime_two fun _ => false).result
        scan_two_answers 0).2.out.getLast? = some (.summary 1 2) ∧
    ((sys_i2c_scan_print two_buses runtime_two fun _ => false).result
        scan_two_answers 0).2.out.filter Out.isCell =
      List.replicate 0x50 .not_found ++ [.found 0x50] ++
        List.replicate (0x2F + 128) .not_found :=
  have h := scan_report_counts two_buses runtime_two (fun _ => false) scan_two_answers
    (by decide) scan_two_passes
  ⟨by decide, scan_two_passes, h.1, scan_two_count,
    by rw [h.2.1, scan_two_count]; rfl, scan_two_cells⟩

/-- C24 on the bus of the repository: the lock cannot be taken for the first probe, which
returns false; the scan returns false after this one probe and prints no summary. -/
theorem scan_stops_at_failed_probe_witness :
    esp32.SYS_I2C_ID_CNT ≤ 255 ∧
    ((sys_i2c_scan_print esp32 runtime0 fun _ => false).result (script [0]) 0).2.probes =
      [⟨0, 0, ⟨false, false⟩⟩] ∧
    ((sys_i2c_scan_print esp32 runtime0 fun _ => false).result (script [0]) 0).1 = .returned false ∧
    ∀ x ∈ ((sys_i2c_scan_print esp32 runtime0 fun _ => false).result (script [0]) 0).2.out,
      x.isSummary = false :=
  have h := scan_stops_at_failed_probe esp32 runtime0 (fun _ => false) (script [0]) (by decide)
    ⟨⟨0, 0, ⟨false, false⟩⟩, by decide, rfl⟩
  ⟨by decide, by decide, h.1, h.2.2⟩

/-! ## Write, then read -/

/-- A sequence of two programs against a handler: the second runs in the world the first
leaves. -/
theorem Prog.exec_bind {W α β : Type} (h : Call → W → Int × W) (p : Prog α)
    (f : α → Prog β) (w : W) :
    (p.bind f).exec h w = (f (p.exec h w).1).exec h (p.exec h w).2 := by
  induction p generalizing w with
  | done a => rfl
  | call c k ih =>
    simp only [Prog.bind_call, Prog.exec]
    exact ih _ _

/-- The world after a run against a handler is the world the handler reaches along the
calls of the run. -/
theorem Prog.exec_world {W α : Type} (h : Call → W → Int × W) (p : Prog α) (w : W) :
    (p.exec h w).2 = (p.trace (p.answers h w) 0).foldl (fun v e => (h e.call v).2) w := by
  suffices H : ∀ (p : Prog α) (w : W) (o : Nat → Int) (n : Nat),
      (∀ i, o (n + i) = p.answers h w i) →
      (p.exec h w).2 = (p.trace o n).foldl (fun v e => (h e.call v).2) w from
    H p w _ 0 (fun i => by rw [Nat.zero_add])
  intro p
  induction p with
  | done a => intro w o n _; rfl
  | call c k ih =>
    intro w o n ho
    have h0 : o n = (h c w).1 := by simpa [Prog.answers] using ho 0
    simp only [Prog.exec, Prog.trace, List.foldl_cons, h0]
    apply ih
    intro i
    have := ho (i + 1)
    simpa [Prog.answers, Nat.add_assoc, Nat.add_comm 1 i] using this

/-- Every return value of a run against a handler is an answer of the handler. -/
theorem Prog.exec_rets {W α : Type} (h : Call → W → Int × W) (p : Prog α) (w : W) :
    ∀ e ∈ p.trace (p.answers h w) 0, ∃ v, e.ret = e.call.retOf (h e.call v).1 := by
  suffices H : ∀ (p : Prog α) (w : W) (o : Nat → Int) (n : Nat),
      (∀ i, o (n + i) = p.answers h w i) →
      ∀ e ∈ p.trace o n, ∃ v, e.ret = e.call.retOf (h e.call v).1 from
    H p w _ 0 (fun i => by rw [Nat.zero_add])
  intro p
  induction p with
  | done a => intro w o n _ e he; simp at he
  | call c k ih =>
    intro w o n ho e he
    have h0 : o n = (h c w).1 := by simpa [Prog.answers] using ho 0
    simp only [Prog.trace, List.mem_cons, h0] at he
    rcases he with rfl | he
    · exact ⟨w, rfl⟩
    · refine ih _ (h c w).2 o (n + 1) ?_ e he
      intro i
      have := ho (i + 1)
      simpa [Prog.answers, h0, Nat.add_assoc, Nat.add_comm 1 i] using this

/-- Every answer of `mock_echo` is a success. -/
theorem mock_echo_succeeded (c : Call) (w : EchoWorld) :
    Succeeded ⟨c, c.retOf (mock_echo c w).1⟩ := by
  cases c <;>
    simp [Succeeded, mock_echo, Call.retOf, Call.isVoid, Call.kind, pdTRUE, ESP_OK]

theorem echo_trace_succeeded {α : Type} (p : Prog α) (w : EchoWorld) :
    ∀ e ∈ p.trace (p.answers mock_echo w) 0, Succeeded e := by
  intro e he
  obtain ⟨v, hv⟩ := Prog.exec_rets mock_echo p w e he
  have h := mock_echo_succeeded e.call v
  rw [← hv] at h
  exact h
/-- A write against `mock_echo` returns true, leaves the memory as it was and stores the
`n` bytes of the buffer in the register. -/
theorem echo_write (P : Platform) (rt : SYS_I2C_RUNTIME) (id addr reg src n : Nat)
    (w : EchoWorld) (hid : id < P.SYS_I2C_ID_CNT) (haddr : addr < 128) (hsrc : src ≠ 0)
    (hn : n ≠ 0) :
    ((sys_i2c_write P rt id addr reg src n).exec mock_echo w).1 = true ∧
    ((sys_i2c_write P rt id addr reg src n).exec mock_echo w).2.mem = w.mem ∧
    ((sys_i2c_write P rt id addr reg src n).exec mock_echo w).2.store addr reg =
      (List.range n).map fun k => w.mem (src + k) := by
  have hcases := write_run P rt id addr reg src n
    ((sys_i2c_write P rt id addr reg src n).answers mock_echo w) hid haddr hsrc hn
  obtain ⟨hres, c, -, htr⟩ := (rw_run P rt id _ (fun c => write_commands c addr reg src n)
    (ESP32_I2C_BUS_TIMEOUT_TICK P) _ _ (fun c => write_commands_kind c addr reg src n)
    hcases).2.2 (echo_trace_succeeded _ w)
  have hb := addr_byte_eq addr I2C_MASTER_WRITE haddr (by decide)
  have hW1 : addr_byte addr I2C_MASTER_WRITE % 2 = I2C_MASTER_WRITE := by
    rw [hb]; simp [I2C_MASTER_WRITE]
  have hW2 : addr_byte addr I2C_MASTER_WRITE / 2 = addr := by
    rw [hb]; simp [I2C_MASTER_WRITE]
  rw [Prog.exec_eq_oracle, Prog.exec_world, hres, htr]
  simp [transaction_bracket, write_commands, mock_echo, EchoWorld.execute, echo_step,
    EchoRun.put, hW1, hW2]
/-- A read against `mock_echo` returns true and leaves in `buf[0..n-1]` the first `n`
bytes stored in the register. -/
theorem echo_read (P : Platform) (rt : SYS_I2C_RUNTIME) (id addr reg dst n : Nat)
    (w : EchoWorld) (hid : id < P.SYS_I2C_ID_CNT) (haddr : addr < 128) (hdst : dst ≠ 0)
    (hn : n ≠ 0) :
    ((sys_i2c_read P rt id addr reg dst n).exec mock_echo w).1 = true ∧
    ∀ k, k < n →
      ((sys_i2c_read P rt id addr reg dst n).exec mock_echo w).2.mem (dst + k) =
        (w.store addr reg).getD k 0 := by
  have hcases := read_run P rt id addr reg dst n
    ((sys_i2c_read P rt id addr reg dst n).answers mock_echo w) hid haddr hdst hn
  obtain ⟨hres, c, -, htr⟩ := (rw_run P rt id _ (fun c => read_commands c addr reg dst n)
    (ESP32_I2C_BUS_TIMEOUT_TICK P) _ _ (fun c => read_commands_kind c addr reg dst n)
    hcases).2.2 (echo_trace_succeeded _ w)
  have hb := addr_byte_eq addr I2C_MASTER_WRITE haddr (by decide)
  have hW1 : addr_byte addr I2C_MASTER_WRITE % 2 = I2C_MASTER_WRITE := by
    rw [hb]; simp [I2C_MASTER_WRITE]
  have hW2 : addr_byte addr I2C_MASTER_WRITE / 2 = addr := by
    rw [hb]; simp [I2C_MASTER_WRITE]
  have hb2 := addr_byte_eq addr I2C_MASTER_READ haddr (by decide)
  have hR1 : ¬ addr_byte addr I2C_MASTER_READ % 2 = I2C_MASTER_WRITE := by
    rw [hb2]; unfold I2C_MASTER_WRITE I2C_MASTER_READ; omega
  have hR2 : addr_byte addr I2C_MASTER_READ / 2 = addr := by
    rw [hb2]; unfold I2C_MASTER_READ; omega
  rw [Prog.exec_eq_oracle, Prog.exec_world, hres, htr]
  refine ⟨rfl, ?_⟩
  intro k hk
  by_cases h1 : n > 1
  · by_cases h2 : k + 1 = n
    · subst h2
      simp [transaction_bracket, read_commands, mock_echo, EchoWorld.execute, echo_step,
        EchoRun.get, hW1, hW2, hR1, hR2, h1]
    · have h3 : ¬ n ≤ k + 1 := by omega
      have h4 : k < n - 1 := by omega
      simp [transaction_bracket, read_commands, mock_echo, EchoWorld.execute, echo_step,
        EchoRun.get, hW1, hW2, hR1, hR2, h1, h3, h4]
  · have h2 : n = 1 := by omega
    subst h2
    have h3 : k = 0 := by omega
    subst h3
    simp [transaction_bracket, read_commands, mock_echo, EchoWorld.execute, echo_step,
      EchoRun.get, hW1, hW2, hR1, hR2]
/-- C25: for every logical bus that exists, device address below 128, register and
non-empty byte sequence `b` held by the memory at the buffer `src`, against the mock
whose devices store the payload written to a register and send it back on a read of that
register, `sys_i2c_write` of the `|b|` bytes at `src` followed by `sys_i2c_read` of `|b|`
bytes into the buffer `dst` both return true, and afterwards the memory at
`dst[0..|b|-1]` is `b`, byte for byte. Both buffer pointers are not null. -/
theorem write_read_round_trip (P : Platform) (rt : SYS_I2C_RUNTIME)
    (id addr reg src dst : Nat) (b : List Nat) (w : EchoWorld)
    (hid : id < P.SYS_I2C_ID_CNT) (haddr : addr < 128) (hsrc : src ≠ 0) (hdst : dst ≠ 0)
    (hb : b ≠ []) (hmem : ∀ k (hk : k < b.length), w.mem (src + k) = b[k]) :
    (((sys_i2c_write P rt id addr reg src b.length).bind fun r1 =>
      (sys_i2c_read P rt id addr reg dst b.length).bind fun r2 =>
      Prog.done (r1, r2)).exec mock_echo w).1 = (true, true) ∧
    ∀ k (hk : k < b.length),
      (((sys_i2c_write P rt id addr reg src b.length).bind fun r1 =>
        (sys_i2c_read P rt id addr reg dst b.length).bind fun r2 =>
        Prog.done (r1, r2)).exec mock_echo w).2.mem (dst + k) = b[k] := by
  have hn : b.length ≠ 0 := fun h => hb (List.length_eq_zero.1 h)
  obtain ⟨hw1, -, hw3⟩ := echo_write P rt id addr reg src b.length w hid haddr hsrc hn
  obtain ⟨hr1, hr2⟩ := echo_read P rt id addr reg dst b.length
    ((sys_i2c_write P rt id addr reg src b.length).exec mock_echo w).2 hid haddr hdst hn
  have hstore : ((sys_i2c_write P rt id addr reg src b.length).exec mock_echo w).2.store
      addr reg = b := by
    rw [hw3]
    apply List.ext_getElem
    · simp
    · intro k h1 h2
      simp only [List.getElem_map, List.getElem_range]
      exact hmem k h2
  rw [Prog.exec_bind, Prog.exec_bind, hw1, hr1]
  refine ⟨rfl, ?_⟩
  intro k hk
  show ((sys_i2c_read P rt id addr reg dst b.length).exec mock_echo
    ((sys_i2c_write P rt id addr reg src b.length).exec mock_echo w).2).2.mem (dst + k) = b[k]
  rw [hr2 k hk, hstore]
  simp [List.getD_eq_getElem?_getD, List.getElem?_eq_getElem hk]

/-- C25 on the bus of the repository: the three bytes `0x11, 0x22, 0x33` at the address
100 are written to the register `0x40` of the device `0x3C` and read back into the
buffer at 200. -/
theorem write_read_round_trip_witness :
    (0 < esp32.SYS_I2C_ID_CNT ∧ 0x3C < 128 ∧ [0x11, 0x22, 0x33] ≠ ([] : List Nat)) ∧
    (((sys_i2c_write esp32 runtime0 0 0x3C 0x40 100 3).bind fun r1 =>
      (sys_i2c_read esp32 runtime0 0 0x3C 0x40 200 3).bind fun r2 =>
      Prog.done (r1, r2)).exec mock_echo echo_world).1 = (true, true) ∧
    ∀ k (hk : k < 3),
      (((sys_i2c_write esp32 runtime0 0 0x3C 0x40 100 3).bind fun r1 =>
        (sys_i2c_read esp32 runtime0 0 0x3C 0x40 200 3).bind fun r2 =>
        Prog.done (r1, r2)).exec mock_echo echo_world).2.mem (200 + k) =
      [0x11, 0x22, 0x33][k] :=
  ⟨⟨by decide, by decide, by decide⟩,
   write_read_round_trip esp32 runtime0 0 0x3C 0x40 100 200 [0x11, 0x22, 0x33] echo_world
    (by decide) (by decide) (by decide) (by decide) (by decide) (by decide)⟩

end SysI2c
